import Mathlib

/-!
# OpenAeroVTOL (EVO) RC input decoding: `isr.c`

A shallow embedding of the interrupt handlers of
`src/OpenAeroVTOL_EVO/OpenAeroVTOL/src/isr.c` (the serial receive handler
`ISR(USART0_RX_vect)`, the edge handlers `ISR(INT0_vect)`, `ISR(INT1_vect)`, `ISR(INT2_vect)`,
`ISR(PCINT1_vect)`, `ISR(PCINT3_vect)`) and of `init_int`, and theorems about them.

Conventions of the embedding

* The globals of `isr.c` (and the few globals of `main.h` it writes) are the fields of `State`;
  a handler is a function `State → State`.
* Machine integers are `Nat` (unsigned) or `Int` (signed), reduced explicitly where the C type
  truncates: `uint8_t` modulo 256, `uint16_t` modulo 65536, `int16_t` through `int16`.
  `int` is 16 bits wide on the AVR target. On `Int`, `>>>` is the arithmetic right shift.
* `char temp` is taken as unsigned (the `-funsigned-char` of AVR project defaults): the example
  packet in the XPS Xtreme comment (checksum byte `0xF0`) is only accepted under that reading.
* C arrays are lists; `a[i]` is `a.getD i 0` and `a[i] = v` is `a.set i v`.
* `MAX_RC_CHANNELS` and `SBUFFER_SIZE` are defined in `io_cfg.h`, which is not part of the
  sources at hand: they are the two fields of `Board`, and every handler takes a `Board`.
  `isr.c` itself is written for a channel vector of eight entries: the channel list THROTTLE,
  AILERON, ELEVATOR, RUDDER, GEAR, AUX1, AUX2, AUX3 above `ISR(INT2_vect)`, the comment
  `8 channels * 11 bits = 88 bits` of the S-Bus decoder, the guard `j < MAX_RC_CHANNELS` inside
  the 16-pass Xtreme loop and the guard `ch_num < MAX_RC_CHANNELS` on the 4-bit Spektrum channel
  id. `board8` is that build; the concrete runs are made on it.
* The registers a handler reads (`UCSR0A`, `UDR0`, `TCNT1`, `TCNT2`, the level of an input pin)
  are the fields of `RxEvent` and `EdgeEvent`; the interrupt control registers `init_int` writes
  are the fields of `Regs`.
-/

namespace OpenAeroVTOL

/-! ## Constants of `isr.c` -/

def SYNCPULSEWIDTH : Nat := 6750
def MINPULSEWIDTH : Nat := 750
def PACKET_TIMER : Nat := 2500
def MAX_CPPM_CHANNELS : Nat := 8
def MODEB_SYNCBYTE : Nat := 0xA1
def MAXSUMDPACKET : Nat := 69
def SUMD_SYNCBYTE : Nat := 0xA8
def XBUS_FRAME_SIZE_12 : Nat := 27
def XBUS_FRAME_SIZE_16 : Nat := 35
def XBUS_CRC_AND_VALUE : Nat := 0x8000
def XBUS_CRC_POLY : Nat := 0x1021

/-- Bit numbers of the USART status register `UCSR0A` (toolchain header `avr/io.h`). -/
def FE0 : Nat := 4
def DOR0 : Nat := 3
def UPE0 : Nat := 2

/-! ## Data model -/

/-- Values of `Config.RxMode`. -/
inductive RxModes where
  | CPPM_MODE | PWM | XTREME | SBUS | SPEKTRUM | MODEB | SUMD
  deriving DecidableEq, Repr

/-- Constants of `io_cfg.h`: the length of the channel arrays and of the serial buffer. -/
structure Board where
  MAX_RC_CHANNELS : Nat
  SBUFFER_SIZE : Nat
  deriving DecidableEq, Repr

/-- The part of the global `Config` that `isr.c` reads. -/
structure CONFIG where
  RxMode : RxModes
  ChannelOrder : List Nat
  PWM_Sync : Nat
  deriving DecidableEq, Repr

/-- Globals written by the handlers of `isr.c`. -/
structure State where
  Interrupted : Bool
  JitterFlag : Bool
  JitterGate : Bool
  RxChannel : List Nat
  RxChannelStart : List Nat
  TempRxChannel : List Nat
  PPMSyncStart : Nat
  ch_num : Nat
  max_chan : Nat
  rcindex : Nat
  chanmask16 : Nat
  checksum : Nat
  bytecount : Nat
  TMR0_counter : Nat
  FrameRate : Nat
  packet_size : Nat
  sBuffer : List Nat
  Servo_TCNT2 : Nat
  RC_Timeout : Nat
  Overdue : Bool
  deriving DecidableEq, Repr

/-- Hardware registers read by one run of the serial handler. -/
structure RxEvent where
  UCSR0A : Nat
  UDR0 : Nat
  TCNT1 : Nat
  TCNT2 : Nat
  deriving DecidableEq, Repr

/-! ## Machine arithmetic -/

/-- Conversion to `int16_t`: the representative of `x` modulo 65536 in `-32768 .. 32767`. -/
def int16 (x : Int) : Int := (x + 32768) % 65536 - 32768

/-- Conversion to `uint16_t`. -/
def uint16 (x : Int) : Nat := (x % 65536).toNat

/-! ## CRC -/

/-- Modelled from the spec: one bit step of `CRC16`, a function declared outside `isr.c`.
The spec (4.D.6 and glossary) gives CRC-CCITT, polynomial 0x1021, bytes processed MSB-first,
no reflection, no final XOR; `isr.c` names the polynomial `XBUS_CRC_POLY` and the tested top
bit `XBUS_CRC_AND_VALUE`. -/
def CRC16_bit (crc : Nat) : Nat :=
  if crc &&& XBUS_CRC_AND_VALUE ≠ 0 then ((crc <<< 1) % 65536) ^^^ XBUS_CRC_POLY
  else (crc <<< 1) % 65536

/-- Modelled from the spec: `CRC16 (crc, value)`, the CRC-CCITT update by one byte: the byte is
XORed into the high half of the register, which is then shifted eight times. -/
def CRC16 (crc value : Nat) : Nat :=
  CRC16_bit (CRC16_bit (CRC16_bit (CRC16_bit (CRC16_bit (CRC16_bit (CRC16_bit (CRC16_bit
    (crc ^^^ ((value <<< 8) % 65536)))))))))

/-- The loop `for (j = 0; j < (packet_size - 2); j++) crc = CRC16(crc, sBuffer[j]);` started
from `crc = 0` (lines 788-794 and 879-885); no pass is made when `packet_size - 2` is not
positive. -/
def crcLoop (sBuffer : List Nat) (packet_size : Nat) : Nat :=
  (List.range (packet_size - 2)).foldl (fun crc j => CRC16 crc (sBuffer.getD j 0)) 0

/-- The packet's own checksum:
`(uint16_t)(sBuffer[packet_size - 2] << 8) | (uint16_t)(sBuffer[packet_size - 1])`.
For `packet_size < 2` an index is negative in C, outside the array; the truncated subtraction
of the model reads index 0 there. -/
def checkcrcOf (sBuffer : List Nat) (packet_size : Nat) : Nat :=
  ((sBuffer.getD (packet_size - 2) 0 <<< 8) % 65536) ||| (sBuffer.getD (packet_size - 1) 0)

/-! ## Common entry code (lines 308-376) -/

/-- The period `CurrentPeriod` since the previous arrival, lines 343-350. -/
def currentPeriod (Save_TCNT1 PPMSyncStart : Nat) : Nat :=
  if Save_TCNT1 < PPMSyncStart then (65536 - PPMSyncStart + Save_TCNT1) % 65536
  else (Save_TCNT1 - PPMSyncStart) % 65536

/-- Lines 352-376: start-of-packet reset, time stamp, store of the received byte. -/
def commonEntry (hw : Board) (temp Save_TCNT1 : Nat) (s : State) : State :=
  let CurrentPeriod := currentPeriod Save_TCNT1 s.PPMSyncStart
  let s := if CurrentPeriod > PACKET_TIMER then
      { s with rcindex := 0, bytecount := 0, ch_num := 0, checksum := 0, chanmask16 := 0,
               FrameRate := CurrentPeriod, sBuffer := List.replicate hw.SBUFFER_SIZE 0 }
    else s
  let s := { s with PPMSyncStart := Save_TCNT1 }
  if s.rcindex < hw.SBUFFER_SIZE then
    { s with sBuffer := s.sBuffer.set s.rcindex temp, rcindex := (s.rcindex + 1) % 256 }
  else s

/-- The four assignments made wherever a frame is accepted:
`Interrupted = true; Servo_TCNT2 = TCNT2; RC_Timeout = 0; Overdue = false;`. -/
def rcSync (TCNT2 : Nat) (s : State) : State :=
  { s with Interrupted := true, Servo_TCNT2 := TCNT2, RC_Timeout := 0, Overdue := false }

/-! ## XPS Xtreme (lines 396-487) -/

/-- The bit counting loop `for (ch_num = 0; temp16; ch_num++) temp16 &= temp16 - 1;`
(lines 424-427), run for at most `fuel` iterations from `(temp16, ch_num)`. -/
def countLoop : Nat → Nat × Nat → Nat × Nat
  | 0, st => st
  | fuel + 1, (temp16, ch_num) =>
    if temp16 ≠ 0 then countLoop fuel (temp16 &&& (temp16 - 1), (ch_num + 1) % 256)
    else (temp16, ch_num)

/-- One pass of the body of `for (j = 0; j < 16; j++)` (lines 464-484) on `(sindex, RxChannel)`. -/
def xtremeStep (hw : Board) (Config : CONFIG) (chanmask16 : Nat) (sBuffer : List Nat)
    (st : Nat × List Nat) (j : Nat) : Nat × List Nat :=
  if chanmask16 &&& (1 <<< j) ≠ 0 then
    let temp16 := ((sBuffer.getD st.1 0 <<< 8) + sBuffer.getD (st.1 + 1) 0) % 65536
    let rx := if j < hw.MAX_RC_CHANNELS then
        st.2.set (Config.ChannelOrder.getD j 0) (((temp16 * 10) % 65536) >>> 2)
      else st.2
    let sindex := if st.1 < hw.SBUFFER_SIZE then (st.1 + 2) % 256 else st.1
    (sindex, rx)
  else st

/-- The loop of lines 460-484, from `sindex = 4`. -/
def xtremeLoop (hw : Board) (Config : CONFIG) (chanmask16 : Nat) (sBuffer : List Nat)
    (RxChannel : List Nat) : Nat × List Nat :=
  (List.range 16).foldl (xtremeStep hw Config chanmask16 sBuffer) (4, RxChannel)

/-- Lines 399-407: a flag byte with any of its top three bits set trashes the checksum. -/
def xtremeFlags (temp : Nat) (s : State) : State :=
  if s.bytecount = 0 then
    (if temp &&& 0xE0 ≠ 0 then { s with checksum := (s.checksum + 0x55) % 65536 } else s)
  else s

/-- Lines 410-414: high byte of the mask. -/
def xtremeMaskHigh (temp : Nat) (s : State) : State :=
  if s.bytecount = 2 then { s with chanmask16 := (temp <<< 8) % 65536 } else s

/-- Lines 418-428: low byte of the mask and the count of its set bits. -/
def xtremeMaskLow (temp : Nat) (s : State) : State :=
  if s.bytecount = 3 then
    let chanmask16 := (s.chanmask16 + temp) % 65536
    { s with chanmask16 := chanmask16, ch_num := (countLoop 16 (chanmask16, 0)).2 }
  else s

/-- Lines 431-486: accumulate the checksum, or check it and publish the channels. -/
def xtremeData (hw : Board) (Config : CONFIG) (temp TCNT2 : Nat) (s : State) : State :=
  if s.bytecount < (s.ch_num <<< 1) + 4 then
    { s with checksum := (s.checksum + temp) % 65536 }
  else
    let s := { s with checksum := s.checksum &&& 0xff }
    if s.checksum ≠ temp then
      { s with Interrupted := false, ch_num := 0, checksum := 0 }
    else
      let s := rcSync TCNT2 s
      { s with RxChannel := (xtremeLoop hw Config s.chanmask16 s.sBuffer s.RxChannel).2 }

/-- The block `if (Config.RxMode == XTREME)`. -/
def xtreme (hw : Board) (Config : CONFIG) (temp TCNT2 : Nat) (s : State) : State :=
  xtremeData hw Config temp TCNT2 (xtremeMaskLow temp (xtremeMaskHigh temp (xtremeFlags temp s)))

/-! ## Futaba S-Bus (lines 527-593) -/

/-- Loop variables of the S-Bus unpacking loop. -/
structure SbusLoop where
  sindex : Nat
  chan_mask : Nat
  data_mask : Nat
  chan_shift : Nat
  RxChannel : List Nat
  deriving DecidableEq, Repr

/-- Body of `for (j = 0; j < 88; j++)` (lines 553-575). -/
def sbusStep (Config : CONFIG) (sBuffer : List Nat) (l : SbusLoop) : SbusLoop :=
  let rx := if sBuffer.getD l.sindex 0 &&& (1 <<< l.chan_mask) ≠ 0 then
      let i := Config.ChannelOrder.getD l.chan_shift 0
      l.RxChannel.set i ((l.RxChannel.getD i 0 ||| (1 <<< l.data_mask)) % 65536)
    else l.RxChannel
  let chan_mask := (l.chan_mask + 1) % 256
  let data_mask := (l.data_mask + 1) % 256
  let l := { l with RxChannel := rx, chan_mask := chan_mask, data_mask := data_mask }
  let l := if l.chan_mask = 8 then { l with chan_mask := 0, sindex := (l.sindex + 1) % 256 } else l
  if l.data_mask = 11 then { l with data_mask := 0, chan_shift := (l.chan_shift + 1) % 256 } else l

/-- The unpacking loop run for `n` passes. -/
def sbusLoop (Config : CONFIG) (sBuffer : List Nat) : Nat → SbusLoop → SbusLoop
  | 0, l => l
  | n + 1, l => sbusLoop Config sBuffer n (sbusStep Config sBuffer l)

/-- The S-Bus conversion of one entry (lines 582-588). -/
def sbusConvert (raw : Nat) : Nat :=
  let itemp16 := int16 ((raw : Int) - 1024)
  let itemp16 := int16 (itemp16 + (itemp16 >>> 1) + (itemp16 >>> 4))
  uint16 (itemp16 + 3750)

/-- The loop `for (j = 0; j < MAX_RC_CHANNELS; j++) RxChannel[j] = 0;` (lines 541-544). -/
def clearChannels (hw : Board) (RxChannel : List Nat) : List Nat :=
  (List.range hw.MAX_RC_CHANNELS).foldl (fun rx j => rx.set j 0) RxChannel

/-- The conversion loop of lines 579-589. -/
def sbusConvertAll (hw : Board) (RxChannel : List Nat) : List Nat :=
  (List.range hw.MAX_RC_CHANNELS).foldl (fun rx j => rx.set j (sbusConvert (rx.getD j 0)))
    RxChannel

/-- The loop variables on entry to the unpacking loop: `sindex = 1`, the masks and the channel
number still at their initial value 0. -/
def sbusInit (RxChannel : List Nat) : SbusLoop :=
  { sindex := 1, chan_mask := 0, data_mask := 0, chan_shift := 0, RxChannel := RxChannel }

/-- The raw channel values after the clearing and the unpacking loop (lines 540-576). -/
def sbusRaw (hw : Board) (Config : CONFIG) (sBuffer RxChannel : List Nat) : SbusLoop :=
  sbusLoop Config sBuffer 88 (sbusInit (clearChannels hw RxChannel))

/-- The block `if (Config.RxMode == SBUS)`. -/
def sbus (hw : Board) (Config : CONFIG) (TCNT2 : Nat) (s : State) : State :=
  if s.bytecount = 24 then
    let s := rcSync TCNT2 s
    { s with RxChannel := sbusConvertAll hw (sbusRaw hw Config s.sBuffer s.RxChannel).RxChannel }
  else s

/-! ## Spektrum satellite (lines 658-737) -/

/-- The conversion of one Spektrum channel word (lines 697-718); `chan_shift` is 3 for 11-bit
data and 2 for 10-bit data. The result is the value of `itemp16`. -/
def spektrumConvert (chan_shift temp16 : Nat) : Int :=
  let itemp16 := if chan_shift = 0x03 then int16 ((temp16 : Int) - 1024)
    else int16 ((temp16 : Int) - 512)
  let itemp16 := int16 (itemp16 * 2 + (itemp16 >>> 1) + (itemp16 >>> 2) + (itemp16 >>> 3))
  let itemp16 := if chan_shift = 0x03 then itemp16 >>> 1 else itemp16
  int16 (itemp16 + 3750)

/-- Loop variables of the Spektrum slot loop: `sindex`, the global `ch_num`, `RxChannel`. -/
structure SpekLoop where
  sindex : Nat
  ch_num : Nat
  RxChannel : List Nat
  deriving DecidableEq, Repr

/-- Body of `for (j = 0; j < 7; j++)` (lines 687-723). -/
def spektrumStep (hw : Board) (Config : CONFIG) (sBuffer : List Nat)
    (chan_mask data_mask chan_shift : Nat) (l : SpekLoop) : SpekLoop :=
  let ch_num := (sBuffer.getD l.sindex 0 &&& chan_mask) >>> chan_shift
  let temp16 := (((sBuffer.getD l.sindex 0 &&& data_mask) <<< 8) + sBuffer.getD (l.sindex + 1) 0)
    % 65536
  let rx := if ch_num < hw.MAX_RC_CHANNELS then
      l.RxChannel.set (Config.ChannelOrder.getD ch_num 0) (uint16 (spektrumConvert chan_shift temp16))
    else l.RxChannel
  { sindex := (l.sindex + 2) % 256, ch_num := ch_num, RxChannel := rx }

/-- The slot loop run for `n` passes. -/
def spektrumLoop (hw : Board) (Config : CONFIG) (sBuffer : List Nat)
    (chan_mask data_mask chan_shift : Nat) : Nat → SpekLoop → SpekLoop
  | 0, l => l
  | n + 1, l => spektrumLoop hw Config sBuffer chan_mask data_mask chan_shift n
      (spektrumStep hw Config sBuffer chan_mask data_mask chan_shift l)

/-- The block `if (Config.RxMode == SPEKTRUM)`. -/
def spektrum (hw : Board) (Config : CONFIG) (temp TCNT2 : Nat) (s : State) : State :=
  if s.bytecount = 15 then
    let s := { s with sBuffer := s.sBuffer.set 15 temp }
    let l0 : SpekLoop := { sindex := 2, ch_num := s.ch_num, RxChannel := s.RxChannel }
    let l := if s.sBuffer.getD 1 0 &&& 0xF0 ≠ 0 then
        spektrumLoop hw Config s.sBuffer 0x78 0x07 0x03 7 l0
      else
        spektrumLoop hw Config s.sBuffer 0x3C 0x03 0x02 7 l0
    rcSync TCNT2 { s with ch_num := l.ch_num, RxChannel := l.RxChannel }
  else s

/-! ## XBUS Mode B / UDI (lines 769-831) -/

/-- The loop copying the unconverted channel words (lines 811-815 with `ofs = 1`,
lines 902-906 with `ofs = 3`):
`TempRxChannel[j] = (uint16_t)(sBuffer[(j << 1) + ofs] << 8) | (sBuffer[(j << 1) + ofs + 1])`. -/
def copyChannels (hw : Board) (ofs : Nat) (sBuffer TempRxChannel : List Nat) : List Nat :=
  (List.range hw.MAX_RC_CHANNELS).foldl
    (fun t j => t.set j
      (((sBuffer.getD ((j <<< 1) + ofs) 0 <<< 8) % 65536) ||| sBuffer.getD ((j <<< 1) + ofs + 1) 0))
    TempRxChannel

/-- The Mode B conversion of one channel word (lines 821-827). -/
def modebConvert (raw : Nat) : Nat :=
  let itemp16 := int16 ((raw : Int) - 2048)
  let itemp16 := int16 ((itemp16 >>> 1) + (itemp16 >>> 2) + (itemp16 >>> 4) + (itemp16 >>> 5)
    + (itemp16 >>> 7) + (itemp16 >>> 8))
  uint16 (itemp16 + 3750)

/-- The SUMD conversion of one channel word (lines 912-919). -/
def sumdConvert (raw : Nat) : Nat :=
  let itemp16 := int16 ((raw : Int) - 12000)
  let itemp16 := int16 ((itemp16 >>> 2) + (itemp16 >>> 4))
  uint16 (itemp16 + 3750)

/-- The loop `RxChannel[Config.ChannelOrder[j]] = convert (TempRxChannel[j])` over
`j < MAX_RC_CHANNELS` (lines 818-828 and 909-920). -/
def placeChannels (hw : Board) (Config : CONFIG) (convert : Nat → Nat)
    (TempRxChannel RxChannel : List Nat) : List Nat :=
  (List.range hw.MAX_RC_CHANNELS).foldl
    (fun rx j => rx.set (Config.ChannelOrder.getD j 0) (convert (TempRxChannel.getD j 0)))
    RxChannel

/-- The body run when the checksum test of a CRC protected packet is reached (lines 788-829 and
879-921): compute the CRC, compare, and publish on a match. -/
def crcPublish (hw : Board) (Config : CONFIG) (ofs : Nat) (convert : Nat → Nat) (TCNT2 : Nat)
    (s : State) : State :=
  let crc := crcLoop s.sBuffer s.packet_size
  let checkcrc := checkcrcOf s.sBuffer s.packet_size
  if checkcrc = crc then
    let s := rcSync TCNT2 s
    let s := { s with TempRxChannel := copyChannels hw ofs s.sBuffer s.TempRxChannel }
    { s with RxChannel := placeChannels hw Config convert s.TempRxChannel s.RxChannel }
  else s

/-- Lines 772-783: the expected packet size, from the vendor ID in the first byte. -/
def modebSize (s : State) : State :=
  if s.bytecount = 0 then
    (if s.sBuffer.getD 0 0 = MODEB_SYNCBYTE then { s with packet_size := XBUS_FRAME_SIZE_12 }
     else { s with packet_size := XBUS_FRAME_SIZE_16 })
  else s

/-- Lines 786-830: the checksum test once `bytecount == (packet_size - 1)`. -/
def modebCheck (hw : Board) (Config : CONFIG) (TCNT2 : Nat) (s : State) : State :=
  if (s.bytecount : Int) = (s.packet_size : Int) - 1 then
    crcPublish hw Config 1 modebConvert TCNT2 s
  else s

/-- The block `if (Config.RxMode == MODEB)`. -/
def modeb (hw : Board) (Config : CONFIG) (TCNT2 : Nat) (s : State) : State :=
  modebCheck hw Config TCNT2 (modebSize s)

/-! ## HoTT SUMD (lines 861-923) -/

/-- Lines 864-874: the expected packet size from the channel count in the third byte. The
assignment to the `uint8_t` variable `packet_size` truncates `(sBuffer[2] << 1) + 5` modulo 256
before the sanity check. -/
def sumdSize (s : State) : State :=
  if s.bytecount = 2 then
    let packet_size := ((s.sBuffer.getD 2 0 <<< 1) + 5) % 256
    { s with packet_size := if packet_size > MAXSUMDPACKET then MAXSUMDPACKET else packet_size }
  else s

/-- Lines 877-922: the checksum test once the packet size is known and reached. -/
def sumdCheck (hw : Board) (Config : CONFIG) (TCNT2 : Nat) (s : State) : State :=
  if s.packet_size > 0 ∧ (s.bytecount : Int) = (s.packet_size : Int) - 1 then
    crcPublish hw Config 3 sumdConvert TCNT2 s
  else s

/-- The block `if (Config.RxMode == SUMD)`. -/
def sumd (hw : Board) (Config : CONFIG) (TCNT2 : Nat) (s : State) : State :=
  sumdCheck hw Config TCNT2 (sumdSize s)

/-! ## The serial receive interrupt (lines 287-933) -/

/-- The five protocol blocks in source order (lines 396-923); `temp` is the received byte. -/
def decode (hw : Board) (Config : CONFIG) (temp TCNT2 : Nat) (s : State) : State :=
  let s := if Config.RxMode = RxModes.XTREME then xtreme hw Config temp TCNT2 s else s
  let s := if Config.RxMode = RxModes.SBUS then sbus hw Config TCNT2 s else s
  let s := if Config.RxMode = RxModes.SPEKTRUM then spektrum hw Config temp TCNT2 s else s
  let s := if Config.RxMode = RxModes.MODEB then modeb hw Config TCNT2 s else s
  if Config.RxMode = RxModes.SUMD then sumd hw Config TCNT2 s else s

/-- The code run for a byte received without line error (lines 333-930): common entry code,
protocol blocks, and the common exit code `bytecount++`. -/
def validData (hw : Board) (Config : CONFIG) (ev : RxEvent) (s : State) : State :=
  let s := decode hw Config ev.UDR0 ev.TCNT2 (commonEntry hw ev.UDR0 ev.TCNT1 s)
  { s with bytecount := (s.bytecount + 1) % 256 }

/-- Line 309: `if (JitterGate) JitterFlag = true;`. -/
def jitter (s : State) : State :=
  if s.JitterGate then { s with JitterFlag := true } else s

/-- The handler `ISR(USART0_RX_vect)`. On a framing or parity error, and on a data overrun, the
received byte is only read and dropped. -/
def USART0_RX_vect (hw : Board) (Config : CONFIG) (ev : RxEvent) (s : State) : State :=
  let s := jitter s
  if ev.UCSR0A &&& ((1 <<< FE0) ||| (1 <<< UPE0)) ≠ 0 then s
  else if ev.UCSR0A &&& (1 <<< DOR0) ≠ 0 then s
  else validData hw Config ev s

/-- The handler run on a sequence of receive events, oldest first. -/
def runRx (hw : Board) (Config : CONFIG) : List RxEvent → State → State
  | [], s => s
  | ev :: evs, s => runRx hw Config evs (USART0_RX_vect hw Config ev s)

/-! ## Packets as sequences of receive events -/

/-- No line error is flagged in `UCSR0A`: the handler takes its `Valid data` branch. -/
def errorFree (ev : RxEvent) : Prop :=
  ev.UCSR0A &&& ((1 <<< FE0) ||| (1 <<< UPE0)) = 0 ∧ ev.UCSR0A &&& (1 <<< DOR0) = 0

instance (ev : RxEvent) : Decidable (errorFree ev) := by
  unfold errorFree; infer_instance

/-- The events continue the packet in progress: each byte arrives without line error no more
than `PACKET_TIMER` ticks after the previous arrival `last`. -/
def Continues : Nat → List RxEvent → Prop
  | _, [] => True
  | last, ev :: evs =>
    errorFree ev ∧ currentPeriod ev.TCNT1 last ≤ PACKET_TIMER ∧ Continues ev.TCNT1 evs

instance decContinues : (last : Nat) → (evs : List RxEvent) → Decidable (Continues last evs)
  | _, [] => isTrue trivial
  | last, ev :: evs =>
    have := decContinues ev.TCNT1 evs
    by unfold Continues; infer_instance

/-- The events are one packet: the first byte arrives more than `PACKET_TIMER` ticks after the
previous arrival `last`, the others continue it. -/
def IsPacket : Nat → List RxEvent → Prop
  | _, [] => False
  | last, ev :: evs =>
    errorFree ev ∧ PACKET_TIMER < currentPeriod ev.TCNT1 last ∧ Continues ev.TCNT1 evs

instance decIsPacket : (last : Nat) → (evs : List RxEvent) → Decidable (IsPacket last evs)
  | _, [] => isFalse (fun h => h)
  | last, ev :: evs => by unfold IsPacket; infer_instance

/-- The received bytes of a sequence of events. -/
def bytesOf (evs : List RxEvent) : List Nat := evs.map (fun ev => ev.UDR0)

/-- The state is `bytes.length` bytes into a packet: write index and byte count agree and the
buffer holds `bytes` followed by zeros. -/
structure Holds (hw : Board) (bytes : List Nat) (s : State) : Prop where
  rcindex : s.rcindex = bytes.length
  bytecount : s.bytecount = bytes.length
  length : s.sBuffer.length = hw.SBUFFER_SIZE
  buffer : ∀ i, s.sBuffer.getD i 0 = bytes.getD i 0

/-- Stream bit `b` of an S-Bus packet: bit `b % 8` of packet byte `1 + b / 8`. -/
def streamBit (sBuffer : List Nat) (b : Nat) : Nat :=
  sBuffer.getD (1 + b / 8) 0 / 2 ^ (b % 8) % 2

/-- The value assembled for stream position `k` by the first `j` stream bits. -/
def sbusPartial (sBuffer : List Nat) (k j : Nat) : Nat :=
  ∑ b ∈ Finset.range j, if b / 11 = k then 2 ^ (b % 11) * streamBit sBuffer b else 0

/-- The protocol blocks leave the bookkeeping of the packet buffer alone: write index, byte
count, the length of the buffer and of the channel vector, and the entries of the buffer. -/
def SameFraming (s s' : State) : Prop :=
  s'.rcindex = s.rcindex ∧ s'.bytecount = s.bytecount ∧
  s'.RxChannel.length = s.RxChannel.length ∧ s'.sBuffer.length = s.sBuffer.length ∧
  (∀ i, s'.sBuffer.getD i 0 = s.sBuffer.getD i 0) ∧ s'.PPMSyncStart = s.PPMSyncStart

/-! ## Concrete boards, configurations and packets -/

/-- The board `isr.c` is written for: a channel vector of eight entries (THROTTLE to AUX3),
and a serial buffer of 70 bytes, enough for the longest SUMD packet (`MAXSUMDPACKET` = 69). -/
def board8 : Board := { MAX_RC_CHANNELS := 8, SBUFFER_SIZE := 70 }

/-- The configuration with mode `m` and the identity channel order on `n` channels. -/
def idOrder (m : RxModes) (n : Nat) : CONFIG :=
  { RxMode := m, ChannelOrder := List.range n, PWM_Sync := 0 }

/-- The configuration with mode `m` and the reversed channel order on eight channels. -/
def reversedOrder (m : RxModes) : CONFIG :=
  { RxMode := m, ChannelOrder := [7, 6, 5, 4, 3, 2, 1, 0], PWM_Sync := 0 }

/-- The state with every variable zero, the channel vector filled with `v`. -/
def filledState (hw : Board) (v : Nat) : State :=
  { Interrupted := false, JitterFlag := false, JitterGate := false,
    RxChannel := List.replicate hw.MAX_RC_CHANNELS v,
    RxChannelStart := List.replicate hw.MAX_RC_CHANNELS 0,
    TempRxChannel := List.replicate hw.MAX_RC_CHANNELS 0,
    PPMSyncStart := 0, ch_num := 0, max_chan := 0, rcindex := 0, chanmask16 := 0, checksum := 0,
    bytecount := 0, TMR0_counter := 0, FrameRate := 0, packet_size := 0,
    sBuffer := List.replicate hw.SBUFFER_SIZE 0, Servo_TCNT2 := 0, RC_Timeout := 0,
    Overdue := false }

/-- Error free receive events for `bytes`, the first at tick `t`, one every 100 ticks. -/
def eventsAt : Nat → List Nat → List RxEvent
  | _, [] => []
  | t, b :: bs => { UCSR0A := 0, UDR0 := b, TCNT1 := t, TCNT2 := 0 } :: eventsAt (t + 100) bs

/-- The array `Config.ChannelOrder` is a permutation of the channel indices. -/
def ChannelOrderOK (hw : Board) (Config : CONFIG) : Prop :=
  Config.ChannelOrder.Perm (List.range hw.MAX_RC_CHANNELS)

instance (hw : Board) (Config : CONFIG) : Decidable (ChannelOrderOK hw Config) := by
  unfold ChannelOrderOK; infer_instance

/-- The S-Bus packet of scenario S1: start byte `0x0F`, sixteen 11-bit channels all equal to
1024 packed LSB first into 22 bytes, flags `0x00`, end byte `0x00`. -/
def sbusMidStick : List Nat :=
  [0x0F, 0x00, 0x04, 0x20, 0x00, 0x01, 0x08, 0x40, 0x00, 0x02, 0x10, 0x80, 0x00, 0x04, 0x20,
   0x00, 0x01, 0x08, 0x40, 0x00, 0x02, 0x10, 0x80, 0x00, 0x00]

/-- The fields the specification calls the published state. -/
def SamePublished (s s' : State) : Prop :=
  s'.RxChannel = s.RxChannel ∧ s'.Interrupted = s.Interrupted ∧ s'.Overdue = s.Overdue ∧
  s'.RC_Timeout = s.RC_Timeout

/-- The first 25 bytes of the XBUS Mode B packet of scenario S3: vendor ID `0xA1` and twelve
big-endian channel words `0x0800`. -/
def modebCentrePrefix : List Nat :=
  [0xA1, 0x08, 0x00, 0x08, 0x00, 0x08, 0x00, 0x08, 0x00, 0x08, 0x00, 0x08, 0x00,
   0x08, 0x00, 0x08, 0x00, 0x08, 0x00, 0x08, 0x00, 0x08, 0x00, 0x08, 0x00]

/-- The packet of scenario S3: the prefix followed by its CRC-CCITT, high byte first. -/
def modebCentre : List Nat :=
  modebCentrePrefix ++ [crcLoop modebCentrePrefix 27 / 256, crcLoop modebCentrePrefix 27 % 256]

/-- The channel number the Spektrum loop extracts from slot `j` of the buffer (line 688). -/
def spekId (chan_mask chan_shift : Nat) (sBuffer : List Nat) (j : Nat) : Nat :=
  (sBuffer.getD (2 + 2 * j) 0 &&& chan_mask) >>> chan_shift

/-- The value the Spektrum loop stores for slot `j` of the buffer (lines 691-720). -/
def spekValue (data_mask chan_shift : Nat) (sBuffer : List Nat) (j : Nat) : Nat :=
  uint16 (spektrumConvert chan_shift
    ((((sBuffer.getD (2 + 2 * j) 0 &&& data_mask) <<< 8) + sBuffer.getD (2 + 2 * j + 1) 0)
      % 65536))

/-- The channel-number mask, data mask and shift selected by byte 1 of a Spektrum packet
(lines 670-681). -/
def spekMasks (b1 : Nat) : Nat × Nat × Nat :=
  if b1 &&& 0xF0 ≠ 0 then (0x78, 0x07, 0x03) else (0x3C, 0x03, 0x02)

/-- The channel id field of a Spektrum slot whose first byte is `hi`: bits 6 to 3 with 11-bit
data, bits 5 to 2 with 10-bit data. -/
def slotId (bits11 : Bool) (hi : Nat) : Nat :=
  if bits11 then hi / 8 % 16 else hi / 4 % 16

/-- The data field of a Spektrum slot with bytes `hi`, `lo`: the low 11 or 10 bits of the
big-endian word. -/
def slotData (bits11 : Bool) (hi lo : Nat) : Nat :=
  if bits11 then hi % 8 * 256 + lo else hi % 4 * 256 + lo

/-- Byte 1 of a Spektrum packet has a nonzero upper nibble: 11-bit data. -/
def bits11 (frame : List Nat) : Bool := decide (frame.getD 1 0 / 16 % 16 ≠ 0)

/-- The Spektrum packet of scenario S2: 11-bit resolution, slots for channel ids 0 to 6, each
with data 1024. -/
def spektrumCentre11 : List Nat :=
  [0x00, 0x10, 0x04, 0x00, 0x0C, 0x00, 0x14, 0x00, 0x1C, 0x00, 0x24, 0x00, 0x2C, 0x00,
   0x34, 0x00]

/-- A second frame of a DS9 transmitter as in the format comment: 11-bit resolution, slots for
channel ids 0 and 1 with data 1024, then five `0xFF 0xFF` fillers. -/
def spektrumSecondFrame : List Nat :=
  [0x00, 0x10, 0x04, 0x00, 0x0C, 0x00, 0xFF, 0xFF, 0xFF, 0xFF, 0xFF, 0xFF, 0xFF, 0xFF,
   0xFF, 0xFF]

/-- The number of set bits of `m` below bit `j`. -/
def rankBelow (m : Nat) : Nat → Nat
  | 0 => 0
  | j + 1 => rankBelow m j + (if m.testBit j then 1 else 0)

/-- The channel mask the Xtreme block assembles from packet bytes 2 and 3 (lines 413, 420). -/
def xtremeMask (frame : List Nat) : Nat :=
  ((frame.getD 2 0 <<< 8) % 65536 + frame.getD 3 0) % 65536

/-- The channel word the Xtreme loop reconstructs at `sindex = 4 + 2 r` (line 470). -/
def xtremeWord (sBuffer : List Nat) (r : Nat) : Nat :=
  ((sBuffer.getD (4 + 2 * r) 0 <<< 8) + sBuffer.getD (4 + 2 * r + 1) 0) % 65536

/-- What the flag byte adds to the checksum (lines 403-406). -/
def xtremePoison (b0 : Nat) : Nat := if b0 &&& 0xE0 ≠ 0 then 0x55 else 0

/-- The example packet of the XPS Xtreme format comment: flags `0x00`, RSS `0x23`, mask
`0x000A`, channel words `0x05DC` and `0x05DD`, checksum `0xF0`. -/
def xtremeExample : List Nat := [0x00, 0x23, 0x00, 0x0A, 0x05, 0xDC, 0x05, 0xDD, 0xF0]

/-- A valid Xtreme packet naming channels 1 and 8: flags `0x00`, RSS `0x23`, mask `0x0102`,
channel words `0x05DC` and `0x05DD`, checksum `0xE9`. -/
def xtremeNinth : List Nat := [0x00, 0x23, 0x01, 0x02, 0x05, 0xDC, 0x05, 0xDD, 0xE9]

/-- The example packet with flag byte `0xE0`, otherwise valid: the checksum byte is the low
byte of the sum of the bytes before it. -/
def xtremeFlagged : List Nat := [0xE0, 0x23, 0x00, 0x0A, 0x05, 0xDC, 0x05, 0xDD, 0xD0]

/-- The state of the Xtreme block `k` bytes into the packet `frame` received from state `s0`:
the running checksum, the mask and the channel count as far as they are known, and the channel
vector still as it was. -/
def XtremeInv (frame : List Nat) (s0 : State) (k : Nat) (s : State) : Prop :=
  s.checksum = (xtremePoison (frame.getD 0 0) + (frame.take k).sum) % 65536 ∧
  (k ≤ 3 → s.ch_num = 0) ∧
  (k = 3 → s.chanmask16 = (frame.getD 2 0 <<< 8) % 65536) ∧
  (4 ≤ k → s.chanmask16 = xtremeMask frame ∧ s.ch_num = rankBelow (xtremeMask frame) 16) ∧
  s.RxChannel = s0.RxChannel

/-- The big-endian channel mask at bytes 2 and 3 of an Xtreme packet. -/
def maskBE (frame : List Nat) : Nat := 256 * frame.getD 2 0 + frame.getD 3 0

/-- The big-endian channel word number `r` of an Xtreme packet, at bytes `4 + 2 r`, `5 + 2 r`. -/
def wordBE (frame : List Nat) (r : Nat) : Nat :=
  256 * frame.getD (4 + 2 * r) 0 + frame.getD (5 + 2 * r) 0

/-- Bits 7 to 5 of the flag byte of an Xtreme packet. -/
def flagBits (b0 : Nat) : Nat := b0 / 32 % 8

/-- A packet of bytes in the Xtreme layout, its flag byte apart: with `N` the number of set
bits of the mask there are `2 N` data bytes after the four header bytes, and the final byte is
the low byte of the sum of all bytes before it. -/
def XtremeValid (frame : List Nat) : Prop :=
  (∀ b, b ∈ frame → b < 256) ∧
  frame.length = 5 + 2 * rankBelow (maskBE frame) 16 ∧
  frame.getD (frame.length - 1) 0 = (frame.take (frame.length - 1)).sum % 256

instance (frame : List Nat) : Decidable (XtremeValid frame) := by
  unfold XtremeValid; infer_instance

/-- The state `filledState hw v` with `Interrupted` already true. -/
def interruptedState (hw : Board) (v : Nat) : State :=
  { filledState hw v with Interrupted := true }

/-! ## Edge capture: parallel PWM and CPPM (lines 77-281) -/

/-- Modelled from the spec: the index of logical channel THROTTLE. The enumeration of logical
channels is declared outside `isr.c`; the data model of the spec lists throttle, aileron,
elevator, rudder, gear in this order, and so does the comment above `ISR(INT2_vect)`. -/
def THROTTLE : Nat := 0

/-- Modelled from the spec: the index of logical channel AILERON (see `THROTTLE`). -/
def AILERON : Nat := 1

/-- Modelled from the spec: the index of logical channel ELEVATOR (see `THROTTLE`). -/
def ELEVATOR : Nat := 2

/-- Modelled from the spec: the index of logical channel RUDDER (see `THROTTLE`). -/
def RUDDER : Nat := 3

/-- Modelled from the spec: the index of logical channel GEAR (see `THROTTLE`). -/
def GEAR : Nat := 4

/-- What one run of an edge handler reads from the hardware: the level of its input pin
(`RX_ROLL`, `RX_PITCH`, `RX_COLL`, `RX_AUX`, `RX_YAW` or `CPPM`), `TCNT1` and `TCNT2`. -/
structure EdgeEvent where
  pin : Bool
  TCNT1 : Nat
  TCNT2 : Nat
  deriving DecidableEq, Repr

/-- The body shared by the parallel PWM handlers, for channel `c` (lines 82-96, 103-117,
124-138, 146-160, 187-201): a rising edge stores the time stamp, a falling edge stores the
pulse width `TCNT1 - RxChannelStart[c]` (unsigned 16-bit subtraction) and synchronises when
`c` is the configured sync channel. -/
def pwmEdge (c : Nat) (Config : CONFIG) (pin : Bool) (tCount TCNT2 : Nat) (s : State) : State :=
  if pin then { s with RxChannelStart := s.RxChannelStart.set c tCount }
  else
    let width := uint16 ((tCount : Int) - (s.RxChannelStart.getD c 0 : Int))
    let s := { s with RxChannel := s.RxChannel.set c width }
    if Config.PWM_Sync = c then rcSync TCNT2 s else s

/-- The handler `ISR(INT1_vect)`: aileron input. -/
def INT1_vect (Config : CONFIG) (ev : EdgeEvent) (s : State) : State :=
  pwmEdge AILERON Config ev.pin ev.TCNT1 ev.TCNT2 (jitter s)

/-- The handler `ISR(INT0_vect)`: elevator input. -/
def INT0_vect (Config : CONFIG) (ev : EdgeEvent) (s : State) : State :=
  pwmEdge ELEVATOR Config ev.pin ev.TCNT1 ev.TCNT2 (jitter s)

/-- The handler `ISR(PCINT3_vect)`: throttle input. -/
def PCINT3_vect (Config : CONFIG) (ev : EdgeEvent) (s : State) : State :=
  pwmEdge THROTTLE Config ev.pin ev.TCNT1 ev.TCNT2 (jitter s)

/-- The handler `ISR(PCINT1_vect)`: gear input. -/
def PCINT1_vect (Config : CONFIG) (ev : EdgeEvent) (s : State) : State :=
  pwmEdge GEAR Config ev.pin ev.TCNT1 ev.TCNT2 (jitter s)

/-- The interval `tCount - PPMSyncStart` since the previous edge, an unsigned 16-bit
subtraction (line 220). -/
def edgeInterval (tCount PPMSyncStart : Nat) : Nat :=
  uint16 ((tCount : Int) - (PPMSyncStart : Int))

/-- Lines 218-226: a sync pulse or a too short pulse resets the channel number; the time
stamp of the edge is kept in `PPMSyncStart`. -/
def cppmSync (tCount : Nat) (s : State) : State :=
  let s := if edgeInterval tCount s.PPMSyncStart > SYNCPULSEWIDTH ∨
      edgeInterval tCount s.PPMSyncStart < MINPULSEWIDTH then { s with ch_num := 0 } else s
  { s with PPMSyncStart := tCount }

/-- Lines 228-253: start the measurement of the current channel and complete that of the
previous one, for the first `MAX_CPPM_CHANNELS` channels. -/
def cppmMeasure (Config : CONFIG) (tCount : Nat) (s : State) : State :=
  let curChannel := Config.ChannelOrder.getD s.ch_num 0
  let prevChannel := if s.ch_num > 0 then Config.ChannelOrder.getD (s.ch_num - 1) 0 else 0
  let s := if s.ch_num < MAX_CPPM_CHANNELS then
      { s with RxChannelStart := s.RxChannelStart.set curChannel tCount }
    else s
  if s.ch_num > 0 ∧ s.ch_num ≤ MAX_CPPM_CHANNELS then
    let width := uint16 ((tCount : Int) - (s.RxChannelStart.getD prevChannel 0 : Int))
    { s with RxChannel := s.RxChannel.set prevChannel width }
  else s

/-- Lines 255-271: count the channel, learn the highest channel number, and synchronise when
the current channel is the highest one. -/
def cppmCount (TCNT2 : Nat) (s : State) : State :=
  let s := { s with ch_num := (s.ch_num + 1) % 256 }
  if s.ch_num > s.max_chan then { s with max_chan := s.ch_num }
  else if s.ch_num = s.max_chan then rcSync TCNT2 s
  else s

/-- Lines 273-279: `if (Overdue) { max_chan = 0; Overdue = false; }`. -/
def cppmLost (s : State) : State :=
  if s.Overdue then { s with max_chan := 0, Overdue := false } else s

/-- The CPPM code of `ISR(INT2_vect)` for a negative-going edge (lines 218-279). -/
def cppm (Config : CONFIG) (tCount TCNT2 : Nat) (s : State) : State :=
  cppmLost (cppmCount TCNT2 (cppmMeasure Config tCount (cppmSync tCount s)))

/-- The handler `ISR(INT2_vect)`: rudder input in PWM mode, combined PPM input in CPPM mode,
where an edge that leaves the pin high is ignored (`if (CPPM) return;`). -/
def INT2_vect (Config : CONFIG) (ev : EdgeEvent) (s : State) : State :=
  let s := jitter s
  if Config.RxMode ≠ RxModes.CPPM_MODE then pwmEdge RUDDER Config ev.pin ev.TCNT1 ev.TCNT2 s
  else if ev.pin then s
  else cppm Config ev.TCNT1 ev.TCNT2 s

/-- The state on entry to the protocol blocks of the serial handler for an error free byte:
after line 309 and the common entry code. -/
def entryState (hw : Board) (ev : RxEvent) (s : State) : State :=
  commonEntry hw ev.UDR0 ev.TCNT1 (jitter s)

/-- The protocol blocks leave write index, byte count, time stamp and frame rate alone. -/
def SameCounters (s s' : State) : Prop :=
  s'.rcindex = s.rcindex ∧ s'.bytecount = s.bytecount ∧ s'.PPMSyncStart = s.PPMSyncStart ∧
  s'.FrameRate = s.FrameRate

/-- A handler run on a sequence of edge events, oldest first. -/
def runEdges (h : EdgeEvent → State → State) : List EdgeEvent → State → State
  | [], s => s
  | ev :: evs, s => runEdges h evs (h ev s)

/-! ## Mode switch (lines 964-1040) -/

/-- Bit numbers of `UCSR0B`, `PCMSK1` and `PCMSK3` (toolchain header `avr/io.h`). -/
def RXCIE0 : Nat := 7
def RXEN0 : Nat := 4
def PCINT8 : Nat := 0
def PCINT24 : Nat := 0

/-- The 8-bit interrupt control registers written by `init_int` and `Disable_RC_Interrupts`. -/
structure Regs where
  PCMSK1 : Nat
  PCMSK3 : Nat
  EIMSK : Nat
  UCSR0B : Nat
  PCIFR : Nat
  EIFR : Nat
  deriving DecidableEq, Repr

/-- The assignment `reg &= ~(1 << bit)` on an 8-bit register. -/
def clearBit (reg bit : Nat) : Nat := reg &&& (0xFF ^^^ (1 <<< bit))

/-- The assignment `reg |= (1 << bit)` on an 8-bit register. -/
def setBit (reg bit : Nat) : Nat := (reg ||| (1 <<< bit)) % 256

/-- The function `init_int`: the interrupt sources of the configured mode are enabled, the
others disabled, and the pending flags cleared; the serial modes also reset `packet_size`. -/
def init_int (Config : CONFIG) (r : Regs) (s : State) : Regs × State :=
  let rs : Regs × State :=
    match Config.RxMode with
    | RxModes.CPPM_MODE =>
      ({ r with PCMSK1 := 0, PCMSK3 := 0, EIMSK := 0x04,
                UCSR0B := clearBit (clearBit r.UCSR0B RXCIE0) RXEN0 }, s)
    | RxModes.PWM =>
      ({ r with PCMSK1 := setBit r.PCMSK1 PCINT8, PCMSK3 := setBit r.PCMSK3 PCINT24,
                EIMSK := 0x07, UCSR0B := clearBit (clearBit r.UCSR0B RXCIE0) RXEN0 }, s)
    | RxModes.SUMD | RxModes.MODEB | RxModes.XTREME | RxModes.SBUS | RxModes.SPEKTRUM =>
      ({ r with PCMSK1 := 0, PCMSK3 := 0, EIMSK := 0,
                UCSR0B := setBit (setBit r.UCSR0B RXCIE0) RXEN0 },
       { s with packet_size := 0 })
  ({ rs.1 with PCIFR := 0x0F, EIFR := 0x00 }, rs.2)

/-- The function `Disable_RC_Interrupts`. -/
def Disable_RC_Interrupts (r : Regs) : Regs :=
  { r with PCMSK1 := 0, PCMSK3 := 0, EIMSK := 0,
           UCSR0B := clearBit (clearBit r.UCSR0B RXEN0) RXCIE0, PCIFR := 0x0F, EIFR := 0x00 }

/-- Bit `bit` of register `reg` is set. -/
def bitSet (reg bit : Nat) : Prop := reg.testBit bit = true

instance (reg bit : Nat) : Decidable (bitSet reg bit) := by
  unfold bitSet; infer_instance

/-! ## Concrete states and edge streams -/

/-- A state 70 bytes into a packet: the buffer of `board8` is full. Reached from the zero
state by 70 bytes `0x55` received 100 ticks apart in SBUS mode. -/
def fullBufferState : State :=
  runRx board8 (idOrder RxModes.SBUS 8) (eventsAt 3000 (List.replicate 70 0x55))
    (filledState board8 0)

/-- A state three bytes into a packet, the last byte received at tick 5000. -/
def midPacketState : State :=
  { (filledState board8 0) with PPMSyncStart := 5000, rcindex := 3, bytecount := 3, FrameRate := 35000, sBuffer := (List.replicate 70 0).set 0 0x0F }

/-- The five inputs of parallel PWM mode, named after the pin macros the handlers test. -/
inductive PwmInput where
  | RX_ROLL | RX_PITCH | RX_COLL | RX_AUX | RX_YAW
  deriving DecidableEq, Repr

/-- The logical channel measured on a PWM input. -/
def pwmChannel : PwmInput → Nat
  | PwmInput.RX_ROLL => AILERON
  | PwmInput.RX_PITCH => ELEVATOR
  | PwmInput.RX_COLL => THROTTLE
  | PwmInput.RX_AUX => GEAR
  | PwmInput.RX_YAW => RUDDER

/-- The interrupt handler of a PWM input. -/
def pwmHandler : PwmInput → CONFIG → EdgeEvent → State → State
  | PwmInput.RX_ROLL => INT1_vect
  | PwmInput.RX_PITCH => INT0_vect
  | PwmInput.RX_COLL => PCINT3_vect
  | PwmInput.RX_AUX => PCINT1_vect
  | PwmInput.RX_YAW => INT2_vect

/-- Falling edges at the given ticks, as the 16-bit timer shows them. -/
def fallingAt (ts : List Nat) : List EdgeEvent :=
  ts.map (fun t => { pin := false, TCNT1 := t % 65536, TCNT2 := 0 })

/-- The configuration of CPPM mode with the identity channel order on eight channels. -/
def cppmConfig : CONFIG := idOrder RxModes.CPPM_MODE 8

/-- The edge times of scenario S4: `0, 5000, 10000, 15000, 20000, 25000, 32000`. -/
def s4Times : List Nat := [0, 5000, 10000, 15000, 20000, 25000, 32000]

/-- Scenario S4 repeated `n` times from tick `t`, one repetition every 40000 ticks (a sync gap
of 8000 ticks after the last edge). -/
def s4Stream : Nat → Nat → List Nat
  | 0, _ => []
  | n + 1, t => s4Times.map (fun x => t + x) ++ s4Stream n (t + 40000)

/-- The state of CPPM decoding five edges into the second repetition of scenario S4, when
the watchdog has flagged the signal as overdue. -/
def overdueState : State :=
  { (runEdges (INT2_vect cppmConfig) (fallingAt (s4Stream 1 0 ++ [40000, 45000, 50000, 55000, 60000])) (filledState board8 0)) with Overdue := true }

/-! ## Runs that publish, and CPPM frames -/

/-- The run `h` of a handler from state `s` assigns `Interrupted = true`: started with the
flag clear, it ends with the flag set. No handler reads `Interrupted`. -/
def setsInterrupted (h : State → State) (s : State) : Bool :=
  (h { s with Interrupted := false }).Interrupted

/-- For each edge of a sequence, whether its handler run assigns `Interrupted = true`. -/
def pulses (h : EdgeEvent → State → State) : List EdgeEvent → State → List Bool
  | [], _ => []
  | ev :: evs, s => setsInterrupted (h ev) s :: pulses h evs (h ev s)

/-- Falling edges that continue a CPPM frame: each comes between `MINPULSEWIDTH` and
`SYNCPULSEWIDTH` ticks (as measured by the 16-bit timer) after the previous edge, at `last`. -/
def InFrame : Nat → List EdgeEvent → Prop
  | _, [] => True
  | last, ev :: evs =>
    ev.pin = false ∧ MINPULSEWIDTH ≤ edgeInterval ev.TCNT1 last ∧
    edgeInterval ev.TCNT1 last ≤ SYNCPULSEWIDTH ∧ InFrame ev.TCNT1 evs

instance decInFrame : (last : Nat) → (evs : List EdgeEvent) → Decidable (InFrame last evs)
  | _, [] => isTrue trivial
  | last, ev :: evs =>
    have := decInFrame ev.TCNT1 evs
    by unfold InFrame; infer_instance

/-- The falling edges of one CPPM frame: the first comes more than `SYNCPULSEWIDTH` ticks after
the previous edge, at `last`; the others continue the frame. -/
def IsPpmFrame : Nat → List EdgeEvent → Prop
  | _, [] => False
  | last, ev :: evs =>
    ev.pin = false ∧ SYNCPULSEWIDTH < edgeInterval ev.TCNT1 last ∧ InFrame ev.TCNT1 evs

instance decIsPpmFrame : (last : Nat) → (evs : List EdgeEvent) → Decidable (IsPpmFrame last evs)
  | _, [] => isFalse (fun h => h)
  | last, ev :: evs => by unfold IsPpmFrame; infer_instance

/-- The time stamp of the last edge of a sequence, `last` when there is none. -/
def lastTick (last : Nat) : List EdgeEvent → Nat
  | [] => last
  | ev :: evs => lastTick ev.TCNT1 evs

/-- Consecutive CPPM frames of `C` falling edges each. -/
def PpmStream (C : Nat) : Nat → List (List EdgeEvent) → Prop
  | _, [] => True
  | last, f :: fs => IsPpmFrame last f ∧ f.length = C ∧ PpmStream C (lastTick last f) fs

instance decPpmStream (C : Nat) :
    (last : Nat) → (fs : List (List EdgeEvent)) → Decidable (PpmStream C last fs)
  | _, [] => isTrue trivial
  | last, f :: fs =>
    have := decPpmStream C (lastTick last f) fs
    by unfold PpmStream; infer_instance

/-- The edges of all frames of a stream, in order. -/
def allEdges : List (List EdgeEvent) → List EdgeEvent
  | [] => []
  | f :: fs => f ++ allEdges fs

/-- A frame of six falling edges 5000 ticks apart, the first at tick `t`. -/
def sixEdges (t : Nat) : List EdgeEvent :=
  fallingAt [t, t + 5000, t + 10000, t + 15000, t + 20000, t + 25000]

/-! ## Handlers and what they publish -/

/-- Two states agree on every variable but `Interrupted`. -/
def OffI (a b : State) : Prop :=
  { a with Interrupted := false } = { b with Interrupted := false }

/-- The run from `s` to `y` has made the four assignments of a synchronisation. -/
def Published (y : State) : Prop :=
  y.Interrupted = true ∧ y.Overdue = false ∧ y.RC_Timeout = 0

/-- The run from `s` to `y` has not synchronised: `Interrupted` and `RC_Timeout` are as
before, `Overdue` is as before or cleared. -/
def Kept (s y : State) : Prop :=
  y.Interrupted = s.Interrupted ∧ y.RC_Timeout = s.RC_Timeout ∧
  (y.Overdue = s.Overdue ∨ y.Overdue = false)

/-- What a run from `s` to `y` can do to the synchronisation variables: synchronise, leave
them, or clear `Interrupted`. -/
def Outcome (s y : State) : Prop :=
  Published y ∨ Kept s y ∨ y.Interrupted = false

/-- One run of an interrupt handler of `isr.c` that can publish: an edge on one of the five
PWM inputs (the fifth, `INT2`, is also the CPPM input), or a received byte. -/
inductive HandlerRun where
  | edge (x : PwmInput) (ev : EdgeEvent)
  | serial (ev : RxEvent)
  deriving DecidableEq, Repr

/-- The state transformation of a handler run. -/
def runHandler (hw : Board) (Config : CONFIG) : HandlerRun → State → State
  | HandlerRun.edge x ev => pwmHandler x Config ev
  | HandlerRun.serial ev => USART0_RX_vect hw Config ev

/-! ## Mode switch and S-Bus scaling: statements -/

/-- An edge interrupt source is enabled: a bit of `EIMSK`, `PCMSK1` or `PCMSK3` is set. -/
def edgeEnabled (r : Regs) : Prop := r.EIMSK ≠ 0 ∨ r.PCMSK1 ≠ 0 ∨ r.PCMSK3 ≠ 0

/-- The serial receiver or its interrupt is enabled: `RXEN0` or `RXCIE0` is set in `UCSR0B`. -/
def serialEnabled (r : Regs) : Prop := bitSet r.UCSR0B RXEN0 ∨ bitSet r.UCSR0B RXCIE0

/-- The five serial modes. -/
def serialMode (m : RxModes) : Prop :=
  m = RxModes.XTREME ∨ m = RxModes.SBUS ∨ m = RxModes.SPEKTRUM ∨ m = RxModes.MODEB ∨
  m = RxModes.SUMD

instance (m : RxModes) : Decidable (serialMode m) := by
  unfold serialMode; infer_instance

/-- The S-Bus normalisation as the specification writes it, `v = raw - 1024`,
`v + v/2 + v/16 + 3750`, with the divisions of C, which truncate toward zero. -/
def sbusFormula (raw : Nat) : Int :=
  ((raw : Int) - 1024) + Int.tdiv ((raw : Int) - 1024) 2 + Int.tdiv ((raw : Int) - 1024) 16 + 3750

/-! ## Channel order as a lookup: statements -/

/-- The configuration `Config` with the identity channel order. -/
def identityOrder (hw : Board) (Config : CONFIG) : CONFIG :=
  { Config with ChannelOrder := List.range hw.MAX_RC_CHANNELS }

/-- Two states agree on every variable but the channel vector. -/
def OffRx (a b : State) : Prop :=
  { a with RxChannel := [] } = { b with RxChannel := [] }

/-- No handler run of the sequence assigns `Interrupted = true`. -/
def Quietly (hw : Board) (Config : CONFIG) : List RxEvent → State → Prop
  | [], _ => True
  | ev :: evs, s =>
    setsInterrupted (USART0_RX_vect hw Config ev) s = false ∧
    Quietly hw Config evs (USART0_RX_vect hw Config ev s)

instance decQuietly (hw : Board) (Config : CONFIG) :
    (evs : List RxEvent) → (s : State) → Decidable (Quietly hw Config evs s)
  | [], _ => isTrue trivial
  | ev :: evs, s =>
    have := decQuietly hw Config evs (USART0_RX_vect hw Config ev s)
    by unfold Quietly; infer_instance

/-- The stream positions a protocol block publishes when it accepts the packet whose last
byte `temp` is handled from entry state `E`: the set bits of the channel mask below
`MAX_RC_CHANNELS` (Xtreme, lines 467 and 473), the eight unpacked positions (S-Bus), the
channel numbers below `MAX_RC_CHANNELS` of the seven slots (Spektrum, lines 688 and 695), and
every position below `MAX_RC_CHANNELS` (Mode B and SUMD). -/
def PublishedPos (hw : Board) (mode : RxModes) (E : State) (temp : Nat) (i : Nat) : Prop :=
  match mode with
  | RxModes.XTREME => i < 16 ∧ i < hw.MAX_RC_CHANNELS ∧ E.chanmask16 &&& (1 <<< i) ≠ 0
  | RxModes.SBUS => i < 8
  | RxModes.SPEKTRUM => i < hw.MAX_RC_CHANNELS ∧ ∃ j, j < 7 ∧
      spekId (spekMasks ((E.sBuffer.set 15 temp).getD 1 0)).1
        (spekMasks ((E.sBuffer.set 15 temp).getD 1 0)).2.2 (E.sBuffer.set 15 temp) j = i
  | RxModes.MODEB => i < hw.MAX_RC_CHANNELS
  | RxModes.SUMD => i < hw.MAX_RC_CHANNELS
  | _ => False

instance (hw : Board) (mode : RxModes) (E : State) (temp i : Nat) :
    Decidable (PublishedPos hw mode E temp i) := by
  unfold PublishedPos
  cases mode <;> dsimp only <;> infer_instance

/-- The channel vector the protocol block of the configured mode stores when it accepts the
packet whose last byte `temp` is handled from entry state `E`. -/
def publishedVector (hw : Board) (Config : CONFIG) (temp : Nat) (E : State) : List Nat :=
  match Config.RxMode with
  | RxModes.XTREME => (xtremeLoop hw Config E.chanmask16 E.sBuffer E.RxChannel).2
  | RxModes.SBUS => sbusConvertAll hw (sbusRaw hw Config E.sBuffer E.RxChannel).RxChannel
  | RxModes.SPEKTRUM =>
    (spektrumLoop hw Config (E.sBuffer.set 15 temp)
      (spekMasks ((E.sBuffer.set 15 temp).getD 1 0)).1
      (spekMasks ((E.sBuffer.set 15 temp).getD 1 0)).2.1
      (spekMasks ((E.sBuffer.set 15 temp).getD 1 0)).2.2 7
      { sindex := 2, ch_num := E.ch_num, RxChannel := E.RxChannel }).RxChannel
  | RxModes.MODEB =>
    placeChannels hw Config modebConvert (copyChannels hw 1 E.sBuffer E.TempRxChannel) E.RxChannel
  | RxModes.SUMD =>
    placeChannels hw Config sumdConvert (copyChannels hw 3 E.sBuffer E.TempRxChannel) E.RxChannel
  | _ => E.RxChannel

/-! ## Gap and scaling: statements -/

/-- The branch-free 16-bit subtraction `now - last` of two time stamps: the difference modulo
65536. -/
def gapSub (now last : Nat) : Nat := (((now : Int) - (last : Int)) % 65536).toNat

/-! ## Buffer indices read by the SUMD block -/

/-- The indices at which the checksum code of the SUMD block (lines 879-906) reads `sBuffer`,
in program order and as the C expressions compute them with `packet_size` promoted to `int`:
the CRC loop reads `j` for `j < packet_size - 2`, the packet's own checksum reads
`packet_size - 2` and `packet_size - 1`, and on a match the copy loop reads `(j << 1) + 3` and
`(j << 1) + 4` for `j < MAX_RC_CHANNELS`. -/
def sumdCheckReads (hw : Board) (s : State) : List Int :=
  let loop : List Int := List.map (fun j : Nat => (j : Int)) (List.range (s.packet_size - 2))
  let check : List Int := [(s.packet_size : Int) - 2, (s.packet_size : Int) - 1]
  let copy : List Int :=
    if checkcrcOf s.sBuffer s.packet_size = crcLoop s.sBuffer s.packet_size then
      List.flatMap (List.range hw.MAX_RC_CHANNELS)
        (fun j : Nat => [(((j <<< 1) + 3 : Nat) : Int), (((j <<< 1) + 4 : Nat) : Int)])
    else []
  loop ++ check ++ copy

/-- The indices at which the SUMD block (lines 861-923) reads `sBuffer` for one received byte,
`s` being the state after the common entry code: index 2 when the packet size is worked out,
then those of the checksum code when the test of line 877 holds. -/
def sumdReads (hw : Board) (s : State) : List Int :=
  (if s.bytecount = 2 then [2] else []) ++
  (if (sumdSize s).packet_size > 0 ∧
      ((sumdSize s).bytecount : Int) = ((sumdSize s).packet_size : Int) - 1 then
    sumdCheckReads hw (sumdSize s)
  else [])

/-- The buffer indices read by the SUMD block in one run of `ISR(USART0_RX_vect)`: none unless
the mode is SUMD and the byte arrived without line error. -/
def handlerReads (hw : Board) (Config : CONFIG) (ev : RxEvent) (s : State) : List Int :=
  if Config.RxMode = RxModes.SUMD ∧ errorFree ev then
    sumdReads hw (commonEntry hw ev.UDR0 ev.TCNT1 (jitter s))
  else []

/-- The buffer indices read by the SUMD block along a sequence of receive events. -/
def runReads (hw : Board) (Config : CONFIG) : List RxEvent → State → List Int
  | [], _ => []
  | ev :: evs, s =>
    handlerReads hw Config ev s ++ runReads hw Config evs (USART0_RX_vect hw Config ev s)

/-- A SUMD packet start announcing 126 channels, followed after a gap by the first byte of
the next packet. -/
def sumdOverflowStream : List RxEvent :=
  eventsAt 3000 [0xA8, 0x01, 0x7E] ++ eventsAt 10000 [0xA8]

/-- A SUMD packet carrying two channels at mid-stick (0x2EE0 = 12000) with its checksum. -/
def sumdTwoChannels : List Nat :=
  [0xA8, 0x01, 0x02, 0x2E, 0xE0, 0x2E, 0xE0, 0xBA, 0x63]

/-! # Theorems -/

set_option maxRecDepth 100000

/-! ## Arrays -/

theorem getD_set (l : List Nat) (i j v d : Nat) :
    (l.set i v).getD j d = if i = j ∧ i < l.length then v else l.getD j d := by
  simp only [List.getD_eq_getElem?_getD, List.getElem?_set]
  by_cases h : i = j
  · subst h
    by_cases h2 : i < l.length
    · simp [h2]
    · simp [h2, List.getElem?_eq_none (Nat.le_of_not_lt h2)]
  · simp [h]

theorem getD_set_self (l : List Nat) (i v d : Nat) (h : i < l.length) :
    (l.set i v).getD i d = v := by
  simp [getD_set, h]

theorem getD_set_ne (l : List Nat) (i j v d : Nat) (h : i ≠ j) :
    (l.set i v).getD j d = l.getD j d := by
  simp [getD_set, h]

/-- Two lists of the same length with the same entries are equal. -/
theorem list_eq_of_getD (l l' : List Nat) (hlen : l.length = l'.length)
    (h : ∀ i, i < l.length → l.getD i 0 = l'.getD i 0) : l = l' := by
  apply List.ext_getElem hlen
  intro i h1 h2
  have := h i h1
  rw [List.getD_eq_getElem _ _ h1, List.getD_eq_getElem _ _ h2] at this
  exact this

/-! ## S-Bus: the unpacking loop -/

theorem sbusLoop_succ (Config : CONFIG) (sBuffer : List Nat) (n : Nat) (l : SbusLoop) :
    sbusLoop Config sBuffer (n + 1) l = sbusStep Config sBuffer (sbusLoop Config sBuffer n l) := by
  induction n generalizing l with
  | zero => rfl
  | succ n ih =>
    show sbusLoop Config sBuffer (n + 1) (sbusStep Config sBuffer l) = _
    rw [ih]
    rfl

/-- One pass of the loop on its control variables, as arithmetic on the pass number. -/
theorem sbus_counter_step (j m : Nat) (hm : 0 < m) (hm2 : m < 256) :
    (if (j % m + 1) % 256 = m then (0 : Nat) else (j % m + 1) % 256) = (j + 1) % m ∧
    (j + 1) / m = (if (j % m + 1) % 256 = m then j / m + 1 else j / m) := by
  have hlt : j % m < m := Nat.mod_lt _ hm
  have e1 : (j % m + 1) % 256 = j % m + 1 := Nat.mod_eq_of_lt (by omega)
  rw [e1]
  have hj : j = m * (j / m) + j % m := (Nat.div_add_mod j m).symm
  by_cases c : j % m + 1 = m
  · simp only [c, if_true]
    have h1 : j + 1 = m * (j / m + 1) := by rw [Nat.mul_add, Nat.mul_one]; omega
    constructor
    · rw [h1]; simp
    · rw [h1]; exact Nat.mul_div_cancel_left _ hm
  · simp only [c, if_false]
    have h1 : j + 1 = (j % m + 1) + m * (j / m) := by omega
    constructor
    · rw [h1, Nat.add_mul_mod_self_left]; exact (Nat.mod_eq_of_lt (by omega)).symm
    · rw [h1, Nat.add_mul_div_left _ _ hm, Nat.div_eq_of_lt (by omega)]; simp

/-- Control variables of the unpacking loop after `j` passes. -/
theorem sbusLoop_control (Config : CONFIG) (sBuffer rx : List Nat) (j : Nat) (hj : j ≤ 88) :
    (sbusLoop Config sBuffer j (sbusInit rx)).sindex = 1 + j / 8 ∧
    (sbusLoop Config sBuffer j (sbusInit rx)).chan_mask = j % 8 ∧
    (sbusLoop Config sBuffer j (sbusInit rx)).data_mask = j % 11 ∧
    (sbusLoop Config sBuffer j (sbusInit rx)).chan_shift = j / 11 := by
  induction j with
  | zero => simp [sbusLoop, sbusInit]
  | succ j ih =>
    obtain ⟨h1, h2, h3, h4⟩ := ih (Nat.le_of_succ_le hj)
    rw [sbusLoop_succ]
    obtain ⟨a1, a2⟩ := sbus_counter_step j 8 (by norm_num) (by norm_num)
    obtain ⟨b1, b2⟩ := sbus_counter_step j 11 (by norm_num) (by norm_num)
    have e3 : (1 + j / 8 + 1) % 256 = 1 + (j / 8 + 1) :=
      (Nat.mod_eq_of_lt (by omega)).trans (by ring)
    have e4 : (j / 11 + 1) % 256 = j / 11 + 1 := Nat.mod_eq_of_lt (by omega)
    simp only [sbusStep, h1, h2, h3, h4]
    rw [← a1, ← b1, a2, b2]
    by_cases c1 : (j % 8 + 1) % 256 = 8 <;> by_cases c2 : (j % 11 + 1) % 256 = 11 <;>
      simp [c1, c2, e3, e4]


/-! ## Bit operations -/

theorem and_shift_ne_zero_iff (x m : Nat) : x &&& (1 <<< m) ≠ 0 ↔ x / 2 ^ m % 2 = 1 := by
  rw [Nat.one_shiftLeft]
  have ht : x.testBit m = decide (x / 2 ^ m % 2 = 1) := Nat.testBit_to_div_mod
  constructor
  · intro h
    by_contra hc
    apply h
    apply Nat.eq_of_testBit_eq
    intro i
    simp only [Nat.testBit_and, Nat.testBit_two_pow, Nat.zero_testBit]
    by_cases hi : m = i
    · subst hi
      simp [ht, hc]
    · simp [hi]
  · intro h hz
    have h1 : (x &&& 2 ^ m).testBit m = true := by
      simp [Nat.testBit_and, Nat.testBit_two_pow, ht, h]
    rw [hz] at h1
    simp at h1

theorem or_two_pow_of_lt (x d : Nat) (h : x < 2 ^ d) : x ||| (1 <<< d) = x + 2 ^ d := by
  rw [Nat.one_shiftLeft]
  apply Nat.eq_of_testBit_eq
  intro i
  rw [Nat.testBit_or, Nat.testBit_two_pow, Nat.add_comm]
  rcases Nat.lt_trichotomy i d with hi | hi | hi
  · rw [Nat.testBit_two_pow_add_gt hi]
    have : ¬ d = i := by omega
    simp [this]
  · subst hi
    rw [Nat.testBit_two_pow_add_eq, Nat.testBit_lt_two_pow h]
    simp
  · have h1 : x.testBit i = false :=
      Nat.testBit_lt_two_pow (lt_of_lt_of_le h (Nat.pow_le_pow_right (by norm_num) hi.le))
    have h2 : (2 ^ d + x).testBit i = false := by
      apply Nat.testBit_lt_two_pow
      have : 2 ^ (d + 1) ≤ 2 ^ i := Nat.pow_le_pow_right (by norm_num) hi
      rw [pow_succ] at this
      omega
    have : ¬ d = i := by omega
    simp [h1, h2, this]

theorem streamBit_le (sBuffer : List Nat) (b : Nat) : streamBit sBuffer b ≤ 1 := by
  unfold streamBit; omega

theorem sbusPartial_succ (sBuffer : List Nat) (k j : Nat) :
    sbusPartial sBuffer k (j + 1) =
      sbusPartial sBuffer k j + (if j / 11 = k then 2 ^ (j % 11) * streamBit sBuffer j else 0) := by
  simp [sbusPartial, Finset.sum_range_succ]

/-- Positions not yet reached hold nothing; the position being filled holds fewer than
`j % 11` bits. -/
theorem sbusPartial_bound (sBuffer : List Nat) (j : Nat) :
    ∀ k, j / 11 ≤ k → sbusPartial sBuffer k j < 2 ^ (if k = j / 11 then j % 11 else 0) := by
  induction j with
  | zero => intro k _; simp [sbusPartial]
  | succ j ih =>
    intro k hk
    rw [sbusPartial_succ]
    have hb := streamBit_le sBuffer j
    by_cases hm : (j + 1) % 11 = 0
    · have hd : (j + 1) / 11 = j / 11 + 1 := by omega
      have h1 := ih k (by omega)
      have hne : ¬ k = j / 11 := by omega
      have hne2 : ¬ j / 11 = k := by omega
      simp only [hne, if_false, hne2] at h1 ⊢
      have : (2:Nat) ^ 0 ≤ 2 ^ (if k = (j + 1) / 11 then (j + 1) % 11 else 0) :=
        Nat.pow_le_pow_right (by norm_num) (Nat.zero_le _)
      omega
    · have hd : (j + 1) / 11 = j / 11 := by omega
      have hm2 : (j + 1) % 11 = j % 11 + 1 := by omega
      have h1 := ih k (by omega)
      rw [hd, hm2]
      by_cases hkj : k = j / 11
      · subst hkj
        simp only [if_true] at h1 ⊢
        rw [pow_succ]
        have : 2 ^ (j % 11) * streamBit sBuffer j ≤ 2 ^ (j % 11) * 1 :=
          Nat.mul_le_mul_left _ hb
        omega
      · have hne2 : ¬ j / 11 = k := fun h => hkj h.symm
        simp only [hkj, if_false, hne2] at h1 ⊢
        omega

theorem sbusPartial_lt (sBuffer : List Nat) (j : Nat) :
    sbusPartial sBuffer (j / 11) j < 2 ^ (j % 11) := by
  have := sbusPartial_bound sBuffer j (j / 11) (le_refl _)
  simpa using this


theorem sbusPartial_blocks (sBuffer : List Nat) (k q : Nat) :
    sbusPartial sBuffer k (11 * q) =
      if k < q then ∑ i ∈ Finset.range 11, 2 ^ i * streamBit sBuffer (11 * k + i) else 0 := by
  induction q with
  | zero => simp [sbusPartial]
  | succ q ih =>
    have hsplit : sbusPartial sBuffer k (11 * (q + 1)) = sbusPartial sBuffer k (11 * q) +
        ∑ i ∈ Finset.range 11,
          (if (11 * q + i) / 11 = k then 2 ^ ((11 * q + i) % 11) * streamBit sBuffer (11 * q + i)
           else 0) := by
      unfold sbusPartial
      rw [Nat.mul_succ, Finset.sum_range_add]
    have hblock : ∑ i ∈ Finset.range 11,
          (if (11 * q + i) / 11 = k then 2 ^ ((11 * q + i) % 11) * streamBit sBuffer (11 * q + i)
           else 0) =
        if q = k then ∑ i ∈ Finset.range 11, 2 ^ i * streamBit sBuffer (11 * k + i) else 0 := by
      by_cases hqk : q = k
      · subst hqk
        simp only [if_true]
        apply Finset.sum_congr rfl
        intro i hi
        have hi' : i < 11 := Finset.mem_range.mp hi
        have h1 : (11 * q + i) / 11 = q := by omega
        have h2 : (11 * q + i) % 11 = i := by omega
        simp [h1, h2]
      · simp only [hqk, if_false]
        apply Finset.sum_eq_zero
        intro i hi
        have hi' : i < 11 := Finset.mem_range.mp hi
        have h1 : ¬ (11 * q + i) / 11 = k := by omega
        simp [h1]
    rw [hsplit, ih, hblock]
    by_cases h1 : k < q
    · have h2 : ¬ q = k := by omega
      have h3 : k < q + 1 := by omega
      simp [h1, h2, h3]
    · by_cases h2 : q = k
      · have h3 : k < q + 1 := by omega
        simp [h1, h2, h3]
      · have h3 : ¬ k < q + 1 := by omega
        simp [h1, h2, h3]

theorem sbusPartial_full (sBuffer : List Nat) (k : Nat) (hk : k < 8) :
    sbusPartial sBuffer k 88 = ∑ i ∈ Finset.range 11, 2 ^ i * streamBit sBuffer (11 * k + i) := by
  have := sbusPartial_blocks sBuffer k 8
  simpa [hk] using this

theorem sbusStep_RxChannel (Config : CONFIG) (sBuffer : List Nat) (l : SbusLoop) :
    (sbusStep Config sBuffer l).RxChannel =
      if sBuffer.getD l.sindex 0 &&& (1 <<< l.chan_mask) ≠ 0 then
        l.RxChannel.set (Config.ChannelOrder.getD l.chan_shift 0)
          ((l.RxChannel.getD (Config.ChannelOrder.getD l.chan_shift 0) 0 ||| (1 <<< l.data_mask))
            % 65536)
      else l.RxChannel := by
  unfold sbusStep
  by_cases c1 : (l.chan_mask + 1) % 256 = 8 <;> by_cases c2 : (l.data_mask + 1) % 256 = 11 <;>
    simp [c1, c2]

/-- Channel values of the unpacking loop after `j` passes: the entries named by stream
positions `0 .. 7` hold the bits read so far, the others are untouched. -/
theorem sbusLoop_values (Config : CONFIG) (sBuffer rx : List Nat)
    (hinj : ∀ a b, a < 8 → b < 8 →
      Config.ChannelOrder.getD a 0 = Config.ChannelOrder.getD b 0 → a = b)
    (hlt : ∀ k, k < 8 → Config.ChannelOrder.getD k 0 < rx.length)
    (hzero : ∀ k, k < 8 → rx.getD (Config.ChannelOrder.getD k 0) 0 = 0)
    (j : Nat) (hj : j ≤ 88) :
    (sbusLoop Config sBuffer j (sbusInit rx)).RxChannel.length = rx.length ∧
    (∀ k, k < 8 → (sbusLoop Config sBuffer j (sbusInit rx)).RxChannel.getD
        (Config.ChannelOrder.getD k 0) 0 = sbusPartial sBuffer k j) ∧
    (∀ n, (∀ k, k < 8 → Config.ChannelOrder.getD k 0 ≠ n) →
      (sbusLoop Config sBuffer j (sbusInit rx)).RxChannel.getD n 0 = rx.getD n 0) := by
  induction j with
  | zero =>
    refine ⟨rfl, ?_, fun n _ => rfl⟩
    intro k hk
    simp only [sbusLoop, sbusInit, sbusPartial, Finset.range_zero, Finset.sum_empty]
    exact hzero k hk
  | succ j ih =>
    obtain ⟨ihlen, ihval, ihoth⟩ := ih (Nat.le_of_succ_le hj)
    obtain ⟨c1, c2, c3, c4⟩ := sbusLoop_control Config sBuffer rx j (Nat.le_of_succ_le hj)
    have hk0 : j / 11 < 8 := by omega
    have hcur := ihval (j / 11) hk0
    have hlt0 := sbusPartial_lt sBuffer j
    have hpow : (2 : Nat) ^ (j % 11 + 1) ≤ 2 ^ 11 :=
      Nat.pow_le_pow_right (by norm_num) (by omega)
    rw [sbusLoop_succ, sbusStep_RxChannel, c1, c2, c3, c4, hcur,
      or_two_pow_of_lt _ _ hlt0]
    have hmod : (sbusPartial sBuffer (j / 11) j + 2 ^ (j % 11)) % 65536 =
        sbusPartial sBuffer (j / 11) j + 2 ^ (j % 11) := by
      apply Nat.mod_eq_of_lt
      rw [pow_succ] at hpow
      omega
    rw [hmod]
    have hbit := and_shift_ne_zero_iff (sBuffer.getD (1 + j / 8) 0) (j % 8)
    by_cases hb : sBuffer.getD (1 + j / 8) 0 &&& (1 <<< (j % 8)) ≠ 0
    · have hsb : streamBit sBuffer j = 1 := hbit.mp hb
      rw [if_pos hb]
      refine ⟨by simp [ihlen], ?_, ?_⟩
      · intro k hk
        rw [sbusPartial_succ, getD_set]
        by_cases hkk : j / 11 = k
        · subst hkk
          rw [if_pos ⟨rfl, by rw [ihlen]; exact hlt _ hk0⟩, if_pos rfl, hsb, Nat.mul_one]
        · have hne : ¬ Config.ChannelOrder.getD (j / 11) 0 = Config.ChannelOrder.getD k 0 :=
            fun h => hkk (hinj _ _ hk0 hk h)
          rw [if_neg (fun h => hne h.1), if_neg hkk, ihval k hk, Nat.add_zero]
      · intro n hn
        rw [getD_set_ne _ _ _ _ _ (hn _ hk0)]
        exact ihoth n hn
    · have hsb : streamBit sBuffer j = 0 := by
        have h1 : ¬ streamBit sBuffer j = 1 := fun h => hb (hbit.mpr h)
        have h2 := streamBit_le sBuffer j
        omega
      rw [if_neg hb]
      refine ⟨ihlen, ?_, ihoth⟩
      intro k hk
      rw [sbusPartial_succ, hsb, ihval k hk]
      simp


/-! ## Loops over the channel arrays -/

theorem foldl_set_length (g : List Nat → Nat → Nat) (h : Nat → Nat) (m : Nat) (rx : List Nat) :
    ((List.range m).foldl (fun rx j => rx.set (h j) (g rx j)) rx).length = rx.length := by
  induction m with
  | zero => rfl
  | succ m ih => rw [List.range_succ, List.foldl_append]; simp [ih]

theorem clearChannels_length (hw : Board) (rx : List Nat) :
    (clearChannels hw rx).length = rx.length :=
  foldl_set_length (fun _ _ => 0) (fun j => j) _ rx

theorem sbusConvertAll_length (hw : Board) (rx : List Nat) :
    (sbusConvertAll hw rx).length = rx.length :=
  foldl_set_length (fun rx j => sbusConvert (rx.getD j 0)) (fun j => j) _ rx

/-- A loop `for (j = 0; j < m; j++) a[j] = f (a[j])` applies `f` to the first `m` entries. -/
theorem foldl_map_getD (f : Nat → Nat) (m : Nat) (rx : List Nat) (n : Nat) :
    ((List.range m).foldl (fun rx j => rx.set j (f (rx.getD j 0))) rx).getD n 0 =
      if n < m ∧ n < rx.length then f (rx.getD n 0) else rx.getD n 0 := by
  induction m with
  | zero => simp
  | succ m ih =>
    rw [List.range_succ, List.foldl_append]
    simp only [List.foldl_cons, List.foldl_nil]
    rw [getD_set, foldl_set_length (fun rx j => f (rx.getD j 0)) (fun j => j)]
    by_cases h1 : m = n
    · subst h1
      by_cases h2 : m < rx.length
      · rw [if_pos ⟨rfl, h2⟩, ih, if_neg (by omega), if_pos ⟨by omega, h2⟩]
      · rw [if_neg (fun h => h2 h.2), ih, if_neg (by omega), if_neg (fun h => h2 h.2)]
    · rw [if_neg (fun h => h1 h.1), ih]
      by_cases h3 : n < m ∧ n < rx.length
      · rw [if_pos h3, if_pos ⟨by omega, h3.2⟩]
      · rw [if_neg h3, if_neg (by omega)]

theorem clearChannels_getD (hw : Board) (rx : List Nat) (n : Nat) :
    (clearChannels hw rx).getD n 0 = if n < hw.MAX_RC_CHANNELS then 0 else rx.getD n 0 := by
  have h := foldl_map_getD (fun _ => 0) hw.MAX_RC_CHANNELS rx n
  unfold clearChannels
  rw [h]
  by_cases h1 : n < hw.MAX_RC_CHANNELS
  · by_cases h2 : n < rx.length
    · rw [if_pos ⟨h1, h2⟩, if_pos h1]
    · rw [if_neg (fun h => h2 h.2), if_pos h1]
      exact List.getD_eq_default _ _ (by omega)
  · rw [if_neg (fun h => h1 h.1), if_neg h1]

theorem sbusConvertAll_getD (hw : Board) (rx : List Nat) (n : Nat) :
    (sbusConvertAll hw rx).getD n 0 =
      if n < hw.MAX_RC_CHANNELS ∧ n < rx.length then sbusConvert (rx.getD n 0)
      else rx.getD n 0 :=
  foldl_map_getD sbusConvert hw.MAX_RC_CHANNELS rx n


/-! ## The handler on error free bytes -/

theorem USART0_RX_vect_valid (hw : Board) (Config : CONFIG) (ev : RxEvent) (s : State)
    (h : errorFree ev) : USART0_RX_vect hw Config ev s = validData hw Config ev (jitter s) := by
  unfold USART0_RX_vect
  simp only [h.1, h.2, ne_eq, not_true_eq_false, if_false]

theorem sameFraming_refl (s : State) : SameFraming s s := ⟨rfl, rfl, rfl, rfl, fun _ => rfl, rfl⟩

theorem sameFraming_trans {a b c : State} (h1 : SameFraming a b) (h2 : SameFraming b c) :
    SameFraming a c :=
  ⟨h2.1.trans h1.1, h2.2.1.trans h1.2.1, h2.2.2.1.trans h1.2.2.1,
    h2.2.2.2.1.trans h1.2.2.2.1, fun i => (h2.2.2.2.2.1 i).trans (h1.2.2.2.2.1 i),
    h2.2.2.2.2.2.trans h1.2.2.2.2.2⟩

theorem xtremeStep_length (hw : Board) (Config : CONFIG) (m : Nat) (buf : List Nat)
    (st : Nat × List Nat) (j : Nat) :
    (xtremeStep hw Config m buf st j).2.length = st.2.length := by
  unfold xtremeStep
  split_ifs <;> simp

theorem xtremeFold_length (hw : Board) (Config : CONFIG) (m : Nat) (buf : List Nat)
    (js : List Nat) (st : Nat × List Nat) :
    (js.foldl (xtremeStep hw Config m buf) st).2.length = st.2.length := by
  induction js generalizing st with
  | nil => rfl
  | cons j js ih => rw [List.foldl_cons, ih, xtremeStep_length]

theorem xtremeLoop_length (hw : Board) (Config : CONFIG) (m : Nat) (buf rx : List Nat) :
    (xtremeLoop hw Config m buf rx).2.length = rx.length :=
  xtremeFold_length hw Config m buf _ _

theorem xtreme_framing (hw : Board) (Config : CONFIG) (temp T : Nat) (s : State) :
    SameFraming s (xtreme hw Config temp T s) := by
  have h1 : SameFraming s (xtremeFlags temp s) := by
    unfold xtremeFlags; split_ifs <;> exact ⟨rfl, rfl, rfl, rfl, fun _ => rfl, rfl⟩
  have h2 : ∀ s, SameFraming s (xtremeMaskHigh temp s) := by
    intro s; unfold xtremeMaskHigh; split_ifs <;> exact ⟨rfl, rfl, rfl, rfl, fun _ => rfl, rfl⟩
  have h3 : ∀ s, SameFraming s (xtremeMaskLow temp s) := by
    intro s; unfold xtremeMaskLow; split_ifs <;> exact ⟨rfl, rfl, rfl, rfl, fun _ => rfl, rfl⟩
  have h4 : ∀ s, SameFraming s (xtremeData hw Config temp T s) := by
    intro s; unfold xtremeData
    dsimp only
    split_ifs
    · exact ⟨rfl, rfl, rfl, rfl, fun _ => rfl, rfl⟩
    · exact ⟨rfl, rfl, rfl, rfl, fun _ => rfl, rfl⟩
    · exact ⟨rfl, rfl, xtremeLoop_length _ _ _ _ _, rfl, fun _ => rfl, rfl⟩
  exact sameFraming_trans (sameFraming_trans h1 (h2 _)) (sameFraming_trans (h3 _) (h4 _))

theorem sbusStep_length (Config : CONFIG) (buf : List Nat) (l : SbusLoop) :
    (sbusStep Config buf l).RxChannel.length = l.RxChannel.length := by
  rw [sbusStep_RxChannel]; split_ifs <;> simp

theorem sbusLoop_length (Config : CONFIG) (buf : List Nat) (n : Nat) (l : SbusLoop) :
    (sbusLoop Config buf n l).RxChannel.length = l.RxChannel.length := by
  induction n with
  | zero => rfl
  | succ n ih => rw [sbusLoop_succ, sbusStep_length, ih]

theorem sbus_framing (hw : Board) (Config : CONFIG) (T : Nat) (s : State) :
    SameFraming s (sbus hw Config T s) := by
  unfold sbus
  split_ifs
  · refine ⟨rfl, rfl, ?_, rfl, fun _ => rfl, rfl⟩
    show (sbusConvertAll hw (sbusRaw hw Config _ _).RxChannel).length = _
    rw [sbusConvertAll_length]
    unfold sbusRaw
    rw [sbusLoop_length]
    exact clearChannels_length hw _
  · exact sameFraming_refl s

theorem spektrumStep_length (hw : Board) (Config : CONFIG) (buf : List Nat) (a b c : Nat)
    (l : SpekLoop) :
    (spektrumStep hw Config buf a b c l).RxChannel.length = l.RxChannel.length := by
  unfold spektrumStep
  dsimp only
  split_ifs <;> simp

theorem spektrumLoop_length (hw : Board) (Config : CONFIG) (buf : List Nat) (a b c n : Nat)
    (l : SpekLoop) :
    (spektrumLoop hw Config buf a b c n l).RxChannel.length = l.RxChannel.length := by
  induction n generalizing l with
  | zero => rfl
  | succ n ih =>
    show (spektrumLoop hw Config buf a b c n _).RxChannel.length = _
    rw [ih, spektrumStep_length]

/-- The Spektrum block stores the last byte at index 15 once more. -/
theorem spektrum_framing (hw : Board) (Config : CONFIG) (temp T : Nat) (s : State)
    (h : s.bytecount = 15 → s.sBuffer.getD 15 0 = temp) :
    SameFraming s (spektrum hw Config temp T s) := by
  unfold spektrum
  split_ifs with h1
  · dsimp only [rcSync]
    refine ⟨rfl, rfl, ?_, ?_, ?_, rfl⟩
    · split_ifs <;> exact spektrumLoop_length _ _ _ _ _ _ _ _
    · simp
    · intro i
      rw [getD_set]
      split_ifs with h3
      · rw [← h3.1]; exact (h h1).symm
      · rfl
  · exact sameFraming_refl s

theorem placeChannels_length (hw : Board) (Config : CONFIG) (f : Nat → Nat) (t rx : List Nat) :
    (placeChannels hw Config f t rx).length = rx.length :=
  foldl_set_length (fun _ j => f (t.getD j 0)) (fun j => Config.ChannelOrder.getD j 0) _ rx

theorem crcPublish_framing (hw : Board) (Config : CONFIG) (ofs : Nat) (f : Nat → Nat) (T : Nat)
    (s : State) : SameFraming s (crcPublish hw Config ofs f T s) := by
  unfold crcPublish
  dsimp only
  split_ifs
  · exact ⟨rfl, rfl, placeChannels_length _ _ _ _ _, rfl, fun _ => rfl, rfl⟩
  · exact sameFraming_refl s

theorem modeb_framing (hw : Board) (Config : CONFIG) (T : Nat) (s : State) :
    SameFraming s (modeb hw Config T s) := by
  have h1 : SameFraming s (modebSize s) := by
    unfold modebSize; split_ifs <;> exact ⟨rfl, rfl, rfl, rfl, fun _ => rfl, rfl⟩
  have h2 : ∀ s, SameFraming s (modebCheck hw Config T s) := by
    intro s; unfold modebCheck
    split_ifs
    · exact crcPublish_framing _ _ _ _ _ _
    · exact sameFraming_refl s
  exact sameFraming_trans h1 (h2 _)

theorem sumd_framing (hw : Board) (Config : CONFIG) (T : Nat) (s : State) :
    SameFraming s (sumd hw Config T s) := by
  have h1 : SameFraming s (sumdSize s) := by
    unfold sumdSize; split_ifs <;> exact ⟨rfl, rfl, rfl, rfl, fun _ => rfl, rfl⟩
  have h2 : ∀ s, SameFraming s (sumdCheck hw Config T s) := by
    intro s; unfold sumdCheck
    split_ifs
    · exact crcPublish_framing _ _ _ _ _ _
    · exact sameFraming_refl s
  exact sameFraming_trans h1 (h2 _)

theorem decode_framing (hw : Board) (Config : CONFIG) (temp T : Nat) (s : State)
    (h : s.bytecount = 15 → s.sBuffer.getD 15 0 = temp) :
    SameFraming s (decode hw Config temp T s) := by
  unfold decode
  cases hm : Config.RxMode
  all_goals simp only [reduceCtorEq, if_false, if_true]
  · exact sameFraming_refl s
  · exact sameFraming_refl s
  · exact xtreme_framing _ _ _ _ _
  · exact sbus_framing _ _ _ _
  · exact spektrum_framing _ _ _ _ _ h
  · exact modeb_framing _ _ _ _
  · exact sumd_framing _ _ _ _


/-! ## Common entry code -/

theorem commonEntry_start (hw : Board) (b t : Nat) (s : State)
    (hgap : PACKET_TIMER < currentPeriod t s.PPMSyncStart) (hsz : 0 < hw.SBUFFER_SIZE) :
    commonEntry hw b t s =
      { s with rcindex := 1, bytecount := 0, ch_num := 0, checksum := 0, chanmask16 := 0,
               FrameRate := currentPeriod t s.PPMSyncStart,
               sBuffer := (List.replicate hw.SBUFFER_SIZE 0).set 0 b, PPMSyncStart := t } := by
  unfold commonEntry
  simp only [gt_iff_lt, hgap, if_true, hsz]

theorem commonEntry_cont (hw : Board) (b t : Nat) (s : State)
    (hgap : currentPeriod t s.PPMSyncStart ≤ PACKET_TIMER) (hsz : s.rcindex < hw.SBUFFER_SIZE) :
    commonEntry hw b t s =
      { s with PPMSyncStart := t, sBuffer := s.sBuffer.set s.rcindex b,
               rcindex := (s.rcindex + 1) % 256 } := by
  unfold commonEntry
  have : ¬ PACKET_TIMER < currentPeriod t s.PPMSyncStart := Nat.not_lt.mpr hgap
  simp only [gt_iff_lt, this, if_false, hsz, if_true]

theorem jitter_framing (s : State) : SameFraming s (jitter s) := by
  unfold jitter
  split_ifs
  · exact ⟨rfl, rfl, rfl, rfl, fun _ => rfl, rfl⟩
  · exact sameFraming_refl s

theorem getD_replicate_zero (n i : Nat) : (List.replicate n 0).getD i 0 = 0 := by
  by_cases h : i < n
  · rw [List.getD_eq_getElem _ _ (by simpa using h)]; simp
  · exact List.getD_eq_default _ _ (by simpa using h)

theorem getD_singleton (b i : Nat) : [b].getD i 0 = if i = 0 then b else 0 := by
  cases i <;> simp

theorem getD_concat (bytes : List Nat) (b i : Nat) :
    (bytes ++ [b]).getD i 0 = if i = bytes.length then b else bytes.getD i 0 := by
  by_cases h : i < bytes.length
  · rw [List.getD_append _ _ _ _ h, if_neg (by omega)]
  · rw [List.getD_append_right _ _ _ _ (by omega), getD_singleton]
    by_cases h2 : i = bytes.length
    · rw [if_pos (by omega), if_pos h2]
    · rw [if_neg (by omega), if_neg h2]
      exact (List.getD_eq_default _ _ (by omega)).symm

/-- The first byte of a packet: the buffer is cleared and holds that byte. -/
theorem validData_start_Holds (hw : Board) (Config : CONFIG) (ev : RxEvent) (s : State)
    (hgap : PACKET_TIMER < currentPeriod ev.TCNT1 s.PPMSyncStart) (hsz : 0 < hw.SBUFFER_SIZE) :
    Holds hw [ev.UDR0] (validData hw Config ev s) ∧
    (validData hw Config ev s).PPMSyncStart = ev.TCNT1 ∧
    (validData hw Config ev s).RxChannel.length = s.RxChannel.length := by
  have hc := commonEntry_start hw ev.UDR0 ev.TCNT1 s hgap hsz
  have c1 : (commonEntry hw ev.UDR0 ev.TCNT1 s).rcindex = 1 := by rw [hc]
  have c2 : (commonEntry hw ev.UDR0 ev.TCNT1 s).bytecount = 0 := by rw [hc]
  have c3 : (commonEntry hw ev.UDR0 ev.TCNT1 s).sBuffer =
      (List.replicate hw.SBUFFER_SIZE 0).set 0 ev.UDR0 := by rw [hc]
  have c4 : (commonEntry hw ev.UDR0 ev.TCNT1 s).PPMSyncStart = ev.TCNT1 := by rw [hc]
  have c5 : (commonEntry hw ev.UDR0 ev.TCNT1 s).RxChannel = s.RxChannel := by rw [hc]
  obtain ⟨f1, f2, f3, f4, f5, f6⟩ :=
    decode_framing hw Config ev.UDR0 ev.TCNT2 (commonEntry hw ev.UDR0 ev.TCNT1 s)
      (fun h => absurd (c2 ▸ h) (by decide))
  refine ⟨⟨?_, ?_, ?_, ?_⟩, ?_, ?_⟩
  · show (decode hw Config ev.UDR0 ev.TCNT2 (commonEntry hw ev.UDR0 ev.TCNT1 s)).rcindex = _
    rw [f1, c1]; rfl
  · show ((decode hw Config ev.UDR0 ev.TCNT2 (commonEntry hw ev.UDR0 ev.TCNT1 s)).bytecount
      + 1) % 256 = _
    rw [f2, c2]; rfl
  · show (decode hw Config ev.UDR0 ev.TCNT2 (commonEntry hw ev.UDR0 ev.TCNT1 s)).sBuffer.length
      = _
    rw [f4, c3]; simp
  · intro i
    show (decode hw Config ev.UDR0 ev.TCNT2 (commonEntry hw ev.UDR0 ev.TCNT1 s)).sBuffer.getD i 0
      = _
    rw [f5 i, c3, getD_set, getD_singleton, getD_replicate_zero]
    by_cases hi : i = 0
    · rw [if_pos ⟨hi.symm, by simpa using hsz⟩, if_pos hi]
    · rw [if_neg (fun h => hi h.1.symm), if_neg hi]
  · show (decode hw Config ev.UDR0 ev.TCNT2 (commonEntry hw ev.UDR0 ev.TCNT1 s)).PPMSyncStart = _
    rw [f6, c4]
  · show (decode hw Config ev.UDR0 ev.TCNT2 (commonEntry hw ev.UDR0 ev.TCNT1 s)).RxChannel.length
      = _
    rw [f3, c5]

/-- A further byte of a packet is appended to the buffer. -/
theorem validData_cont_Holds (hw : Board) (Config : CONFIG) (ev : RxEvent) (s : State)
    (bytes : List Nat) (hs : Holds hw bytes s)
    (hgap : currentPeriod ev.TCNT1 s.PPMSyncStart ≤ PACKET_TIMER)
    (hsz : bytes.length < hw.SBUFFER_SIZE) (h255 : bytes.length < 255) :
    Holds hw (bytes ++ [ev.UDR0]) (validData hw Config ev s) ∧
    (validData hw Config ev s).PPMSyncStart = ev.TCNT1 ∧
    (validData hw Config ev s).RxChannel.length = s.RxChannel.length := by
  have hc := commonEntry_cont hw ev.UDR0 ev.TCNT1 s hgap (by rw [hs.rcindex]; exact hsz)
  have c1 : (commonEntry hw ev.UDR0 ev.TCNT1 s).rcindex = bytes.length + 1 := by
    rw [hc]
    show (s.rcindex + 1) % 256 = _
    rw [hs.rcindex]
    exact Nat.mod_eq_of_lt (by omega)
  have c2 : (commonEntry hw ev.UDR0 ev.TCNT1 s).bytecount = bytes.length := by
    rw [hc]; exact hs.bytecount
  have c3 : (commonEntry hw ev.UDR0 ev.TCNT1 s).sBuffer = s.sBuffer.set bytes.length ev.UDR0 := by
    rw [hc, ← hs.rcindex]
  have c4 : (commonEntry hw ev.UDR0 ev.TCNT1 s).PPMSyncStart = ev.TCNT1 := by rw [hc]
  have c5 : (commonEntry hw ev.UDR0 ev.TCNT1 s).RxChannel = s.RxChannel := by rw [hc]
  obtain ⟨f1, f2, f3, f4, f5, f6⟩ :=
    decode_framing hw Config ev.UDR0 ev.TCNT2 (commonEntry hw ev.UDR0 ev.TCNT1 s)
      (by
        intro h
        have h15 : bytes.length = 15 := c2 ▸ h
        rw [c3, h15, getD_set_self]
        rw [hs.length, ← h15]; exact hsz)
  refine ⟨⟨?_, ?_, ?_, ?_⟩, ?_, ?_⟩
  · show (decode hw Config ev.UDR0 ev.TCNT2 (commonEntry hw ev.UDR0 ev.TCNT1 s)).rcindex = _
    rw [f1, c1, List.length_append, List.length_singleton]
  · show ((decode hw Config ev.UDR0 ev.TCNT2 (commonEntry hw ev.UDR0 ev.TCNT1 s)).bytecount
      + 1) % 256 = _
    rw [f2, c2, List.length_append, List.length_singleton]
    exact Nat.mod_eq_of_lt (by omega)
  · show (decode hw Config ev.UDR0 ev.TCNT2 (commonEntry hw ev.UDR0 ev.TCNT1 s)).sBuffer.length
      = _
    rw [f4, c3, List.length_set, hs.length]
  · intro i
    show (decode hw Config ev.UDR0 ev.TCNT2 (commonEntry hw ev.UDR0 ev.TCNT1 s)).sBuffer.getD i 0
      = _
    rw [f5 i, c3, getD_set, getD_concat, hs.length, hs.buffer]
    by_cases hi : i = bytes.length
    · rw [if_pos ⟨hi.symm, hsz⟩, if_pos hi]
    · rw [if_neg (fun h => hi h.1.symm), if_neg hi]
  · show (decode hw Config ev.UDR0 ev.TCNT2 (commonEntry hw ev.UDR0 ev.TCNT1 s)).PPMSyncStart = _
    rw [f6, c4]
  · show (decode hw Config ev.UDR0 ev.TCNT2 (commonEntry hw ev.UDR0 ev.TCNT1 s)).RxChannel.length
      = _
    rw [f3, c5]


/-! ## Packets -/

theorem Holds_of_framing (hw : Board) (bytes : List Nat) (s s' : State)
    (hf : SameFraming s s') (h : Holds hw bytes s) : Holds hw bytes s' :=
  ⟨hf.1.trans h.rcindex, hf.2.1.trans h.bytecount, hf.2.2.2.1.trans h.length,
    fun i => (hf.2.2.2.2.1 i).trans (h.buffer i)⟩

theorem USART_start_Holds (hw : Board) (Config : CONFIG) (ev : RxEvent) (s : State)
    (he : errorFree ev) (hgap : PACKET_TIMER < currentPeriod ev.TCNT1 s.PPMSyncStart)
    (hsz : 0 < hw.SBUFFER_SIZE) :
    Holds hw [ev.UDR0] (USART0_RX_vect hw Config ev s) ∧
    (USART0_RX_vect hw Config ev s).PPMSyncStart = ev.TCNT1 ∧
    (USART0_RX_vect hw Config ev s).RxChannel.length = s.RxChannel.length := by
  rw [USART0_RX_vect_valid hw Config ev s he]
  have hj := jitter_framing s
  have := validData_start_Holds hw Config ev (jitter s) (by rw [hj.2.2.2.2.2]; exact hgap) hsz
  exact ⟨this.1, this.2.1, this.2.2.trans hj.2.2.1⟩

theorem USART_cont_Holds (hw : Board) (Config : CONFIG) (ev : RxEvent) (s : State)
    (bytes : List Nat) (hs : Holds hw bytes s) (he : errorFree ev)
    (hgap : currentPeriod ev.TCNT1 s.PPMSyncStart ≤ PACKET_TIMER)
    (hsz : bytes.length < hw.SBUFFER_SIZE) (h255 : bytes.length < 255) :
    Holds hw (bytes ++ [ev.UDR0]) (USART0_RX_vect hw Config ev s) ∧
    (USART0_RX_vect hw Config ev s).PPMSyncStart = ev.TCNT1 ∧
    (USART0_RX_vect hw Config ev s).RxChannel.length = s.RxChannel.length := by
  rw [USART0_RX_vect_valid hw Config ev s he]
  have hj := jitter_framing s
  have := validData_cont_Holds hw Config ev (jitter s) bytes
    (Holds_of_framing hw bytes s _ hj hs) (by rw [hj.2.2.2.2.2]; exact hgap) hsz h255
  exact ⟨this.1, this.2.1, this.2.2.trans hj.2.2.1⟩

/-- Induction along the bytes of a packet that continues the one in progress. -/
theorem continues_induction (hw : Board) (Config : CONFIG) (I P : List Nat → State → Prop)
    (L : Nat) (hL : L ≤ hw.SBUFFER_SIZE) (hL2 : L ≤ 255)
    (hstep : ∀ s ev bytes, Holds hw bytes s → I bytes s → 1 ≤ bytes.length →
      bytes.length + 1 < L → errorFree ev →
      currentPeriod ev.TCNT1 s.PPMSyncStart ≤ PACKET_TIMER →
      I (bytes ++ [ev.UDR0]) (USART0_RX_vect hw Config ev s))
    (hfinal : ∀ s ev bytes, Holds hw bytes s → I bytes s → 1 ≤ bytes.length →
      bytes.length + 1 = L → errorFree ev →
      currentPeriod ev.TCNT1 s.PPMSyncStart ≤ PACKET_TIMER →
      P (bytes ++ [ev.UDR0]) (USART0_RX_vect hw Config ev s)) :
    ∀ evs bytes s, Holds hw bytes s → I bytes s → 1 ≤ bytes.length →
      Continues s.PPMSyncStart evs → evs ≠ [] → bytes.length + evs.length = L →
      P (bytes ++ bytesOf evs) (runRx hw Config evs s) := by
  intro evs
  induction evs with
  | nil => intro bytes s _ _ _ _ h; exact absurd rfl h
  | cons ev rest ih =>
    intro bytes s hs hi h1 hc _ hlen
    obtain ⟨he, hgap, hrest⟩ := hc
    rw [List.length_cons] at hlen
    cases rest with
    | nil =>
      exact hfinal s ev bytes hs hi h1 (by simpa using hlen) he hgap
    | cons ev2 rest2 =>
      rw [List.length_cons] at hlen
      have hH := USART_cont_Holds hw Config ev s bytes hs he hgap (by omega) (by omega)
      have hI := hstep s ev bytes hs hi h1 (by omega) he hgap
      have := ih (bytes ++ [ev.UDR0]) (USART0_RX_vect hw Config ev s) hH.1 hI
        (by simp only [List.length_append, List.length_cons, List.length_nil]; omega)
        (by rw [hH.2.1]; exact hrest) (by simp)
        (by simp only [List.length_append, List.length_cons, List.length_nil]; omega)
      have e : bytes ++ bytesOf (ev :: ev2 :: rest2) =
          bytes ++ [ev.UDR0] ++ bytesOf (ev2 :: rest2) := by
        simp [bytesOf]
      rw [e]
      exact this

/-- Induction along the bytes of a packet of `L` bytes received from state `s0`: an invariant
`I` established by the first byte and kept by the following ones gives `P` after the last. -/
theorem packet_induction (hw : Board) (Config : CONFIG) (I P : List Nat → State → Prop)
    (L : Nat) (hL0 : 2 ≤ L) (hL : L ≤ hw.SBUFFER_SIZE) (hL2 : L ≤ 255) (s0 : State)
    (hstart : ∀ ev, errorFree ev → PACKET_TIMER < currentPeriod ev.TCNT1 s0.PPMSyncStart →
      I [ev.UDR0] (USART0_RX_vect hw Config ev s0))
    (hstep : ∀ s ev bytes, Holds hw bytes s → I bytes s → 1 ≤ bytes.length →
      bytes.length + 1 < L → errorFree ev →
      currentPeriod ev.TCNT1 s.PPMSyncStart ≤ PACKET_TIMER →
      I (bytes ++ [ev.UDR0]) (USART0_RX_vect hw Config ev s))
    (hfinal : ∀ s ev bytes, Holds hw bytes s → I bytes s → 1 ≤ bytes.length →
      bytes.length + 1 = L → errorFree ev →
      currentPeriod ev.TCNT1 s.PPMSyncStart ≤ PACKET_TIMER →
      P (bytes ++ [ev.UDR0]) (USART0_RX_vect hw Config ev s))
    (evs : List RxEvent) (hp : IsPacket s0.PPMSyncStart evs) (hlen : evs.length = L) :
    P (bytesOf evs) (runRx hw Config evs s0) := by
  cases evs with
  | nil => exact absurd hp (fun h => h)
  | cons ev rest =>
    obtain ⟨he, hgap, hrest⟩ := hp
    have hH := USART_start_Holds hw Config ev s0 he hgap (by omega)
    have := continues_induction hw Config I P L hL hL2 hstep hfinal rest [ev.UDR0]
      (USART0_RX_vect hw Config ev s0) hH.1 (hstart ev he hgap) (by simp)
      (by rw [hH.2.1]; exact hrest)
      (by intro h; rw [h] at hlen; simp at hlen; omega)
      (by rw [List.length_cons] at hlen; simpa [Nat.add_comm] using hlen)
    exact this


/-! ## The protocol block selected by `Config.RxMode` -/

theorem decode_xtreme (hw : Board) (Config : CONFIG) (temp T : Nat) (s : State)
    (hm : Config.RxMode = RxModes.XTREME) :
    decode hw Config temp T s = xtreme hw Config temp T s := by
  unfold decode; simp [hm]

theorem decode_sbus (hw : Board) (Config : CONFIG) (temp T : Nat) (s : State)
    (hm : Config.RxMode = RxModes.SBUS) :
    decode hw Config temp T s = sbus hw Config T s := by
  unfold decode; simp [hm]

theorem decode_spektrum (hw : Board) (Config : CONFIG) (temp T : Nat) (s : State)
    (hm : Config.RxMode = RxModes.SPEKTRUM) :
    decode hw Config temp T s = spektrum hw Config temp T s := by
  unfold decode; simp [hm]

theorem decode_modeb (hw : Board) (Config : CONFIG) (temp T : Nat) (s : State)
    (hm : Config.RxMode = RxModes.MODEB) :
    decode hw Config temp T s = modeb hw Config T s := by
  unfold decode; simp [hm]

theorem decode_sumd (hw : Board) (Config : CONFIG) (temp T : Nat) (s : State)
    (hm : Config.RxMode = RxModes.SUMD) :
    decode hw Config temp T s = sumd hw Config T s := by
  unfold decode; simp [hm]

/-- Fields of the state after the common entry code for a byte that continues a packet. -/
theorem commonEntry_cont_fields (hw : Board) (b t : Nat) (s : State)
    (hgap : currentPeriod t s.PPMSyncStart ≤ PACKET_TIMER) :
    (commonEntry hw b t s).bytecount = s.bytecount ∧
    (commonEntry hw b t s).RxChannel = s.RxChannel ∧
    (commonEntry hw b t s).Interrupted = s.Interrupted ∧
    (commonEntry hw b t s).Overdue = s.Overdue ∧
    (commonEntry hw b t s).RC_Timeout = s.RC_Timeout ∧
    (commonEntry hw b t s).packet_size = s.packet_size ∧
    (commonEntry hw b t s).checksum = s.checksum ∧
    (commonEntry hw b t s).chanmask16 = s.chanmask16 ∧
    (commonEntry hw b t s).ch_num = s.ch_num ∧
    (commonEntry hw b t s).sBuffer =
      (if s.rcindex < hw.SBUFFER_SIZE then s.sBuffer.set s.rcindex b else s.sBuffer) := by
  unfold commonEntry
  have : ¬ PACKET_TIMER < currentPeriod t s.PPMSyncStart := Nat.not_lt.mpr hgap
  simp only [gt_iff_lt, this, if_false]
  split_ifs <;> exact ⟨rfl, rfl, rfl, rfl, rfl, rfl, rfl, rfl, rfl, rfl⟩

theorem jitter_fields (s : State) :
    (jitter s).bytecount = s.bytecount ∧ (jitter s).RxChannel = s.RxChannel ∧
    (jitter s).Interrupted = s.Interrupted ∧ (jitter s).Overdue = s.Overdue ∧
    (jitter s).RC_Timeout = s.RC_Timeout ∧ (jitter s).packet_size = s.packet_size ∧
    (jitter s).checksum = s.checksum ∧ (jitter s).chanmask16 = s.chanmask16 ∧
    (jitter s).ch_num = s.ch_num ∧ (jitter s).sBuffer = s.sBuffer ∧
    (jitter s).rcindex = s.rcindex ∧ (jitter s).PPMSyncStart = s.PPMSyncStart := by
  unfold jitter
  split_ifs <;> exact ⟨rfl, rfl, rfl, rfl, rfl, rfl, rfl, rfl, rfl, rfl, rfl, rfl⟩

/-! ## S-Bus: the byte that completes a packet -/

/-- The buffer the S-Bus block reads when a byte continues a packet. -/
theorem sbus_final (hw : Board) (Config : CONFIG) (ev : RxEvent) (s : State)
    (hm : Config.RxMode = RxModes.SBUS) (he : errorFree ev)
    (hgap : currentPeriod ev.TCNT1 s.PPMSyncStart ≤ PACKET_TIMER) (hb : s.bytecount = 24) :
    (USART0_RX_vect hw Config ev s).Interrupted = true ∧
    (USART0_RX_vect hw Config ev s).Overdue = false ∧
    (USART0_RX_vect hw Config ev s).RC_Timeout = 0 ∧
    (USART0_RX_vect hw Config ev s).RxChannel =
      sbusConvertAll hw (sbusRaw hw Config
        (if s.rcindex < hw.SBUFFER_SIZE then s.sBuffer.set s.rcindex ev.UDR0 else s.sBuffer)
        s.RxChannel).RxChannel := by
  obtain ⟨j1, j2, _, _, _, _, _, _, _, j10, j11, j12⟩ := jitter_fields s
  obtain ⟨c1, c2, _, _, _, _, _, _, _, c10⟩ :=
    commonEntry_cont_fields hw ev.UDR0 ev.TCNT1 (jitter s) (by rw [j12]; exact hgap)
  have hbc : (commonEntry hw ev.UDR0 ev.TCNT1 (jitter s)).bytecount = 24 := by
    rw [c1, j1, hb]
  rw [USART0_RX_vect_valid hw Config ev s he]
  unfold validData
  rw [decode_sbus hw Config _ _ _ hm]
  unfold sbus
  rw [if_pos hbc]
  refine ⟨rfl, rfl, rfl, ?_⟩
  show sbusConvertAll hw (sbusRaw hw Config (commonEntry hw ev.UDR0 ev.TCNT1 (jitter s)).sBuffer
    (commonEntry hw ev.UDR0 ev.TCNT1 (jitter s)).RxChannel).RxChannel = _
  rw [c10, c2, j2, j10, j11]

theorem sbusStep_congr (Config : CONFIG) (buf buf' : List Nat) (l : SbusLoop)
    (h : buf.getD l.sindex 0 = buf'.getD l.sindex 0) :
    sbusStep Config buf l = sbusStep Config buf' l := by
  unfold sbusStep
  rw [h]

/-- The unpacking loop reads packet bytes 1 to 11 only. -/
theorem sbusLoop_congr (Config : CONFIG) (buf buf' rx : List Nat)
    (h : ∀ i, 1 ≤ i → i ≤ 11 → buf.getD i 0 = buf'.getD i 0) (j : Nat) (hj : j ≤ 88) :
    sbusLoop Config buf j (sbusInit rx) = sbusLoop Config buf' j (sbusInit rx) := by
  induction j with
  | zero => rfl
  | succ j ih =>
    rw [sbusLoop_succ, sbusLoop_succ, ← ih (Nat.le_of_succ_le hj)]
    apply sbusStep_congr
    rw [(sbusLoop_control Config buf rx j (Nat.le_of_succ_le hj)).1]
    exact h _ (by omega) (by omega)

theorem streamBit_congr (buf buf' : List Nat) (h : ∀ i, buf.getD i 0 = buf'.getD i 0) (b : Nat) :
    streamBit buf b = streamBit buf' b := by
  unfold streamBit; rw [h]

/-- The channel vector published by the S-Bus block from a buffer `buf`. -/
theorem sbus_published (hw : Board) (Config : CONFIG) (buf rx : List Nat)
    (hlen : rx.length = hw.MAX_RC_CHANNELS)
    (hinj : ∀ a, a < 8 → ∀ b, b < 8 →
      Config.ChannelOrder.getD a 0 = Config.ChannelOrder.getD b 0 → a = b)
    (hlt : ∀ k, k < 8 → Config.ChannelOrder.getD k 0 < hw.MAX_RC_CHANNELS) :
    (∀ k, k < 8 →
      (sbusConvertAll hw (sbusRaw hw Config buf rx).RxChannel).getD
          (Config.ChannelOrder.getD k 0) 0 =
        sbusConvert (∑ i ∈ Finset.range 11, 2 ^ i * streamBit buf (11 * k + i))) ∧
    (∀ n, n < hw.MAX_RC_CHANNELS → (∀ k, k < 8 → Config.ChannelOrder.getD k 0 ≠ n) →
      (sbusConvertAll hw (sbusRaw hw Config buf rx).RxChannel).getD n 0 = sbusConvert 0) := by
  have hcl : (clearChannels hw rx).length = hw.MAX_RC_CHANNELS := by
    rw [clearChannels_length, hlen]
  obtain ⟨v1, v2, v3⟩ := sbusLoop_values Config buf (clearChannels hw rx)
    (fun a b ha hb => hinj a ha b hb) (fun k hk => by rw [hcl]; exact hlt k hk)
    (fun k hk => by rw [clearChannels_getD, if_pos (hlt k hk)]) 88 (le_refl _)
  constructor
  · intro k hk
    rw [sbusConvertAll_getD]
    unfold sbusRaw
    rw [v1, hcl, if_pos ⟨hlt k hk, hlt k hk⟩, v2 k hk, sbusPartial_full buf k hk]
  · intro n hn hne
    rw [sbusConvertAll_getD]
    unfold sbusRaw
    rw [v1, hcl, if_pos ⟨hn, hn⟩, v3 n hne, clearChannels_getD, if_pos hn]

/-! ## Channel order -/

theorem channelOrder_lt {hw : Board} {Config : CONFIG} (h : ChannelOrderOK hw Config)
    (k : Nat) (hk : k < hw.MAX_RC_CHANNELS) :
    Config.ChannelOrder.getD k 0 < hw.MAX_RC_CHANNELS := by
  have hlen : Config.ChannelOrder.length = hw.MAX_RC_CHANNELS := by
    rw [List.Perm.length_eq h, List.length_range]
  have hk' : k < Config.ChannelOrder.length := by rw [hlen]; exact hk
  rw [List.getD_eq_getElem _ _ hk']
  have hmem : Config.ChannelOrder[k] ∈ List.range hw.MAX_RC_CHANNELS :=
    (List.Perm.mem_iff h).mp (List.getElem_mem hk')
  exact List.mem_range.mp hmem

theorem channelOrder_inj {hw : Board} {Config : CONFIG} (h : ChannelOrderOK hw Config)
    (a : Nat) (ha : a < hw.MAX_RC_CHANNELS) (b : Nat) (hb : b < hw.MAX_RC_CHANNELS)
    (hab : Config.ChannelOrder.getD a 0 = Config.ChannelOrder.getD b 0) : a = b := by
  have hlen : Config.ChannelOrder.length = hw.MAX_RC_CHANNELS := by
    rw [List.Perm.length_eq h, List.length_range]
  have ha' : a < Config.ChannelOrder.length := by rw [hlen]; exact ha
  have hb' : b < Config.ChannelOrder.length := by rw [hlen]; exact hb
  rw [List.getD_eq_getElem _ _ ha', List.getD_eq_getElem _ _ hb'] at hab
  have hnd : Config.ChannelOrder.Nodup := (List.Perm.nodup_iff h).mpr (List.nodup_range _)
  exact (List.Nodup.getElem_inj_iff hnd).mp hab

theorem channelOrder_surj {hw : Board} {Config : CONFIG} (h : ChannelOrderOK hw Config)
    (n : Nat) (hn : n < hw.MAX_RC_CHANNELS) :
    ∃ k, k < hw.MAX_RC_CHANNELS ∧ Config.ChannelOrder.getD k 0 = n := by
  have hlen : Config.ChannelOrder.length = hw.MAX_RC_CHANNELS := by
    rw [List.Perm.length_eq h, List.length_range]
  have hmem : n ∈ Config.ChannelOrder := (List.Perm.mem_iff h).mpr (List.mem_range.mpr hn)
  obtain ⟨k, hk, hkn⟩ := List.getElem_of_mem hmem
  exact ⟨k, by rw [← hlen]; exact hk, by rw [List.getD_eq_getElem _ _ hk]; exact hkn⟩

/-! ## S-Bus packets -/

/-- What a complete S-Bus packet publishes: the eight stream positions carried by packet bytes
1 to 11 go to the entries named by `ChannelOrder[0 .. 7]`; every other entry of the channel
vector is cleared and converted. -/
theorem sbus_packet (hw : Board) (Config : CONFIG) (s0 : State) (evs : List RxEvent)
    (hm : Config.RxMode = RxModes.SBUS) (h25 : 25 ≤ hw.SBUFFER_SIZE)
    (hrx : s0.RxChannel.length = hw.MAX_RC_CHANNELS)
    (hinj : ∀ a, a < 8 → ∀ b, b < 8 →
      Config.ChannelOrder.getD a 0 = Config.ChannelOrder.getD b 0 → a = b)
    (hlt : ∀ k, k < 8 → Config.ChannelOrder.getD k 0 < hw.MAX_RC_CHANNELS)
    (hp : IsPacket s0.PPMSyncStart evs) (hlen : evs.length = 25) :
    (runRx hw Config evs s0).Interrupted = true ∧
    (runRx hw Config evs s0).Overdue = false ∧
    (runRx hw Config evs s0).RC_Timeout = 0 ∧
    (∀ k, k < 8 →
      (runRx hw Config evs s0).RxChannel.getD (Config.ChannelOrder.getD k 0) 0 =
        sbusConvert (∑ i ∈ Finset.range 11, 2 ^ i * streamBit (bytesOf evs) (11 * k + i))) ∧
    (∀ n, n < hw.MAX_RC_CHANNELS → (∀ k, k < 8 → Config.ChannelOrder.getD k 0 ≠ n) →
      (runRx hw Config evs s0).RxChannel.getD n 0 = sbusConvert 0) := by
  refine packet_induction hw Config
    (fun _ s => s.RxChannel.length = hw.MAX_RC_CHANNELS)
    (fun bytes r => r.Interrupted = true ∧ r.Overdue = false ∧ r.RC_Timeout = 0 ∧
      (∀ k, k < 8 → r.RxChannel.getD (Config.ChannelOrder.getD k 0) 0 =
        sbusConvert (∑ i ∈ Finset.range 11, 2 ^ i * streamBit bytes (11 * k + i))) ∧
      (∀ n, n < hw.MAX_RC_CHANNELS → (∀ k, k < 8 → Config.ChannelOrder.getD k 0 ≠ n) →
        r.RxChannel.getD n 0 = sbusConvert 0))
    25 (by norm_num) h25 (by norm_num) s0 ?_ ?_ ?_ evs hp hlen
  · intro ev he hgap
    exact (USART_start_Holds hw Config ev s0 he hgap (by omega)).2.2.trans hrx
  · intro s ev bytes hs hi _ hl he hgap
    exact (USART_cont_Holds hw Config ev s bytes hs he hgap (by omega) (by omega)).2.2.trans hi
  · intro s ev bytes hs hi _ hl he hgap
    obtain ⟨r1, r2, r3, r4⟩ := sbus_final hw Config ev s hm he hgap
      (by rw [hs.bytecount]; omega)
    have hH := (USART_cont_Holds hw Config ev s bytes hs he hgap (by omega) (by omega)).1
    have hrc : s.rcindex < hw.SBUFFER_SIZE := by rw [hs.rcindex]; omega
    rw [if_pos hrc] at r4
    have hbuf : ∀ i, (s.sBuffer.set s.rcindex ev.UDR0).getD i 0 = (bytes ++ [ev.UDR0]).getD i 0 := by
      intro i
      rw [getD_set, getD_concat, hs.rcindex, hs.length, hs.buffer]
      by_cases hi : i = bytes.length
      · rw [if_pos ⟨hi.symm, by omega⟩, if_pos hi]
      · rw [if_neg (fun h => hi h.1.symm), if_neg hi]
    obtain ⟨p1, p2⟩ := sbus_published hw Config (s.sBuffer.set s.rcindex ev.UDR0) s.RxChannel
      hi hinj hlt
    refine ⟨r1, r2, r3, ?_, ?_⟩
    · intro k hk
      rw [r4, p1 k hk]
      apply congrArg sbusConvert
      apply Finset.sum_congr rfl
      intro i _
      rw [streamBit_congr _ _ hbuf]
    · intro n hn hne
      rw [r4, p2 n hn hne]


/-! ## Claims C1 to C3: S-Bus -/

/-- C1 (S-Bus mid-stick scenario). In SBUS mode, on the eight-entry channel vector `isr.c` is
written for, after a 25-byte packet that starts after a gap of more than 2500 ticks and consists
of `0x0F`, 22 data bytes encoding sixteen 11-bit channels all equal to 1024, flags `0x00` and
end byte `0x00`, with `ChannelOrder` a permutation of the channel indices: `Interrupted` is true
and every logical channel of `RxChannel` equals 3750; these are the entries
`RxChannel[ChannelOrder[k]]` of the eight stream positions `k = 0 .. 7` the decoder unpacks. -/
theorem C1_sbus_mid_stick (hw : Board) (Config : CONFIG) (s0 : State) (evs : List RxEvent)
    (hm : Config.RxMode = RxModes.SBUS) (h8 : hw.MAX_RC_CHANNELS = 8)
    (h25 : 25 ≤ hw.SBUFFER_SIZE) (hco : ChannelOrderOK hw Config)
    (hrx : s0.RxChannel.length = hw.MAX_RC_CHANNELS)
    (hp : IsPacket s0.PPMSyncStart evs) (hb : bytesOf evs = sbusMidStick) :
    (runRx hw Config evs s0).Interrupted = true ∧
    (∀ n, n < hw.MAX_RC_CHANNELS → (runRx hw Config evs s0).RxChannel.getD n 0 = 3750) ∧
    (∀ k, k < 8 →
      (runRx hw Config evs s0).RxChannel.getD (Config.ChannelOrder.getD k 0) 0 = 3750) := by
  have hlen : evs.length = 25 := by
    have : (bytesOf evs).length = 25 := by rw [hb]; rfl
    simpa [bytesOf] using this
  obtain ⟨r1, _, _, r4, _⟩ := sbus_packet hw Config s0 evs hm h25 hrx
    (fun a ha b hb' h => channelOrder_inj hco a (by omega) b (by omega) h)
    (fun k hk => channelOrder_lt hco k (by omega)) hp hlen
  have hsum : ∀ k, k < 8 →
      ∑ i ∈ Finset.range 11, 2 ^ i * streamBit sbusMidStick (11 * k + i) = 1024 := by decide
  have hc1 : sbusConvert 1024 = 3750 := by decide
  have hpos : ∀ k, k < 8 →
      (runRx hw Config evs s0).RxChannel.getD (Config.ChannelOrder.getD k 0) 0 = 3750 := by
    intro k hk
    rw [r4 k hk, hb, hsum k hk, hc1]
  refine ⟨r1, ?_, hpos⟩
  intro n hn
  obtain ⟨k, hk, hkn⟩ := channelOrder_surj hco n hn
  rw [← hkn]
  exact hpos k (by omega)

/-- Witness for C1: the mid-stick packet received by the eight channel board with the reversed
channel order; logical channels 0 and 7 are 3750. -/
theorem C1_sbus_mid_stick_witness :
    (runRx board8 (reversedOrder RxModes.SBUS) (eventsAt 3000 sbusMidStick)
      (filledState board8 0)).Interrupted = true ∧
    (runRx board8 (reversedOrder RxModes.SBUS) (eventsAt 3000 sbusMidStick)
      (filledState board8 0)).RxChannel.getD 0 0 = 3750 ∧
    (runRx board8 (reversedOrder RxModes.SBUS) (eventsAt 3000 sbusMidStick)
      (filledState board8 0)).RxChannel.getD 7 0 = 3750 :=
  have h := C1_sbus_mid_stick board8 (reversedOrder RxModes.SBUS) (filledState board8 0)
    (eventsAt 3000 sbusMidStick) rfl rfl (by decide) (by decide) (by decide)
    (by decide) (by decide)
  ⟨h.1, h.2.1 0 (by decide), h.2.1 7 (by decide)⟩

/-- C2 (S-Bus bit unpacking). For every content of the packet buffer and every stream position
`k` in `0 .. 7`, the raw value the decoder has accumulated in `RxChannel[ChannelOrder[k]]` after
the unpacking loop, before normalisation, is the sum over `i` in `0 .. 10` of `2 ^ i` times
stream bit `11 k + i`, where stream bit `b` is bit `b mod 8` of packet byte `1 + b div 8`
(`ChannelOrder` injective on `0 .. 7` with values inside the channel vector). Pass `j` of the 88
passes reads packet byte `1 + j div 8` for stream position `j div 11`; these are exactly the
bytes `1 .. 11` and the positions `0 .. 7`, and the loop ends at byte index 12, position 8. -/
theorem C2_sbus_unpack (hw : Board) (Config : CONFIG) (sBuffer RxChannel : List Nat)
    (hrx : RxChannel.length = hw.MAX_RC_CHANNELS)
    (hinj : ∀ a, a < 8 → ∀ b, b < 8 →
      Config.ChannelOrder.getD a 0 = Config.ChannelOrder.getD b 0 → a = b)
    (hlt : ∀ k, k < 8 → Config.ChannelOrder.getD k 0 < hw.MAX_RC_CHANNELS) :
    (∀ k, k < 8 →
      (sbusRaw hw Config sBuffer RxChannel).RxChannel.getD (Config.ChannelOrder.getD k 0) 0 =
        ∑ i ∈ Finset.range 11, 2 ^ i * streamBit sBuffer (11 * k + i)) ∧
    (∀ j, j < 88 →
      (sbusLoop Config sBuffer j (sbusInit (clearChannels hw RxChannel))).sindex = 1 + j / 8 ∧
      (sbusLoop Config sBuffer j (sbusInit (clearChannels hw RxChannel))).chan_shift = j / 11) ∧
    (∀ B, 1 ≤ B → B ≤ 11 → ∃ j, j < 88 ∧
      (sbusLoop Config sBuffer j (sbusInit (clearChannels hw RxChannel))).sindex = B) ∧
    (∀ k, k < 8 → ∃ j, j < 88 ∧
      (sbusLoop Config sBuffer j (sbusInit (clearChannels hw RxChannel))).chan_shift = k) ∧
    (sbusRaw hw Config sBuffer RxChannel).sindex = 12 ∧
    (sbusRaw hw Config sBuffer RxChannel).chan_shift = 8 := by
  have hcl : (clearChannels hw RxChannel).length = hw.MAX_RC_CHANNELS := by
    rw [clearChannels_length, hrx]
  obtain ⟨_, v2, _⟩ := sbusLoop_values Config sBuffer (clearChannels hw RxChannel)
    (fun a b ha hb => hinj a ha b hb) (fun k hk => by rw [hcl]; exact hlt k hk)
    (fun k hk => by rw [clearChannels_getD, if_pos (hlt k hk)]) 88 (le_refl _)
  have hctl := sbusLoop_control Config sBuffer (clearChannels hw RxChannel)
  refine ⟨?_, ?_, ?_, ?_, ?_, ?_⟩
  · intro k hk
    unfold sbusRaw
    rw [v2 k hk, sbusPartial_full sBuffer k hk]
  · intro j hj
    exact ⟨(hctl j (by omega)).1, (hctl j (by omega)).2.2.2⟩
  · intro B h1 h2
    refine ⟨8 * (B - 1), by omega, ?_⟩
    rw [(hctl (8 * (B - 1)) (by omega)).1]
    omega
  · intro k hk
    refine ⟨11 * k, by omega, ?_⟩
    rw [(hctl (11 * k) (by omega)).2.2.2]
    omega
  · unfold sbusRaw
    rw [(hctl 88 (le_refl _)).1]
  · unfold sbusRaw
    rw [(hctl 88 (le_refl _)).2.2.2]

/-- Witness for C2: the mid-stick packet, reversed channel order on eight channels; stream
position 3 goes to logical channel 4 and its raw value is 1024. -/
theorem C2_sbus_unpack_witness :
    (sbusRaw board8 (reversedOrder RxModes.SBUS) sbusMidStick
        [9, 9, 9, 9, 9, 9, 9, 9]).RxChannel.getD 4 0 =
      ∑ i ∈ Finset.range 11, 2 ^ i * streamBit sbusMidStick (11 * 3 + i) :=
  (C2_sbus_unpack board8 (reversedOrder RxModes.SBUS) sbusMidStick [9, 9, 9, 9, 9, 9, 9, 9] rfl
    (by decide) (by decide)).1 3 (by decide)

/-- C3 (S-Bus end-of-frame contract). In SBUS mode the error free byte received when the byte
count is 24 and that continues the packet (gap of at most `PACKET_TIMER` ticks) completes the
frame whatever its value and whatever the buffer holds at index 23: the handler sets
`Interrupted = true`, `Overdue = false`, `RC_Timeout = 0` and publishes the channels decoded
from the buffer; the published vector is the same for every value `f` of the flags byte at
index 23 and every value of the end byte. For the last two parts the write index is past the
channel bytes (`12 ≤ rcindex`), as in every state reached with byte count 24. -/
theorem C3_sbus_end_byte (hw : Board) (Config : CONFIG) (s : State) (ev ev' : RxEvent)
    (f : Nat) (hm : Config.RxMode = RxModes.SBUS) (he : errorFree ev) (he' : errorFree ev')
    (ht : ev'.TCNT1 = ev.TCNT1)
    (hgap : currentPeriod ev.TCNT1 s.PPMSyncStart ≤ PACKET_TIMER)
    (hb : s.bytecount = 24) :
    (USART0_RX_vect hw Config ev s).Interrupted = true ∧
    (USART0_RX_vect hw Config ev s).Overdue = false ∧
    (USART0_RX_vect hw Config ev s).RC_Timeout = 0 ∧
    (12 ≤ s.rcindex →
      (USART0_RX_vect hw Config ev s).RxChannel =
        sbusConvertAll hw (sbusRaw hw Config s.sBuffer s.RxChannel).RxChannel ∧
      (USART0_RX_vect hw Config ev' { s with sBuffer := s.sBuffer.set 23 f }).RxChannel =
        (USART0_RX_vect hw Config ev s).RxChannel) := by
  obtain ⟨r1, r2, r3, r4⟩ := sbus_final hw Config ev s hm he hgap hb
  obtain ⟨_, _, _, q4⟩ := sbus_final hw Config ev' { s with sBuffer := s.sBuffer.set 23 f } hm
    he' (by rw [ht]; exact hgap) hb
  refine ⟨r1, r2, r3, ?_⟩
  intro hrc
  have key : ∀ (B : List Nat), (∀ i, 1 ≤ i → i ≤ 11 → B.getD i 0 = s.sBuffer.getD i 0) →
      sbusRaw hw Config B s.RxChannel = sbusRaw hw Config s.sBuffer s.RxChannel := by
    intro B hB
    unfold sbusRaw
    exact sbusLoop_congr Config B s.sBuffer _ hB 88 (le_refl _)
  have e1 : sbusRaw hw Config
      (if s.rcindex < hw.SBUFFER_SIZE then s.sBuffer.set s.rcindex ev.UDR0 else s.sBuffer)
      s.RxChannel = sbusRaw hw Config s.sBuffer s.RxChannel := by
    apply key
    intro i h1 h2
    split_ifs
    · exact getD_set_ne _ _ _ _ _ (by omega)
    · rfl
  have e2 : sbusRaw hw Config
      (if s.rcindex < hw.SBUFFER_SIZE then (s.sBuffer.set 23 f).set s.rcindex ev'.UDR0
        else s.sBuffer.set 23 f)
      s.RxChannel = sbusRaw hw Config s.sBuffer s.RxChannel := by
    apply key
    intro i h1 h2
    split_ifs
    · rw [getD_set_ne _ _ _ _ _ (by omega), getD_set_ne _ _ _ _ _ (by omega)]
    · exact getD_set_ne _ _ _ _ _ (by omega)
  rw [e1] at r4
  refine ⟨r4, ?_⟩
  rw [r4, q4]
  exact congrArg (fun l => sbusConvertAll hw l.RxChannel) e2

/-- Witness for C3: the state 24 bytes into the mid-stick packet, end bytes `0x00` and `0x34`,
flags byte `0x30`. -/
theorem C3_sbus_end_byte_witness :
    (USART0_RX_vect board8 (idOrder RxModes.SBUS 8)
      { UCSR0A := 0, UDR0 := 0x00, TCNT1 := 5400, TCNT2 := 0 }
      (runRx board8 (idOrder RxModes.SBUS 8) (eventsAt 3000 (sbusMidStick.take 24))
        (filledState board8 0))).Interrupted = true :=
  (C3_sbus_end_byte board8 (idOrder RxModes.SBUS 8)
    (runRx board8 (idOrder RxModes.SBUS 8) (eventsAt 3000 (sbusMidStick.take 24))
      (filledState board8 0))
    { UCSR0A := 0, UDR0 := 0x00, TCNT1 := 5400, TCNT2 := 0 }
    { UCSR0A := 0, UDR0 := 0x34, TCNT1 := 5400, TCNT2 := 0 } 0x30
    rfl (by decide) (by decide) rfl (by decide) (by decide)).1

/-! ## CRC protected packets: rejection -/

theorem samePublished_refl (s : State) : SamePublished s s := ⟨rfl, rfl, rfl, rfl⟩

theorem samePublished_trans {a b c : State} (h1 : SamePublished a b) (h2 : SamePublished b c) :
    SamePublished a c :=
  ⟨h2.1.trans h1.1, h2.2.1.trans h1.2.1, h2.2.2.1.trans h1.2.2.1, h2.2.2.2.trans h1.2.2.2⟩

theorem jitter_published (s : State) : SamePublished s (jitter s) := by
  unfold jitter
  split_ifs
  · exact ⟨rfl, rfl, rfl, rfl⟩
  · exact samePublished_refl s

theorem commonEntry_published (hw : Board) (b t : Nat) (s : State) :
    SamePublished s (commonEntry hw b t s) := by
  unfold commonEntry
  dsimp only
  split_ifs <;> exact ⟨rfl, rfl, rfl, rfl⟩

/-- Either the CRC test passed, or the CRC block changed nothing. -/
theorem crcPublish_rejects (hw : Board) (Config : CONFIG) (ofs : Nat) (f : Nat → Nat) (T : Nat)
    (s : State) (h : checkcrcOf s.sBuffer s.packet_size ≠ crcLoop s.sBuffer s.packet_size) :
    crcPublish hw Config ofs f T s = s := by
  unfold crcPublish
  dsimp only
  rw [if_neg h]

theorem crcPublish_buffer (hw : Board) (Config : CONFIG) (ofs : Nat) (f : Nat → Nat) (T : Nat)
    (s : State) :
    (crcPublish hw Config ofs f T s).sBuffer = s.sBuffer ∧
    (crcPublish hw Config ofs f T s).packet_size = s.packet_size := by
  unfold crcPublish
  dsimp only
  split_ifs <;> exact ⟨rfl, rfl⟩

theorem modebSize_published (s : State) :
    SamePublished s (modebSize s) := by
  unfold modebSize
  split_ifs <;> exact ⟨rfl, rfl, rfl, rfl⟩

theorem sumdSize_published (s : State) :
    SamePublished s (sumdSize s) := by
  unfold sumdSize
  split_ifs <;> exact ⟨rfl, rfl, rfl, rfl⟩

/-- The Mode B block with a CRC mismatch in the buffer it leaves. -/
theorem modeb_rejects (hw : Board) (Config : CONFIG) (T : Nat) (s : State)
    (h : checkcrcOf (modeb hw Config T s).sBuffer (modeb hw Config T s).packet_size ≠
      crcLoop (modeb hw Config T s).sBuffer (modeb hw Config T s).packet_size) :
    SamePublished s (modeb hw Config T s) := by
  unfold modeb modebCheck at h ⊢
  split_ifs at h ⊢ with hc
  · obtain ⟨e1, e2⟩ := crcPublish_buffer hw Config 1 modebConvert T (modebSize s)
    rw [e1, e2] at h
    rw [crcPublish_rejects hw Config 1 modebConvert T (modebSize s) h]
    exact modebSize_published s
  · exact modebSize_published s

/-- The SUMD block with a CRC mismatch in the buffer it leaves. -/
theorem sumd_rejects (hw : Board) (Config : CONFIG) (T : Nat) (s : State)
    (h : checkcrcOf (sumd hw Config T s).sBuffer (sumd hw Config T s).packet_size ≠
      crcLoop (sumd hw Config T s).sBuffer (sumd hw Config T s).packet_size) :
    SamePublished s (sumd hw Config T s) := by
  unfold sumd sumdCheck at h ⊢
  split_ifs at h ⊢ with hc
  · obtain ⟨e1, e2⟩ := crcPublish_buffer hw Config 3 sumdConvert T (sumdSize s)
    rw [e1, e2] at h
    rw [crcPublish_rejects hw Config 3 sumdConvert T (sumdSize s) h]
    exact sumdSize_published s
  · exact sumdSize_published s

/-- C7 (CRC rejection leaves the published state untouched). In MODEB and in SUMD mode, for
every state (so after every byte sequence) and every received byte: if, in the packet buffer
and with the packet size the handler leaves, the big-endian 16-bit value in the last two packet
bytes differs from the CRC-CCITT of the first `packet_size - 2` bytes, then the handler has left
every entry of `RxChannel` and `Interrupted`, `Overdue` and `RC_Timeout` unchanged. This covers
the byte that completes a frame (byte count `packet_size - 1`) with a wrong CRC. -/
theorem C7_crc_rejection (hw : Board) (Config : CONFIG) (ev : RxEvent) (s : State)
    (hm : Config.RxMode = RxModes.MODEB ∨ Config.RxMode = RxModes.SUMD)
    (hcrc : checkcrcOf (USART0_RX_vect hw Config ev s).sBuffer
        (USART0_RX_vect hw Config ev s).packet_size ≠
      crcLoop (USART0_RX_vect hw Config ev s).sBuffer
        (USART0_RX_vect hw Config ev s).packet_size) :
    (USART0_RX_vect hw Config ev s).RxChannel = s.RxChannel ∧
    (USART0_RX_vect hw Config ev s).Interrupted = s.Interrupted ∧
    (USART0_RX_vect hw Config ev s).Overdue = s.Overdue ∧
    (USART0_RX_vect hw Config ev s).RC_Timeout = s.RC_Timeout := by
  unfold USART0_RX_vect at hcrc ⊢
  dsimp only at hcrc ⊢
  split_ifs at hcrc ⊢
  · exact jitter_published s
  · exact jitter_published s
  · have h1 := jitter_published s
    have h2 := commonEntry_published hw ev.UDR0 ev.TCNT1 (jitter s)
    unfold validData at hcrc ⊢
    rcases hm with hm | hm
    · rw [decode_modeb hw Config _ _ _ hm] at hcrc ⊢
      have h3 := modeb_rejects hw Config ev.TCNT2 (commonEntry hw ev.UDR0 ev.TCNT1 (jitter s))
        hcrc
      exact samePublished_trans (samePublished_trans h1 h2) h3
    · rw [decode_sumd hw Config _ _ _ hm] at hcrc ⊢
      have h3 := sumd_rejects hw Config ev.TCNT2 (commonEntry hw ev.UDR0 ev.TCNT1 (jitter s))
        hcrc
      exact samePublished_trans (samePublished_trans h1 h2) h3

/-- Witness for C7: the Mode B centre packet with its last CRC byte replaced by `0xFF`. -/
theorem C7_crc_rejection_witness :
    (USART0_RX_vect board8 (idOrder RxModes.MODEB 8)
      { UCSR0A := 0, UDR0 := 0xFF, TCNT1 := 5600, TCNT2 := 0 }
      (runRx board8 (idOrder RxModes.MODEB 8) (eventsAt 3000 (modebCentre.take 26))
        (filledState board8 7))).RxChannel = List.replicate 8 7 ∧
    (USART0_RX_vect board8 (idOrder RxModes.MODEB 8)
      { UCSR0A := 0, UDR0 := 0xFF, TCNT1 := 5600, TCNT2 := 0 }
      (runRx board8 (idOrder RxModes.MODEB 8) (eventsAt 3000 (modebCentre.take 26))
        (filledState board8 7))).Interrupted = false :=
  have h := C7_crc_rejection board8 (idOrder RxModes.MODEB 8)
    { UCSR0A := 0, UDR0 := 0xFF, TCNT1 := 5600, TCNT2 := 0 }
    (runRx board8 (idOrder RxModes.MODEB 8) (eventsAt 3000 (modebCentre.take 26))
      (filledState board8 7)) (Or.inl rfl) (by decide)
  ⟨h.1.trans (by decide), h.2.1.trans (by decide)⟩

/-! ## SUMD packet size -/

/-- The packet size stored on the third byte: the truncation to eight bits comes before the
comparison with `MAXSUMDPACKET`. -/
theorem sumdSize_packet_size (s : State) (hb : s.bytecount = 2) :
    (sumdSize s).packet_size = min ((2 * s.sBuffer.getD 2 0 + 5) % 256) 69 := by
  unfold sumdSize
  rw [if_pos hb]
  show (if ((s.sBuffer.getD 2 0 <<< 1) + 5) % 256 > MAXSUMDPACKET then MAXSUMDPACKET
    else ((s.sBuffer.getD 2 0 <<< 1) + 5) % 256) = _
  rw [Nat.shiftLeft_eq, Nat.pow_one, Nat.mul_comm]
  unfold MAXSUMDPACKET
  split_ifs with h
  · exact (Nat.min_eq_right (Nat.le_of_lt h)).symm
  · exact (Nat.min_eq_left (Nat.le_of_not_lt h)).symm

/-- C10, the code at failing inputs (SUMD expected packet size). With channel-count byte 126 the
handler stores `packet_size = 1`, with 128 it stores 5 and with 255 it stores 3, where
`min (2 N + 5) 69` is 69: `(sBuffer[2] << 1) + 5` is truncated to the `uint8_t` variable
`packet_size` before the sanity check against `MAXSUMDPACKET`. -/
theorem C10_sumd_packet_size_truncated :
    (runRx board8 (idOrder RxModes.SUMD 8) (eventsAt 3000 [0xA8, 0x01, 126])
      (filledState board8 0)).packet_size = 1 ∧
    (runRx board8 (idOrder RxModes.SUMD 8) (eventsAt 3000 [0xA8, 0x01, 128])
      (filledState board8 0)).packet_size = 5 ∧
    (runRx board8 (idOrder RxModes.SUMD 8) (eventsAt 3000 [0xA8, 0x01, 255])
      (filledState board8 0)).packet_size = 3 ∧
    min (2 * 126 + 5) 69 = 69 ∧ min (2 * 128 + 5) 69 = 69 ∧ min (2 * 255 + 5) 69 = 69 := by
  decide

/-! ## Induction along a given packet -/

theorem take_succ_getD (frame : List Nat) (k : Nat) (hk : k < frame.length) :
    frame.take (k + 1) = frame.take k ++ [frame.getD k 0] := by
  rw [List.take_succ, List.getD_eq_getElem _ _ hk, List.getElem?_eq_getElem hk]
  rfl

theorem eq_take_of_concat (frame bytes : List Nat) (b : Nat)
    (h : bytes ++ [b] = frame.take (bytes.length + 1)) (hk : bytes.length < frame.length) :
    bytes = frame.take bytes.length ∧ b = frame.getD bytes.length 0 := by
  rw [take_succ_getD frame _ hk] at h
  have hlen : bytes.length = (frame.take bytes.length).length := by
    rw [List.length_take]; omega
  have := List.append_inj h hlen
  exact ⟨this.1, by simpa using this.2⟩

/-- Induction along the bytes of a given packet `frame` received from state `s0`: `I k` holds
after `k` bytes, `P` after the last. -/
theorem frame_induction (hw : Board) (Config : CONFIG) (frame : List Nat)
    (I : Nat → State → Prop) (P : State → Prop)
    (hL0 : 2 ≤ frame.length) (hL : frame.length ≤ hw.SBUFFER_SIZE) (hL2 : frame.length ≤ 255)
    (s0 : State)
    (hstart : ∀ ev, errorFree ev → PACKET_TIMER < currentPeriod ev.TCNT1 s0.PPMSyncStart →
      ev.UDR0 = frame.getD 0 0 → I 1 (USART0_RX_vect hw Config ev s0))
    (hstep : ∀ s ev k, 1 ≤ k → k + 1 < frame.length → Holds hw (frame.take k) s → I k s →
      errorFree ev → currentPeriod ev.TCNT1 s.PPMSyncStart ≤ PACKET_TIMER →
      ev.UDR0 = frame.getD k 0 → I (k + 1) (USART0_RX_vect hw Config ev s))
    (hfinal : ∀ s ev k, 1 ≤ k → k + 1 = frame.length → Holds hw (frame.take k) s → I k s →
      errorFree ev → currentPeriod ev.TCNT1 s.PPMSyncStart ≤ PACKET_TIMER →
      ev.UDR0 = frame.getD k 0 → Holds hw frame (USART0_RX_vect hw Config ev s) →
      P (USART0_RX_vect hw Config ev s))
    (evs : List RxEvent) (hp : IsPacket s0.PPMSyncStart evs) (hb : bytesOf evs = frame) :
    P (runRx hw Config evs s0) := by
  have hlen : evs.length = frame.length := by
    rw [← hb]; simp [bytesOf]
  have key := packet_induction hw Config
    (fun bytes s => bytes = frame.take bytes.length → I bytes.length s)
    (fun bytes r => bytes = frame → P r)
    frame.length hL0 hL hL2 s0 ?_ ?_ ?_ evs hp hlen
  · exact key hb
  · intro ev he hgap hpre
    have h0 : frame.getD 0 0 = ev.UDR0 := by
      have h1 : 0 < frame.length := by omega
      have := (eq_take_of_concat frame [] ev.UDR0 (by simpa using hpre) h1).2
      exact this.symm
    exact hstart ev he hgap h0.symm
  · intro s ev bytes hs hi h1 hl he hgap hpre
    rw [List.length_append, List.length_singleton] at hpre ⊢
    obtain ⟨e1, e2⟩ := eq_take_of_concat frame bytes ev.UDR0 hpre (by omega)
    exact hstep s ev bytes.length h1 hl (e1 ▸ hs) (hi e1) he hgap e2
  · intro s ev bytes hs hi h1 hl he hgap hfull
    have hpre : bytes ++ [ev.UDR0] = frame.take (bytes.length + 1) := by
      rw [hl, List.take_length]; exact hfull
    obtain ⟨e1, e2⟩ := eq_take_of_concat frame bytes ev.UDR0 hpre (by omega)
    have hH := (USART_cont_Holds hw Config ev s bytes hs he hgap (by omega) (by omega)).1
    rw [hfull] at hH
    exact hfinal s ev bytes.length h1 hl (e1 ▸ hs) (hi e1) he hgap e2 hH

/-! ## The handler as common entry code, protocol block and exit code -/

theorem USART_valid_eq (hw : Board) (Config : CONFIG) (ev : RxEvent) (s : State)
    (he : errorFree ev) :
    USART0_RX_vect hw Config ev s =
      { (decode hw Config ev.UDR0 ev.TCNT2 (commonEntry hw ev.UDR0 ev.TCNT1 (jitter s))) with bytecount := ((decode hw Config ev.UDR0 ev.TCNT2 (commonEntry hw ev.UDR0 ev.TCNT1 (jitter s))).bytecount + 1) % 256 } := by
  rw [USART0_RX_vect_valid hw Config ev s he]
  rfl

/-- The state after the common entry code for the first byte of a packet. -/
theorem entry_start (hw : Board) (ev : RxEvent) (s : State)
    (hgap : PACKET_TIMER < currentPeriod ev.TCNT1 s.PPMSyncStart) (hsz : 0 < hw.SBUFFER_SIZE) :
    commonEntry hw ev.UDR0 ev.TCNT1 (jitter s) =
      { (jitter s) with rcindex := 1, bytecount := 0, ch_num := 0, checksum := 0, chanmask16 := 0, FrameRate := currentPeriod ev.TCNT1 s.PPMSyncStart, sBuffer := (List.replicate hw.SBUFFER_SIZE 0).set 0 ev.UDR0, PPMSyncStart := ev.TCNT1 } := by
  have hj := (jitter_fields s).2.2.2.2.2.2.2.2.2.2.2
  rw [commonEntry_start hw ev.UDR0 ev.TCNT1 (jitter s) (by rw [hj]; exact hgap) hsz, hj]

/-- The state after the common entry code for a byte that continues a packet held so far. -/
theorem entry_cont (hw : Board) (ev : RxEvent) (s : State) (bytes : List Nat)
    (hs : Holds hw bytes s) (hgap : currentPeriod ev.TCNT1 s.PPMSyncStart ≤ PACKET_TIMER)
    (hsz : bytes.length < hw.SBUFFER_SIZE) (h255 : bytes.length < 255) :
    commonEntry hw ev.UDR0 ev.TCNT1 (jitter s) =
      { (jitter s) with PPMSyncStart := ev.TCNT1, sBuffer := s.sBuffer.set bytes.length ev.UDR0, rcindex := bytes.length + 1 } := by
  obtain ⟨_, _, _, _, _, _, _, _, _, j10, j11, j12⟩ := jitter_fields s
  rw [commonEntry_cont hw ev.UDR0 ev.TCNT1 (jitter s) (by rw [j12]; exact hgap)
    (by rw [j11, hs.rcindex]; exact hsz), j10, j11, hs.rcindex,
    Nat.mod_eq_of_lt (by omega : bytes.length + 1 < 256)]

theorem jitter_other_fields (s : State) :
    (jitter s).TempRxChannel = s.TempRxChannel ∧ (jitter s).Servo_TCNT2 = s.Servo_TCNT2 ∧
    (jitter s).FrameRate = s.FrameRate := by
  unfold jitter
  split_ifs <;> exact ⟨rfl, rfl, rfl⟩

/-- The buffer after the common entry code holds the packet so far. -/
theorem set_holds (hw : Board) (s : State) (bytes : List Nat) (b : Nat) (hs : Holds hw bytes s)
    (hsz : bytes.length < hw.SBUFFER_SIZE) (i : Nat) :
    (s.sBuffer.set bytes.length b).getD i 0 = (bytes ++ [b]).getD i 0 := by
  rw [getD_set, getD_concat, hs.length, hs.buffer]
  by_cases hi : i = bytes.length
  · rw [if_pos ⟨hi.symm, hsz⟩, if_pos hi]
  · rw [if_neg (fun h => hi h.1.symm), if_neg hi]

/-! ## Loops that place channel words -/

/-- A loop `for (j = 0; j < m; j++) a[j] = g (j)`. -/
theorem foldl_index_getD (g : Nat → Nat) (m : Nat) (rx : List Nat) (n : Nat) :
    ((List.range m).foldl (fun rx j => rx.set j (g j)) rx).getD n 0 =
      if n < m ∧ n < rx.length then g n else rx.getD n 0 := by
  induction m with
  | zero => simp
  | succ m ih =>
    rw [List.range_succ, List.foldl_append]
    simp only [List.foldl_cons, List.foldl_nil]
    rw [getD_set, foldl_set_length (fun _ j => g j) (fun j => j)]
    by_cases h1 : m = n
    · subst h1
      by_cases h2 : m < rx.length
      · rw [if_pos ⟨rfl, h2⟩, if_pos ⟨by omega, h2⟩]
      · rw [if_neg (fun h => h2 h.2), ih, if_neg (by omega), if_neg (fun h => h2 h.2)]
    · rw [if_neg (fun h => h1 h.1), ih]
      by_cases h3 : n < m ∧ n < rx.length
      · rw [if_pos h3, if_pos ⟨by omega, h3.2⟩]
      · rw [if_neg h3, if_neg (by omega)]

theorem copyChannels_length (hw : Board) (ofs : Nat) (buf t : List Nat) :
    (copyChannels hw ofs buf t).length = t.length :=
  foldl_set_length (fun _ j =>
    ((buf.getD ((j <<< 1) + ofs) 0 <<< 8) % 65536) ||| buf.getD ((j <<< 1) + ofs + 1) 0)
    (fun j => j) _ t

theorem copyChannels_getD (hw : Board) (ofs : Nat) (buf t : List Nat) (j : Nat)
    (hj : j < hw.MAX_RC_CHANNELS) (hlen : t.length = hw.MAX_RC_CHANNELS) :
    (copyChannels hw ofs buf t).getD j 0 =
      ((buf.getD (2 * j + ofs) 0 <<< 8) % 65536) ||| buf.getD (2 * j + ofs + 1) 0 := by
  unfold copyChannels
  rw [foldl_index_getD (fun j =>
    ((buf.getD ((j <<< 1) + ofs) 0 <<< 8) % 65536) ||| buf.getD ((j <<< 1) + ofs + 1) 0),
    if_pos ⟨hj, by rw [hlen]; exact hj⟩]
  have e : j <<< 1 = 2 * j := by rw [Nat.shiftLeft_eq, Nat.pow_one, Nat.mul_comm]
  rw [e]

/-- The loop `RxChannel[Config.ChannelOrder[j]] = convert (TempRxChannel[j])` run for the first
`m` stream positions, for a channel order that is injective with values inside the vector. -/
theorem placeFold_getD (Config : CONFIG) (f : Nat → Nat) (t rx : List Nat) (M : Nat)
    (hinj : ∀ a, a < M → ∀ b, b < M →
      Config.ChannelOrder.getD a 0 = Config.ChannelOrder.getD b 0 → a = b)
    (hlt : ∀ k, k < M → Config.ChannelOrder.getD k 0 < rx.length) (m : Nat) (hm : m ≤ M) :
    (∀ i, i < m → ((List.range m).foldl
        (fun rx j => rx.set (Config.ChannelOrder.getD j 0) (f (t.getD j 0))) rx).getD
        (Config.ChannelOrder.getD i 0) 0 = f (t.getD i 0)) ∧
    (∀ n, (∀ j, j < m → Config.ChannelOrder.getD j 0 ≠ n) → ((List.range m).foldl
        (fun rx j => rx.set (Config.ChannelOrder.getD j 0) (f (t.getD j 0))) rx).getD n 0 =
        rx.getD n 0) := by
  induction m with
  | zero => exact ⟨fun i hi => absurd hi (Nat.not_lt_zero i), fun n _ => rfl⟩
  | succ m ih =>
    obtain ⟨ih1, ih2⟩ := ih (Nat.le_of_succ_le hm)
    rw [List.range_succ, List.foldl_append]
    simp only [List.foldl_cons, List.foldl_nil]
    constructor
    · intro i hi
      rw [getD_set, foldl_set_length (fun _ j => f (t.getD j 0))
        (fun j => Config.ChannelOrder.getD j 0)]
      by_cases him : i = m
      · subst him
        rw [if_pos ⟨rfl, hlt i (by omega)⟩]
      · have hne : ¬ Config.ChannelOrder.getD m 0 = Config.ChannelOrder.getD i 0 :=
          fun h => him (hinj m (by omega) i (by omega) h).symm
        rw [if_neg (fun h => hne h.1)]
        exact ih1 i (by omega)
    · intro n hn
      rw [getD_set_ne _ _ _ _ _ (hn m (by omega))]
      exact ih2 n (fun j hj => hn j (by omega))

theorem placeChannels_getD (hw : Board) (Config : CONFIG) (f : Nat → Nat) (t rx : List Nat)
    (hco : ChannelOrderOK hw Config) (hlen : rx.length = hw.MAX_RC_CHANNELS) :
    (∀ i, i < hw.MAX_RC_CHANNELS →
      (placeChannels hw Config f t rx).getD (Config.ChannelOrder.getD i 0) 0 = f (t.getD i 0)) ∧
    (∀ n, (∀ j, j < hw.MAX_RC_CHANNELS → Config.ChannelOrder.getD j 0 ≠ n) →
      (placeChannels hw Config f t rx).getD n 0 = rx.getD n 0) :=
  placeFold_getD Config f t rx hw.MAX_RC_CHANNELS (fun a ha b hb h => channelOrder_inj hco a ha b hb h)
    (fun k hk => by rw [hlen]; exact channelOrder_lt hco k hk) hw.MAX_RC_CHANNELS (le_refl _)

/-! ## CRC -/

/-- The CRC model gives the check value `0x31C3` of CRC-CCITT with initial value 0 (XMODEM) on
the ASCII digits `123456789`. -/
theorem CRC16_check_value :
    crcLoop [0x31, 0x32, 0x33, 0x34, 0x35, 0x36, 0x37, 0x38, 0x39] 11 = 0x31C3 := by
  decide

theorem crcLoop_congr (buf buf' : List Nat) (n : Nat) (h : ∀ i, buf.getD i 0 = buf'.getD i 0) :
    crcLoop buf n = crcLoop buf' n := by
  unfold crcLoop
  have : (fun crc j => CRC16 crc (buf.getD j 0)) = (fun crc j => CRC16 crc (buf'.getD j 0)) := by
    funext crc j; rw [h]
  rw [this]

theorem checkcrcOf_congr (buf buf' : List Nat) (n : Nat)
    (h : ∀ i, buf.getD i 0 = buf'.getD i 0) : checkcrcOf buf n = checkcrcOf buf' n := by
  unfold checkcrcOf
  rw [h, h]


/-! ## XBUS Mode B packets -/

theorem modeb_eval_first (hw : Board) (Config : CONFIG) (T : Nat) (s : State)
    (hb : s.bytecount = 0) (h0 : s.sBuffer.getD 0 0 = MODEB_SYNCBYTE) :
    modeb hw Config T s = { s with packet_size := XBUS_FRAME_SIZE_12 } := by
  unfold modeb modebSize
  rw [if_pos hb, if_pos h0]
  unfold modebCheck
  rw [if_neg]
  show ¬ ((s.bytecount : Int) = ((XBUS_FRAME_SIZE_12 : Nat) : Int) - 1)
  rw [hb]
  decide

theorem modeb_eval_quiet (hw : Board) (Config : CONFIG) (T : Nat) (s : State)
    (hb : s.bytecount ≠ 0) (hq : s.bytecount + 1 ≠ s.packet_size) :
    modeb hw Config T s = s := by
  unfold modeb modebSize
  rw [if_neg hb]
  unfold modebCheck
  rw [if_neg]
  intro h
  apply hq
  omega

theorem modeb_eval_last (hw : Board) (Config : CONFIG) (T : Nat) (s : State)
    (hb : s.bytecount ≠ 0) (hq : s.bytecount + 1 = s.packet_size) :
    modeb hw Config T s = crcPublish hw Config 1 modebConvert T s := by
  unfold modeb modebSize
  rw [if_neg hb]
  unfold modebCheck
  rw [if_pos]
  omega

theorem crcPublish_accepts (hw : Board) (Config : CONFIG) (ofs : Nat) (f : Nat → Nat) (T : Nat)
    (s : State) (h : checkcrcOf s.sBuffer s.packet_size = crcLoop s.sBuffer s.packet_size) :
    (crcPublish hw Config ofs f T s).Interrupted = true ∧
    (crcPublish hw Config ofs f T s).Overdue = false ∧
    (crcPublish hw Config ofs f T s).RC_Timeout = 0 ∧
    (crcPublish hw Config ofs f T s).RxChannel =
      placeChannels hw Config f (copyChannels hw ofs s.sBuffer s.TempRxChannel) s.RxChannel := by
  unfold crcPublish
  dsimp only
  rw [if_pos h]
  exact ⟨rfl, rfl, rfl, rfl⟩

/-- What a complete, CRC valid 12-channel Mode B packet publishes: stream position `i` of the
channel vector's `MAX_RC_CHANNELS` positions is the conversion of the big-endian word at packet
bytes `2 i + 1`, `2 i + 2`. -/
theorem modeb_packet (hw : Board) (Config : CONFIG) (s0 : State) (evs : List RxEvent)
    (hm : Config.RxMode = RxModes.MODEB) (h27 : 27 ≤ hw.SBUFFER_SIZE)
    (hco : ChannelOrderOK hw Config)
    (hrx : s0.RxChannel.length = hw.MAX_RC_CHANNELS)
    (htmp : s0.TempRxChannel.length = hw.MAX_RC_CHANNELS)
    (hp : IsPacket s0.PPMSyncStart evs) (hlen : (bytesOf evs).length = 27)
    (hid : (bytesOf evs).getD 0 0 = MODEB_SYNCBYTE)
    (hcrc : checkcrcOf (bytesOf evs) 27 = crcLoop (bytesOf evs) 27) :
    (runRx hw Config evs s0).Interrupted = true ∧
    (runRx hw Config evs s0).Overdue = false ∧
    (runRx hw Config evs s0).RC_Timeout = 0 ∧
    (∀ i, i < hw.MAX_RC_CHANNELS →
      (runRx hw Config evs s0).RxChannel.getD (Config.ChannelOrder.getD i 0) 0 =
        modebConvert ((((bytesOf evs).getD (2 * i + 1) 0 <<< 8) % 65536) |||
          (bytesOf evs).getD (2 * i + 1 + 1) 0)) := by
  refine frame_induction hw Config (bytesOf evs)
    (fun _ s => s.packet_size = 27 ∧ s.RxChannel.length = hw.MAX_RC_CHANNELS ∧
      s.TempRxChannel.length = hw.MAX_RC_CHANNELS)
    (fun r => r.Interrupted = true ∧ r.Overdue = false ∧ r.RC_Timeout = 0 ∧
      (∀ i, i < hw.MAX_RC_CHANNELS →
        r.RxChannel.getD (Config.ChannelOrder.getD i 0) 0 =
          modebConvert ((((bytesOf evs).getD (2 * i + 1) 0 <<< 8) % 65536) |||
            (bytesOf evs).getD (2 * i + 1 + 1) 0)))
    (by omega) (by omega) (by omega) s0 ?_ ?_ ?_ evs hp rfl
  · intro ev he hgap hb0
    have hc := entry_start hw ev s0 hgap (by omega)
    have hj := jitter_fields s0
    have hj2 := jitter_other_fields s0
    rw [USART_valid_eq hw Config ev s0 he, decode_modeb hw Config _ _ _ hm, hc,
      modeb_eval_first hw Config _ _ rfl
        (by
          show ((List.replicate hw.SBUFFER_SIZE 0).set 0 ev.UDR0).getD 0 0 = _
          rw [getD_set_self _ _ _ _ (by simpa using (by omega : 0 < hw.SBUFFER_SIZE)), hb0, hid])]
    exact ⟨rfl, hj.2.1 ▸ hrx, hj2.1 ▸ htmp⟩
  · intro s ev k hk1 hk2 hs hi he hgap _
    have hkl : (List.take k (bytesOf evs)).length = k := by rw [List.length_take]; omega
    have hc := entry_cont hw ev s _ hs hgap (by rw [hkl]; omega) (by rw [hkl]; omega)
    have hj := jitter_fields s
    have hj2 := jitter_other_fields s
    rw [USART_valid_eq hw Config ev s he, decode_modeb hw Config _ _ _ hm, hc,
      modeb_eval_quiet hw Config _ _
        (by show (jitter s).bytecount ≠ 0; rw [hj.1, hs.bytecount, hkl]; omega)
        (by
          show (jitter s).bytecount + 1 ≠ (jitter s).packet_size
          rw [hj.1, hj.2.2.2.2.2.1, hs.bytecount, hkl, hi.1]; omega)]
    exact ⟨hj.2.2.2.2.2.1 ▸ hi.1, hj.2.1 ▸ hi.2.1, hj2.1 ▸ hi.2.2⟩
  · intro s ev k hk1 hk2 hs hi he hgap hb hH
    have hkl : (List.take k (bytesOf evs)).length = k := by rw [List.length_take]; omega
    have hc := entry_cont hw ev s _ hs hgap (by rw [hkl]; omega) (by rw [hkl]; omega)
    have hj := jitter_fields s
    have hj2 := jitter_other_fields s
    have hr := USART_valid_eq hw Config ev s he
    rw [decode_modeb hw Config _ _ _ hm, hc,
      modeb_eval_last hw Config _ _
        (by show (jitter s).bytecount ≠ 0; rw [hj.1, hs.bytecount, hkl]; omega)
        (by
          show (jitter s).bytecount + 1 = (jitter s).packet_size
          rw [hj.1, hj.2.2.2.2.2.1, hs.bytecount, hkl, hi.1]; omega)] at hr
    have hbuf : ∀ i, (s.sBuffer.set (List.take k (bytesOf evs)).length ev.UDR0).getD i 0 =
        (bytesOf evs).getD i 0 := by
      intro i
      rw [set_holds hw s _ ev.UDR0 hs (by rw [hkl]; omega) i, hb,
        ← take_succ_getD _ _ (by omega), hk2, List.take_length]
    obtain ⟨a1, a2, a3, a4⟩ := crcPublish_accepts hw Config 1 modebConvert ev.TCNT2
      { (jitter s) with PPMSyncStart := ev.TCNT1, sBuffer := s.sBuffer.set (List.take k (bytesOf evs)).length ev.UDR0, rcindex := (List.take k (bytesOf evs)).length + 1 }
      (by
        show checkcrcOf (s.sBuffer.set (List.take k (bytesOf evs)).length ev.UDR0)
          (jitter s).packet_size = crcLoop _ (jitter s).packet_size
        rw [hj.2.2.2.2.2.1, hi.1, checkcrcOf_congr _ _ _ hbuf, crcLoop_congr _ _ _ hbuf]
        exact hcrc)
    rw [hr]
    refine ⟨a1, a2, a3, ?_⟩
    intro i hi'
    show (crcPublish hw Config 1 modebConvert ev.TCNT2 _).RxChannel.getD _ 0 = _
    rw [a4]
    show (placeChannels hw Config modebConvert
      (copyChannels hw 1 (s.sBuffer.set (List.take k (bytesOf evs)).length ev.UDR0)
        (jitter s).TempRxChannel) (jitter s).RxChannel).getD _ 0 = _
    rw [(placeChannels_getD hw Config modebConvert _ _ hco (by rw [hj.2.1]; exact hi.2.1)).1 i hi',
      copyChannels_getD hw 1 _ _ i hi' (by rw [hj2.1]; exact hi.2.2), hbuf, hbuf]


/-- C6, as amended (XBUS Mode B 12-channel centre scenario). In MODEB mode, after the 27-byte
packet made of `0xA1`, twelve big-endian words `0x0800` and the CRC-CCITT (polynomial `0x1021`,
initial value 0, MSB first, no final XOR) of those 25 bytes placed big-endian at bytes 25 and
26, received after a gap of more than 2500 ticks, `Interrupted` is true and
`RxChannel[ChannelOrder[i]] = 3750` for every stream position `i` in `0 .. 11` that is below
`MAX_RC_CHANNELS`, the number of entries of the channel vector: the copy and conversion loops
run over `j < MAX_RC_CHANNELS`, so on the eight-entry vector these are the positions
`0 .. 7`. -/
theorem C6_modeb_centre (hw : Board) (Config : CONFIG) (s0 : State) (evs : List RxEvent)
    (hm : Config.RxMode = RxModes.MODEB) (h27 : 27 ≤ hw.SBUFFER_SIZE)
    (hco : ChannelOrderOK hw Config)
    (hrx : s0.RxChannel.length = hw.MAX_RC_CHANNELS)
    (htmp : s0.TempRxChannel.length = hw.MAX_RC_CHANNELS)
    (hp : IsPacket s0.PPMSyncStart evs) (hb : bytesOf evs = modebCentre) :
    (runRx hw Config evs s0).Interrupted = true ∧
    (∀ i, i < 12 → i < hw.MAX_RC_CHANNELS →
      (runRx hw Config evs s0).RxChannel.getD (Config.ChannelOrder.getD i 0) 0 = 3750) := by
  obtain ⟨r1, _, _, r4⟩ := modeb_packet hw Config s0 evs hm h27 hco hrx htmp hp
    (by rw [hb]; decide) (by rw [hb]; decide) (by rw [hb]; decide)
  refine ⟨r1, ?_⟩
  intro i hi hi'
  have hword : ∀ i, i < 12 →
      modebConvert (((modebCentre.getD (2 * i + 1) 0 <<< 8) % 65536) |||
        modebCentre.getD (2 * i + 1 + 1) 0) = 3750 := by decide
  rw [r4 i hi', hb, hword i hi]

/-- Witness for C6: the centre packet received by the eight channel board with the reversed
channel order; stream positions 0 and 7 go to logical channels 7 and 0, both 3750. -/
theorem C6_modeb_centre_witness :
    (runRx board8 (reversedOrder RxModes.MODEB) (eventsAt 3000 modebCentre)
      (filledState board8 7)).Interrupted = true ∧
    (runRx board8 (reversedOrder RxModes.MODEB) (eventsAt 3000 modebCentre)
      (filledState board8 7)).RxChannel.getD 7 0 = 3750 ∧
    (runRx board8 (reversedOrder RxModes.MODEB) (eventsAt 3000 modebCentre)
      (filledState board8 7)).RxChannel.getD 0 0 = 3750 :=
  have h := C6_modeb_centre board8 (reversedOrder RxModes.MODEB) (filledState board8 7)
    (eventsAt 3000 modebCentre) rfl (by decide) (by decide) (by decide) (by decide) (by decide)
    (by decide)
  ⟨h.1, h.2 0 (by decide) (by decide), h.2 7 (by decide) (by decide)⟩

/-- Counterexample to C6 as stated: on the eight channel board with the identity channel order
the centre packet is accepted, the copy loop takes the eight words of stream positions
`0 .. 7` into `TempRxChannel` and the vector becomes eight times 3750; stream positions
`8 .. 11` have no entry `ChannelOrder[i]` and their words are not decoded, so
`RxChannel[ChannelOrder[i]] = 3750` does not hold for every `i` in `0 .. 11`. -/
theorem C6_modeb_centre_counterexample :
    (idOrder RxModes.MODEB 8).RxMode = RxModes.MODEB ∧
    ChannelOrderOK board8 (idOrder RxModes.MODEB 8) ∧
    IsPacket (filledState board8 7).PPMSyncStart (eventsAt 3000 modebCentre) ∧
    bytesOf (eventsAt 3000 modebCentre) = modebCentre ∧
    (runRx board8 (idOrder RxModes.MODEB 8) (eventsAt 3000 modebCentre)
      (filledState board8 7)).Interrupted = true ∧
    (runRx board8 (idOrder RxModes.MODEB 8) (eventsAt 3000 modebCentre)
      (filledState board8 7)).RxChannel = List.replicate 8 3750 ∧
    (runRx board8 (idOrder RxModes.MODEB 8) (eventsAt 3000 modebCentre)
      (filledState board8 7)).TempRxChannel = List.replicate 8 2048 ∧
    (idOrder RxModes.MODEB 8).ChannelOrder[8]? = none ∧
    ¬ (∀ i, i < 12 → ((idOrder RxModes.MODEB 8).ChannelOrder[i]?).bind
        (fun c => (runRx board8 (idOrder RxModes.MODEB 8) (eventsAt 3000 modebCentre)
          (filledState board8 7)).RxChannel[c]?) = some 3750) := by
  decide

/-! ## Spektrum: the slot loop -/

theorem spektrumLoop_succ (hw : Board) (Config : CONFIG) (buf : List Nat) (cm dm cs n : Nat)
    (l : SpekLoop) :
    spektrumLoop hw Config buf cm dm cs (n + 1) l =
      spektrumStep hw Config buf cm dm cs (spektrumLoop hw Config buf cm dm cs n l) := by
  induction n generalizing l with
  | zero => rfl
  | succ n ih =>
    show spektrumLoop hw Config buf cm dm cs (n + 1) (spektrumStep hw Config buf cm dm cs l) = _
    rw [ih]
    rfl

theorem spektrumStep_eq (hw : Board) (Config : CONFIG) (buf : List Nat) (cm dm cs j : Nat)
    (l : SpekLoop) (hs : l.sindex = 2 + 2 * j) :
    (spektrumStep hw Config buf cm dm cs l).sindex = (2 + 2 * j + 2) % 256 ∧
    (spektrumStep hw Config buf cm dm cs l).ch_num = spekId cm cs buf j ∧
    (spektrumStep hw Config buf cm dm cs l).RxChannel =
      if spekId cm cs buf j < hw.MAX_RC_CHANNELS then
        l.RxChannel.set (Config.ChannelOrder.getD (spekId cm cs buf j) 0) (spekValue dm cs buf j)
      else l.RxChannel := by
  unfold spektrumStep spekId spekValue
  rw [hs]
  exact ⟨rfl, rfl, rfl⟩

/-- The slot loop after `n` of its seven passes: only entries named by slots with a channel
number below `MAX_RC_CHANNELS` are written, and each of those holds the value of such a slot. -/
theorem spektrumLoop_effect (hw : Board) (Config : CONFIG) (buf : List Nat) (cm dm cs : Nat)
    (l0 : SpekLoop) (h0 : l0.sindex = 2) (n : Nat) (hn : n ≤ 7) :
    (spektrumLoop hw Config buf cm dm cs n l0).sindex = 2 + 2 * n ∧
    (∀ idx, (∀ j, j < n → spekId cm cs buf j < hw.MAX_RC_CHANNELS →
        Config.ChannelOrder.getD (spekId cm cs buf j) 0 ≠ idx) →
      (spektrumLoop hw Config buf cm dm cs n l0).RxChannel.getD idx 0 =
        l0.RxChannel.getD idx 0) ∧
    (∀ j, j < n → spekId cm cs buf j < hw.MAX_RC_CHANNELS →
      Config.ChannelOrder.getD (spekId cm cs buf j) 0 < l0.RxChannel.length →
      ∃ j', j' < n ∧ spekId cm cs buf j' < hw.MAX_RC_CHANNELS ∧
        Config.ChannelOrder.getD (spekId cm cs buf j') 0 =
          Config.ChannelOrder.getD (spekId cm cs buf j) 0 ∧
        (spektrumLoop hw Config buf cm dm cs n l0).RxChannel.getD
          (Config.ChannelOrder.getD (spekId cm cs buf j) 0) 0 = spekValue dm cs buf j') := by
  induction n with
  | zero =>
    refine ⟨h0, fun idx _ => rfl, fun j hj => absurd hj (Nat.not_lt_zero j)⟩
  | succ n ih =>
    obtain ⟨ih1, ih2, ih3⟩ := ih (Nat.le_of_succ_le hn)
    obtain ⟨e1, _, e3⟩ := spektrumStep_eq hw Config buf cm dm cs n
      (spektrumLoop hw Config buf cm dm cs n l0) ih1
    have hlen := spektrumLoop_length hw Config buf cm dm cs n l0
    rw [spektrumLoop_succ]
    refine ⟨?_, ?_, ?_⟩
    · rw [e1]
      have : 2 + 2 * n + 2 < 256 := by omega
      rw [Nat.mod_eq_of_lt this]
      ring
    · intro idx hidx
      rw [e3]
      split_ifs with hlt
      · rw [getD_set_ne _ _ _ _ _ (hidx n (Nat.lt_succ_self n) hlt)]
        exact ih2 idx (fun j hj => hidx j (Nat.lt_succ_of_lt hj))
      · exact ih2 idx (fun j hj => hidx j (Nat.lt_succ_of_lt hj))
    · intro j hj hjlt hjlen
      rw [e3]
      by_cases hlt : spekId cm cs buf n < hw.MAX_RC_CHANNELS
      · rw [if_pos hlt, getD_set]
        by_cases hsame : Config.ChannelOrder.getD (spekId cm cs buf n) 0 =
            Config.ChannelOrder.getD (spekId cm cs buf j) 0
        · rw [if_pos ⟨hsame, by rw [hlen, hsame]; exact hjlen⟩]
          exact ⟨n, Nat.lt_succ_self n, hlt, hsame, rfl⟩
        · rw [if_neg (fun h => hsame h.1)]
          have hjn : j < n := by
            rcases Nat.lt_succ_iff_lt_or_eq.mp hj with h | h
            · exact h
            · exact absurd (by rw [h]) hsame
          obtain ⟨j', hj', a, b, c⟩ := ih3 j hjn hjlt hjlen
          exact ⟨j', Nat.lt_succ_of_lt hj', a, b, c⟩
      · rw [if_neg hlt]
        have hjn : j < n := by
          rcases Nat.lt_succ_iff_lt_or_eq.mp hj with h | h
          · exact h
          · exact absurd (h ▸ hjlt) hlt
        obtain ⟨j', hj', a, b, c⟩ := ih3 j hjn hjlt hjlen
        exact ⟨j', Nat.lt_succ_of_lt hj', a, b, c⟩

theorem spekId_congr (cm cs : Nat) (buf buf' : List Nat)
    (h : ∀ i, buf.getD i 0 = buf'.getD i 0) (j : Nat) :
    spekId cm cs buf j = spekId cm cs buf' j := by
  unfold spekId; rw [h]

theorem spekValue_congr (dm cs : Nat) (buf buf' : List Nat)
    (h : ∀ i, buf.getD i 0 = buf'.getD i 0) (j : Nat) :
    spekValue dm cs buf j = spekValue dm cs buf' j := by
  unfold spekValue; rw [h, h]

theorem spektrum_eval_quiet (hw : Board) (Config : CONFIG) (temp T : Nat) (s : State)
    (hb : s.bytecount ≠ 15) : spektrum hw Config temp T s = s := by
  unfold spektrum
  rw [if_neg hb]

/-- The Spektrum block at byte count 15, with the masks selected by byte 1. -/
theorem spektrum_eval_last (hw : Board) (Config : CONFIG) (temp T : Nat) (s : State)
    (hb : s.bytecount = 15) :
    (spektrum hw Config temp T s).Interrupted = true ∧
    (spektrum hw Config temp T s).Overdue = false ∧
    (spektrum hw Config temp T s).RC_Timeout = 0 ∧
    (spektrum hw Config temp T s).RxChannel =
      (spektrumLoop hw Config (s.sBuffer.set 15 temp)
        (spekMasks ((s.sBuffer.set 15 temp).getD 1 0)).1
        (spekMasks ((s.sBuffer.set 15 temp).getD 1 0)).2.1
        (spekMasks ((s.sBuffer.set 15 temp).getD 1 0)).2.2 7
        { sindex := 2, ch_num := s.ch_num, RxChannel := s.RxChannel }).RxChannel := by
  unfold spektrum
  rw [if_pos hb]
  dsimp only [rcSync]
  refine ⟨rfl, rfl, rfl, ?_⟩
  unfold spekMasks
  split_ifs <;> rfl


/-! ## Spektrum packets -/

/-- What a complete Spektrum packet does to the channel vector: entries not named by a slot
with channel number below `MAX_RC_CHANNELS` keep their value, and an entry named by such a slot
holds the converted data of a slot naming it. -/
theorem spektrum_packet (hw : Board) (Config : CONFIG) (s0 : State) (evs : List RxEvent)
    (hm : Config.RxMode = RxModes.SPEKTRUM) (h16 : 16 ≤ hw.SBUFFER_SIZE)
    (hp : IsPacket s0.PPMSyncStart evs) (hlen : (bytesOf evs).length = 16) :
    (runRx hw Config evs s0).Interrupted = true ∧
    (runRx hw Config evs s0).Overdue = false ∧
    (runRx hw Config evs s0).RC_Timeout = 0 ∧
    (∀ idx, (∀ j, j < 7 →
        spekId (spekMasks ((bytesOf evs).getD 1 0)).1 (spekMasks ((bytesOf evs).getD 1 0)).2.2
          (bytesOf evs) j < hw.MAX_RC_CHANNELS →
        Config.ChannelOrder.getD (spekId (spekMasks ((bytesOf evs).getD 1 0)).1
          (spekMasks ((bytesOf evs).getD 1 0)).2.2 (bytesOf evs) j) 0 ≠ idx) →
      (runRx hw Config evs s0).RxChannel.getD idx 0 = s0.RxChannel.getD idx 0) ∧
    (∀ j, j < 7 →
      spekId (spekMasks ((bytesOf evs).getD 1 0)).1 (spekMasks ((bytesOf evs).getD 1 0)).2.2
        (bytesOf evs) j < hw.MAX_RC_CHANNELS →
      Config.ChannelOrder.getD (spekId (spekMasks ((bytesOf evs).getD 1 0)).1
        (spekMasks ((bytesOf evs).getD 1 0)).2.2 (bytesOf evs) j) 0 < s0.RxChannel.length →
      ∃ j', j' < 7 ∧
        spekId (spekMasks ((bytesOf evs).getD 1 0)).1 (spekMasks ((bytesOf evs).getD 1 0)).2.2
          (bytesOf evs) j' < hw.MAX_RC_CHANNELS ∧
        Config.ChannelOrder.getD (spekId (spekMasks ((bytesOf evs).getD 1 0)).1
          (spekMasks ((bytesOf evs).getD 1 0)).2.2 (bytesOf evs) j') 0 =
        Config.ChannelOrder.getD (spekId (spekMasks ((bytesOf evs).getD 1 0)).1
          (spekMasks ((bytesOf evs).getD 1 0)).2.2 (bytesOf evs) j) 0 ∧
        (runRx hw Config evs s0).RxChannel.getD
          (Config.ChannelOrder.getD (spekId (spekMasks ((bytesOf evs).getD 1 0)).1
            (spekMasks ((bytesOf evs).getD 1 0)).2.2 (bytesOf evs) j) 0) 0 =
          spekValue (spekMasks ((bytesOf evs).getD 1 0)).2.1
            (spekMasks ((bytesOf evs).getD 1 0)).2.2 (bytesOf evs) j') := by
  generalize hM : spekMasks ((bytesOf evs).getD 1 0) = M
  refine frame_induction hw Config (bytesOf evs)
    (fun _ s => s.RxChannel = s0.RxChannel)
    (fun r => r.Interrupted = true ∧ r.Overdue = false ∧ r.RC_Timeout = 0 ∧
      (∀ idx, (∀ j, j < 7 → spekId M.1 M.2.2 (bytesOf evs) j < hw.MAX_RC_CHANNELS →
          Config.ChannelOrder.getD (spekId M.1 M.2.2 (bytesOf evs) j) 0 ≠ idx) →
        r.RxChannel.getD idx 0 = s0.RxChannel.getD idx 0) ∧
      (∀ j, j < 7 → spekId M.1 M.2.2 (bytesOf evs) j < hw.MAX_RC_CHANNELS →
        Config.ChannelOrder.getD (spekId M.1 M.2.2 (bytesOf evs) j) 0 < s0.RxChannel.length →
        ∃ j', j' < 7 ∧ spekId M.1 M.2.2 (bytesOf evs) j' < hw.MAX_RC_CHANNELS ∧
          Config.ChannelOrder.getD (spekId M.1 M.2.2 (bytesOf evs) j') 0 =
            Config.ChannelOrder.getD (spekId M.1 M.2.2 (bytesOf evs) j) 0 ∧
          r.RxChannel.getD (Config.ChannelOrder.getD (spekId M.1 M.2.2 (bytesOf evs) j) 0) 0 =
            spekValue M.2.1 M.2.2 (bytesOf evs) j'))
    (by omega) (by omega) (by omega) s0 ?_ ?_ ?_ evs hp rfl
  · intro ev he hgap _
    have hc := entry_start hw ev s0 hgap (by omega)
    rw [USART_valid_eq hw Config ev s0 he, decode_spektrum hw Config _ _ _ hm, hc,
      spektrum_eval_quiet hw Config _ _ _ (by show (0 : Nat) ≠ 15; decide)]
    exact (jitter_fields s0).2.1
  · intro s ev k hk1 hk2 hs hi he hgap _
    have hkl : (List.take k (bytesOf evs)).length = k := by rw [List.length_take]; omega
    have hc := entry_cont hw ev s _ hs hgap (by rw [hkl]; omega) (by rw [hkl]; omega)
    have hj := jitter_fields s
    rw [USART_valid_eq hw Config ev s he, decode_spektrum hw Config _ _ _ hm, hc,
      spektrum_eval_quiet hw Config _ _ _
        (by show (jitter s).bytecount ≠ 15; rw [hj.1, hs.bytecount, hkl]; omega)]
    exact hj.2.1.trans hi
  · intro s ev k hk1 hk2 hs hi he hgap hb hH
    have hkl : (List.take k (bytesOf evs)).length = k := by rw [List.length_take]; omega
    have hk15 : k = 15 := by omega
    have hc := entry_cont hw ev s _ hs hgap (by rw [hkl]; omega) (by rw [hkl]; omega)
    have hj := jitter_fields s
    have hset : ∀ i, (s.sBuffer.set (List.take k (bytesOf evs)).length ev.UDR0).getD i 0 =
        (bytesOf evs).getD i 0 := by
      intro i
      rw [set_holds hw s _ ev.UDR0 hs (by rw [hkl]; omega) i, hb,
        ← take_succ_getD _ _ (by omega), hk2, List.take_length]
    have hbuf : ∀ i, ((s.sBuffer.set (List.take k (bytesOf evs)).length ev.UDR0).set 15
        ev.UDR0).getD i 0 = (bytesOf evs).getD i 0 := by
      intro i
      rw [getD_set]
      split_ifs with h
      · rw [← h.1, hb, hk15]
      · exact hset i
    obtain ⟨a1, a2, a3, a4⟩ := spektrum_eval_last hw Config ev.UDR0 ev.TCNT2
      { (jitter s) with PPMSyncStart := ev.TCNT1, sBuffer := s.sBuffer.set (List.take k (bytesOf evs)).length ev.UDR0, rcindex := (List.take k (bytesOf evs)).length + 1 }
      (by show (jitter s).bytecount = 15; rw [hj.1, hs.bytecount, hkl, hk15])
    rw [USART_valid_eq hw Config ev s he, decode_spektrum hw Config _ _ _ hm, hc]
    refine ⟨a1, a2, a3, ?_⟩
    have hmask : spekMasks (((s.sBuffer.set (List.take k (bytesOf evs)).length ev.UDR0).set 15
        ev.UDR0).getD 1 0) = M := by rw [hbuf, hM]
    have a4' : (spektrum hw Config ev.UDR0 ev.TCNT2
        { (jitter s) with PPMSyncStart := ev.TCNT1, sBuffer := s.sBuffer.set (List.take k (bytesOf evs)).length ev.UDR0, rcindex := (List.take k (bytesOf evs)).length + 1 }).RxChannel =
        (spektrumLoop hw Config
          ((s.sBuffer.set (List.take k (bytesOf evs)).length ev.UDR0).set 15 ev.UDR0)
          M.1 M.2.1 M.2.2 7
          { sindex := 2, ch_num := (jitter s).ch_num, RxChannel := (jitter s).RxChannel }
          ).RxChannel := by
      rw [a4]
      show (spektrumLoop hw Config _ (spekMasks _).1 (spekMasks _).2.1 (spekMasks _).2.2 7 _
        ).RxChannel = _
      rw [hmask]
    obtain ⟨_, e2, e3⟩ := spektrumLoop_effect hw Config
      ((s.sBuffer.set (List.take k (bytesOf evs)).length ev.UDR0).set 15 ev.UDR0)
      M.1 M.2.1 M.2.2
      { sindex := 2, ch_num := (jitter s).ch_num, RxChannel := (jitter s).RxChannel } rfl 7
      (le_refl _)
    simp only [spekId_congr _ _ _ (bytesOf evs) hbuf, spekValue_congr _ _ _ (bytesOf evs) hbuf]
      at e2 e3
    have hrx0 : (jitter s).RxChannel = s0.RxChannel := hj.2.1.trans hi
    rw [hrx0] at e2 e3 a4'
    constructor
    · intro idx hidx
      show (spektrum hw Config ev.UDR0 ev.TCNT2 _).RxChannel.getD idx 0 = _
      rw [a4']
      exact e2 idx hidx
    · intro j hj7 hjlt hjlen
      obtain ⟨j', b1, b2, b3, b4⟩ := e3 j hj7 hjlt hjlen
      refine ⟨j', b1, b2, b3, ?_⟩
      show (spektrum hw Config ev.UDR0 ev.TCNT2 _).RxChannel.getD _ 0 = _
      rw [a4']
      exact b4


/-! ## Spektrum: the slot format -/

theorem getD_lt_of_forall (frame : List Nat) (h : ∀ b, b ∈ frame → b < 256) (i : Nat) :
    frame.getD i 0 < 256 := by
  by_cases hi : i < frame.length
  · rw [List.getD_eq_getElem _ _ hi]
    exact h _ (List.getElem_mem hi)
  · rw [List.getD_eq_default _ _ (Nat.le_of_not_lt hi)]
    decide

theorem spek_bit_fields : ∀ hi, hi < 256 →
    (hi &&& 0x78) >>> 0x03 = hi / 8 % 16 ∧ (hi &&& 0x3C) >>> 0x02 = hi / 4 % 16 ∧
    (hi &&& 0x07) <<< 8 = hi % 8 * 256 ∧ (hi &&& 0x03) <<< 8 = hi % 4 * 256 ∧
    (hi &&& 0xF0 ≠ 0 ↔ hi / 16 % 16 ≠ 0) := by
  decide

theorem spekMasks_eq (frame : List Nat) (h : ∀ b, b ∈ frame → b < 256) :
    spekMasks (frame.getD 1 0) = if bits11 frame = true then (0x78, 0x07, 0x03)
      else (0x3C, 0x03, 0x02) := by
  have hb := (spek_bit_fields _ (getD_lt_of_forall frame h 1)).2.2.2.2
  unfold spekMasks bits11
  by_cases hn : frame.getD 1 0 / 16 % 16 ≠ 0
  · rw [if_pos (hb.mpr hn), if_pos (by simpa using hn)]
  · rw [if_neg (fun hc => hn (hb.mp hc)), if_neg (by simpa using hn)]

theorem spekId_eq_slotId (frame : List Nat) (h : ∀ b, b ∈ frame → b < 256) (j : Nat) :
    spekId (spekMasks (frame.getD 1 0)).1 (spekMasks (frame.getD 1 0)).2.2 frame j =
      slotId (bits11 frame) (frame.getD (2 + 2 * j) 0) := by
  obtain ⟨f1, f2, _, _, _⟩ := spek_bit_fields _ (getD_lt_of_forall frame h (2 + 2 * j))
  rw [spekMasks_eq frame h]
  unfold spekId slotId
  by_cases hb : bits11 frame = true
  · rw [if_pos hb, if_pos hb]; exact f1
  · rw [if_neg hb, if_neg hb]; exact f2

theorem spekValue_eq_slotData (frame : List Nat) (h : ∀ b, b ∈ frame → b < 256) (j : Nat) :
    spekValue (spekMasks (frame.getD 1 0)).2.1 (spekMasks (frame.getD 1 0)).2.2 frame j =
      uint16 (spektrumConvert (if bits11 frame = true then 0x03 else 0x02)
        (slotData (bits11 frame) (frame.getD (2 + 2 * j) 0) (frame.getD (2 + 2 * j + 1) 0))) := by
  obtain ⟨_, _, f3, f4, _⟩ := spek_bit_fields _ (getD_lt_of_forall frame h (2 + 2 * j))
  have hlo := getD_lt_of_forall frame h (2 + 2 * j + 1)
  have hhi := getD_lt_of_forall frame h (2 + 2 * j)
  rw [spekMasks_eq frame h]
  unfold spekValue slotData
  by_cases hb : bits11 frame = true
  · rw [if_pos hb, if_pos hb, if_pos hb]
    show uint16 (spektrumConvert 3 (((frame.getD (2 + 2 * j) 0 &&& 7) <<< 8 +
      frame.getD (2 + 2 * j + 1) 0) % 65536)) = _
    rw [f3, Nat.mod_eq_of_lt (by omega)]
  · rw [if_neg hb, if_neg hb, if_neg hb]
    show uint16 (spektrumConvert 2 (((frame.getD (2 + 2 * j) 0 &&& 3) <<< 8 +
      frame.getD (2 + 2 * j + 1) 0) % 65536)) = _
    rw [f4, Nat.mod_eq_of_lt (by omega)]

/-! ## Claims C4 and C5: Spektrum -/

/-- C4 (Spektrum centre scenario). In SPEKTRUM mode, for every 16-byte packet received after a
gap whose seven two-byte slots carry the channel ids 0 to 6 (in any order, the top bit of a slot
free), each with data 1024 when byte 1 has a nonzero upper nibble (11-bit data) and each with
data 512 when that nibble is zero (10-bit data): after the 16th byte `Interrupted` is true and
`RxChannel[ChannelOrder[c]] = 3750` for every `c` in `0 .. 6` (that is a channel of the vector,
`c < MAX_RC_CHANNELS`, with `ChannelOrder[c]` inside the vector). -/
theorem C4_spektrum_centre (hw : Board) (Config : CONFIG) (s0 : State) (evs : List RxEvent)
    (hm : Config.RxMode = RxModes.SPEKTRUM) (h16 : 16 ≤ hw.SBUFFER_SIZE)
    (hrx : s0.RxChannel.length = hw.MAX_RC_CHANNELS)
    (hco : ∀ c, c < 7 → c < hw.MAX_RC_CHANNELS →
      Config.ChannelOrder.getD c 0 < hw.MAX_RC_CHANNELS)
    (hp : IsPacket s0.PPMSyncStart evs) (hlen : (bytesOf evs).length = 16)
    (hbytes : ∀ b, b ∈ bytesOf evs → b < 256)
    (hdata : ∀ j, j < 7 →
      slotData (bits11 (bytesOf evs)) ((bytesOf evs).getD (2 + 2 * j) 0)
        ((bytesOf evs).getD (2 + 2 * j + 1) 0) =
        if bits11 (bytesOf evs) = true then 1024 else 512)
    (hids : ∀ c, c < 7 → ∃ j, j < 7 ∧
      slotId (bits11 (bytesOf evs)) ((bytesOf evs).getD (2 + 2 * j) 0) = c) :
    (runRx hw Config evs s0).Interrupted = true ∧
    (∀ c, c < 7 → c < hw.MAX_RC_CHANNELS →
      (runRx hw Config evs s0).RxChannel.getD (Config.ChannelOrder.getD c 0) 0 = 3750) := by
  obtain ⟨r1, _, _, _, r5⟩ := spektrum_packet hw Config s0 evs hm h16 hp hlen
  refine ⟨r1, ?_⟩
  intro c hc hcM
  obtain ⟨j, hj, hjc⟩ := hids c hc
  simp only [spekId_eq_slotId (bytesOf evs) hbytes, spekValue_eq_slotData (bytesOf evs) hbytes]
    at r5
  obtain ⟨j', hj', _, _, hval⟩ := r5 j hj (by rw [hjc]; exact hcM)
    (by rw [hjc, hrx]; exact hco c hc hcM)
  rw [hjc] at hval
  rw [hval, hdata j' hj']
  by_cases hb : bits11 (bytesOf evs) = true
  · rw [if_pos hb, if_pos hb]; decide
  · rw [if_neg hb, if_neg hb]; decide

/-- Witness for C4: the 11-bit centre packet on the eight channel board with the reversed
channel order; stream channels 0 and 6 go to logical channels 7 and 1. -/
theorem C4_spektrum_centre_witness :
    (runRx board8 (reversedOrder RxModes.SPEKTRUM) (eventsAt 3000 spektrumCentre11)
      (filledState board8 0)).Interrupted = true ∧
    (runRx board8 (reversedOrder RxModes.SPEKTRUM) (eventsAt 3000 spektrumCentre11)
      (filledState board8 0)).RxChannel.getD 7 0 = 3750 ∧
    (runRx board8 (reversedOrder RxModes.SPEKTRUM) (eventsAt 3000 spektrumCentre11)
      (filledState board8 0)).RxChannel.getD 1 0 = 3750 :=
  have h := C4_spektrum_centre board8 (reversedOrder RxModes.SPEKTRUM) (filledState board8 0)
    (eventsAt 3000 spektrumCentre11) rfl (by decide) (by decide) (by decide) (by decide)
    (by decide) (by decide) (by decide) (by decide)
  ⟨h.1, h.2 0 (by decide) (by decide), h.2 6 (by decide) (by decide)⟩


/-- C5 (Spektrum empty slots are skipped). In SPEKTRUM mode, on a channel vector of at most
fifteen entries (eight in `isr.c`), for every 16-byte packet (10-bit or 11-bit) received after
a gap: every entry of the channel vector that the packet modifies is
`RxChannel[ChannelOrder[id]]` for the channel id, below `MAX_RC_CHANNELS`, of one of its slots
that is not a `0xFF 0xFF` filler; a slot starting with `0xFF` has id 15, and decoding it
modifies no entry of the channel vector. -/
theorem C5_spektrum_frame_effect (hw : Board) (Config : CONFIG) (s0 : State)
    (evs : List RxEvent) (hm : Config.RxMode = RxModes.SPEKTRUM)
    (h15 : hw.MAX_RC_CHANNELS ≤ 15) (h16 : 16 ≤ hw.SBUFFER_SIZE)
    (hp : IsPacket s0.PPMSyncStart evs) (hlen : (bytesOf evs).length = 16)
    (hbytes : ∀ b, b ∈ bytesOf evs → b < 256) :
    (∀ idx, (runRx hw Config evs s0).RxChannel.getD idx 0 ≠ s0.RxChannel.getD idx 0 →
      ∃ j, j < 7 ∧ (bytesOf evs).getD (2 + 2 * j) 0 ≠ 0xFF ∧
        slotId (bits11 (bytesOf evs)) ((bytesOf evs).getD (2 + 2 * j) 0)
          < hw.MAX_RC_CHANNELS ∧
        Config.ChannelOrder.getD
          (slotId (bits11 (bytesOf evs)) ((bytesOf evs).getD (2 + 2 * j) 0)) 0 = idx) ∧
    (∀ j, j < 7 → (bytesOf evs).getD (2 + 2 * j) 0 = 0xFF →
      slotId (bits11 (bytesOf evs)) ((bytesOf evs).getD (2 + 2 * j) 0) = 15 ∧
      ∀ l : SpekLoop, l.sindex = 2 + 2 * j →
        (spektrumStep hw Config (bytesOf evs) (spekMasks ((bytesOf evs).getD 1 0)).1
          (spekMasks ((bytesOf evs).getD 1 0)).2.1 (spekMasks ((bytesOf evs).getD 1 0)).2.2
          l).RxChannel = l.RxChannel) := by
  obtain ⟨_, _, _, r4, _⟩ := spektrum_packet hw Config s0 evs hm h16 hp hlen
  simp only [spekId_eq_slotId (bytesOf evs) hbytes] at r4
  have hff : ∀ b : Bool, slotId b 0xFF = 15 := by decide
  constructor
  · intro idx hne
    by_contra hcon
    apply hne
    apply r4 idx
    intro j hj hlt heq
    apply hcon
    refine ⟨j, hj, ?_, hlt, heq⟩
    intro hFF
    rw [hFF, hff] at hlt
    omega
  · intro j hj hFF
    refine ⟨by rw [hFF]; exact hff _, ?_⟩
    intro l hl
    obtain ⟨_, _, e3⟩ := spektrumStep_eq hw Config (bytesOf evs)
      (spekMasks ((bytesOf evs).getD 1 0)).1 (spekMasks ((bytesOf evs).getD 1 0)).2.1
      (spekMasks ((bytesOf evs).getD 1 0)).2.2 j l hl
    rw [e3, spekId_eq_slotId (bytesOf evs) hbytes, hFF, hff, if_neg (by omega)]

/-- Witness for C5: the second frame of the format comment, with its `0xFF 0xFF` fillers, on
the eight channel board leaves logical channel 5 as it was. -/
theorem C5_spektrum_frame_effect_witness :
    (runRx board8 (idOrder RxModes.SPEKTRUM 8) (eventsAt 3000 spektrumSecondFrame)
      (filledState board8 7)).RxChannel.getD 5 0 = (filledState board8 7).RxChannel.getD 5 0 :=
  Classical.byContradiction fun hne =>
    have h := (C5_spektrum_frame_effect board8 (idOrder RxModes.SPEKTRUM 8)
      (filledState board8 7) (eventsAt 3000 spektrumSecondFrame) rfl (by decide) (by decide)
      (by decide) (by decide) (by decide)).1 5 hne
    have hall : ∀ j, j < 7 →
        (bytesOf (eventsAt 3000 spektrumSecondFrame)).getD (2 + 2 * j) 0 ≠ 0xFF →
        (idOrder RxModes.SPEKTRUM 8).ChannelOrder.getD
          (slotId (bits11 (bytesOf (eventsAt 3000 spektrumSecondFrame)))
            ((bytesOf (eventsAt 3000 spektrumSecondFrame)).getD (2 + 2 * j) 0)) 0 ≠ 5 := by
      decide
    h.elim fun j hj => hall j hj.1 hj.2.1 hj.2.2.2

/-! ## Xtreme: counting the bits of the mask -/

theorem rankBelow_shift (m w : Nat) : rankBelow m (w + 1) = m % 2 + rankBelow (m / 2) w := by
  induction w with
  | zero =>
    show 0 + (if m.testBit 0 then 1 else 0) = m % 2 + 0
    rw [Nat.testBit_zero]
    have : m % 2 = 0 ∨ m % 2 = 1 := by omega
    rcases this with h | h <;> simp [h]
  | succ w ih =>
    show rankBelow m (w + 1) + (if m.testBit (w + 1) then 1 else 0) =
      m % 2 + (rankBelow (m / 2) w + (if (m / 2).testBit w then 1 else 0))
    rw [ih, Nat.testBit_succ, Nat.add_assoc]

theorem rankBelow_le (m j : Nat) : rankBelow m j ≤ j := by
  induction j with
  | zero => exact Nat.le_refl 0
  | succ j ih =>
    show rankBelow m j + (if m.testBit j then 1 else 0) ≤ j + 1
    split_ifs <;> omega

theorem rankBelow_mono (m : Nat) {i j : Nat} (h : i ≤ j) : rankBelow m i ≤ rankBelow m j := by
  induction j with
  | zero =>
    have : i = 0 := Nat.le_zero.mp h
    rw [this]
  | succ j ih =>
    rcases Nat.le_succ_iff.mp h with h1 | h1
    · exact Nat.le_trans (ih h1) (Nat.le_add_right _ _)
    · rw [h1]

/-- A set bit counts: its rank is below the rank of every higher position. -/
theorem rankBelow_lt_of_testBit (m : Nat) {i j : Nat} (h : i < j) (hb : m.testBit i = true) :
    rankBelow m i < rankBelow m j := by
  have h1 : rankBelow m (i + 1) = rankBelow m i + 1 := by
    show rankBelow m i + (if m.testBit i then 1 else 0) = _
    rw [hb]; rfl
  have h2 : rankBelow m (i + 1) ≤ rankBelow m j := rankBelow_mono m (Nat.succ_le_of_lt h)
  omega

theorem and_div_two' (a b : Nat) : (a &&& b) / 2 = (a / 2) &&& (b / 2) := by
  apply Nat.eq_of_testBit_eq
  intro i
  rw [← Nat.testBit_succ, Nat.testBit_and, Nat.testBit_and, Nat.testBit_succ, Nat.testBit_succ]

theorem and_mod_two' (a b : Nat) : (a &&& b) % 2 = (a % 2) * (b % 2) := by
  have h := Nat.testBit_and a b 0
  rw [Nat.testBit_zero, Nat.testBit_zero, Nat.testBit_zero] at h
  have ha : a % 2 = 0 ∨ a % 2 = 1 := by omega
  have hb : b % 2 = 0 ∨ b % 2 = 1 := by omega
  have hc : (a &&& b) % 2 = 0 ∨ (a &&& b) % 2 = 1 := by omega
  rcases ha with ha | ha <;> rcases hb with hb | hb <;> rcases hc with hc | hc <;>
    simp [ha, hb, hc] at h ⊢

/-- One pass of `temp16 &= temp16 - 1` clears one set bit. -/
theorem rankBelow_clear_lowest (w : Nat) : ∀ m, m < 2 ^ w → 0 < m →
    rankBelow (m &&& (m - 1)) w + 1 = rankBelow m w := by
  induction w with
  | zero => intro m h1 h2; simp at h1; omega
  | succ w ih =>
    intro m h1 h2
    rw [rankBelow_shift, rankBelow_shift, and_div_two', and_mod_two']
    have hm : m % 2 = 0 ∨ m % 2 = 1 := by omega
    rcases hm with hm | hm
    · have hq : 0 < m / 2 := by omega
      have hq2 : m / 2 < 2 ^ w := by rw [pow_succ] at h1; omega
      have e1 : (m - 1) / 2 = m / 2 - 1 := by omega
      rw [hm, e1, Nat.zero_mul, Nat.zero_add, Nat.zero_add]
      exact ih (m / 2) hq2 hq
    · have e1 : (m - 1) / 2 = m / 2 := by omega
      have e2 : (m - 1) % 2 = 0 := by omega
      rw [hm, e1, e2, Nat.and_self]
      omega

theorem rankBelow_zero_mask (w : Nat) : rankBelow 0 w = 0 := by
  induction w with
  | zero => rfl
  | succ w ih =>
    show rankBelow 0 w + (if (0 : Nat).testBit w then 1 else 0) = 0
    rw [ih, Nat.zero_testBit]; rfl

/-- The bit counting loop with enough fuel ends with `temp16 = 0` and `ch_num` the number of set
bits of the mask. -/
theorem countLoop_eq (fuel : Nat) : ∀ m c, m < 2 ^ 16 → rankBelow m 16 ≤ fuel →
    c + rankBelow m 16 < 256 → countLoop fuel (m, c) = (0, c + rankBelow m 16) := by
  induction fuel with
  | zero =>
    intro m c h1 h2 _
    have hm : m = 0 := by
      by_contra hne
      have := rankBelow_clear_lowest 16 m h1 (Nat.pos_of_ne_zero hne)
      omega
    rw [hm, rankBelow_zero_mask]
    rfl
  | succ fuel ih =>
    intro m c h1 h2 h3
    by_cases hm : m = 0
    · rw [hm, rankBelow_zero_mask]
      show (if (0 : Nat) ≠ 0 then _ else ((0 : Nat), c)) = _
      rw [if_neg (by simp)]
      rfl
    · have hk := rankBelow_clear_lowest 16 m h1 (Nat.pos_of_ne_zero hm)
      show (if m ≠ 0 then countLoop fuel (m &&& (m - 1), (c + 1) % 256) else (m, c)) = _
      rw [if_pos hm, Nat.mod_eq_of_lt (by omega),
        ih (m &&& (m - 1)) (c + 1) (Nat.lt_of_le_of_lt Nat.and_le_left h1) (by omega) (by omega)]
      congr 1
      omega

/-- The bit counting loop of the source, with its 16 passes of fuel, terminates with the number
of set bits of a 16-bit mask. -/
theorem countLoop_mask (m : Nat) (h : m < 65536) :
    countLoop 16 (m, 0) = (0, rankBelow m 16) := by
  have := countLoop_eq 16 m 0 h (rankBelow_le m 16) (by have := rankBelow_le m 16; omega)
  rw [this, Nat.zero_add]


/-! ## Xtreme: the channel loop -/

theorem mask_test_iff (m j : Nat) : m &&& (1 <<< j) ≠ 0 ↔ m.testBit j = true := by
  rw [and_shift_ne_zero_iff, Nat.testBit_to_div_mod]
  simp

theorem xtremeStep_eq (hw : Board) (Config : CONFIG) (m : Nat) (buf : List Nat)
    (st : Nat × List Nat) (j r : Nat) (hs : st.1 = 4 + 2 * r) (hr : 4 + 2 * r < hw.SBUFFER_SIZE)
    (hr2 : r ≤ 16) :
    xtremeStep hw Config m buf st j =
      if m.testBit j = true then
        (4 + 2 * (r + 1),
          if j < hw.MAX_RC_CHANNELS then
            st.2.set (Config.ChannelOrder.getD j 0) (((xtremeWord buf r * 10) % 65536) >>> 2)
          else st.2)
      else st := by
  unfold xtremeStep
  by_cases hb : m.testBit j = true
  · rw [if_pos ((mask_test_iff m j).mpr hb), if_pos hb]
    dsimp only
    rw [hs, if_pos hr, Nat.mod_eq_of_lt (by omega : 4 + 2 * r + 2 < 256)]
    rfl
  · rw [if_neg (fun h => hb ((mask_test_iff m j).mp h)), if_neg hb]

theorem xtremeStep_unset (hw : Board) (Config : CONFIG) (m : Nat) (buf : List Nat)
    (st : Nat × List Nat) (j : Nat) (hb : ¬ m.testBit j = true) :
    xtremeStep hw Config m buf st j = st := by
  unfold xtremeStep
  rw [if_neg (fun h => hb ((mask_test_iff m j).mp h))]

/-- The channel loop after the mask bits below `j`: `sindex` has advanced by two bytes per set
bit, the entry named by a set bit below `MAX_RC_CHANNELS` holds the converted word of its rank,
every other entry is untouched. -/
theorem xtremeFold_effect (hw : Board) (Config : CONFIG) (m : Nat) (buf rx : List Nat)
    (hsz : ∀ i, i < 16 → m.testBit i = true → 4 + 2 * rankBelow m i < hw.SBUFFER_SIZE)
    (hinj : ∀ a, a < hw.MAX_RC_CHANNELS → ∀ b, b < hw.MAX_RC_CHANNELS →
      Config.ChannelOrder.getD a 0 = Config.ChannelOrder.getD b 0 → a = b)
    (hlt : ∀ k, k < hw.MAX_RC_CHANNELS → Config.ChannelOrder.getD k 0 < rx.length)
    (j : Nat) (hj : j ≤ 16) :
    ((List.range j).foldl (xtremeStep hw Config m buf) (4, rx)).1 = 4 + 2 * rankBelow m j ∧
    ((List.range j).foldl (xtremeStep hw Config m buf) (4, rx)).2.length = rx.length ∧
    (∀ i, i < j → m.testBit i = true → i < hw.MAX_RC_CHANNELS →
      ((List.range j).foldl (xtremeStep hw Config m buf) (4, rx)).2.getD
        (Config.ChannelOrder.getD i 0) 0 =
        ((xtremeWord buf (rankBelow m i) * 10) % 65536) >>> 2) ∧
    (∀ n, (∀ i, i < j → m.testBit i = true → i < hw.MAX_RC_CHANNELS →
        Config.ChannelOrder.getD i 0 ≠ n) →
      ((List.range j).foldl (xtremeStep hw Config m buf) (4, rx)).2.getD n 0 = rx.getD n 0) := by
  induction j with
  | zero =>
    exact ⟨rfl, rfl, fun i hi => absurd hi (Nat.not_lt_zero i), fun n _ => rfl⟩
  | succ j ih =>
    obtain ⟨ih1, ih2, ih3, ih4⟩ := ih (Nat.le_of_succ_le hj)
    rw [List.range_succ, List.foldl_append]
    simp only [List.foldl_cons, List.foldl_nil]
    by_cases hb : m.testBit j = true
    · rw [xtremeStep_eq hw Config m buf _ j (rankBelow m j) ih1 (hsz j (by omega) hb)
        (Nat.le_trans (rankBelow_le m j) (by omega)), if_pos hb]
      have hrank : rankBelow m (j + 1) = rankBelow m j + 1 := by
        show rankBelow m j + (if m.testBit j then 1 else 0) = _
        rw [hb]; rfl
      refine ⟨by rw [hrank], ?_, ?_, ?_⟩
      · show (if j < hw.MAX_RC_CHANNELS then _ else _ : List Nat).length = _
        split_ifs
        · rw [List.length_set]; exact ih2
        · exact ih2
      · intro i hi hbi hiM
        show (if j < hw.MAX_RC_CHANNELS then _ else _ : List Nat).getD _ 0 = _
        by_cases hjM : j < hw.MAX_RC_CHANNELS
        · rw [if_pos hjM, getD_set]
          by_cases hij : i = j
          · subst hij
            rw [if_pos ⟨rfl, by rw [ih2]; exact hlt i hiM⟩]
          · have hne : ¬ Config.ChannelOrder.getD j 0 = Config.ChannelOrder.getD i 0 :=
              fun h => hij (hinj j hjM i hiM h).symm
            rw [if_neg (fun h => hne h.1)]
            exact ih3 i (by omega) hbi hiM
        · rw [if_neg hjM]
          exact ih3 i (by omega) hbi hiM
      · intro n hn
        show (if j < hw.MAX_RC_CHANNELS then _ else _ : List Nat).getD n 0 = _
        by_cases hjM : j < hw.MAX_RC_CHANNELS
        · rw [if_pos hjM, getD_set_ne _ _ _ _ _ (hn j (Nat.lt_succ_self j) hb hjM)]
          exact ih4 n (fun i hi => hn i (Nat.lt_succ_of_lt hi))
        · rw [if_neg hjM]
          exact ih4 n (fun i hi => hn i (Nat.lt_succ_of_lt hi))
    · rw [xtremeStep_unset hw Config m buf _ j hb]
      have hrank : rankBelow m (j + 1) = rankBelow m j := by
        show rankBelow m j + (if m.testBit j then 1 else 0) = _
        rw [if_neg hb]; rfl
      refine ⟨by rw [hrank]; exact ih1, ih2, ?_, ?_⟩
      · intro i hi hbi hiM
        have hij : i < j := by
          rcases Nat.lt_succ_iff_lt_or_eq.mp hi with h | h
          · exact h
          · exact absurd (h ▸ hbi) hb
        exact ih3 i hij hbi hiM
      · intro n hn
        exact ih4 n (fun i hi => hn i (Nat.lt_succ_of_lt hi))


/-! ## Xtreme: the block byte by byte -/

theorem shl_one_add_four (n : Nat) : (n <<< 1) + 4 = 2 * n + 4 := by
  rw [Nat.shiftLeft_eq, Nat.pow_one, Nat.mul_comm]

theorem xtreme_byte0 (hw : Board) (Config : CONFIG) (temp T : Nat) (s : State)
    (hb : s.bytecount = 0) (hc : s.ch_num = 0) (hk : s.checksum = 0) :
    xtreme hw Config temp T s = { s with checksum := (xtremePoison temp + temp) % 65536 } := by
  unfold xtreme xtremeFlags
  rw [if_pos hb]
  unfold xtremePoison
  by_cases hf : temp &&& 0xE0 ≠ 0
  · rw [if_pos hf, if_pos hf]
    unfold xtremeMaskHigh
    rw [if_neg (by show ¬ s.bytecount = 2; omega)]
    unfold xtremeMaskLow
    rw [if_neg (by show ¬ s.bytecount = 3; omega)]
    unfold xtremeData
    rw [if_pos (by show s.bytecount < (s.ch_num <<< 1) + 4; rw [hb, hc]; decide)]
    show ({ s with checksum := ((s.checksum + 0x55) % 65536 + temp) % 65536 } : State) = _
    rw [hk]
  · rw [if_neg hf, if_neg hf]
    unfold xtremeMaskHigh
    rw [if_neg (by show ¬ s.bytecount = 2; omega)]
    unfold xtremeMaskLow
    rw [if_neg (by show ¬ s.bytecount = 3; omega)]
    unfold xtremeData
    rw [if_pos (by rw [hb, hc]; decide), hk]

theorem xtreme_byte1 (hw : Board) (Config : CONFIG) (temp T : Nat) (s : State)
    (hb : s.bytecount = 1) (hc : s.ch_num = 0) :
    xtreme hw Config temp T s = { s with checksum := (s.checksum + temp) % 65536 } := by
  unfold xtreme xtremeFlags
  rw [if_neg (by omega)]
  unfold xtremeMaskHigh
  rw [if_neg (by omega)]
  unfold xtremeMaskLow
  rw [if_neg (by omega)]
  unfold xtremeData
  rw [if_pos (by rw [hb, hc]; decide)]

theorem xtreme_byte2 (hw : Board) (Config : CONFIG) (temp T : Nat) (s : State)
    (hb : s.bytecount = 2) (hc : s.ch_num = 0) :
    xtreme hw Config temp T s = { s with chanmask16 := (temp <<< 8) % 65536, checksum := (s.checksum + temp) % 65536 } := by
  unfold xtreme xtremeFlags
  rw [if_neg (by omega)]
  unfold xtremeMaskHigh
  rw [if_pos hb]
  unfold xtremeMaskLow
  rw [if_neg (by show ¬ s.bytecount = 3; omega)]
  unfold xtremeData
  rw [if_pos (by show s.bytecount < (s.ch_num <<< 1) + 4; rw [hb, hc]; decide)]

theorem xtreme_byte3 (hw : Board) (Config : CONFIG) (temp T : Nat) (s : State)
    (hb : s.bytecount = 3) :
    xtreme hw Config temp T s = { s with chanmask16 := (s.chanmask16 + temp) % 65536, ch_num := (countLoop 16 ((s.chanmask16 + temp) % 65536, 0)).2, checksum := (s.checksum + temp) % 65536 } := by
  unfold xtreme xtremeFlags
  rw [if_neg (by omega)]
  unfold xtremeMaskHigh
  rw [if_neg (by omega)]
  unfold xtremeMaskLow
  rw [if_pos hb]
  unfold xtremeData
  dsimp only
  rw [if_pos (by rw [hb, shl_one_add_four]; omega)]

theorem xtreme_data (hw : Board) (Config : CONFIG) (temp T : Nat) (s : State)
    (hb : 4 ≤ s.bytecount) (hc : s.bytecount < 2 * s.ch_num + 4) :
    xtreme hw Config temp T s = { s with checksum := (s.checksum + temp) % 65536 } := by
  unfold xtreme xtremeFlags
  rw [if_neg (by omega)]
  unfold xtremeMaskHigh
  rw [if_neg (by omega)]
  unfold xtremeMaskLow
  rw [if_neg (by omega)]
  unfold xtremeData
  rw [if_pos (by rw [shl_one_add_four]; exact hc)]

theorem xtreme_last_bad (hw : Board) (Config : CONFIG) (temp T : Nat) (s : State)
    (hb : 4 ≤ s.bytecount) (hc : ¬ s.bytecount < 2 * s.ch_num + 4)
    (hk : s.checksum % 256 ≠ temp) :
    xtreme hw Config temp T s = { s with Interrupted := false, ch_num := 0, checksum := 0 } := by
  unfold xtreme xtremeFlags
  rw [if_neg (by omega)]
  unfold xtremeMaskHigh
  rw [if_neg (by omega)]
  unfold xtremeMaskLow
  rw [if_neg (by omega)]
  unfold xtremeData
  rw [if_neg (by rw [shl_one_add_four]; exact hc)]
  dsimp only
  have e : s.checksum &&& 0xff = s.checksum % 256 := Nat.and_pow_two_sub_one_eq_mod s.checksum 8
  rw [e, if_pos hk]

theorem xtreme_last_good (hw : Board) (Config : CONFIG) (temp T : Nat) (s : State)
    (hb : 4 ≤ s.bytecount) (hc : ¬ s.bytecount < 2 * s.ch_num + 4)
    (hk : s.checksum % 256 = temp) :
    (xtreme hw Config temp T s).Interrupted = true ∧
    (xtreme hw Config temp T s).Overdue = false ∧
    (xtreme hw Config temp T s).RC_Timeout = 0 ∧
    (xtreme hw Config temp T s).RxChannel =
      (xtremeLoop hw Config s.chanmask16 s.sBuffer s.RxChannel).2 := by
  unfold xtreme xtremeFlags
  rw [if_neg (by omega)]
  unfold xtremeMaskHigh
  rw [if_neg (by omega)]
  unfold xtremeMaskLow
  rw [if_neg (by omega)]
  unfold xtremeData
  rw [if_neg (by rw [shl_one_add_four]; exact hc)]
  dsimp only
  have e : s.checksum &&& 0xff = s.checksum % 256 := Nat.and_pow_two_sub_one_eq_mod s.checksum 8
  rw [e, if_neg (by rw [hk]; simp)]
  exact ⟨rfl, rfl, rfl, rfl⟩

theorem take_sum_succ (frame : List Nat) (k : Nat) (hk : k < frame.length) :
    (frame.take (k + 1)).sum = (frame.take k).sum + frame.getD k 0 := by
  rw [take_succ_getD frame k hk, List.sum_append, List.sum_singleton]


/-! ## Xtreme packets -/

theorem xtremeMask_lt (frame : List Nat) : xtremeMask frame < 65536 :=
  Nat.mod_lt _ (by decide)

theorem xtreme_inv_start (hw : Board) (Config : CONFIG) (frame : List Nat) (s0 : State)
    (hm : Config.RxMode = RxModes.XTREME) (hsz : 0 < hw.SBUFFER_SIZE) (hL : 0 < frame.length)
    (ev : RxEvent) (he : errorFree ev)
    (hgap : PACKET_TIMER < currentPeriod ev.TCNT1 s0.PPMSyncStart)
    (hb : ev.UDR0 = frame.getD 0 0) :
    XtremeInv frame s0 1 (USART0_RX_vect hw Config ev s0) := by
  rw [USART_valid_eq hw Config ev s0 he, decode_xtreme hw Config _ _ _ hm,
    entry_start hw ev s0 hgap hsz, xtreme_byte0 hw Config _ _ _ rfl rfl rfl]
  refine ⟨?_, fun _ => rfl, fun h => absurd h (by decide), fun h => absurd h (by decide), ?_⟩
  · show (xtremePoison ev.UDR0 + ev.UDR0) % 65536 = _
    rw [take_sum_succ frame 0 hL, hb]
    simp
  · exact (jitter_fields s0).2.1

theorem xtreme_inv_step (hw : Board) (Config : CONFIG) (frame : List Nat) (s0 : State)
    (hm : Config.RxMode = RxModes.XTREME)
    (hlen : frame.length = 5 + 2 * rankBelow (xtremeMask frame) 16)
    (hsz : frame.length ≤ hw.SBUFFER_SIZE)
    (s : State) (ev : RxEvent) (k : Nat) (hk1 : 1 ≤ k) (hk2 : k + 1 < frame.length)
    (hs : Holds hw (frame.take k) s) (hi : XtremeInv frame s0 k s) (he : errorFree ev)
    (hgap : currentPeriod ev.TCNT1 s.PPMSyncStart ≤ PACKET_TIMER)
    (hb : ev.UDR0 = frame.getD k 0) :
    XtremeInv frame s0 (k + 1) (USART0_RX_vect hw Config ev s) := by
  have hN := rankBelow_le (xtremeMask frame) 16
  have hkl : (List.take k frame).length = k := by rw [List.length_take]; omega
  have hc := entry_cont hw ev s _ hs hgap (by rw [hkl]; omega) (by rw [hkl]; omega)
  obtain ⟨j1, j2, _, _, _, _, j7, j8, j9, _, _, _⟩ := jitter_fields s
  obtain ⟨i1, i2, i3, i4, i5⟩ := hi
  have hbc : (jitter s).bytecount = k := by rw [j1, hs.bytecount, hkl]
  have hsum : ((jitter s).checksum + ev.UDR0) % 65536 =
      (xtremePoison (frame.getD 0 0) + (frame.take (k + 1)).sum) % 65536 := by
    rw [j7, i1, take_sum_succ frame k (by omega), hb, Nat.mod_add_mod, Nat.add_assoc]
  rw [USART_valid_eq hw Config ev s he, decode_xtreme hw Config _ _ _ hm, hc]
  by_cases h4 : 4 ≤ k
  · obtain ⟨m1, m2⟩ := i4 h4
    rw [xtreme_data hw Config _ _ _ (by show 4 ≤ (jitter s).bytecount; rw [hbc]; exact h4)
      (by
        show (jitter s).bytecount < 2 * (jitter s).ch_num + 4
        rw [hbc, j9, m2]; omega)]
    refine ⟨hsum, fun h => absurd h (by omega), fun h => absurd h (by omega), fun _ => ?_, ?_⟩
    · exact ⟨j8.trans m1, j9.trans m2⟩
    · exact j2.trans i5
  · have hch : (jitter s).ch_num = 0 := j9.trans (i2 (by omega))
    have hk : k = 1 ∨ k = 2 ∨ k = 3 := by omega
    rcases hk with hk | hk | hk
    · rw [xtreme_byte1 hw Config _ _ _ (by show (jitter s).bytecount = 1; rw [hbc, hk])
        (by show (jitter s).ch_num = 0; exact hch)]
      refine ⟨hsum, fun _ => hch, fun h => absurd h (by omega), fun h => absurd h (by omega), ?_⟩
      exact j2.trans i5
    · rw [xtreme_byte2 hw Config _ _ _ (by show (jitter s).bytecount = 2; rw [hbc, hk])
        (by show (jitter s).ch_num = 0; exact hch)]
      refine ⟨hsum, fun _ => hch, fun _ => ?_, fun h => absurd h (by omega), ?_⟩
      · show (ev.UDR0 <<< 8) % 65536 = _
        rw [hb, hk]
      · exact j2.trans i5
    · rw [xtreme_byte3 hw Config _ _ _ (by show (jitter s).bytecount = 3; rw [hbc, hk])]
      have hmask : ((jitter s).chanmask16 + ev.UDR0) % 65536 = xtremeMask frame := by
        rw [j8, i3 hk, hb, hk]; rfl
      refine ⟨hsum, fun h => absurd h (by omega), fun h => absurd h (by omega), fun _ => ?_, ?_⟩
      · constructor
        · exact hmask
        · show (countLoop 16 (((jitter s).chanmask16 + ev.UDR0) % 65536, 0)).2 = _
          rw [hmask, countLoop_mask _ (xtremeMask_lt frame)]
      · exact j2.trans i5

/-- The facts about the common entry state at the last byte of an Xtreme packet. -/
theorem xtreme_last_facts (hw : Board) (frame : List Nat) (s0 : State)
    (hlen : frame.length = 5 + 2 * rankBelow (xtremeMask frame) 16)
    (hck : frame.getD (frame.length - 1) 0 = (frame.take (frame.length - 1)).sum % 256)
    (s : State) (ev : RxEvent) (k : Nat) (hk2 : k + 1 = frame.length)
    (hs : Holds hw (frame.take k) s) (hi : XtremeInv frame s0 k s)
    (hb : ev.UDR0 = frame.getD k 0) :
    4 ≤ (jitter s).bytecount ∧ ¬ (jitter s).bytecount < 2 * (jitter s).ch_num + 4 ∧
    (jitter s).checksum % 256 = (xtremePoison (frame.getD 0 0) + (frame.take k).sum) % 256 ∧
    ev.UDR0 = (frame.take k).sum % 256 ∧
    (jitter s).chanmask16 = xtremeMask frame ∧ (jitter s).RxChannel = s0.RxChannel := by
  have hkl : (List.take k frame).length = k := by rw [List.length_take]; omega
  obtain ⟨j1, j2, _, _, _, _, j7, j8, j9, _, _, _⟩ := jitter_fields s
  obtain ⟨i1, _, _, i4, i5⟩ := hi
  obtain ⟨m1, m2⟩ := i4 (by omega)
  have hk : frame.length - 1 = k := by omega
  rw [hk] at hck
  refine ⟨by rw [j1, hs.bytecount, hkl]; omega, by rw [j1, hs.bytecount, hkl, j9, m2]; omega,
    ?_, hb.trans hck, j8.trans m1, j2.trans i5⟩
  rw [j7, i1]
  exact Nat.mod_mod_of_dvd _ (by decide)


theorem xtremeWord_congr (buf buf' : List Nat) (h : ∀ i, buf.getD i 0 = buf'.getD i 0) (r : Nat) :
    xtremeWord buf r = xtremeWord buf' r := by
  unfold xtremeWord; rw [h, h]

/-- An otherwise valid Xtreme packet whose flag byte trashes the checksum: the handler clears
`Interrupted` and leaves the channel vector as it was. -/
theorem xtreme_packet_bad (hw : Board) (Config : CONFIG) (s0 : State) (evs : List RxEvent)
    (hm : Config.RxMode = RxModes.XTREME)
    (hp : IsPacket s0.PPMSyncStart evs)
    (hlen : (bytesOf evs).length = 5 + 2 * rankBelow (xtremeMask (bytesOf evs)) 16)
    (hsz : (bytesOf evs).length ≤ hw.SBUFFER_SIZE)
    (hck : (bytesOf evs).getD ((bytesOf evs).length - 1) 0 =
      ((bytesOf evs).take ((bytesOf evs).length - 1)).sum % 256)
    (hpois : xtremePoison ((bytesOf evs).getD 0 0) = 0x55) :
    (runRx hw Config evs s0).RxChannel = s0.RxChannel ∧
    (runRx hw Config evs s0).Interrupted = false := by
  have hN := rankBelow_le (xtremeMask (bytesOf evs)) 16
  refine frame_induction hw Config (bytesOf evs) (XtremeInv (bytesOf evs) s0)
    (fun r => r.RxChannel = s0.RxChannel ∧ r.Interrupted = false)
    (by omega) hsz (by omega) s0 ?_ ?_ ?_ evs hp rfl
  · intro ev he hgap hb
    exact xtreme_inv_start hw Config (bytesOf evs) s0 hm (by omega) (by omega) ev he hgap hb
  · intro s ev k hk1 hk2 hs hi he hgap hb
    exact xtreme_inv_step hw Config (bytesOf evs) s0 hm hlen hsz s ev k hk1 hk2 hs hi he hgap hb
  · intro s ev k hk1 hk2 hs hi he hgap hb _
    have hkl : (List.take k (bytesOf evs)).length = k := by rw [List.length_take]; omega
    have hc := entry_cont hw ev s _ hs hgap (by rw [hkl]; omega) (by rw [hkl]; omega)
    obtain ⟨f1, f2, f3, f4, _, f6⟩ := xtreme_last_facts hw (bytesOf evs) s0 hlen hck s ev k hk2
      hs hi hb
    rw [USART_valid_eq hw Config ev s he, decode_xtreme hw Config _ _ _ hm, hc,
      xtreme_last_bad hw Config _ _ _ (by show 4 ≤ (jitter s).bytecount; exact f1)
        (by show ¬ (jitter s).bytecount < 2 * (jitter s).ch_num + 4; exact f2)
        (by
          show (jitter s).checksum % 256 ≠ ev.UDR0
          rw [f3, f4, hpois]
          omega)]
    exact ⟨f6, rfl⟩

/-- A valid Xtreme packet with a clean flag byte: the handler sets `Interrupted` and writes, for
each set bit of the mask below `MAX_RC_CHANNELS`, the converted word of the bit's rank. -/
theorem xtreme_packet_good (hw : Board) (Config : CONFIG) (s0 : State) (evs : List RxEvent)
    (hm : Config.RxMode = RxModes.XTREME) (hco : ChannelOrderOK hw Config)
    (hrx : s0.RxChannel.length = hw.MAX_RC_CHANNELS)
    (hp : IsPacket s0.PPMSyncStart evs)
    (hlen : (bytesOf evs).length = 5 + 2 * rankBelow (xtremeMask (bytesOf evs)) 16)
    (hsz : (bytesOf evs).length ≤ hw.SBUFFER_SIZE)
    (hck : (bytesOf evs).getD ((bytesOf evs).length - 1) 0 =
      ((bytesOf evs).take ((bytesOf evs).length - 1)).sum % 256)
    (hpois : xtremePoison ((bytesOf evs).getD 0 0) = 0) :
    (runRx hw Config evs s0).Interrupted = true ∧
    (runRx hw Config evs s0).Overdue = false ∧
    (runRx hw Config evs s0).RC_Timeout = 0 ∧
    (∀ i, i < 16 → (xtremeMask (bytesOf evs)).testBit i = true → i < hw.MAX_RC_CHANNELS →
      (runRx hw Config evs s0).RxChannel.getD (Config.ChannelOrder.getD i 0) 0 =
        ((xtremeWord (bytesOf evs) (rankBelow (xtremeMask (bytesOf evs)) i) * 10) % 65536)
          >>> 2) ∧
    (∀ n, (∀ i, i < 16 → (xtremeMask (bytesOf evs)).testBit i = true →
        i < hw.MAX_RC_CHANNELS → Config.ChannelOrder.getD i 0 ≠ n) →
      (runRx hw Config evs s0).RxChannel.getD n 0 = s0.RxChannel.getD n 0) := by
  have hN := rankBelow_le (xtremeMask (bytesOf evs)) 16
  refine frame_induction hw Config (bytesOf evs) (XtremeInv (bytesOf evs) s0)
    (fun r => r.Interrupted = true ∧ r.Overdue = false ∧ r.RC_Timeout = 0 ∧
      (∀ i, i < 16 → (xtremeMask (bytesOf evs)).testBit i = true → i < hw.MAX_RC_CHANNELS →
        r.RxChannel.getD (Config.ChannelOrder.getD i 0) 0 =
          ((xtremeWord (bytesOf evs) (rankBelow (xtremeMask (bytesOf evs)) i) * 10) % 65536)
            >>> 2) ∧
      (∀ n, (∀ i, i < 16 → (xtremeMask (bytesOf evs)).testBit i = true →
          i < hw.MAX_RC_CHANNELS → Config.ChannelOrder.getD i 0 ≠ n) →
        r.RxChannel.getD n 0 = s0.RxChannel.getD n 0))
    (by omega) hsz (by omega) s0 ?_ ?_ ?_ evs hp rfl
  · intro ev he hgap hb
    exact xtreme_inv_start hw Config (bytesOf evs) s0 hm (by omega) (by omega) ev he hgap hb
  · intro s ev k hk1 hk2 hs hi he hgap hb
    exact xtreme_inv_step hw Config (bytesOf evs) s0 hm hlen hsz s ev k hk1 hk2 hs hi he hgap hb
  · intro s ev k hk1 hk2 hs hi he hgap hb _
    have hkl : (List.take k (bytesOf evs)).length = k := by rw [List.length_take]; omega
    have hc := entry_cont hw ev s _ hs hgap (by rw [hkl]; omega) (by rw [hkl]; omega)
    obtain ⟨f1, f2, f3, f4, f5, f6⟩ := xtreme_last_facts hw (bytesOf evs) s0 hlen hck s ev k hk2
      hs hi hb
    have hbuf : ∀ i, (s.sBuffer.set (List.take k (bytesOf evs)).length ev.UDR0).getD i 0 =
        (bytesOf evs).getD i 0 := by
      intro i
      rw [set_holds hw s _ ev.UDR0 hs (by rw [hkl]; omega) i, hb,
        ← take_succ_getD _ _ (by omega), hk2, List.take_length]
    obtain ⟨a1, a2, a3, a4⟩ := xtreme_last_good hw Config ev.UDR0 ev.TCNT2
      { (jitter s) with PPMSyncStart := ev.TCNT1, sBuffer := s.sBuffer.set (List.take k (bytesOf evs)).length ev.UDR0, rcindex := (List.take k (bytesOf evs)).length + 1 }
      (by show 4 ≤ (jitter s).bytecount; exact f1)
      (by show ¬ (jitter s).bytecount < 2 * (jitter s).ch_num + 4; exact f2)
      (by
        show (jitter s).checksum % 256 = ev.UDR0
        rw [f3, f4, hpois, Nat.zero_add])
    have a4' : (xtreme hw Config ev.UDR0 ev.TCNT2
        { (jitter s) with PPMSyncStart := ev.TCNT1, sBuffer := s.sBuffer.set (List.take k (bytesOf evs)).length ev.UDR0, rcindex := (List.take k (bytesOf evs)).length + 1 }).RxChannel =
        ((List.range 16).foldl (xtremeStep hw Config (xtremeMask (bytesOf evs))
          (s.sBuffer.set (List.take k (bytesOf evs)).length ev.UDR0)) (4, s0.RxChannel)).2 := by
      rw [a4]
      show (xtremeLoop hw Config (jitter s).chanmask16 _ (jitter s).RxChannel).2 = _
      rw [f5, f6]
      rfl
    obtain ⟨_, _, e3, e4⟩ := xtremeFold_effect hw Config (xtremeMask (bytesOf evs))
      (s.sBuffer.set (List.take k (bytesOf evs)).length ev.UDR0) s0.RxChannel
      (by
        intro i hi16 hbit
        have := rankBelow_lt_of_testBit (xtremeMask (bytesOf evs)) hi16 hbit
        omega)
      (fun a ha b hb' h => channelOrder_inj hco a ha b hb' h)
      (fun k' hk' => by rw [hrx]; exact channelOrder_lt hco k' hk') 16 (le_refl _)
    simp only [xtremeWord_congr _ (bytesOf evs) hbuf] at e3
    rw [USART_valid_eq hw Config ev s he, decode_xtreme hw Config _ _ _ hm, hc]
    refine ⟨a1, a2, a3, ?_, ?_⟩
    · intro i hi16 hbit hiM
      show (xtreme hw Config ev.UDR0 ev.TCNT2 _).RxChannel.getD _ 0 = _
      rw [a4']
      exact e3 i hi16 hbit hiM
    · intro n hn
      show (xtreme hw Config ev.UDR0 ev.TCNT2 _).RxChannel.getD n 0 = _
      rw [a4']
      exact e4 n hn


/-! ## Claims C8 and C9: XPS Xtreme -/

theorem flag_bits : ∀ b, b < 256 → (b &&& 0xE0 ≠ 0 ↔ b / 32 % 8 ≠ 0) := by
  decide

theorem xtremeMask_eq_maskBE (frame : List Nat) (h : ∀ b, b ∈ frame → b < 256) :
    xtremeMask frame = maskBE frame := by
  have h2 := getD_lt_of_forall frame h 2
  have h3 := getD_lt_of_forall frame h 3
  unfold xtremeMask maskBE
  rw [Nat.shiftLeft_eq, Nat.mod_eq_of_lt (by omega), Nat.mod_eq_of_lt (by omega)]
  omega

theorem xtremeWord_eq_wordBE (frame : List Nat) (h : ∀ b, b ∈ frame → b < 256) (r : Nat) :
    xtremeWord frame r = wordBE frame r := by
  have h2 := getD_lt_of_forall frame h (4 + 2 * r)
  have h3 := getD_lt_of_forall frame h (4 + 2 * r + 1)
  unfold xtremeWord wordBE
  rw [Nat.shiftLeft_eq, Nat.mod_eq_of_lt (by omega)]
  have : 5 + 2 * r = 4 + 2 * r + 1 := by omega
  rw [this]
  omega

theorem xtremePoison_eq (frame : List Nat) (h : ∀ b, b ∈ frame → b < 256) :
    xtremePoison (frame.getD 0 0) = if flagBits (frame.getD 0 0) ≠ 0 then 0x55 else 0 := by
  have hb := flag_bits _ (getD_lt_of_forall frame h 0)
  unfold xtremePoison flagBits
  by_cases hf : frame.getD 0 0 / 32 % 8 ≠ 0
  · rw [if_pos (hb.mpr hf), if_pos hf]
  · rw [if_neg (fun hc => hf (hb.mp hc)), if_neg hf]

/-- C8, as amended (XTREME checksum poisoning). For every XTREME packet received after a gap
that is otherwise valid (mask at bytes 2-3 with `N` set bits, `2 N` data bytes, final byte the
low byte of the sum of all preceding bytes) but whose byte 0 has any of bits 7:5 set, and for
every prior state: after the packet every entry of the channel vector is unchanged, and
`Interrupted` is false, whatever its value before, because the handler clears it on a checksum
mismatch. -/
theorem C8_xtreme_poisoned (hw : Board) (Config : CONFIG) (s0 : State) (evs : List RxEvent)
    (hm : Config.RxMode = RxModes.XTREME) (hp : IsPacket s0.PPMSyncStart evs)
    (hv : XtremeValid (bytesOf evs)) (hsz : (bytesOf evs).length ≤ hw.SBUFFER_SIZE)
    (hflag : flagBits ((bytesOf evs).getD 0 0) ≠ 0) :
    (runRx hw Config evs s0).RxChannel = s0.RxChannel ∧
    (runRx hw Config evs s0).Interrupted = false := by
  obtain ⟨v1, v2, v3⟩ := hv
  exact xtreme_packet_bad hw Config s0 evs hm hp
    (by rw [xtremeMask_eq_maskBE _ v1]; exact v2) hsz v3
    (by rw [xtremePoison_eq _ v1, if_pos hflag])

/-- Witness for C8: the example packet of the format comment with flag byte `0xE0` and the
matching checksum byte, received in a state where `Interrupted` is false. -/
theorem C8_xtreme_poisoned_witness :
    (runRx board8 (idOrder RxModes.XTREME 8) (eventsAt 3000 xtremeFlagged)
      (filledState board8 7)).RxChannel = (filledState board8 7).RxChannel ∧
    (runRx board8 (idOrder RxModes.XTREME 8) (eventsAt 3000 xtremeFlagged)
      (filledState board8 7)).Interrupted = false :=
  C8_xtreme_poisoned board8 (idOrder RxModes.XTREME 8) (filledState board8 7)
    (eventsAt 3000 xtremeFlagged) rfl (by decide) (by decide) (by decide) (by decide)

/-- Counterexample to C8 as stated: received in a state where `Interrupted` is already true,
the poisoned packet leaves `Interrupted` false, not at the value it had before. -/
theorem C8_xtreme_poisoned_counterexample :
    (idOrder RxModes.XTREME 8).RxMode = RxModes.XTREME ∧
    IsPacket (interruptedState board8 7).PPMSyncStart (eventsAt 3000 xtremeFlagged) ∧
    bytesOf (eventsAt 3000 xtremeFlagged) = xtremeFlagged ∧
    XtremeValid xtremeFlagged ∧ xtremeFlagged.getD 0 0 = 0xE0 ∧
    (interruptedState board8 7).Interrupted = true ∧
    (runRx board8 (idOrder RxModes.XTREME 8) (eventsAt 3000 xtremeFlagged)
      (interruptedState board8 7)).Interrupted = false := by
  decide

/-- C9, as amended (XTREME decode of a valid packet). For every packet received after a gap
whose byte 0 has bits 7:5 clear, whose bytes 2-3 form the big-endian mask `m` with `N` set
bits, followed by `2 N` data bytes and a final byte equal to the low byte of the sum of all
preceding bytes: the handler sets `Interrupted = true` on the final byte and, for each set bit
`j` of `m` that is below `MAX_RC_CHANNELS` (the guard `if (j < MAX_RC_CHANNELS)`; bits
`0 .. 7` on the eight-entry vector) and `r` the number of set bits of `m` below `j`,
`RxChannel[ChannelOrder[j]] = (w_r * 10) >> 2` in 16-bit arithmetic, `w_r` the big-endian word
at packet bytes `4 + 2 r`, `5 + 2 r`; every other entry is unchanged: the word of a set bit
`j ≥ MAX_RC_CHANNELS` is skipped. For `w ≤ 6553` the value is `⌊2.5 w⌋`. -/
theorem C9_xtreme_decode (hw : Board) (Config : CONFIG) (s0 : State) (evs : List RxEvent)
    (hm : Config.RxMode = RxModes.XTREME) (hco : ChannelOrderOK hw Config)
    (hrx : s0.RxChannel.length = hw.MAX_RC_CHANNELS)
    (hp : IsPacket s0.PPMSyncStart evs)
    (hv : XtremeValid (bytesOf evs)) (hsz : (bytesOf evs).length ≤ hw.SBUFFER_SIZE)
    (hflag : flagBits ((bytesOf evs).getD 0 0) = 0) :
    (runRx hw Config evs s0).Interrupted = true ∧
    (∀ j, j < 16 → (maskBE (bytesOf evs)).testBit j = true → j < hw.MAX_RC_CHANNELS →
      (runRx hw Config evs s0).RxChannel.getD (Config.ChannelOrder.getD j 0) 0 =
        ((wordBE (bytesOf evs) (rankBelow (maskBE (bytesOf evs)) j) * 10) % 65536) >>> 2) ∧
    (∀ n, (∀ j, j < 16 → (maskBE (bytesOf evs)).testBit j = true →
        j < hw.MAX_RC_CHANNELS → Config.ChannelOrder.getD j 0 ≠ n) →
      (runRx hw Config evs s0).RxChannel.getD n 0 = s0.RxChannel.getD n 0) ∧
    (∀ w, w ≤ 6553 → ((w * 10) % 65536) >>> 2 = 5 * w / 2) := by
  obtain ⟨v1, v2, v3⟩ := hv
  obtain ⟨r1, _, _, r4, r5⟩ := xtreme_packet_good hw Config s0 evs hm hco hrx hp
    (by rw [xtremeMask_eq_maskBE _ v1]; exact v2) hsz v3
    (by rw [xtremePoison_eq _ v1, if_neg (by rw [hflag]; simp)])
  simp only [xtremeMask_eq_maskBE _ v1, xtremeWord_eq_wordBE _ v1] at r4 r5
  refine ⟨r1, r4, r5, ?_⟩
  intro w hw'
  rw [Nat.mod_eq_of_lt (by omega), Nat.shiftRight_eq_div_pow]
  omega

/-- Witness for C9: the example packet of the format comment, `00 23 00 0A 05 DC 05 DD F0`,
gives position 1 the value 3750 and position 3 the value 3752. -/
theorem C9_xtreme_decode_witness :
    (runRx board8 (idOrder RxModes.XTREME 8) (eventsAt 3000 xtremeExample)
      (filledState board8 7)).Interrupted = true ∧
    (runRx board8 (idOrder RxModes.XTREME 8) (eventsAt 3000 xtremeExample)
      (filledState board8 7)).RxChannel.getD 1 0 = 3750 ∧
    (runRx board8 (idOrder RxModes.XTREME 8) (eventsAt 3000 xtremeExample)
      (filledState board8 7)).RxChannel.getD 3 0 = 3752 ∧
    (runRx board8 (idOrder RxModes.XTREME 8) (eventsAt 3000 xtremeExample)
      (filledState board8 7)).RxChannel.getD 2 0 = 7 :=
  have h := C9_xtreme_decode board8 (idOrder RxModes.XTREME 8) (filledState board8 7)
    (eventsAt 3000 xtremeExample) rfl (by decide) (by decide) (by decide) (by decide)
    (by decide) (by decide)
  ⟨h.1, (h.2.1 1 (by decide) (by decide) (by decide)).trans (by decide),
    (h.2.1 3 (by decide) (by decide) (by decide)).trans (by decide),
    (h.2.2.1 2 (by decide)).trans (by decide)⟩

/-- Counterexample to C9 as stated: on the eight channel board with the identity channel
order, the valid packet `00 23 01 02 05 DC 05 DD E9` (mask `0x0102`, bits 1 and 8) is accepted
and logical channel 1 becomes 3750, but the word `0x05DD` of the set bit 8 is skipped by the
guard `j < MAX_RC_CHANNELS`: no entry becomes 3752, the other seven entries keep the value 7
they had. -/
theorem C9_xtreme_decode_counterexample :
    IsPacket (filledState board8 7).PPMSyncStart (eventsAt 3000 xtremeNinth) ∧
    bytesOf (eventsAt 3000 xtremeNinth) = xtremeNinth ∧
    XtremeValid xtremeNinth ∧ flagBits (xtremeNinth.getD 0 0) = 0 ∧
    maskBE xtremeNinth = 0x0102 ∧ (maskBE xtremeNinth).testBit 8 = true ∧
    rankBelow (maskBE xtremeNinth) 8 = 1 ∧ wordBE xtremeNinth 1 = 0x05DD ∧
    ((wordBE xtremeNinth 1 * 10) % 65536) >>> 2 = 3752 ∧
    (runRx board8 (idOrder RxModes.XTREME 8) (eventsAt 3000 xtremeNinth)
      (filledState board8 7)).Interrupted = true ∧
    (runRx board8 (idOrder RxModes.XTREME 8) (eventsAt 3000 xtremeNinth)
      (filledState board8 7)).RxChannel = [7, 3750, 7, 7, 7, 7, 7, 7] ∧
    (idOrder RxModes.XTREME 8).ChannelOrder[8]? = none ∧
    ¬ (∀ j, j < 16 → (maskBE xtremeNinth).testBit j = true →
        ((idOrder RxModes.XTREME 8).ChannelOrder[j]?).bind
          (fun c => (runRx board8 (idOrder RxModes.XTREME 8) (eventsAt 3000 xtremeNinth)
            (filledState board8 7)).RxChannel[c]?)
        = some (((wordBE xtremeNinth (rankBelow (maskBE xtremeNinth) j) * 10) % 65536) >>> 2)) := by
  decide

/-! ## Gap framing and line errors -/

theorem uint16_sub_of_le (a b : Nat) (h : b ≤ a) (ha : a < 65536) :
    uint16 ((a : Int) - (b : Int)) = a - b := by
  unfold uint16
  have h1 : ((a : Int) - (b : Int)) = ((a - b : Nat) : Int) := by omega
  rw [h1]
  have h2 : (((a - b : Nat) : Int) % 65536) = (((a - b) % 65536 : Nat) : Int) := by omega
  rw [h2, Int.toNat_ofNat]
  omega

theorem uint16_sub_of_lt (a b : Nat) (h : a < b) (hb : b < 65536) :
    uint16 ((a : Int) - (b : Int)) = 65536 - b + a := by
  unfold uint16
  have h2 : (((a : Int) - (b : Int)) % 65536) = ((65536 - b + a : Nat) : Int) := by omega
  rw [h2, Int.toNat_ofNat]

theorem currentPeriod_eq (now last : Nat) (hn : now < 65536) (hl : last < 65536) :
    currentPeriod now last = edgeInterval now last := by
  unfold currentPeriod edgeInterval
  split_ifs with h
  · rw [uint16_sub_of_lt now last h hl]; omega
  · rw [uint16_sub_of_le now last (by omega) hn]; omega

theorem error_flags (x : Nat) :
    x &&& ((1 <<< FE0) ||| (1 <<< UPE0)) ≠ 0 ↔ (x &&& (1 <<< FE0) ≠ 0 ∨ x &&& (1 <<< UPE0) ≠ 0) := by
  rw [Nat.and_or_distrib_left]
  constructor
  · intro h
    by_contra hc
    push_neg at hc
    rw [hc.1, hc.2] at h
    exact h rfl
  · intro h hc
    have h1 : x &&& (1 <<< FE0) = 0 := by
      apply Nat.eq_of_testBit_eq; intro i
      have := congrArg (fun n => n.testBit i) hc
      simp only [Nat.testBit_or, Nat.zero_testBit, Bool.or_eq_false_iff] at this
      simp [this.1]
    have h2 : x &&& (1 <<< UPE0) = 0 := by
      apply Nat.eq_of_testBit_eq; intro i
      have := congrArg (fun n => n.testBit i) hc
      simp only [Nat.testBit_or, Nat.zero_testBit, Bool.or_eq_false_iff] at this
      simp [this.2]
    rcases h with h | h
    · exact h h1
    · exact h h2

/-- C12. Line errors do not advance state: when `UCSR0A` flags a framing, parity or overrun
error, the serial handler changes nothing but `JitterFlag`; in particular the packet buffer,
write index, byte count, checksum, channel mask, channel number, time stamp, `FrameRate`,
`packet_size`, the channel vector, `Interrupted`, `Overdue` and `RC_Timeout` are as before. -/
theorem C12_line_errors_keep_state (hw : Board) (Config : CONFIG) (ev : RxEvent) (s : State)
    (herr : ev.UCSR0A &&& (1 <<< FE0) ≠ 0 ∨ ev.UCSR0A &&& (1 <<< UPE0) ≠ 0 ∨
      ev.UCSR0A &&& (1 <<< DOR0) ≠ 0) :
    USART0_RX_vect hw Config ev s = { s with JitterFlag := (s.JitterGate || s.JitterFlag) } ∧
    (USART0_RX_vect hw Config ev s).sBuffer = s.sBuffer ∧
    (USART0_RX_vect hw Config ev s).rcindex = s.rcindex ∧
    (USART0_RX_vect hw Config ev s).bytecount = s.bytecount ∧
    (USART0_RX_vect hw Config ev s).checksum = s.checksum ∧
    (USART0_RX_vect hw Config ev s).chanmask16 = s.chanmask16 ∧
    (USART0_RX_vect hw Config ev s).ch_num = s.ch_num ∧
    (USART0_RX_vect hw Config ev s).PPMSyncStart = s.PPMSyncStart ∧
    (USART0_RX_vect hw Config ev s).FrameRate = s.FrameRate ∧
    (USART0_RX_vect hw Config ev s).packet_size = s.packet_size ∧
    (USART0_RX_vect hw Config ev s).RxChannel = s.RxChannel ∧
    (USART0_RX_vect hw Config ev s).Interrupted = s.Interrupted ∧
    (USART0_RX_vect hw Config ev s).Overdue = s.Overdue ∧
    (USART0_RX_vect hw Config ev s).RC_Timeout = s.RC_Timeout := by
  have hj : jitter s = { s with JitterFlag := (s.JitterGate || s.JitterFlag) } := by
    cases s
    unfold jitter
    dsimp only
    split_ifs with h <;> simp_all
  have key : USART0_RX_vect hw Config ev s = jitter s := by
    unfold USART0_RX_vect
    dsimp only
    by_cases h1 : ev.UCSR0A &&& ((1 <<< FE0) ||| (1 <<< UPE0)) ≠ 0
    · rw [if_pos h1]
    · rw [if_neg h1]
      have h2 : ev.UCSR0A &&& (1 <<< DOR0) ≠ 0 := by
        rcases herr with h | h | h
        · exact absurd ((error_flags _).2 (Or.inl h)) h1
        · exact absurd ((error_flags _).2 (Or.inr h)) h1
        · exact h
      rw [if_pos h2]
  rw [key, hj]
  exact ⟨rfl, rfl, rfl, rfl, rfl, rfl, rfl, rfl, rfl, rfl, rfl, rfl, rfl, rfl⟩

/-- Witness of C12: a framing error flagged on a byte received 22 bytes into an S-Bus packet
with the jitter gate open. -/
theorem C12_line_errors_keep_state_witness :
    (USART0_RX_vect board8 (idOrder RxModes.SBUS 8)
      { UCSR0A := 0x10, UDR0 := 0xAA, TCNT1 := 5300, TCNT2 := 0 }
      { (filledState board8 7) with rcindex := 22, bytecount := 22, JitterGate := true }).rcindex
      = 22 ∧
    (USART0_RX_vect board8 (idOrder RxModes.SBUS 8)
      { UCSR0A := 0x10, UDR0 := 0xAA, TCNT1 := 5300, TCNT2 := 0 }
      { (filledState board8 7) with rcindex := 22, bytecount := 22, JitterGate := true }).JitterFlag
      = true :=
  ⟨(C12_line_errors_keep_state board8 (idOrder RxModes.SBUS 8)
      { UCSR0A := 0x10, UDR0 := 0xAA, TCNT1 := 5300, TCNT2 := 0 }
      { (filledState board8 7) with rcindex := 22, bytecount := 22, JitterGate := true }
      (by decide)).2.2.1, by decide⟩


theorem decode_sBuffer_of_first (hw : Board) (Config : CONFIG) (temp T : Nat) (s : State)
    (hb : s.bytecount = 0) : (decode hw Config temp T s).sBuffer = s.sBuffer := by
  have hf := decode_framing hw Config temp T s (by intro h; omega)
  exact list_eq_of_getD _ _ hf.2.2.2.1 (fun i _ => hf.2.2.2.2.1 i)

theorem sameCounters_trans {a b c : State} (h1 : SameCounters a b) (h2 : SameCounters b c) :
    SameCounters a c :=
  ⟨h2.1.trans h1.1, h2.2.1.trans h1.2.1, h2.2.2.1.trans h1.2.2.1, h2.2.2.2.trans h1.2.2.2⟩

theorem crcPublish_counters (hw : Board) (Config : CONFIG) (ofs : Nat) (f : Nat → Nat) (T : Nat)
    (s : State) : SameCounters s (crcPublish hw Config ofs f T s) := by
  unfold crcPublish
  dsimp only
  split_ifs <;> exact ⟨rfl, rfl, rfl, rfl⟩

theorem decode_counters (hw : Board) (Config : CONFIG) (temp T : Nat) (s : State) :
    SameCounters s (decode hw Config temp T s) := by
  have x1 : ∀ s, SameCounters s (xtremeFlags temp s) := by
    intro s; unfold xtremeFlags; split_ifs <;> exact ⟨rfl, rfl, rfl, rfl⟩
  have x2 : ∀ s, SameCounters s (xtremeMaskHigh temp s) := by
    intro s; unfold xtremeMaskHigh; split_ifs <;> exact ⟨rfl, rfl, rfl, rfl⟩
  have x3 : ∀ s, SameCounters s (xtremeMaskLow temp s) := by
    intro s; unfold xtremeMaskLow; split_ifs <;> exact ⟨rfl, rfl, rfl, rfl⟩
  have x4 : ∀ s, SameCounters s (xtremeData hw Config temp T s) := by
    intro s; unfold xtremeData; dsimp only; split_ifs <;> exact ⟨rfl, rfl, rfl, rfl⟩
  have b1 : ∀ s, SameCounters s (sbus hw Config T s) := by
    intro s; unfold sbus; split_ifs <;> exact ⟨rfl, rfl, rfl, rfl⟩
  have k1 : ∀ s, SameCounters s (spektrum hw Config temp T s) := by
    intro s; unfold spektrum; split_ifs <;> exact ⟨rfl, rfl, rfl, rfl⟩
  have m1 : ∀ s, SameCounters s (modebSize s) := by
    intro s; unfold modebSize; split_ifs <;> exact ⟨rfl, rfl, rfl, rfl⟩
  have m2 : ∀ s, SameCounters s (modebCheck hw Config T s) := by
    intro s; unfold modebCheck; split_ifs
    · exact crcPublish_counters _ _ _ _ _ _
    · exact ⟨rfl, rfl, rfl, rfl⟩
  have d1 : ∀ s, SameCounters s (sumdSize s) := by
    intro s; unfold sumdSize; split_ifs <;> exact ⟨rfl, rfl, rfl, rfl⟩
  have d2 : ∀ s, SameCounters s (sumdCheck hw Config T s) := by
    intro s; unfold sumdCheck; split_ifs
    · exact crcPublish_counters _ _ _ _ _ _
    · exact ⟨rfl, rfl, rfl, rfl⟩
  unfold decode
  cases hm : Config.RxMode
  all_goals simp only [reduceCtorEq, if_false, if_true]
  · exact ⟨rfl, rfl, rfl, rfl⟩
  · exact ⟨rfl, rfl, rfl, rfl⟩
  · exact sameCounters_trans (sameCounters_trans (x1 _) (x2 _)) (sameCounters_trans (x3 _) (x4 _))
  · exact b1 s
  · exact k1 s
  · exact sameCounters_trans (m1 _) (m2 _)
  · exact sameCounters_trans (d1 _) (d2 _)

/-- C11 (amended). Gap framing: for an error free byte received `g` ticks (modulo 65536) after
the previous arrival, the handler starts a new packet exactly when `g > 2500`. Then the
protocol blocks are entered with the buffer zeroed but for the byte at index 0, write index 1,
byte count, channel number, checksum and channel mask 0 and `FrameRate = g`; after the handler
the buffer is still so, write index and byte count are 1 and `FrameRate` is `g`. When
`g ≤ 2500` the protocol blocks are entered with byte count, channel number, checksum, channel
mask and `FrameRate` as before; the byte is stored at the write index, which advances, when
the write index is below `SBUFFER_SIZE`, and is dropped otherwise; after the handler the byte
count is one more (modulo 256) and `FrameRate` is unchanged. In both cases the handler is the
protocol blocks run from that entry state, followed by the increment of the byte count. -/
theorem C11_gap_framing (hw : Board) (Config : CONFIG) (ev : RxEvent) (s : State)
    (he : errorFree ev) (ht : ev.TCNT1 < 65536) (hp : s.PPMSyncStart < 65536)
    (hsz : 0 < hw.SBUFFER_SIZE) :
    (PACKET_TIMER < edgeInterval ev.TCNT1 s.PPMSyncStart →
      (entryState hw ev s).sBuffer = (List.replicate hw.SBUFFER_SIZE 0).set 0 ev.UDR0 ∧
      (entryState hw ev s).rcindex = 1 ∧ (entryState hw ev s).bytecount = 0 ∧
      (entryState hw ev s).ch_num = 0 ∧ (entryState hw ev s).checksum = 0 ∧
      (entryState hw ev s).chanmask16 = 0 ∧
      (entryState hw ev s).FrameRate = edgeInterval ev.TCNT1 s.PPMSyncStart ∧
      (USART0_RX_vect hw Config ev s).sBuffer = (List.replicate hw.SBUFFER_SIZE 0).set 0 ev.UDR0 ∧
      (USART0_RX_vect hw Config ev s).rcindex = 1 ∧
      (USART0_RX_vect hw Config ev s).bytecount = 1 ∧
      (USART0_RX_vect hw Config ev s).FrameRate = edgeInterval ev.TCNT1 s.PPMSyncStart) ∧
    (edgeInterval ev.TCNT1 s.PPMSyncStart ≤ PACKET_TIMER →
      (entryState hw ev s).bytecount = s.bytecount ∧ (entryState hw ev s).ch_num = s.ch_num ∧
      (entryState hw ev s).checksum = s.checksum ∧
      (entryState hw ev s).chanmask16 = s.chanmask16 ∧
      (entryState hw ev s).FrameRate = s.FrameRate ∧
      (entryState hw ev s).sBuffer =
        (if s.rcindex < hw.SBUFFER_SIZE then s.sBuffer.set s.rcindex ev.UDR0 else s.sBuffer) ∧
      (entryState hw ev s).rcindex =
        (if s.rcindex < hw.SBUFFER_SIZE then (s.rcindex + 1) % 256 else s.rcindex) ∧
      (USART0_RX_vect hw Config ev s).rcindex = (entryState hw ev s).rcindex ∧
      (USART0_RX_vect hw Config ev s).bytecount = (s.bytecount + 1) % 256 ∧
      (USART0_RX_vect hw Config ev s).FrameRate = s.FrameRate) ∧
    (USART0_RX_vect hw Config ev s).PPMSyncStart = ev.TCNT1 ∧
    USART0_RX_vect hw Config ev s =
      { (decode hw Config ev.UDR0 ev.TCNT2 (entryState hw ev s)) with bytecount := ((decode hw Config ev.UDR0 ev.TCNT2 (entryState hw ev s)).bytecount + 1) % 256 } := by
  have hv := USART_valid_eq hw Config ev s he
  have hcp := currentPeriod_eq ev.TCNT1 s.PPMSyncStart ht hp
  have hj := jitter_fields s
  have hjo := jitter_other_fields s
  have hfr := decode_framing hw Config ev.UDR0 ev.TCNT2
  have hdc := decode_counters hw Config ev.UDR0 ev.TCNT2 (entryState hw ev s)
  have hfr2 := hdc.2.2.2
  have hE : entryState hw ev s = commonEntry hw ev.UDR0 ev.TCNT1 (jitter s) := rfl
  refine ⟨?_, ?_, ?_, ?_⟩
  · intro hg
    rw [← hcp] at hg ⊢
    have hes := entry_start hw ev s hg hsz
    rw [← hE] at hes
    have hb0 : (entryState hw ev s).bytecount = 0 := by rw [hes]
    have hbuf : (entryState hw ev s).sBuffer = (List.replicate hw.SBUFFER_SIZE 0).set 0 ev.UDR0 := by
      rw [hes]
    have hrc : (entryState hw ev s).rcindex = 1 := by rw [hes]
    have hfrate : (entryState hw ev s).FrameRate = currentPeriod ev.TCNT1 s.PPMSyncStart := by
      rw [hes]
    have hfrm := hfr (entryState hw ev s) (by intro h; omega)
    refine ⟨hbuf, hrc, hb0, by rw [hes], by rw [hes], by rw [hes], hfrate, ?_, ?_, ?_, ?_⟩
    · rw [hv, ← hE]
      show (decode hw Config ev.UDR0 ev.TCNT2 (entryState hw ev s)).sBuffer = _
      rw [decode_sBuffer_of_first hw Config _ _ _ hb0, hbuf]
    · rw [hv, ← hE]
      show (decode hw Config ev.UDR0 ev.TCNT2 (entryState hw ev s)).rcindex = _
      rw [hfrm.1, hrc]
    · rw [hv, ← hE]
      show ((decode hw Config ev.UDR0 ev.TCNT2 (entryState hw ev s)).bytecount + 1) % 256 = _
      rw [hfrm.2.1, hb0]
    · rw [hv, ← hE]
      show (decode hw Config ev.UDR0 ev.TCNT2 (entryState hw ev s)).FrameRate = _
      rw [hfr2, hfrate]
  · intro hg
    rw [← hcp] at hg
    have hgj : ¬ currentPeriod ev.TCNT1 (jitter s).PPMSyncStart > PACKET_TIMER := by
      rw [hj.2.2.2.2.2.2.2.2.2.2.2]; omega
    have hc := commonEntry_cont_fields hw ev.UDR0 ev.TCNT1 (jitter s)
      (by rw [hj.2.2.2.2.2.2.2.2.2.2.2]; exact hg)
    have hbc : (entryState hw ev s).bytecount = s.bytecount := by rw [hE, hc.1, hj.1]
    have hfrate : (entryState hw ev s).FrameRate = s.FrameRate := by
      rw [hE]; unfold commonEntry; dsimp only; rw [if_neg hgj]
      split_ifs <;> exact hjo.2.2
    have hchn : (entryState hw ev s).ch_num = s.ch_num := by
      rw [hE]; unfold commonEntry; dsimp only; rw [if_neg hgj]
      split_ifs <;> exact hj.2.2.2.2.2.2.2.2.1
    have hck : (entryState hw ev s).checksum = s.checksum := by
      rw [hE]; unfold commonEntry; dsimp only; rw [if_neg hgj]
      split_ifs <;> exact hj.2.2.2.2.2.2.1
    have hcm : (entryState hw ev s).chanmask16 = s.chanmask16 := by
      rw [hE]; unfold commonEntry; dsimp only; rw [if_neg hgj]
      split_ifs <;> exact hj.2.2.2.2.2.2.2.1
    have hbuf : (entryState hw ev s).sBuffer =
        (if s.rcindex < hw.SBUFFER_SIZE then s.sBuffer.set s.rcindex ev.UDR0 else s.sBuffer) := by
      rw [hE]; unfold commonEntry; dsimp only; rw [if_neg hgj]
      rw [← hj.2.2.2.2.2.2.2.2.2.2.1, ← hj.2.2.2.2.2.2.2.2.2.1]
      split_ifs <;> rfl
    have hrc : (entryState hw ev s).rcindex =
        (if s.rcindex < hw.SBUFFER_SIZE then (s.rcindex + 1) % 256 else s.rcindex) := by
      rw [hE]; unfold commonEntry; dsimp only; rw [if_neg hgj]
      rw [← hj.2.2.2.2.2.2.2.2.2.2.1]
      split_ifs <;> rfl
    refine ⟨hbc, hchn, hck, hcm, hfrate, hbuf, hrc, ?_, ?_, ?_⟩
    · rw [hv, ← hE]
      show (decode hw Config ev.UDR0 ev.TCNT2 (entryState hw ev s)).rcindex = _
      exact hdc.1
    · rw [hv, ← hE]
      show ((decode hw Config ev.UDR0 ev.TCNT2 (entryState hw ev s)).bytecount + 1) % 256 = _
      rw [hdc.2.1, hbc]
    · rw [hv, ← hE]
      show (decode hw Config ev.UDR0 ev.TCNT2 (entryState hw ev s)).FrameRate = _
      rw [hfr2, hfrate]
  · rw [hv, ← hE]
    show (decode hw Config ev.UDR0 ev.TCNT2 (entryState hw ev s)).PPMSyncStart = _
    rw [hdc.2.2.1, hE]
    unfold commonEntry
    dsimp only
    split_ifs <;> rfl
  · rw [hv]
    rfl


/-- Witness of C11: from a state three bytes into a packet with the last arrival at tick
5000, a byte at tick 6000 (1000 ticks, 0.4 ms later) continues the packet, and a byte at
tick 8750 (3750 ticks, 1.5 ms later) starts a new one. -/
theorem C11_gap_framing_witness :
    ((USART0_RX_vect board8 (idOrder RxModes.SBUS 8)
        { UCSR0A := 0, UDR0 := 0x0F, TCNT1 := 6000, TCNT2 := 0 } midPacketState).bytecount = 4 ∧
      (USART0_RX_vect board8 (idOrder RxModes.SBUS 8)
        { UCSR0A := 0, UDR0 := 0x0F, TCNT1 := 6000, TCNT2 := 0 } midPacketState).FrameRate
        = 35000) ∧
    ((USART0_RX_vect board8 (idOrder RxModes.SBUS 8)
        { UCSR0A := 0, UDR0 := 0x0F, TCNT1 := 8750, TCNT2 := 0 } midPacketState).rcindex = 1 ∧
      (USART0_RX_vect board8 (idOrder RxModes.SBUS 8)
        { UCSR0A := 0, UDR0 := 0x0F, TCNT1 := 8750, TCNT2 := 0 } midPacketState).bytecount = 1 ∧
      (USART0_RX_vect board8 (idOrder RxModes.SBUS 8)
        { UCSR0A := 0, UDR0 := 0x0F, TCNT1 := 8750, TCNT2 := 0 } midPacketState).FrameRate
        = 3750) :=
  ⟨⟨((C11_gap_framing board8 (idOrder RxModes.SBUS 8)
        { UCSR0A := 0, UDR0 := 0x0F, TCNT1 := 6000, TCNT2 := 0 } midPacketState
        (by decide) (by decide) (by decide) (by decide)).2.1 (by decide)).2.2.2.2.2.2.2.2.1,
    ((C11_gap_framing board8 (idOrder RxModes.SBUS 8)
        { UCSR0A := 0, UDR0 := 0x0F, TCNT1 := 6000, TCNT2 := 0 } midPacketState
        (by decide) (by decide) (by decide) (by decide)).2.1 (by decide)).2.2.2.2.2.2.2.2.2⟩,
   ⟨((C11_gap_framing board8 (idOrder RxModes.SBUS 8)
        { UCSR0A := 0, UDR0 := 0x0F, TCNT1 := 8750, TCNT2 := 0 } midPacketState
        (by decide) (by decide) (by decide) (by decide)).1 (by decide)).2.2.2.2.2.2.2.2.1,
    ((C11_gap_framing board8 (idOrder RxModes.SBUS 8)
        { UCSR0A := 0, UDR0 := 0x0F, TCNT1 := 8750, TCNT2 := 0 } midPacketState
        (by decide) (by decide) (by decide) (by decide)).1 (by decide)).2.2.2.2.2.2.2.2.2.1,
    ((C11_gap_framing board8 (idOrder RxModes.SBUS 8)
        { UCSR0A := 0, UDR0 := 0x0F, TCNT1 := 8750, TCNT2 := 0 } midPacketState
        (by decide) (by decide) (by decide) (by decide)).1 (by decide)).2.2.2.2.2.2.2.2.2.2⟩⟩

/-- Counterexample to C11 as stated: the 71st byte of an unbroken stream arrives 100 ticks
after the 70th, without line error. The buffer of `board8` is full: the byte `0xAA` is not
appended at the write index 70, buffer and write index stay as they were. -/
theorem C11_gap_framing_counterexample :
    errorFree { UCSR0A := 0, UDR0 := 0xAA, TCNT1 := 10000, TCNT2 := 0 } ∧
    edgeInterval 10000 fullBufferState.PPMSyncStart = 100 ∧
    fullBufferState.rcindex = 70 ∧ fullBufferState.bytecount = 70 ∧
    (USART0_RX_vect board8 (idOrder RxModes.SBUS 8)
      { UCSR0A := 0, UDR0 := 0xAA, TCNT1 := 10000, TCNT2 := 0 } fullBufferState).sBuffer
      = fullBufferState.sBuffer ∧
    (USART0_RX_vect board8 (idOrder RxModes.SBUS 8)
      { UCSR0A := 0, UDR0 := 0xAA, TCNT1 := 10000, TCNT2 := 0 } fullBufferState).sBuffer.getD 70 0
      ≠ 0xAA ∧
    (USART0_RX_vect board8 (idOrder RxModes.SBUS 8)
      { UCSR0A := 0, UDR0 := 0xAA, TCNT1 := 10000, TCNT2 := 0 } fullBufferState).rcindex = 70 := by
  decide


/-! ## Parallel PWM -/

theorem jitter_eq (s : State) : jitter s = { s with JitterFlag := (s.JitterGate || s.JitterFlag) } := by
  cases s
  unfold jitter
  dsimp only
  split_ifs with h <;> simp_all

theorem pwmEdge_rising (c : Nat) (Config : CONFIG) (t T : Nat) (s : State) :
    pwmEdge c Config true t T s = { s with RxChannelStart := s.RxChannelStart.set c t } := by
  unfold pwmEdge
  rw [if_pos rfl]

theorem pwmEdge_falling (c : Nat) (Config : CONFIG) (t T : Nat) (s : State) :
    (pwmEdge c Config false t T s).RxChannel =
      s.RxChannel.set c (uint16 ((t : Int) - (s.RxChannelStart.getD c 0 : Int))) ∧
    (pwmEdge c Config false t T s).RxChannelStart = s.RxChannelStart ∧
    (Config.PWM_Sync = c → (pwmEdge c Config false t T s).Interrupted = true ∧
      (pwmEdge c Config false t T s).RC_Timeout = 0 ∧
      (pwmEdge c Config false t T s).Overdue = false) ∧
    (Config.PWM_Sync ≠ c → (pwmEdge c Config false t T s).Interrupted = s.Interrupted ∧
      (pwmEdge c Config false t T s).RC_Timeout = s.RC_Timeout ∧
      (pwmEdge c Config false t T s).Overdue = s.Overdue) := by
  unfold pwmEdge rcSync
  dsimp only
  rw [if_neg (by simp)]
  by_cases h : Config.PWM_Sync = c
  · rw [if_pos h]
    exact ⟨rfl, rfl, fun _ => ⟨rfl, rfl, rfl⟩, fun h2 => absurd h h2⟩
  · rw [if_neg h]
    exact ⟨rfl, rfl, fun h2 => absurd h2 h, fun _ => ⟨rfl, rfl, rfl⟩⟩

theorem pwmHandler_eq (x : PwmInput) (Config : CONFIG) (ev : EdgeEvent) (s : State)
    (hmode : Config.RxMode ≠ RxModes.CPPM_MODE) :
    pwmHandler x Config ev s = pwmEdge (pwmChannel x) Config ev.pin ev.TCNT1 ev.TCNT2 (jitter s) := by
  cases x
  · rfl
  · rfl
  · rfl
  · rfl
  · show INT2_vect Config ev s = _
    unfold INT2_vect
    dsimp only
    rw [if_pos hmode]
    rfl

/-- C16. Parallel PWM edge handling, for each of the five inputs with its channel `c`
(aileron, elevator, throttle, gear, rudder) when the mode is not CPPM. A rising edge stores
the current tick in `RxChannelStart[c]` and changes nothing else but `JitterFlag`. A falling
edge sets `RxChannel[c]` to `TCNT1 - RxChannelStart[c]` modulo 65536, leaves every other entry
of the channel vector and the start times unchanged, and sets `Interrupted = true`,
`RC_Timeout = 0`, `Overdue = false` when `Config.PWM_Sync = c`; otherwise these three are
unchanged. -/
theorem C16_pwm_edges (x : PwmInput) (Config : CONFIG) (ev : EdgeEvent) (s : State)
    (hmode : Config.RxMode ≠ RxModes.CPPM_MODE)
    (hc : pwmChannel x < s.RxChannel.length) (hcs : pwmChannel x < s.RxChannelStart.length) :
    (ev.pin = true →
      pwmHandler x Config ev s = { s with RxChannelStart := s.RxChannelStart.set (pwmChannel x) ev.TCNT1, JitterFlag := (s.JitterGate || s.JitterFlag) } ∧
      (pwmHandler x Config ev s).RxChannelStart.getD (pwmChannel x) 0 = ev.TCNT1 ∧
      (∀ i, i ≠ pwmChannel x → (pwmHandler x Config ev s).RxChannelStart.getD i 0 =
        s.RxChannelStart.getD i 0)) ∧
    (ev.pin = false →
      (pwmHandler x Config ev s).RxChannel.getD (pwmChannel x) 0 =
        uint16 ((ev.TCNT1 : Int) - (s.RxChannelStart.getD (pwmChannel x) 0 : Int)) ∧
      (∀ i, i ≠ pwmChannel x → (pwmHandler x Config ev s).RxChannel.getD i 0 =
        s.RxChannel.getD i 0) ∧
      (pwmHandler x Config ev s).RxChannelStart = s.RxChannelStart ∧
      (Config.PWM_Sync = pwmChannel x → (pwmHandler x Config ev s).Interrupted = true ∧
        (pwmHandler x Config ev s).RC_Timeout = 0 ∧ (pwmHandler x Config ev s).Overdue = false) ∧
      (Config.PWM_Sync ≠ pwmChannel x →
        (pwmHandler x Config ev s).Interrupted = s.Interrupted ∧
        (pwmHandler x Config ev s).RC_Timeout = s.RC_Timeout ∧
        (pwmHandler x Config ev s).Overdue = s.Overdue)) := by
  rw [pwmHandler_eq x Config ev s hmode]
  have hj := jitter_eq s
  constructor
  · intro hp
    rw [hp, pwmEdge_rising, hj]
    refine ⟨rfl, ?_, ?_⟩
    · show (s.RxChannelStart.set (pwmChannel x) ev.TCNT1).getD (pwmChannel x) 0 = _
      exact getD_set_self _ _ _ _ hcs
    · intro i hi
      show (s.RxChannelStart.set (pwmChannel x) ev.TCNT1).getD i 0 = _
      exact getD_set_ne _ _ _ _ _ (Ne.symm hi)
  · intro hp
    rw [hp]
    have hf := pwmEdge_falling (pwmChannel x) Config ev.TCNT1 ev.TCNT2 (jitter s)
    have h1 : (jitter s).RxChannel = s.RxChannel := by rw [hj]
    have h2 : (jitter s).RxChannelStart = s.RxChannelStart := by rw [hj]
    have h3 : (jitter s).Interrupted = s.Interrupted := by rw [hj]
    have h4 : (jitter s).RC_Timeout = s.RC_Timeout := by rw [hj]
    have h5 : (jitter s).Overdue = s.Overdue := by rw [hj]
    rw [h1, h2, h3, h4, h5] at hf
    refine ⟨?_, ?_, hf.2.1, hf.2.2.1, hf.2.2.2⟩
    · rw [hf.1]
      exact getD_set_self _ _ _ _ hc
    · intro i hi
      rw [hf.1]
      exact getD_set_ne _ _ _ _ _ (Ne.symm hi)

/-- Witness of C16: the aileron input with aileron the sync channel; a rising edge at tick
1000 followed by a falling edge at tick 4750 measures a pulse of 3750 ticks and
synchronises. -/
theorem C16_pwm_edges_witness :
    (pwmHandler PwmInput.RX_ROLL { RxMode := RxModes.PWM, ChannelOrder := List.range 8, PWM_Sync := AILERON }
      { pin := false, TCNT1 := 4750, TCNT2 := 0 }
      (pwmHandler PwmInput.RX_ROLL { RxMode := RxModes.PWM, ChannelOrder := List.range 8, PWM_Sync := AILERON }
        { pin := true, TCNT1 := 1000, TCNT2 := 0 } (filledState board8 0))).RxChannel.getD
      (pwmChannel PwmInput.RX_ROLL) 0 = 3750 :=
  ((C16_pwm_edges PwmInput.RX_ROLL { RxMode := RxModes.PWM, ChannelOrder := List.range 8, PWM_Sync := AILERON }
    { pin := false, TCNT1 := 4750, TCNT2 := 0 }
    (pwmHandler PwmInput.RX_ROLL { RxMode := RxModes.PWM, ChannelOrder := List.range 8, PWM_Sync := AILERON }
      { pin := true, TCNT1 := 1000, TCNT2 := 0 } (filledState board8 0))
    (by decide) (by decide) (by decide)).2 rfl).1


/-! ## CPPM -/

/-- The channel number the CPPM code gives to an edge: the previous number, or zero after a
sync pulse or a too short pulse. -/
theorem cppmSync_fields (t : Nat) (s : State) :
    (cppmSync t s).ch_num =
      (if edgeInterval t s.PPMSyncStart > SYNCPULSEWIDTH ∨
        edgeInterval t s.PPMSyncStart < MINPULSEWIDTH then 0 else s.ch_num) ∧
    (cppmSync t s).PPMSyncStart = t ∧ (cppmSync t s).max_chan = s.max_chan ∧
    (cppmSync t s).Interrupted = s.Interrupted ∧ (cppmSync t s).RC_Timeout = s.RC_Timeout ∧
    (cppmSync t s).Overdue = s.Overdue := by
  unfold cppmSync
  dsimp only
  split_ifs <;> exact ⟨rfl, rfl, rfl, rfl, rfl, rfl⟩

theorem cppmMeasure_fields (Config : CONFIG) (t : Nat) (s : State) :
    (cppmMeasure Config t s).ch_num = s.ch_num ∧
    (cppmMeasure Config t s).PPMSyncStart = s.PPMSyncStart ∧
    (cppmMeasure Config t s).max_chan = s.max_chan ∧
    (cppmMeasure Config t s).Interrupted = s.Interrupted ∧
    (cppmMeasure Config t s).RC_Timeout = s.RC_Timeout ∧
    (cppmMeasure Config t s).Overdue = s.Overdue := by
  unfold cppmMeasure
  dsimp only
  split_ifs <;> exact ⟨rfl, rfl, rfl, rfl, rfl, rfl⟩

theorem cppmCount_fields (T : Nat) (s : State) :
    (cppmCount T s).ch_num = (s.ch_num + 1) % 256 ∧
    (cppmCount T s).PPMSyncStart = s.PPMSyncStart ∧
    ((s.ch_num + 1) % 256 = s.max_chan →
      (cppmCount T s).Interrupted = true ∧ (cppmCount T s).RC_Timeout = 0 ∧
      (cppmCount T s).Overdue = false ∧ (cppmCount T s).max_chan = s.max_chan) ∧
    ((s.ch_num + 1) % 256 ≠ s.max_chan →
      (cppmCount T s).Interrupted = s.Interrupted ∧
      (cppmCount T s).RC_Timeout = s.RC_Timeout ∧ (cppmCount T s).Overdue = s.Overdue ∧
      (cppmCount T s).max_chan = max ((s.ch_num + 1) % 256) s.max_chan) := by
  unfold cppmCount rcSync
  dsimp only
  by_cases h1 : (s.ch_num + 1) % 256 > s.max_chan
  · rw [if_pos h1]
    refine ⟨rfl, rfl, fun h => by omega, fun _ => ⟨rfl, rfl, rfl, ?_⟩⟩
    show (s.ch_num + 1) % 256 = _
    rw [max_eq_left (le_of_lt h1)]
  · rw [if_neg h1]
    by_cases h2 : (s.ch_num + 1) % 256 = s.max_chan
    · rw [if_pos h2]
      exact ⟨rfl, rfl, fun _ => ⟨rfl, rfl, rfl, rfl⟩, fun h => absurd h2 h⟩
    · rw [if_neg h2]
      refine ⟨rfl, rfl, fun h => absurd h h2, fun _ => ⟨rfl, rfl, rfl, ?_⟩⟩
      rw [max_eq_right (by omega)]

theorem cppmLost_fields (s : State) :
    (cppmLost s).ch_num = s.ch_num ∧ (cppmLost s).PPMSyncStart = s.PPMSyncStart ∧
    (cppmLost s).Interrupted = s.Interrupted ∧ (cppmLost s).RC_Timeout = s.RC_Timeout ∧
    (cppmLost s).Overdue = false ∧
    (cppmLost s).max_chan = (if s.Overdue = true then 0 else s.max_chan) := by
  unfold cppmLost
  by_cases h : s.Overdue = true
  · rw [if_pos h, if_pos h]
    exact ⟨rfl, rfl, rfl, rfl, rfl, rfl⟩
  · rw [if_neg h, if_neg h]
    refine ⟨rfl, rfl, rfl, rfl, ?_, rfl⟩
    simpa using h

/-- The channel number an edge at tick `t` receives in state `s`, after the increment. -/
theorem cppm_fields (Config : CONFIG) (t T : Nat) (s : State) (n : Nat)
    (hn : n = ((if edgeInterval t s.PPMSyncStart > SYNCPULSEWIDTH ∨
        edgeInterval t s.PPMSyncStart < MINPULSEWIDTH then 0 else s.ch_num) + 1) % 256) :
    (cppm Config t T s).ch_num = n ∧ (cppm Config t T s).PPMSyncStart = t ∧
    (cppm Config t T s).Overdue = false ∧
    (n = s.max_chan → (cppm Config t T s).Interrupted = true ∧
      (cppm Config t T s).RC_Timeout = 0 ∧ (cppm Config t T s).max_chan = s.max_chan) ∧
    (n ≠ s.max_chan → (cppm Config t T s).Interrupted = s.Interrupted ∧
      (cppm Config t T s).RC_Timeout = s.RC_Timeout ∧
      (cppm Config t T s).max_chan = (if s.Overdue = true then 0 else max n s.max_chan)) := by
  have h1 := cppmSync_fields t s
  have h2 := cppmMeasure_fields Config t (cppmSync t s)
  have h3 := cppmCount_fields T (cppmMeasure Config t (cppmSync t s))
  have h4 := cppmLost_fields (cppmCount T (cppmMeasure Config t (cppmSync t s)))
  rw [h2.1, h2.2.1, h2.2.2.1, h2.2.2.2.1, h2.2.2.2.2.1, h2.2.2.2.2.2,
    h1.1, h1.2.1, h1.2.2.1, h1.2.2.2.1, h1.2.2.2.2.1, h1.2.2.2.2.2, ← hn] at h3
  unfold cppm
  rw [h4.1, h4.2.1, h4.2.2.1, h4.2.2.2.1, h4.2.2.2.2.1, h4.2.2.2.2.2]
  refine ⟨h3.1, h3.2.1, rfl, ?_, ?_⟩
  · intro h
    have h5 := h3.2.2.1 h
    rw [h5.2.2.1, h5.2.2.2]
    exact ⟨h5.1, h5.2.1, by simp⟩
  · intro h
    have h5 := h3.2.2.2 h
    rw [h5.2.2.1, h5.2.2.2]
    exact ⟨h5.1, h5.2.1, rfl⟩

theorem INT2_cppm (Config : CONFIG) (ev : EdgeEvent) (s : State)
    (hm : Config.RxMode = RxModes.CPPM_MODE) (hp : ev.pin = false) :
    INT2_vect Config ev s = cppm Config ev.TCNT1 ev.TCNT2 (jitter s) := by
  unfold INT2_vect
  dsimp only
  rw [if_neg (by simp [hm]), hp, if_neg (by simp)]

theorem jitter_cppm_fields (s : State) :
    (jitter s).ch_num = s.ch_num ∧ (jitter s).PPMSyncStart = s.PPMSyncStart ∧
    (jitter s).max_chan = s.max_chan ∧ (jitter s).Interrupted = s.Interrupted ∧
    (jitter s).RC_Timeout = s.RC_Timeout ∧ (jitter s).Overdue = s.Overdue := by
  rw [jitter_eq]
  exact ⟨rfl, rfl, rfl, rfl, rfl, rfl⟩

/-- The effect of `ISR(INT2_vect)` in CPPM mode on a falling edge, with `n` the channel number
after the increment. -/
theorem INT2_cppm_fields (Config : CONFIG) (ev : EdgeEvent) (s : State)
    (hm : Config.RxMode = RxModes.CPPM_MODE) (hp : ev.pin = false) (n : Nat)
    (hn : n = ((if edgeInterval ev.TCNT1 s.PPMSyncStart > SYNCPULSEWIDTH ∨
        edgeInterval ev.TCNT1 s.PPMSyncStart < MINPULSEWIDTH then 0 else s.ch_num) + 1) % 256) :
    (INT2_vect Config ev s).ch_num = n ∧ (INT2_vect Config ev s).PPMSyncStart = ev.TCNT1 ∧
    (INT2_vect Config ev s).Overdue = false ∧
    (n = s.max_chan → (INT2_vect Config ev s).Interrupted = true ∧
      (INT2_vect Config ev s).RC_Timeout = 0 ∧ (INT2_vect Config ev s).max_chan = s.max_chan) ∧
    (n ≠ s.max_chan → (INT2_vect Config ev s).Interrupted = s.Interrupted ∧
      (INT2_vect Config ev s).RC_Timeout = s.RC_Timeout ∧
      (INT2_vect Config ev s).max_chan = (if s.Overdue = true then 0 else max n s.max_chan)) := by
  have hj := jitter_cppm_fields s
  have h := cppm_fields Config ev.TCNT1 ev.TCNT2 (jitter s) n
    (by rw [hj.1, hj.2.1]; exact hn)
  rw [hj.2.2.1, hj.2.2.2.1, hj.2.2.2.2.1, hj.2.2.2.2.2] at h
  rw [INT2_cppm Config ev s hm hp]
  exact h

/-- C14 (amended). In CPPM mode, a falling edge whose interval since the previous edge
(modulo 65536) is above 6750 or below 750 ticks is given channel number zero: the channel
number is 1 after the handler. The edge leaves `Interrupted` and `RC_Timeout` as they were
unless `max_chan` is 1; when `max_chan` is 1 the edge is the highest channel of its frame and
the handler sets `Interrupted = true` and `RC_Timeout = 0`. -/
theorem C14_ppm_glitch (Config : CONFIG) (ev : EdgeEvent) (s : State)
    (hm : Config.RxMode = RxModes.CPPM_MODE) (hp : ev.pin = false)
    (hg : edgeInterval ev.TCNT1 s.PPMSyncStart > SYNCPULSEWIDTH ∨
      edgeInterval ev.TCNT1 s.PPMSyncStart < MINPULSEWIDTH) :
    (INT2_vect Config ev s).ch_num = 1 ∧
    (s.max_chan ≠ 1 → (INT2_vect Config ev s).Interrupted = s.Interrupted ∧
      (INT2_vect Config ev s).RC_Timeout = s.RC_Timeout) ∧
    (s.max_chan = 1 → (INT2_vect Config ev s).Interrupted = true ∧
      (INT2_vect Config ev s).RC_Timeout = 0) := by
  have h := INT2_cppm_fields Config ev s hm hp 1 (by rw [if_pos hg])
  refine ⟨h.1, ?_, ?_⟩
  · intro h1
    have := h.2.2.2.2 (Ne.symm h1)
    exact ⟨this.1, this.2.1⟩
  · intro h1
    have := h.2.2.2.1 h1.symm
    exact ⟨this.1, this.2.1⟩

/-- Witness of C14: five edges into the second repetition of scenario S4 (`max_chan = 6`), an
edge only 200 ticks after the previous one is counted as channel 1 and publishes nothing. -/
theorem C14_ppm_glitch_witness :
    (INT2_vect cppmConfig { pin := false, TCNT1 := 60200, TCNT2 := 0 }
      (runEdges (INT2_vect cppmConfig)
        (fallingAt (s4Stream 1 0 ++ [40000, 45000, 50000, 55000, 60000]))
        (filledState board8 0))).ch_num = 1 ∧
    (INT2_vect cppmConfig { pin := false, TCNT1 := 60200, TCNT2 := 0 }
      (runEdges (INT2_vect cppmConfig)
        (fallingAt (s4Stream 1 0 ++ [40000, 45000, 50000, 55000, 60000]))
        (filledState board8 0))).Interrupted = false :=
  ⟨(C14_ppm_glitch cppmConfig { pin := false, TCNT1 := 60200, TCNT2 := 0 }
      (runEdges (INT2_vect cppmConfig)
        (fallingAt (s4Stream 1 0 ++ [40000, 45000, 50000, 55000, 60000]))
        (filledState board8 0)) (by decide) (by decide) (by decide)).1,
   ((C14_ppm_glitch cppmConfig { pin := false, TCNT1 := 60200, TCNT2 := 0 }
      (runEdges (INT2_vect cppmConfig)
        (fallingAt (s4Stream 1 0 ++ [40000, 45000, 50000, 55000, 60000]))
        (filledState board8 0)) (by decide) (by decide) (by decide)).2.1 (by decide)).1.trans
     (by decide)⟩

/-- Counterexample to C14 as stated: from the zero state (`max_chan = 0`) the first falling
edge, at tick 10000, makes `max_chan = 1`. The next falling edge comes 10000 ticks later,
more than a sync pulse: it is counted as channel 1, which is `max_chan`, and the handler sets
`Interrupted`. -/
theorem C14_ppm_glitch_counterexample :
    cppmConfig.RxMode = RxModes.CPPM_MODE ∧
    (INT2_vect cppmConfig { pin := false, TCNT1 := 10000, TCNT2 := 0 }
      (filledState board8 0)).max_chan = 1 ∧
    (INT2_vect cppmConfig { pin := false, TCNT1 := 10000, TCNT2 := 0 }
      (filledState board8 0)).Interrupted = false ∧
    edgeInterval 20000 (INT2_vect cppmConfig { pin := false, TCNT1 := 10000, TCNT2 := 0 }
      (filledState board8 0)).PPMSyncStart > SYNCPULSEWIDTH ∧
    (INT2_vect cppmConfig { pin := false, TCNT1 := 20000, TCNT2 := 0 }
      (INT2_vect cppmConfig { pin := false, TCNT1 := 10000, TCNT2 := 0 }
        (filledState board8 0))).Interrupted = true ∧
    (INT2_vect cppmConfig { pin := false, TCNT1 := 20000, TCNT2 := 0 }
      (INT2_vect cppmConfig { pin := false, TCNT1 := 10000, TCNT2 := 0 }
        (filledState board8 0))).ch_num = 1 := by
  decide

/-- With `Overdue` set when a falling edge is handled in CPPM mode, the handler clears
`Overdue`; it resets `max_chan` to zero unless the edge is counted as channel `max_chan`, in
which case the frame is published and `max_chan` is kept. -/
theorem cppm_overdue (Config : CONFIG) (ev : EdgeEvent) (s : State)
    (hm : Config.RxMode = RxModes.CPPM_MODE) (hp : ev.pin = false) (ho : s.Overdue = true)
    (n : Nat)
    (hn : n = ((if edgeInterval ev.TCNT1 s.PPMSyncStart > SYNCPULSEWIDTH ∨
        edgeInterval ev.TCNT1 s.PPMSyncStart < MINPULSEWIDTH then 0 else s.ch_num) + 1) % 256) :
    (INT2_vect Config ev s).Overdue = false ∧
    (n ≠ s.max_chan → (INT2_vect Config ev s).max_chan = 0) ∧
    (n = s.max_chan → (INT2_vect Config ev s).max_chan = s.max_chan ∧
      (INT2_vect Config ev s).Interrupted = true) := by
  have h := INT2_cppm_fields Config ev s hm hp n hn
  refine ⟨h.2.2.1, ?_, ?_⟩
  · intro h1
    have := (h.2.2.2.2 h1).2.2
    rw [if_pos ho] at this
    exact this
  · intro h1
    exact ⟨(h.2.2.2.1 h1).2.2, (h.2.2.2.1 h1).1⟩

/-- C15, the code at a failing input. Five edges into the second repetition of scenario S4
the learned channel count is 6 and the channel number is 5; the watchdog has set `Overdue`.
The next falling edge, 5000 ticks (modulo 65536) after the last one, is counted as channel 6:
the handler publishes, clears `Overdue`, and `max_chan` is still 6, not 0. -/
theorem C15_ppm_recalibration_skipped :
    cppmConfig.RxMode = RxModes.CPPM_MODE ∧
    overdueState.Overdue = true ∧ overdueState.max_chan = 6 ∧ overdueState.ch_num = 5 ∧
    edgeInterval 65000 overdueState.PPMSyncStart = 5000 ∧
    (INT2_vect cppmConfig { pin := false, TCNT1 := 65000, TCNT2 := 0 } overdueState).max_chan
      = 6 ∧
    (INT2_vect cppmConfig { pin := false, TCNT1 := 65000, TCNT2 := 0 } overdueState).Overdue
      = false ∧
    (INT2_vect cppmConfig { pin := false, TCNT1 := 65000, TCNT2 := 0 } overdueState).Interrupted
      = true := by
  decide

/-! ## CPPM channel count detection -/

theorem runEdges_append (h : EdgeEvent → State → State) (a b : List EdgeEvent) (s : State) :
    runEdges h (a ++ b) s = runEdges h b (runEdges h a s) := by
  induction a generalizing s with
  | nil => rfl
  | cons e a ih => exact ih (h e s)

/-- In CPPM mode a falling edge assigns `Interrupted = true` exactly when it is counted as
channel `max_chan`. -/
theorem INT2_sets (Config : CONFIG) (ev : EdgeEvent) (s : State)
    (hm : Config.RxMode = RxModes.CPPM_MODE) (hp : ev.pin = false) (n : Nat)
    (hn : n = ((if edgeInterval ev.TCNT1 s.PPMSyncStart > SYNCPULSEWIDTH ∨
        edgeInterval ev.TCNT1 s.PPMSyncStart < MINPULSEWIDTH then 0 else s.ch_num) + 1) % 256) :
    setsInterrupted (INT2_vect Config ev) s = decide (n = s.max_chan) := by
  unfold setsInterrupted
  have h := INT2_cppm_fields Config ev { s with Interrupted := false } hm hp n hn
  by_cases h1 : n = s.max_chan
  · rw [(h.2.2.2.1 h1).1]; simp [h1]
  · rw [(h.2.2.2.2 h1).1]; simp [h1]

/-- One edge inside a frame, in a state without `Overdue`. -/
theorem INT2_in_frame (Config : CONFIG) (ev : EdgeEvent) (s : State)
    (hm : Config.RxMode = RxModes.CPPM_MODE) (hp : ev.pin = false)
    (h1 : MINPULSEWIDTH ≤ edgeInterval ev.TCNT1 s.PPMSyncStart)
    (h2 : edgeInterval ev.TCNT1 s.PPMSyncStart ≤ SYNCPULSEWIDTH)
    (ho : s.Overdue = false) (hk : s.ch_num < 255) :
    (INT2_vect Config ev s).ch_num = s.ch_num + 1 ∧
    (INT2_vect Config ev s).PPMSyncStart = ev.TCNT1 ∧
    (INT2_vect Config ev s).Overdue = false ∧
    (INT2_vect Config ev s).max_chan = max (s.ch_num + 1) s.max_chan ∧
    setsInterrupted (INT2_vect Config ev) s = decide (s.ch_num + 1 = s.max_chan) := by
  have hn : s.ch_num + 1 = ((if edgeInterval ev.TCNT1 s.PPMSyncStart > SYNCPULSEWIDTH ∨
        edgeInterval ev.TCNT1 s.PPMSyncStart < MINPULSEWIDTH then 0 else s.ch_num) + 1) % 256 := by
    rw [if_neg (by omega)]; omega
  have h := INT2_cppm_fields Config ev s hm hp _ hn
  refine ⟨h.1, h.2.1, h.2.2.1, ?_, INT2_sets Config ev s hm hp _ hn⟩
  by_cases h3 : s.ch_num + 1 = s.max_chan
  · rw [(h.2.2.2.1 h3).2.2, ← h3, max_self]
  · rw [(h.2.2.2.2 h3).2.2, if_neg (by simp [ho])]

/-- The first edge of a frame, in a state without `Overdue`. -/
theorem INT2_frame_start (Config : CONFIG) (ev : EdgeEvent) (s : State)
    (hm : Config.RxMode = RxModes.CPPM_MODE) (hp : ev.pin = false)
    (h1 : SYNCPULSEWIDTH < edgeInterval ev.TCNT1 s.PPMSyncStart) (ho : s.Overdue = false) :
    (INT2_vect Config ev s).ch_num = 1 ∧
    (INT2_vect Config ev s).PPMSyncStart = ev.TCNT1 ∧
    (INT2_vect Config ev s).Overdue = false ∧
    (INT2_vect Config ev s).max_chan = max 1 s.max_chan ∧
    setsInterrupted (INT2_vect Config ev) s = decide (1 = s.max_chan) := by
  have hn : 1 = ((if edgeInterval ev.TCNT1 s.PPMSyncStart > SYNCPULSEWIDTH ∨
        edgeInterval ev.TCNT1 s.PPMSyncStart < MINPULSEWIDTH then 0 else s.ch_num) + 1) % 256 := by
    rw [if_pos (Or.inl h1)]
  have h := INT2_cppm_fields Config ev s hm hp _ hn
  refine ⟨h.1, h.2.1, h.2.2.1, ?_, INT2_sets Config ev s hm hp _ hn⟩
  by_cases h3 : 1 = s.max_chan
  · rw [(h.2.2.2.1 h3).2.2, ← h3, max_self]
  · rw [(h.2.2.2.2 h3).2.2, if_neg (by simp [ho])]

/-- While the channel count is being learned (`max_chan = ch_num`), every edge inside the
frame raises both. -/
theorem learn_in_frame (Config : CONFIG) (hm : Config.RxMode = RxModes.CPPM_MODE)
    (evs : List EdgeEvent) : ∀ (s : State), s.max_chan = s.ch_num → s.Overdue = false →
    InFrame s.PPMSyncStart evs → s.ch_num + evs.length ≤ 255 →
    (runEdges (INT2_vect Config) evs s).max_chan = s.ch_num + evs.length ∧
    (runEdges (INT2_vect Config) evs s).ch_num = s.ch_num + evs.length ∧
    (runEdges (INT2_vect Config) evs s).Overdue = false ∧
    (runEdges (INT2_vect Config) evs s).PPMSyncStart = lastTick s.PPMSyncStart evs := by
  induction evs with
  | nil => intro s h1 h2 _ _; exact ⟨h1, rfl, h2, rfl⟩
  | cons ev evs ih =>
    intro s h1 h2 h3 h4
    have hlen : (ev :: evs).length = evs.length + 1 := rfl
    rw [hlen] at h4
    have hf := INT2_in_frame Config ev s hm h3.1 h3.2.1 h3.2.2.1 h2 (by omega)
    have hmax : (INT2_vect Config ev s).max_chan = (INT2_vect Config ev s).ch_num := by
      rw [hf.2.2.2.1, hf.1, h1]; exact max_eq_left (by omega)
    have := ih (INT2_vect Config ev s) hmax hf.2.2.1 (by rw [hf.2.1]; exact h3.2.2.2)
      (by rw [hf.1]; omega)
    rw [hf.1, hf.2.1] at this
    show (runEdges (INT2_vect Config) evs (INT2_vect Config ev s)).max_chan = _ ∧
      (runEdges (INT2_vect Config) evs (INT2_vect Config ev s)).ch_num = _ ∧
      (runEdges (INT2_vect Config) evs (INT2_vect Config ev s)).Overdue = false ∧
      (runEdges (INT2_vect Config) evs (INT2_vect Config ev s)).PPMSyncStart = lastTick ev.TCNT1 evs
    refine ⟨?_, ?_, this.2.2.1, this.2.2.2⟩
    · rw [this.1, hlen]; omega
    · rw [this.2.1, hlen]; omega

/-- The first frame after `max_chan = 0`: the channel count is learned. -/
theorem learn_frame (Config : CONFIG) (hm : Config.RxMode = RxModes.CPPM_MODE)
    (f : List EdgeEvent) (s : State) (h0 : s.max_chan = 0) (ho : s.Overdue = false)
    (hf : IsPpmFrame s.PPMSyncStart f) (hlen : f.length ≤ 255) :
    (runEdges (INT2_vect Config) f s).max_chan = f.length ∧
    (runEdges (INT2_vect Config) f s).Overdue = false ∧
    (runEdges (INT2_vect Config) f s).PPMSyncStart = lastTick s.PPMSyncStart f := by
  cases f with
  | nil => exact absurd hf (fun h => h)
  | cons ev evs =>
    have hl : (ev :: evs).length = evs.length + 1 := rfl
    rw [hl] at hlen
    have hs := INT2_frame_start Config ev s hm hf.1 hf.2.1 ho
    have hmax : (INT2_vect Config ev s).max_chan = (INT2_vect Config ev s).ch_num := by
      rw [hs.2.2.2.1, hs.1, h0]; rfl
    have := learn_in_frame Config hm evs (INT2_vect Config ev s) hmax hs.2.2.1
      (by rw [hs.2.1]; exact hf.2.2) (by rw [hs.1]; omega)
    rw [hs.1, hs.2.1] at this
    show (runEdges (INT2_vect Config) evs (INT2_vect Config ev s)).max_chan = _ ∧
      (runEdges (INT2_vect Config) evs (INT2_vect Config ev s)).Overdue = false ∧
      (runEdges (INT2_vect Config) evs (INT2_vect Config ev s)).PPMSyncStart = lastTick ev.TCNT1 evs
    refine ⟨?_, this.2.2.1, this.2.2.2⟩
    rw [this.1, hl]; omega


/-- Once the channel count `C` is known, the edges inside a frame that ends with channel `C`
keep `max_chan`, and only the last one publishes. -/
theorem steady_in_frame (Config : CONFIG) (hm : Config.RxMode = RxModes.CPPM_MODE) (C : Nat)
    (hC : C ≤ 255) (evs : List EdgeEvent) : ∀ (s : State), s.max_chan = C → s.Overdue = false →
    InFrame s.PPMSyncStart evs → s.ch_num + evs.length = C →
    (∀ j, (runEdges (INT2_vect Config) (evs.take j) s).max_chan = C) ∧
    (runEdges (INT2_vect Config) evs s).Overdue = false ∧
    (runEdges (INT2_vect Config) evs s).PPMSyncStart = lastTick s.PPMSyncStart evs ∧
    (0 < evs.length → pulses (INT2_vect Config) evs s =
      List.replicate (evs.length - 1) false ++ [true]) := by
  induction evs with
  | nil =>
    intro s h1 h2 _ _
    refine ⟨fun j => ?_, h2, rfl, fun h => absurd h (by simp)⟩
    rw [List.take_nil]; exact h1
  | cons ev evs ih =>
    intro s h1 h2 h3 h4
    have hlen : (ev :: evs).length = evs.length + 1 := rfl
    rw [hlen] at h4
    have hf := INT2_in_frame Config ev s hm h3.1 h3.2.1 h3.2.2.1 h2 (by omega)
    have hmax : (INT2_vect Config ev s).max_chan = C := by
      rw [hf.2.2.2.1, h1]; exact max_eq_right (by omega)
    have := ih (INT2_vect Config ev s) hmax hf.2.2.1 (by rw [hf.2.1]; exact h3.2.2.2)
      (by rw [hf.1]; omega)
    refine ⟨fun j => ?_, this.2.1, ?_, fun _ => ?_⟩
    · cases j with
      | zero => exact h1
      | succ j => exact this.1 j
    · rw [hf.2.1] at this; exact this.2.2.1
    · show setsInterrupted (INT2_vect Config ev) s :: pulses (INT2_vect Config) evs
        (INT2_vect Config ev s) = _
      rw [hf.2.2.2.2, h1]
      cases evs with
      | nil =>
        have : s.ch_num + 1 = C := by simpa using h4
        simp [pulses, this]
      | cons e2 evs =>
        have hne : ¬ s.ch_num + 1 = C := by
          have : (e2 :: evs).length = evs.length + 1 := rfl
          omega
        rw [this.2.2.2 (by simp)]
        simp [hne, List.replicate_succ]

/-- Once the channel count `C` is known, a frame of `C` edges keeps `max_chan`, and only its
last edge publishes. -/
theorem steady_frame (Config : CONFIG) (hm : Config.RxMode = RxModes.CPPM_MODE) (C : Nat)
    (hC : C ≤ 255) (f : List EdgeEvent) (s : State) (h1 : s.max_chan = C)
    (h2 : s.Overdue = false) (hf : IsPpmFrame s.PPMSyncStart f) (hlen : f.length = C) :
    (∀ j, (runEdges (INT2_vect Config) (f.take j) s).max_chan = C) ∧
    (runEdges (INT2_vect Config) f s).Overdue = false ∧
    (runEdges (INT2_vect Config) f s).PPMSyncStart = lastTick s.PPMSyncStart f ∧
    pulses (INT2_vect Config) f s = List.replicate (C - 1) false ++ [true] := by
  cases f with
  | nil => exact absurd hf (fun h => h)
  | cons ev evs =>
    have hl : (ev :: evs).length = evs.length + 1 := rfl
    rw [hl] at hlen
    have hs := INT2_frame_start Config ev s hm hf.1 hf.2.1 h2
    have hmax : (INT2_vect Config ev s).max_chan = C := by
      rw [hs.2.2.2.1, h1]; exact max_eq_right (by omega)
    have := steady_in_frame Config hm C hC evs (INT2_vect Config ev s) hmax hs.2.2.1
      (by rw [hs.2.1]; exact hf.2.2) (by rw [hs.1]; omega)
    refine ⟨fun j => ?_, this.2.1, ?_, ?_⟩
    · cases j with
      | zero => exact h1
      | succ j => exact this.1 j
    · rw [hs.2.1] at this; exact this.2.2.1
    · show setsInterrupted (INT2_vect Config ev) s :: pulses (INT2_vect Config) evs
        (INT2_vect Config ev s) = _
      rw [hs.2.2.2.2, h1]
      cases evs with
      | nil =>
        have : 1 = C := by simpa using hlen
        subst this
        simp [pulses]
      | cons e2 evs =>
        have hl2 : (e2 :: evs).length = evs.length + 1 := rfl
        have hne : ¬ 1 = C := by omega
        rw [this.2.2.2 (by simp)]
        have hC2 : C - 1 = (e2 :: evs).length - 1 + 1 := by omega
        rw [hC2]
        simp [hne, List.replicate_succ]

theorem take_length_self (f : List EdgeEvent) : f.take f.length = f := by
  simp

/-- Over a stream of frames of `C` edges, entered with `max_chan = C`: `max_chan` stays `C`
at every edge and exactly the last edge of each frame publishes. -/
theorem steady_stream (Config : CONFIG) (hm : Config.RxMode = RxModes.CPPM_MODE) (C : Nat)
    (hC : C ≤ 255) (pre : List (List EdgeEvent)) : ∀ (s : State) (f : List EdgeEvent)
    (post : List (List EdgeEvent)), s.max_chan = C → s.Overdue = false →
    PpmStream C s.PPMSyncStart (pre ++ f :: post) →
    (∀ j, (runEdges (INT2_vect Config) (allEdges pre ++ f.take j) s).max_chan = C) ∧
    pulses (INT2_vect Config) f (runEdges (INT2_vect Config) (allEdges pre) s) =
      List.replicate (C - 1) false ++ [true] := by
  induction pre with
  | nil =>
    intro s f post h1 h2 hs
    have := steady_frame Config hm C hC f s h1 h2 hs.1 hs.2.1
    exact ⟨this.1, this.2.2.2⟩
  | cons p pre ih =>
    intro s f post h1 h2 hs
    have hp := steady_frame Config hm C hC p s h1 h2 hs.1 hs.2.1
    have hmax : (runEdges (INT2_vect Config) p s).max_chan = C := by
      have := hp.1 p.length
      rw [take_length_self] at this
      exact this
    have := ih (runEdges (INT2_vect Config) p s) f post hmax hp.2.1
      (by rw [hp.2.2.1]; exact hs.2.2)
    have ha : ∀ l, runEdges (INT2_vect Config) (allEdges (p :: pre) ++ l) s =
        runEdges (INT2_vect Config) (allEdges pre ++ l) (runEdges (INT2_vect Config) p s) := by
      intro l
      show runEdges (INT2_vect Config) (p ++ allEdges pre ++ l) s = _
      rw [List.append_assoc, runEdges_append]
    refine ⟨fun j => ?_, ?_⟩
    · rw [ha]; exact this.1 j
    · have hb := ha []
      rw [List.append_nil, List.append_nil] at hb
      rw [hb]; exact this.2

/-- C13. CPPM channel count detection stabilises. In CPPM mode, start from `max_chan = 0`
with `Overdue` false and run the handler over consecutive frames of falling edges, each of `C`
edges (`C ≤ 255`; a frame has at least one edge, so `1 ≤ C`), the edges of a frame between 750 and 6750 ticks apart and the first
edge of each frame more than 6750 ticks after the previous edge (intervals as the 16-bit
timer measures them). Then `max_chan = C` after the first frame; it is `C` after every edge
of every later frame; and in every later frame exactly the handler run of the `C`-th edge
assigns `Interrupted = true`. -/
theorem C13_ppm_autodetect (Config : CONFIG) (C : Nat) (s0 : State) (f1 : List EdgeEvent)
    (fs : List (List EdgeEvent)) (hm : Config.RxMode = RxModes.CPPM_MODE)
    (hC2 : C ≤ 255) (hmax : s0.max_chan = 0) (hov : s0.Overdue = false)
    (hs : PpmStream C s0.PPMSyncStart (f1 :: fs)) :
    (runEdges (INT2_vect Config) f1 s0).max_chan = C ∧
    (∀ pre f post, fs = pre ++ f :: post →
      (∀ j, (runEdges (INT2_vect Config) (f1 ++ allEdges pre ++ f.take j) s0).max_chan = C) ∧
      pulses (INT2_vect Config) f (runEdges (INT2_vect Config) (f1 ++ allEdges pre) s0) =
        List.replicate (C - 1) false ++ [true]) := by
  have h1 := learn_frame Config hm f1 s0 hmax hov hs.1 (by rw [hs.2.1]; exact hC2)
  rw [hs.2.1] at h1
  refine ⟨h1.1, ?_⟩
  intro pre f post hfs
  have := steady_stream Config hm C hC2 pre (runEdges (INT2_vect Config) f1 s0) f post h1.1
    h1.2.1 (by rw [h1.2.2, ← hfs]; exact hs.2.2)
  refine ⟨fun j => ?_, ?_⟩
  · rw [List.append_assoc, runEdges_append]; exact this.1 j
  · rw [runEdges_append]; exact this.2

/-- Witness of C13: two frames of six edges, 5000 ticks apart, the frames starting at ticks
10000 and 50000, from the zero state; and scenario S4 itself, run twice from the zero state:
its last interval (25000 to 32000) is longer than a sync pulse, so each repetition counts as a
frame of six edges and a frame of one edge, `max_chan` is 6 after the first repetition and
after the second, and in the second repetition only the sixth edge publishes. -/
theorem C13_ppm_autodetect_witness :
    ((runEdges (INT2_vect cppmConfig) (sixEdges 10000) (filledState board8 0)).max_chan = 6 ∧
      pulses (INT2_vect cppmConfig) (sixEdges 50000)
        (runEdges (INT2_vect cppmConfig) (sixEdges 10000 ++ allEdges []) (filledState board8 0))
        = List.replicate (6 - 1) false ++ [true]) ∧
    (runEdges (INT2_vect cppmConfig) (fallingAt (s4Stream 1 0)) (filledState board8 0)).max_chan
      = 6 ∧
    (runEdges (INT2_vect cppmConfig) (fallingAt (s4Stream 2 0)) (filledState board8 0)).max_chan
      = 6 ∧
    pulses (INT2_vect cppmConfig) (fallingAt (s4Stream 1 40000))
      (runEdges (INT2_vect cppmConfig) (fallingAt (s4Stream 1 0)) (filledState board8 0))
      = [false, false, false, false, false, true, false] :=
  ⟨⟨(C13_ppm_autodetect cppmConfig 6 (filledState board8 0) (sixEdges 10000) [sixEdges 50000]
        (by decide) (by decide) (by decide) (by decide) (by decide)).1,
    ((C13_ppm_autodetect cppmConfig 6 (filledState board8 0) (sixEdges 10000) [sixEdges 50000]
        (by decide) (by decide) (by decide) (by decide) (by decide)).2
        [] (sixEdges 50000) [] rfl).2⟩,
   by decide, by decide, by decide⟩


/-! ## Publishing resets the watchdog -/

theorem offI_refl (a : State) : OffI a a := rfl

theorem offI_clear (s : State) : OffI { s with Interrupted := false } s := rfl

theorem offI_fields {a b : State} (h : OffI a b) :
    a.Overdue = b.Overdue ∧ a.RC_Timeout = b.RC_Timeout ∧ a.RxChannel = b.RxChannel := by
  unfold OffI at h
  have h1 := congrArg State.Overdue h
  have h2 := congrArg State.RC_Timeout h
  have h3 := congrArg State.RxChannel h
  exact ⟨h1, h2, h3⟩

theorem offI_eq {a b : State} (h : OffI a b) : a = { b with Interrupted := a.Interrupted } := by
  unfold OffI at h
  cases a; cases b
  simp only [State.mk.injEq, true_and] at h ⊢
  exact h

theorem jitter_offI {a b : State} (h : OffI a b) : OffI (jitter a) (jitter b) := by
  rw [offI_eq h]
  unfold jitter OffI
  dsimp only
  split_ifs <;> rfl

theorem pwmEdge_offI (c : Nat) (Config : CONFIG) (p : Bool) (t T : Nat) {a b : State}
    (h : OffI a b) : OffI (pwmEdge c Config p t T a) (pwmEdge c Config p t T b) := by
  rw [offI_eq h]
  unfold pwmEdge OffI rcSync
  dsimp only
  split_ifs <;> rfl

theorem cppm_offI (Config : CONFIG) (t T : Nat) {a b : State}
    (h : OffI a b) : OffI (cppm Config t T a) (cppm Config t T b) := by
  have h1 : ∀ {a b : State}, OffI a b → OffI (cppmSync t a) (cppmSync t b) := by
    intro a b h
    rw [offI_eq h]; unfold cppmSync OffI; dsimp only; split_ifs <;> rfl
  have h2 : ∀ {a b : State}, OffI a b →
      OffI (cppmMeasure Config t a) (cppmMeasure Config t b) := by
    intro a b h
    rw [offI_eq h]; unfold cppmMeasure OffI; dsimp only; split_ifs <;> rfl
  have h3 : ∀ {a b : State}, OffI a b → OffI (cppmCount T a) (cppmCount T b) := by
    intro a b h
    rw [offI_eq h]; unfold cppmCount OffI rcSync; dsimp only; split_ifs <;> rfl
  have h4 : ∀ {a b : State}, OffI a b → OffI (cppmLost a) (cppmLost b) := by
    intro a b h
    rw [offI_eq h]; unfold cppmLost OffI; dsimp only; split_ifs <;> rfl
  exact h4 (h3 (h2 (h1 h)))


theorem decode_offI (hw : Board) (Config : CONFIG) (temp T : Nat) {a b : State}
    (h : OffI a b) : OffI (decode hw Config temp T a) (decode hw Config temp T b) := by
  have x1 : ∀ {a b : State}, OffI a b → OffI (xtremeFlags temp a) (xtremeFlags temp b) := by
    intro a b h
    rw [offI_eq h]; unfold xtremeFlags OffI; dsimp only; split_ifs <;> rfl
  have x2 : ∀ {a b : State}, OffI a b → OffI (xtremeMaskHigh temp a) (xtremeMaskHigh temp b) := by
    intro a b h
    rw [offI_eq h]; unfold xtremeMaskHigh OffI; dsimp only; split_ifs <;> rfl
  have x3 : ∀ {a b : State}, OffI a b → OffI (xtremeMaskLow temp a) (xtremeMaskLow temp b) := by
    intro a b h
    rw [offI_eq h]; unfold xtremeMaskLow OffI; dsimp only; split_ifs <;> rfl
  have x4 : ∀ {a b : State}, OffI a b →
      OffI (xtremeData hw Config temp T a) (xtremeData hw Config temp T b) := by
    intro a b h
    rw [offI_eq h]; unfold xtremeData OffI rcSync; dsimp only; split_ifs <;> rfl
  have b1 : ∀ {a b : State}, OffI a b → OffI (sbus hw Config T a) (sbus hw Config T b) := by
    intro a b h
    rw [offI_eq h]; unfold sbus OffI rcSync; dsimp only; split_ifs <;> rfl
  have k1 : ∀ {a b : State}, OffI a b →
      OffI (spektrum hw Config temp T a) (spektrum hw Config temp T b) := by
    intro a b h
    rw [offI_eq h]; unfold spektrum OffI rcSync; dsimp only; split_ifs <;> rfl
  have c1 : ∀ (ofs : Nat) (f : Nat → Nat) {a b : State}, OffI a b →
      OffI (crcPublish hw Config ofs f T a) (crcPublish hw Config ofs f T b) := by
    intro ofs f a b h
    rw [offI_eq h]; unfold crcPublish OffI rcSync; dsimp only; split_ifs <;> rfl
  have m1 : ∀ {a b : State}, OffI a b → OffI (modebSize a) (modebSize b) := by
    intro a b h
    rw [offI_eq h]; unfold modebSize OffI; dsimp only; split_ifs <;> rfl
  have m2 : ∀ {a b : State}, OffI a b →
      OffI (modebCheck hw Config T a) (modebCheck hw Config T b) := by
    intro a b h
    have hc := c1 1 modebConvert h
    rw [offI_eq h] at hc ⊢; unfold modebCheck; dsimp only; split_ifs
    · exact hc
    · rfl
  have d1 : ∀ {a b : State}, OffI a b → OffI (sumdSize a) (sumdSize b) := by
    intro a b h
    rw [offI_eq h]; unfold sumdSize OffI; dsimp only; split_ifs <;> rfl
  have d2 : ∀ {a b : State}, OffI a b →
      OffI (sumdCheck hw Config T a) (sumdCheck hw Config T b) := by
    intro a b h
    have hc := c1 3 sumdConvert h
    rw [offI_eq h] at hc ⊢; unfold sumdCheck; dsimp only; split_ifs
    · exact hc
    · rfl
  unfold decode
  cases hm : Config.RxMode
  all_goals simp only [reduceCtorEq, if_false, if_true]
  · exact h
  · exact h
  · exact x4 (x3 (x2 (x1 h)))
  · exact b1 h
  · exact k1 h
  · exact m2 (m1 h)
  · exact d2 (d1 h)

theorem commonEntry_offI (hw : Board) (temp t : Nat) {a b : State} (h : OffI a b) :
    OffI (commonEntry hw temp t a) (commonEntry hw temp t b) := by
  rw [offI_eq h]; unfold commonEntry OffI; dsimp only; split_ifs <;> rfl

theorem USART_offI (hw : Board) (Config : CONFIG) (ev : RxEvent) {a b : State} (h : OffI a b) :
    OffI (USART0_RX_vect hw Config ev a) (USART0_RX_vect hw Config ev b) := by
  unfold USART0_RX_vect
  dsimp only
  split_ifs
  · exact jitter_offI h
  · exact jitter_offI h
  · unfold validData
    dsimp only
    have := decode_offI hw Config ev.UDR0 ev.TCNT2
      (commonEntry_offI hw ev.UDR0 ev.TCNT1 (jitter_offI h))
    rw [offI_eq this]
    rfl

theorem pwmHandler_offI (x : PwmInput) (Config : CONFIG) (ev : EdgeEvent) {a b : State}
    (h : OffI a b) : OffI (pwmHandler x Config ev a) (pwmHandler x Config ev b) := by
  cases x
  · exact pwmEdge_offI _ _ _ _ _ (jitter_offI h)
  · exact pwmEdge_offI _ _ _ _ _ (jitter_offI h)
  · exact pwmEdge_offI _ _ _ _ _ (jitter_offI h)
  · exact pwmEdge_offI _ _ _ _ _ (jitter_offI h)
  · show OffI (INT2_vect Config ev a) (INT2_vect Config ev b)
    unfold INT2_vect
    dsimp only
    split_ifs
    · exact pwmEdge_offI _ _ _ _ _ (jitter_offI h)
    · exact jitter_offI h
    · exact cppm_offI _ _ _ (jitter_offI h)

/-- No handler reads `Interrupted`: runs from states that differ only there end in states
that differ only there. -/
theorem runHandler_offI (hw : Board) (Config : CONFIG) (r : HandlerRun) {a b : State}
    (h : OffI a b) : OffI (runHandler hw Config r a) (runHandler hw Config r b) := by
  cases r with
  | edge x ev => exact pwmHandler_offI x Config ev h
  | serial ev => exact USART_offI hw Config ev h

/-! ### Outcomes -/

theorem kept_refl (s : State) : Kept s s := ⟨rfl, rfl, Or.inl rfl⟩

theorem kept_trans {a b c : State} (h1 : Kept a b) (h2 : Kept b c) : Kept a c := by
  refine ⟨h2.1.trans h1.1, h2.2.1.trans h1.2.1, ?_⟩
  rcases h2.2.2 with h | h
  · rw [h]; exact h1.2.2
  · exact Or.inr h

theorem outcome_after_kept {a b c : State} (h1 : Kept a b) (h2 : Outcome b c) : Outcome a c := by
  rcases h2 with h | h | h
  · exact Or.inl h
  · exact Or.inr (Or.inl (kept_trans h1 h))
  · exact Or.inr (Or.inr h)

theorem outcome_then_kept {a b c : State} (h1 : Outcome a b) (h2 : Kept b c) : Outcome a c := by
  rcases h1 with h | h | h
  · refine Or.inl ⟨h2.1.trans h.1, ?_, h2.2.1.trans h.2.2⟩
    rcases h2.2.2 with h3 | h3
    · rw [h3]; exact h.2.1
    · exact h3
  · exact Or.inr (Or.inl (kept_trans h h2))
  · exact Or.inr (Or.inr (h2.1.trans h))

theorem jitter_kept (s : State) : Kept s (jitter s) := by
  rw [jitter_eq]; exact ⟨rfl, rfl, Or.inl rfl⟩

theorem commonEntry_kept (hw : Board) (temp t : Nat) (s : State) :
    Kept s (commonEntry hw temp t s) := by
  unfold commonEntry; dsimp only; split_ifs <;> exact ⟨rfl, rfl, Or.inl rfl⟩

theorem crcPublish_outcome (hw : Board) (Config : CONFIG) (ofs : Nat) (f : Nat → Nat) (T : Nat)
    (s : State) : Outcome s (crcPublish hw Config ofs f T s) := by
  unfold crcPublish rcSync; dsimp only; split_ifs
  · exact Or.inl ⟨rfl, rfl, rfl⟩
  · exact Or.inr (Or.inl (kept_refl s))

theorem decode_outcome (hw : Board) (Config : CONFIG) (temp T : Nat) (s : State) :
    Outcome s (decode hw Config temp T s) := by
  have x1 : ∀ s, Kept s (xtremeFlags temp s) := by
    intro s; unfold xtremeFlags; split_ifs <;> exact ⟨rfl, rfl, Or.inl rfl⟩
  have x2 : ∀ s, Kept s (xtremeMaskHigh temp s) := by
    intro s; unfold xtremeMaskHigh; split_ifs <;> exact ⟨rfl, rfl, Or.inl rfl⟩
  have x3 : ∀ s, Kept s (xtremeMaskLow temp s) := by
    intro s; unfold xtremeMaskLow; split_ifs <;> exact ⟨rfl, rfl, Or.inl rfl⟩
  have x4 : ∀ s, Outcome s (xtremeData hw Config temp T s) := by
    intro s; unfold xtremeData rcSync; dsimp only; split_ifs
    · exact Or.inr (Or.inl ⟨rfl, rfl, Or.inl rfl⟩)
    · exact Or.inr (Or.inr rfl)
    · exact Or.inl ⟨rfl, rfl, rfl⟩
  have b1 : ∀ s, Outcome s (sbus hw Config T s) := by
    intro s; unfold sbus rcSync; dsimp only; split_ifs
    · exact Or.inl ⟨rfl, rfl, rfl⟩
    · exact Or.inr (Or.inl (kept_refl s))
  have k1 : ∀ s, Outcome s (spektrum hw Config temp T s) := by
    intro s; unfold spektrum rcSync; dsimp only; split_ifs
    · exact Or.inl ⟨rfl, rfl, rfl⟩
    · exact Or.inl ⟨rfl, rfl, rfl⟩
    · exact Or.inr (Or.inl (kept_refl s))
  have m1 : ∀ s, Kept s (modebSize s) := by
    intro s; unfold modebSize; split_ifs <;> exact ⟨rfl, rfl, Or.inl rfl⟩
  have m2 : ∀ s, Outcome s (modebCheck hw Config T s) := by
    intro s; unfold modebCheck; split_ifs
    · exact crcPublish_outcome _ _ _ _ _ _
    · exact Or.inr (Or.inl (kept_refl s))
  have d1 : ∀ s, Kept s (sumdSize s) := by
    intro s; unfold sumdSize; split_ifs <;> exact ⟨rfl, rfl, Or.inl rfl⟩
  have d2 : ∀ s, Outcome s (sumdCheck hw Config T s) := by
    intro s; unfold sumdCheck; split_ifs
    · exact crcPublish_outcome _ _ _ _ _ _
    · exact Or.inr (Or.inl (kept_refl s))
  unfold decode
  cases hm : Config.RxMode
  all_goals simp only [reduceCtorEq, if_false, if_true]
  · exact Or.inr (Or.inl (kept_refl s))
  · exact Or.inr (Or.inl (kept_refl s))
  · exact outcome_after_kept (kept_trans (kept_trans (x1 _) (x2 _)) (x3 _)) (x4 _)
  · exact b1 s
  · exact k1 s
  · exact outcome_after_kept (m1 _) (m2 _)
  · exact outcome_after_kept (d1 _) (d2 _)

theorem USART_outcome (hw : Board) (Config : CONFIG) (ev : RxEvent) (s : State) :
    Outcome s (USART0_RX_vect hw Config ev s) := by
  unfold USART0_RX_vect
  dsimp only
  split_ifs
  · exact Or.inr (Or.inl (jitter_kept s))
  · exact Or.inr (Or.inl (jitter_kept s))
  · unfold validData
    dsimp only
    exact outcome_then_kept
      (outcome_after_kept (kept_trans (jitter_kept s) (commonEntry_kept hw _ _ _))
        (decode_outcome hw Config ev.UDR0 ev.TCNT2 _))
      ⟨rfl, rfl, Or.inl rfl⟩

theorem pwmEdge_outcome (c : Nat) (Config : CONFIG) (p : Bool) (t T : Nat) (s : State) :
    Outcome s (pwmEdge c Config p t T s) := by
  unfold pwmEdge rcSync; dsimp only; split_ifs
  · exact Or.inr (Or.inl ⟨rfl, rfl, Or.inl rfl⟩)
  · exact Or.inl ⟨rfl, rfl, rfl⟩
  · exact Or.inr (Or.inl ⟨rfl, rfl, Or.inl rfl⟩)

theorem cppm_outcome (Config : CONFIG) (t T : Nat) (s : State) :
    Outcome s (cppm Config t T s) := by
  have h1 : ∀ s, Kept s (cppmSync t s) := by
    intro s; unfold cppmSync; dsimp only; split_ifs <;> exact ⟨rfl, rfl, Or.inl rfl⟩
  have h2 : ∀ s, Kept s (cppmMeasure Config t s) := by
    intro s; unfold cppmMeasure; dsimp only; split_ifs <;> exact ⟨rfl, rfl, Or.inl rfl⟩
  have h3 : ∀ s, Outcome s (cppmCount T s) := by
    intro s; unfold cppmCount rcSync; dsimp only; split_ifs
    · exact Or.inr (Or.inl ⟨rfl, rfl, Or.inl rfl⟩)
    · exact Or.inl ⟨rfl, rfl, rfl⟩
    · exact Or.inr (Or.inl ⟨rfl, rfl, Or.inl rfl⟩)
  have h4 : ∀ s, Kept s (cppmLost s) := by
    intro s; unfold cppmLost; split_ifs
    · exact ⟨rfl, rfl, Or.inr rfl⟩
    · exact kept_refl s
  exact outcome_then_kept (outcome_after_kept (kept_trans (h1 _) (h2 _)) (h3 _)) (h4 _)

theorem pwmHandler_outcome (x : PwmInput) (Config : CONFIG) (ev : EdgeEvent) (s : State) :
    Outcome s (pwmHandler x Config ev s) := by
  cases x
  · exact outcome_after_kept (jitter_kept s) (pwmEdge_outcome _ _ _ _ _ _)
  · exact outcome_after_kept (jitter_kept s) (pwmEdge_outcome _ _ _ _ _ _)
  · exact outcome_after_kept (jitter_kept s) (pwmEdge_outcome _ _ _ _ _ _)
  · exact outcome_after_kept (jitter_kept s) (pwmEdge_outcome _ _ _ _ _ _)
  · show Outcome s (INT2_vect Config ev s)
    unfold INT2_vect
    dsimp only
    split_ifs
    · exact outcome_after_kept (jitter_kept s) (pwmEdge_outcome _ _ _ _ _ _)
    · exact Or.inr (Or.inl (jitter_kept s))
    · exact outcome_after_kept (jitter_kept s) (cppm_outcome _ _ _ _)

theorem runHandler_outcome (hw : Board) (Config : CONFIG) (r : HandlerRun) (s : State) :
    Outcome s (runHandler hw Config r s) := by
  cases r with
  | edge x ev => exact pwmHandler_outcome x Config ev s
  | serial ev => exact USART_outcome hw Config ev s

/-- A run that assigns `Interrupted = true` ends synchronised. -/
theorem published_of_sets (h : State → State) (s : State)
    (hoff : OffI (h { s with Interrupted := false }) (h s))
    (hout : Outcome { s with Interrupted := false } (h { s with Interrupted := false }))
    (hset : setsInterrupted h s = true) : (h s).Overdue = false ∧ (h s).RC_Timeout = 0 := by
  unfold setsInterrupted at hset
  have hf := offI_fields hoff
  rcases hout with hp | hk | hc
  · exact ⟨hf.1 ▸ hp.2.1, hf.2.1 ▸ hp.2.2⟩
  · have := hk.1
    rw [hset] at this
    exact absurd this (by simp)
  · rw [hset] at hc
    exact absurd hc (by simp)

/-- C17. Publish resets the watchdog: for every handler run (an edge on any of the five PWM
inputs, the fifth being the CPPM input in CPPM mode, or a received byte in any mode) and every
state, if the run assigns `Interrupted = true` then `Overdue` is false and `RC_Timeout` is 0
at its end. -/
theorem C17_publish_resets_watchdog (hw : Board) (Config : CONFIG) (r : HandlerRun) (s : State)
    (hset : setsInterrupted (runHandler hw Config r) s = true) :
    (runHandler hw Config r s).Overdue = false ∧ (runHandler hw Config r s).RC_Timeout = 0 :=
  published_of_sets (runHandler hw Config r) s
    (runHandler_offI hw Config r (offI_clear s)) (runHandler_outcome hw Config r _) hset

/-- Witness of C17: the 25th byte of the S-Bus mid-stick packet, received while the watchdog
has `Overdue` set and `RC_Timeout` at 50. -/
theorem C17_publish_resets_watchdog_witness :
    (runHandler board8 (idOrder RxModes.SBUS 8)
      (HandlerRun.serial { UCSR0A := 0, UDR0 := 0x00, TCNT1 := 5400, TCNT2 := 0 })
      { (runRx board8 (idOrder RxModes.SBUS 8) (eventsAt 3000 (sbusMidStick.take 24)) (filledState board8 0)) with Overdue := true, RC_Timeout := 50 }).Overdue = false ∧
    (runHandler board8 (idOrder RxModes.SBUS 8)
      (HandlerRun.serial { UCSR0A := 0, UDR0 := 0x00, TCNT1 := 5400, TCNT2 := 0 })
      { (runRx board8 (idOrder RxModes.SBUS 8) (eventsAt 3000 (sbusMidStick.take 24)) (filledState board8 0)) with Overdue := true, RC_Timeout := 50 }).RC_Timeout = 0 :=
  C17_publish_resets_watchdog board8 (idOrder RxModes.SBUS 8)
    (HandlerRun.serial { UCSR0A := 0, UDR0 := 0x00, TCNT1 := 5400, TCNT2 := 0 })
    { (runRx board8 (idOrder RxModes.SBUS 8) (eventsAt 3000 (sbusMidStick.take 24)) (filledState board8 0)) with Overdue := true, RC_Timeout := 50 }
    (by decide)

/-! ## Mode switch -/

theorem setBit_testBit (reg bit i : Nat) (hi : i < 8) :
    (setBit reg bit).testBit i = (reg.testBit i || decide (bit = i)) := by
  unfold setBit
  rw [show (256 : Nat) = 2 ^ 8 from rfl, Nat.testBit_mod_two_pow, Nat.testBit_or,
    Nat.one_shiftLeft, Nat.testBit_two_pow]
  simp [hi]

theorem clearBit_testBit (reg bit i : Nat) :
    (clearBit reg bit).testBit i = (reg.testBit i && (decide (i < 8) ^^ decide (bit = i))) := by
  unfold clearBit
  rw [show (0xFF : Nat) = 2 ^ 8 - 1 from rfl, Nat.testBit_and, Nat.testBit_xor,
    Nat.testBit_two_pow_sub_one, Nat.one_shiftLeft, Nat.testBit_two_pow]

/-- C19. Mode switch mutual exclusion: after `init_int`, whatever the registers held before.
In a serial mode `EIMSK`, `PCMSK1` and `PCMSK3` are zero and `RXEN0`, `RXCIE0` are set. In
CPPM mode `RXEN0` and `RXCIE0` are clear, `EIMSK = 0x04` and `PCMSK1 = PCMSK3 = 0`. In PWM
mode `RXEN0` and `RXCIE0` are clear, `EIMSK = 0x07` and the pin change bits `PCINT8` and
`PCINT24` are set. In every mode exactly one of the two kinds of source is enabled, never
both. -/
theorem C19_mode_switch (Config : CONFIG) (r : Regs) (s : State) :
    (serialMode Config.RxMode →
      (init_int Config r s).1.EIMSK = 0 ∧ (init_int Config r s).1.PCMSK1 = 0 ∧
      (init_int Config r s).1.PCMSK3 = 0 ∧ bitSet (init_int Config r s).1.UCSR0B RXEN0 ∧
      bitSet (init_int Config r s).1.UCSR0B RXCIE0 ∧
      serialEnabled (init_int Config r s).1 ∧ ¬ edgeEnabled (init_int Config r s).1) ∧
    (Config.RxMode = RxModes.CPPM_MODE →
      ¬ bitSet (init_int Config r s).1.UCSR0B RXEN0 ∧
      ¬ bitSet (init_int Config r s).1.UCSR0B RXCIE0 ∧
      (init_int Config r s).1.EIMSK = 0x04 ∧ (init_int Config r s).1.PCMSK1 = 0 ∧
      (init_int Config r s).1.PCMSK3 = 0 ∧
      edgeEnabled (init_int Config r s).1 ∧ ¬ serialEnabled (init_int Config r s).1) ∧
    (Config.RxMode = RxModes.PWM →
      ¬ bitSet (init_int Config r s).1.UCSR0B RXEN0 ∧
      ¬ bitSet (init_int Config r s).1.UCSR0B RXCIE0 ∧
      (init_int Config r s).1.EIMSK = 0x07 ∧ bitSet (init_int Config r s).1.PCMSK1 PCINT8 ∧
      bitSet (init_int Config r s).1.PCMSK3 PCINT24 ∧
      edgeEnabled (init_int Config r s).1 ∧ ¬ serialEnabled (init_int Config r s).1) ∧
    ¬ (edgeEnabled (init_int Config r s).1 ∧ serialEnabled (init_int Config r s).1) ∧
    (edgeEnabled (init_int Config r s).1 ∨ serialEnabled (init_int Config r s).1) := by
  have hset4 : bitSet (setBit (setBit r.UCSR0B RXCIE0) RXEN0) RXEN0 := by
    unfold bitSet
    rw [setBit_testBit _ _ _ (by decide)]
    simp
  have hset7 : bitSet (setBit (setBit r.UCSR0B RXCIE0) RXEN0) RXCIE0 := by
    unfold bitSet
    rw [setBit_testBit _ _ _ (by decide), setBit_testBit _ _ _ (by decide)]
    simp
  have hclr4 : ¬ bitSet (clearBit (clearBit r.UCSR0B RXCIE0) RXEN0) RXEN0 := by
    unfold bitSet
    rw [clearBit_testBit]
    simp [RXEN0]
  have hclr7 : ¬ bitSet (clearBit (clearBit r.UCSR0B RXCIE0) RXEN0) RXCIE0 := by
    unfold bitSet
    rw [clearBit_testBit, clearBit_testBit]
    simp [RXCIE0]
  have hser : ∀ u, ¬ bitSet u RXEN0 → ¬ bitSet u RXCIE0 →
      ¬ (bitSet u RXEN0 ∨ bitSet u RXCIE0) := by
    intro u h1 h2 h; rcases h with h | h
    · exact h1 h
    · exact h2 h
  have hp1 : bitSet (setBit r.PCMSK1 PCINT8) PCINT8 := by
    unfold bitSet; rw [setBit_testBit _ _ _ (by decide)]; simp
  have hp3 : bitSet (setBit r.PCMSK3 PCINT24) PCINT24 := by
    unfold bitSet; rw [setBit_testBit _ _ _ (by decide)]; simp
  cases hm : Config.RxMode <;>
    simp only [init_int, hm, serialMode, edgeEnabled, serialEnabled, reduceCtorEq, false_or,
      or_false, or_self, false_implies, true_implies, ne_eq, not_true_eq_false, not_false_eq_true,
      true_and, and_true, and_self, true_or, or_true, not_and, not_or, OfNat.ofNat_ne_zero,
      false_and, and_false, implies_true, forall_const]
  all_goals tauto

/-- Witness of C19: from registers with every bit set, the switch to SBUS mode disables the
edge sources and leaves the receiver enabled; the switch to CPPM mode enables `INT2` only and
disables the receiver. -/
theorem C19_mode_switch_witness :
    ((init_int (idOrder RxModes.SBUS 8) { PCMSK1 := 0xFF, PCMSK3 := 0xFF, EIMSK := 0xFF, UCSR0B := 0xFF, PCIFR := 0xFF, EIFR := 0xFF } (filledState board8 0)).1.EIMSK = 0 ∧
      bitSet (init_int (idOrder RxModes.SBUS 8) { PCMSK1 := 0xFF, PCMSK3 := 0xFF, EIMSK := 0xFF, UCSR0B := 0xFF, PCIFR := 0xFF, EIFR := 0xFF } (filledState board8 0)).1.UCSR0B RXEN0) ∧
    ((init_int cppmConfig { PCMSK1 := 0xFF, PCMSK3 := 0xFF, EIMSK := 0xFF, UCSR0B := 0xFF, PCIFR := 0xFF, EIFR := 0xFF } (filledState board8 0)).1.EIMSK = 0x04 ∧
      (init_int cppmConfig { PCMSK1 := 0xFF, PCMSK3 := 0xFF, EIMSK := 0xFF, UCSR0B := 0xFF, PCIFR := 0xFF, EIFR := 0xFF } (filledState board8 0)).1.UCSR0B = 0x6F) :=
  ⟨⟨((C19_mode_switch (idOrder RxModes.SBUS 8) { PCMSK1 := 0xFF, PCMSK3 := 0xFF, EIMSK := 0xFF, UCSR0B := 0xFF, PCIFR := 0xFF, EIFR := 0xFF } (filledState board8 0)).1 (by decide)).1,
    ((C19_mode_switch (idOrder RxModes.SBUS 8) { PCMSK1 := 0xFF, PCMSK3 := 0xFF, EIMSK := 0xFF, UCSR0B := 0xFF, PCIFR := 0xFF, EIFR := 0xFF } (filledState board8 0)).1 (by decide)).2.2.2.1⟩,
   ⟨((C19_mode_switch cppmConfig { PCMSK1 := 0xFF, PCMSK3 := 0xFF, EIMSK := 0xFF, UCSR0B := 0xFF, PCIFR := 0xFF, EIFR := 0xFF } (filledState board8 0)).2.1 (by decide)).2.2.1,
    by decide⟩⟩

/-! ## S-Bus scaling -/

/-- The shift `x >>> n` on `Int` is the division rounding toward minus infinity. -/
theorem int_shiftRight (x : Int) (n : Nat) : x >>> (n : Int) = x / ((2 ^ n : Nat) : Int) := by
  cases x with
  | ofNat m =>
    rw [Int.ofNat_eq_coe, Int.shiftRight_coe_nat, Nat.shiftRight_eq_div_pow]
    exact Int.ofNat_ediv m (2 ^ n)
  | negSucc m =>
    rw [Int.shiftRight_negSucc, Nat.shiftRight_eq_div_pow,
      Int.negSucc_ediv m (by exact_mod_cast Nat.two_pow_pos n), Int.negSucc_eq]
    congr 1
theorem shiftRight_one (x : Int) : x >>> 1 = x / 2 := by
  have := int_shiftRight x 1
  simpa using this
theorem shiftRight_four (x : Int) : x >>> 4 = x / 16 := by
  have := int_shiftRight x 4
  simpa using this

theorem sbusConvert_eq (raw : Nat) (h : raw ≤ 2047) :
    (sbusConvert raw : Int) =
      ((raw : Int) - 1024) + ((raw : Int) - 1024) / 2 + ((raw : Int) - 1024) / 16 + 3750 := by
  unfold sbusConvert int16 uint16
  dsimp only
  have h1 : ((raw : Int) - 1024 + 32768) % 65536 - 32768 = (raw : Int) - 1024 := by omega
  rw [h1, shiftRight_one, shiftRight_four]
  have h2 : ((raw : Int) - 1024 + ((raw : Int) - 1024) / 2
      + ((raw : Int) - 1024) / 16 + 32768) % 65536 - 32768
      = (raw : Int) - 1024 + ((raw : Int) - 1024) / 2 + ((raw : Int) - 1024) / 16 := by
    omega
  rw [h2]
  have h3 : 0 ≤ ((raw : Int) - 1024 + ((raw : Int) - 1024) / 2 + ((raw : Int) - 1024) / 16 + 3750)
      % 65536 := by omega
  rw [Int.toNat_of_nonneg h3]
  omega

theorem tdiv_of_nonpos (v d : Int) (hv : v ≤ 0) (hd : 0 ≤ d) :
    Int.tdiv v d = -((-v) / d) := by
  have h : v = -(-v) := by omega
  rw [h, Int.neg_tdiv, Int.tdiv_eq_ediv (by omega) hd]
  simp

/-- The specification's formula in terms of flooring division. -/
theorem sbusFormula_eq (raw : Nat) :
    sbusFormula raw =
      if 1024 ≤ raw then
        ((raw : Int) - 1024) + ((raw : Int) - 1024) / 2 + ((raw : Int) - 1024) / 16 + 3750
      else
        ((raw : Int) - 1024) - (1024 - (raw : Int)) / 2 - (1024 - (raw : Int)) / 16 + 3750 := by
  unfold sbusFormula
  split_ifs with h
  · rw [Int.tdiv_eq_ediv (by omega) (by omega), Int.tdiv_eq_ediv (by omega) (by omega)]
  · rw [tdiv_of_nonpos _ _ (by omega) (by omega), tdiv_of_nonpos _ _ (by omega) (by omega)]
    have : -((raw : Int) - 1024) = 1024 - (raw : Int) := by omega
    rw [this]
    omega

/-- C20 (amended). S-Bus normalisation: for every raw 11-bit value `raw`, the published value
is `v + ⌊v / 2⌋ + ⌊v / 16⌋ + 3750` with `v = raw - 1024`: the code divides by arithmetic
right shifts, which round toward minus infinity. This is the value of the specification's
formula, whose divisions truncate toward zero, when `raw ≥ 1024`; below 1024 it is the
formula's value or up to two counts less. -/
theorem C20_sbus_formula (raw : Nat) (h : raw ≤ 2047) :
    (sbusConvert raw : Int) =
      ((raw : Int) - 1024) + ((raw : Int) - 1024) / 2 + ((raw : Int) - 1024) / 16 + 3750 ∧
    (1024 ≤ raw → (sbusConvert raw : Int) = sbusFormula raw) ∧
    (sbusConvert raw : Int) ≤ sbusFormula raw ∧ sbusFormula raw ≤ (sbusConvert raw : Int) + 2 := by
  have h0 := sbusConvert_eq raw h
  have h1 := sbusFormula_eq raw
  refine ⟨h0, ?_, ?_, ?_⟩
  · intro h2
    rw [h0, h1, if_pos h2]
  · rw [h0, h1]
    split_ifs <;> omega
  · rw [h0, h1]
    split_ifs <;> omega

/-- Witness of C20: the centre value 1024 is published as 3750, the largest raw value 2047
as 5347. -/
theorem C20_sbus_formula_witness :
    (sbusConvert 1024 : Int) = sbusFormula 1024 ∧ (sbusConvert 2047 : Int) = sbusFormula 2047 ∧
    sbusConvert 1024 = 3750 ∧ sbusConvert 2047 = 5347 :=
  ⟨(C20_sbus_formula 1024 (by decide)).2.1 (by decide),
   (C20_sbus_formula 2047 (by decide)).2.1 (by decide), by decide, by decide⟩

/-- Counterexample to C20 as stated: for `raw = 1023` (`v = -1`) the formula with truncating
divisions gives `-1 + 0 + 0 + 3750 = 3749`; the code publishes `-1 - 1 - 1 + 3750 = 3747`.
The eighth channel of the mid-stick packet is lowered to 1023 by changing byte 11 from `0x80`
to `0x7F` and byte 10 from `0x10` to `0xF0`. -/
theorem C20_sbus_formula_counterexample :
    sbusFormula 1023 = 3749 ∧ sbusConvert 1023 = 3747 ∧
    (runRx board8 (idOrder RxModes.SBUS 8)
      (eventsAt 3000 ((sbusMidStick.set 10 0xF0).set 11 0x7F)) (filledState board8 0)).RxChannel.getD
      7 0 = 3747 := by
  decide

/-! ## Channel order as a lookup -/

theorem range_getD (M k : Nat) (hk : k < M) : (List.range M).getD k 0 = k := by
  rw [List.getD_eq_getElem _ _ (by simpa using hk)]
  simp

theorem identityOrder_ok (hw : Board) (Config : CONFIG) :
    ChannelOrderOK hw (identityOrder hw Config) :=
  List.Perm.refl _

theorem identityOrder_getD (hw : Board) (Config : CONFIG) (k : Nat)
    (hk : k < hw.MAX_RC_CHANNELS) : (identityOrder hw Config).ChannelOrder.getD k 0 = k :=
  range_getD _ _ hk

/-- The Xtreme placement loop under two channel orders: the buffer index runs alike, and a
position published so far is found at its place under either order. -/
theorem xtremeFold_lookup (hw : Board) (Cp Cid : CONFIG) (m : Nat) (buf rxp rxid : List Nat)
    (hlp : rxp.length = hw.MAX_RC_CHANNELS) (hlid : rxid.length = hw.MAX_RC_CHANNELS)
    (hinj : ∀ a, a < hw.MAX_RC_CHANNELS → ∀ b, b < hw.MAX_RC_CHANNELS →
      Cp.ChannelOrder.getD a 0 = Cp.ChannelOrder.getD b 0 → a = b)
    (hlt : ∀ k, k < hw.MAX_RC_CHANNELS → Cp.ChannelOrder.getD k 0 < hw.MAX_RC_CHANNELS)
    (hid : ∀ k, k < hw.MAX_RC_CHANNELS → Cid.ChannelOrder.getD k 0 = k) (j : Nat) :
    ((List.range j).foldl (xtremeStep hw Cp m buf) (4, rxp)).1 =
      ((List.range j).foldl (xtremeStep hw Cid m buf) (4, rxid)).1 ∧
    ((List.range j).foldl (xtremeStep hw Cp m buf) (4, rxp)).2.length = hw.MAX_RC_CHANNELS ∧
    ((List.range j).foldl (xtremeStep hw Cid m buf) (4, rxid)).2.length = hw.MAX_RC_CHANNELS ∧
    (∀ i, i < j → i < hw.MAX_RC_CHANNELS → m &&& (1 <<< i) ≠ 0 →
      ((List.range j).foldl (xtremeStep hw Cp m buf) (4, rxp)).2.getD
          (Cp.ChannelOrder.getD i 0) 0 =
        ((List.range j).foldl (xtremeStep hw Cid m buf) (4, rxid)).2.getD i 0) := by
  induction j with
  | zero => exact ⟨rfl, hlp, hlid, fun i hi => absurd hi (by omega)⟩
  | succ j ih =>
    rw [List.range_succ, List.foldl_append, List.foldl_append]
    simp only [List.foldl_cons, List.foldl_nil]
    generalize (List.range j).foldl (xtremeStep hw Cp m buf) (4, rxp) = sp at ih ⊢
    generalize (List.range j).foldl (xtremeStep hw Cid m buf) (4, rxid) = sd at ih ⊢
    obtain ⟨h1, h2, h3, h4⟩ := ih
    by_cases hb : m &&& (1 <<< j) ≠ 0
    · by_cases hj : j < hw.MAX_RC_CHANNELS
      · have ep : xtremeStep hw Cp m buf sp j =
            ((if sp.1 < hw.SBUFFER_SIZE then (sp.1 + 2) % 256 else sp.1),
              sp.2.set (Cp.ChannelOrder.getD j 0)
                (((((buf.getD sp.1 0 <<< 8) + buf.getD (sp.1 + 1) 0) % 65536) * 10 % 65536) >>> 2)) := by
          unfold xtremeStep; rw [if_pos hb]; dsimp only; rw [if_pos hj]
        have ed : xtremeStep hw Cid m buf sd j =
            ((if sd.1 < hw.SBUFFER_SIZE then (sd.1 + 2) % 256 else sd.1),
              sd.2.set (Cid.ChannelOrder.getD j 0)
                (((((buf.getD sd.1 0 <<< 8) + buf.getD (sd.1 + 1) 0) % 65536) * 10 % 65536) >>> 2)) := by
          unfold xtremeStep; rw [if_pos hb]; dsimp only; rw [if_pos hj]
        rw [ep, ed, hid j hj, h1]
        refine ⟨rfl, by simp [h2], by simp [h3], ?_⟩
        intro i hi hiM hbi
        dsimp only
        by_cases hij : i = j
        · subst hij
          rw [getD_set_self _ _ _ _ (by rw [h2]; exact hlt i hiM),
            getD_set_self _ _ _ _ (by rw [h3]; exact hiM)]
        · rw [getD_set_ne _ _ _ _ _ (fun h => hij (hinj j hj i hiM h).symm),
            getD_set_ne _ _ _ _ _ (fun h => hij h.symm)]
          exact h4 i (by omega) hiM hbi
      · have ep : xtremeStep hw Cp m buf sp j =
            ((if sp.1 < hw.SBUFFER_SIZE then (sp.1 + 2) % 256 else sp.1), sp.2) := by
          unfold xtremeStep; rw [if_pos hb]; dsimp only; rw [if_neg hj]
        have ed : xtremeStep hw Cid m buf sd j =
            ((if sd.1 < hw.SBUFFER_SIZE then (sd.1 + 2) % 256 else sd.1), sd.2) := by
          unfold xtremeStep; rw [if_pos hb]; dsimp only; rw [if_neg hj]
        rw [ep, ed, h1]
        refine ⟨rfl, h2, h3, ?_⟩
        intro i hi hiM hbi
        exact h4 i (by omega) hiM hbi
    · rw [xtremeStep, xtremeStep, if_neg hb, if_neg hb]
      refine ⟨h1, h2, h3, ?_⟩
      intro i hi hiM hbi
      by_cases hij : i = j
      · subst hij; exact absurd hbi hb
      · exact h4 i (by omega) hiM hbi

/-- The Spektrum slot loop under two channel orders: index and channel number run alike, and
a channel number carried by a slot so far is found at its place under either order. -/
theorem spektrumLoop_lookup (hw : Board) (Cp Cid : CONFIG) (buf : List Nat) (cm dm cs : Nat)
    (lp ld : SpekLoop) (hs : lp.sindex = 2) (hsd : ld.sindex = 2) (hc : lp.ch_num = ld.ch_num)
    (hlp : lp.RxChannel.length = hw.MAX_RC_CHANNELS)
    (hlid : ld.RxChannel.length = hw.MAX_RC_CHANNELS)
    (hinj : ∀ a, a < hw.MAX_RC_CHANNELS → ∀ b, b < hw.MAX_RC_CHANNELS →
      Cp.ChannelOrder.getD a 0 = Cp.ChannelOrder.getD b 0 → a = b)
    (hlt : ∀ k, k < hw.MAX_RC_CHANNELS → Cp.ChannelOrder.getD k 0 < hw.MAX_RC_CHANNELS)
    (hid : ∀ k, k < hw.MAX_RC_CHANNELS → Cid.ChannelOrder.getD k 0 = k) (n : Nat)
    (hn : n ≤ 7) :
    (spektrumLoop hw Cp buf cm dm cs n lp).sindex = 2 + 2 * n ∧
    (spektrumLoop hw Cid buf cm dm cs n ld).sindex = 2 + 2 * n ∧
    (spektrumLoop hw Cp buf cm dm cs n lp).ch_num =
      (spektrumLoop hw Cid buf cm dm cs n ld).ch_num ∧
    (spektrumLoop hw Cp buf cm dm cs n lp).RxChannel.length = hw.MAX_RC_CHANNELS ∧
    (spektrumLoop hw Cid buf cm dm cs n ld).RxChannel.length = hw.MAX_RC_CHANNELS ∧
    (∀ c, c < hw.MAX_RC_CHANNELS → (∃ j, j < n ∧ spekId cm cs buf j = c) →
      (spektrumLoop hw Cp buf cm dm cs n lp).RxChannel.getD (Cp.ChannelOrder.getD c 0) 0 =
        (spektrumLoop hw Cid buf cm dm cs n ld).RxChannel.getD c 0) := by
  induction n with
  | zero =>
    exact ⟨hs, hsd, hc, hlp, hlid, fun c _ h => by obtain ⟨j, hj, _⟩ := h; omega⟩
  | succ n ih =>
    obtain ⟨h1, h2, h3, h4, h5, h6⟩ := ih (by omega)
    rw [spektrumLoop_succ, spektrumLoop_succ]
    generalize spektrumLoop hw Cp buf cm dm cs n lp = a at h1 h3 h4 h6 ⊢
    generalize spektrumLoop hw Cid buf cm dm cs n ld = b at h2 h3 h5 h6 ⊢
    obtain ⟨p1, p2, p3⟩ := spektrumStep_eq hw Cp buf cm dm cs n a h1
    obtain ⟨d1, d2, d3⟩ := spektrumStep_eq hw Cid buf cm dm cs n b h2
    rw [p1, p2, p3, d1, d2, d3]
    refine ⟨by omega, by omega, rfl, ?_, ?_, ?_⟩
    · split_ifs <;> simp [h4]
    · split_ifs <;> simp [h5]
    · intro c hcM hex
      by_cases hid2 : spekId cm cs buf n < hw.MAX_RC_CHANNELS
      · rw [if_pos hid2, if_pos hid2, hid _ hid2]
        by_cases hcn : spekId cm cs buf n = c
        · rw [hcn, getD_set_self _ _ _ _ (by rw [h4]; exact hlt c hcM),
            getD_set_self _ _ _ _ (by rw [h5]; exact hcM)]
        · rw [getD_set_ne _ _ _ _ _ (fun h => hcn (hinj _ hid2 c hcM h)),
            getD_set_ne _ _ _ _ _ hcn]
          obtain ⟨j, hj, hjc⟩ := hex
          have : j ≠ n := fun h => hcn (h ▸ hjc)
          exact h6 c hcM ⟨j, by omega, hjc⟩
      · rw [if_neg hid2, if_neg hid2]
        obtain ⟨j, hj, hjc⟩ := hex
        have : j ≠ n := fun h => hid2 (by rw [← h, hjc]; exact hcM)
        exact h6 c hcM ⟨j, by omega, hjc⟩


/-- The vector a protocol block stores under the configured channel order holds, at the place
the order gives to a published stream position, what the vector stored under the identity
order holds at that position. -/
theorem publishedVector_lookup (hw : Board) (Config : CONFIG) (temp : Nat) (E : State)
    (hco : ChannelOrderOK hw Config)
    (h8 : Config.RxMode = RxModes.SBUS → 8 ≤ hw.MAX_RC_CHANNELS)
    (hrx : E.RxChannel.length = hw.MAX_RC_CHANNELS) (i : Nat)
    (hpos : PublishedPos hw Config.RxMode E temp i) :
    (publishedVector hw Config temp E).getD (Config.ChannelOrder.getD i 0) 0 =
      (publishedVector hw (identityOrder hw Config) temp E).getD i 0 := by
  have hinj := channelOrder_inj hco
  have hlt := channelOrder_lt hco
  have hid := identityOrder_getD hw Config
  have hcod := identityOrder_ok hw Config
  cases hm : Config.RxMode
  all_goals
    have hm' : (identityOrder hw Config).RxMode = Config.RxMode := rfl
    rw [hm] at hm' hpos
    simp only [publishedVector, hm, hm']
    unfold PublishedPos at hpos
    dsimp only at hpos
  · unfold xtremeLoop
    exact (xtremeFold_lookup hw Config (identityOrder hw Config) E.chanmask16 E.sBuffer
      E.RxChannel E.RxChannel hrx hrx hinj hlt hid 16).2.2.2 i hpos.1 hpos.2.1 hpos.2.2
  · have h8' := h8 hm
    have a := (sbus_published hw Config E.sBuffer E.RxChannel hrx
      (fun a ha b hb => hinj a (by omega) b (by omega)) (fun k hk => hlt k (by omega))).1 i hpos
    have b := (sbus_published hw (identityOrder hw Config) E.sBuffer E.RxChannel hrx
      (fun a ha b hb => channelOrder_inj hcod a (by omega) b (by omega))
      (fun k hk => channelOrder_lt hcod k (by omega))).1 i hpos
    rw [hid i (by omega)] at b
    rw [a, b]
  · exact (spektrumLoop_lookup hw Config (identityOrder hw Config) _ _ _ _
      { sindex := 2, ch_num := E.ch_num, RxChannel := E.RxChannel }
      { sindex := 2, ch_num := E.ch_num, RxChannel := E.RxChannel } rfl rfl rfl
      hrx hrx hinj hlt hid 7 (le_refl _)).2.2.2.2.2 i hpos.1 hpos.2
  · have a := (placeChannels_getD hw Config modebConvert
      (copyChannels hw 1 E.sBuffer E.TempRxChannel) E.RxChannel hco hrx).1 i hpos
    have b := (placeChannels_getD hw (identityOrder hw Config) modebConvert
      (copyChannels hw 1 E.sBuffer E.TempRxChannel) E.RxChannel hcod hrx).1 i hpos
    rw [hid i hpos] at b
    rw [a, b]
  · have a := (placeChannels_getD hw Config sumdConvert
      (copyChannels hw 3 E.sBuffer E.TempRxChannel) E.RxChannel hco hrx).1 i hpos
    have b := (placeChannels_getD hw (identityOrder hw Config) sumdConvert
      (copyChannels hw 3 E.sBuffer E.TempRxChannel) E.RxChannel hcod hrx).1 i hpos
    rw [hid i hpos] at b
    rw [a, b]


/-! ### What a protocol block stores -/

theorem xtremeHeader_fields (temp : Nat) (s : State) :
    (xtremeMaskLow temp (xtremeMaskHigh temp (xtremeFlags temp s))).bytecount = s.bytecount ∧
    (xtremeMaskLow temp (xtremeMaskHigh temp (xtremeFlags temp s))).Interrupted = s.Interrupted ∧
    (xtremeMaskLow temp (xtremeMaskHigh temp (xtremeFlags temp s))).RxChannel = s.RxChannel ∧
    (4 ≤ s.bytecount → xtremeMaskLow temp (xtremeMaskHigh temp (xtremeFlags temp s)) = s) := by
  have x1 : ∀ s, (xtremeFlags temp s).bytecount = s.bytecount ∧
      (xtremeFlags temp s).Interrupted = s.Interrupted ∧
      (xtremeFlags temp s).RxChannel = s.RxChannel ∧
      (4 ≤ s.bytecount → xtremeFlags temp s = s) := by
    intro s; unfold xtremeFlags; split_ifs with h
    · exact ⟨rfl, rfl, rfl, fun h4 => by omega⟩
    · exact ⟨rfl, rfl, rfl, fun h4 => by omega⟩
    · exact ⟨rfl, rfl, rfl, fun _ => rfl⟩
  have x2 : ∀ s, (xtremeMaskHigh temp s).bytecount = s.bytecount ∧
      (xtremeMaskHigh temp s).Interrupted = s.Interrupted ∧
      (xtremeMaskHigh temp s).RxChannel = s.RxChannel ∧
      (4 ≤ s.bytecount → xtremeMaskHigh temp s = s) := by
    intro s; unfold xtremeMaskHigh; split_ifs with h
    · exact ⟨rfl, rfl, rfl, fun h4 => by omega⟩
    · exact ⟨rfl, rfl, rfl, fun _ => rfl⟩
  have x3 : ∀ s, (xtremeMaskLow temp s).bytecount = s.bytecount ∧
      (xtremeMaskLow temp s).Interrupted = s.Interrupted ∧
      (xtremeMaskLow temp s).RxChannel = s.RxChannel ∧
      (4 ≤ s.bytecount → xtremeMaskLow temp s = s) := by
    intro s; unfold xtremeMaskLow; split_ifs with h
    · exact ⟨rfl, rfl, rfl, fun h4 => by omega⟩
    · exact ⟨rfl, rfl, rfl, fun _ => rfl⟩
  refine ⟨?_, ?_, ?_, ?_⟩
  · rw [(x3 _).1, (x2 _).1, (x1 _).1]
  · rw [(x3 _).2.1, (x2 _).2.1, (x1 _).2.1]
  · rw [(x3 _).2.2.1, (x2 _).2.2.1, (x1 _).2.2.1]
  · intro h4
    rw [(x1 s).2.2.2 h4, (x2 s).2.2.2 h4, (x3 s).2.2.2 h4]

/-- A protocol block run from a state with `Interrupted` clear either accepts a packet, and
then sets `Interrupted` and stores `publishedVector`, or leaves `Interrupted` clear and the
channel vector alone. -/
theorem decode_shape (hw : Board) (Config : CONFIG) (temp T : Nat) (E : State)
    (hI : E.Interrupted = false) :
    ((decode hw Config temp T E).Interrupted = true ∧
      (decode hw Config temp T E).RxChannel = publishedVector hw Config temp E) ∨
    ((decode hw Config temp T E).Interrupted = false ∧
      (decode hw Config temp T E).RxChannel = E.RxChannel) := by
  cases hm : Config.RxMode
  · right
    unfold decode
    simp only [hm, reduceCtorEq, if_false]
    exact ⟨hI, trivial⟩
  · right
    unfold decode
    simp only [hm, reduceCtorEq, if_false]
    exact ⟨hI, trivial⟩
  · rw [decode_xtreme hw Config temp T E hm]
    simp only [publishedVector, hm]
    have hh := xtremeHeader_fields temp E
    by_cases h4 : 4 ≤ E.bytecount
    · unfold xtreme
      rw [hh.2.2.2 h4]
      unfold xtremeData rcSync
      dsimp only
      split_ifs
      · right; exact ⟨hI, rfl⟩
      · right; exact ⟨rfl, rfl⟩
      · left; exact ⟨rfl, rfl⟩
    · right
      unfold xtreme xtremeData
      dsimp only
      rw [if_pos (by rw [hh.1]; omega)]
      exact ⟨hh.2.1.trans hI, hh.2.2.1⟩
  · rw [decode_sbus hw Config temp T E hm]
    simp only [publishedVector, hm]
    unfold sbus rcSync
    dsimp only
    split_ifs
    · left; exact ⟨rfl, rfl⟩
    · right; exact ⟨hI, rfl⟩
  · rw [decode_spektrum hw Config temp T E hm]
    simp only [publishedVector, hm]
    by_cases hb : E.bytecount = 15
    · left
      have := spektrum_eval_last hw Config temp T E hb
      exact ⟨this.1, this.2.2.2⟩
    · right
      rw [spektrum_eval_quiet hw Config temp T E hb]
      exact ⟨hI, rfl⟩
  · rw [decode_modeb hw Config temp T E hm]
    simp only [publishedVector, hm]
    have h1 : (modebSize E).Interrupted = E.Interrupted ∧ (modebSize E).RxChannel = E.RxChannel ∧
        (modebSize E).sBuffer = E.sBuffer ∧ (modebSize E).TempRxChannel = E.TempRxChannel := by
      unfold modebSize; split_ifs <;> exact ⟨rfl, rfl, rfl, rfl⟩
    unfold modeb modebCheck
    split_ifs
    · by_cases hc : checkcrcOf (modebSize E).sBuffer (modebSize E).packet_size =
          crcLoop (modebSize E).sBuffer (modebSize E).packet_size
      · left
        have := crcPublish_accepts hw Config 1 modebConvert T (modebSize E) hc
        rw [h1.2.1, h1.2.2.1, h1.2.2.2] at this
        exact ⟨this.1, this.2.2.2⟩
      · right
        rw [crcPublish_rejects hw Config 1 modebConvert T (modebSize E) hc]
        exact ⟨h1.1.trans hI, h1.2.1⟩
    · right; exact ⟨h1.1.trans hI, h1.2.1⟩
  · rw [decode_sumd hw Config temp T E hm]
    simp only [publishedVector, hm]
    have h1 : (sumdSize E).Interrupted = E.Interrupted ∧ (sumdSize E).RxChannel = E.RxChannel ∧
        (sumdSize E).sBuffer = E.sBuffer ∧ (sumdSize E).TempRxChannel = E.TempRxChannel := by
      unfold sumdSize; split_ifs <;> exact ⟨rfl, rfl, rfl, rfl⟩
    unfold sumd sumdCheck
    split_ifs
    · by_cases hc : checkcrcOf (sumdSize E).sBuffer (sumdSize E).packet_size =
          crcLoop (sumdSize E).sBuffer (sumdSize E).packet_size
      · left
        have := crcPublish_accepts hw Config 3 sumdConvert T (sumdSize E) hc
        rw [h1.2.1, h1.2.2.1, h1.2.2.2] at this
        exact ⟨this.1, this.2.2.2⟩
      · right
        rw [crcPublish_rejects hw Config 3 sumdConvert T (sumdSize E) hc]
        exact ⟨h1.1.trans hI, h1.2.1⟩
    · right; exact ⟨h1.1.trans hI, h1.2.1⟩

/-! ### The channel order is read only when storing the channel vector -/

theorem offRx_fields {a b : State} (h : OffRx a b) :
    a.Interrupted = b.Interrupted := by
  unfold OffRx at h
  have h1 := congrArg State.Interrupted h
  exact h1

theorem offRx_eq {a b : State} (h : OffRx a b) (hr : a.RxChannel = b.RxChannel) : a = b := by
  unfold OffRx at h
  cases a; cases b
  simp only [State.mk.injEq, true_and] at h ⊢
  simp only at hr
  exact ⟨h.1, h.2.1, h.2.2.1, hr, h.2.2.2⟩

theorem spektrumLoop_ch_num (hw : Board) (C1 C2 : CONFIG) (buf : List Nat) (cm dm cs : Nat)
    (l1 l2 : SpekLoop) (h1 : l1.sindex = 2) (h2 : l2.sindex = 2) (hc : l1.ch_num = l2.ch_num)
    (n : Nat) (hn : n ≤ 7) :
    (spektrumLoop hw C1 buf cm dm cs n l1).ch_num =
      (spektrumLoop hw C2 buf cm dm cs n l2).ch_num := by
  cases n with
  | zero => exact hc
  | succ n =>
    rw [spektrumLoop_succ, spektrumLoop_succ]
    have a := (spektrumLoop_effect hw C1 buf cm dm cs l1 h1 n (by omega)).1
    have b := (spektrumLoop_effect hw C2 buf cm dm cs l2 h2 n (by omega)).1
    rw [(spektrumStep_eq hw C1 buf cm dm cs n _ a).2.1,
      (spektrumStep_eq hw C2 buf cm dm cs n _ b).2.1]

theorem decode_offRx (hw : Board) (C1 C2 : CONFIG) (hmode : C1.RxMode = C2.RxMode)
    (temp T : Nat) (s : State) :
    OffRx (decode hw C1 temp T s) (decode hw C2 temp T s) := by
  have x4 : ∀ s, OffRx (xtremeData hw C1 temp T s) (xtremeData hw C2 temp T s) := by
    intro s; unfold xtremeData OffRx rcSync; dsimp only; split_ifs <;> rfl
  have b1 : OffRx (sbus hw C1 T s) (sbus hw C2 T s) := by
    unfold sbus OffRx rcSync; dsimp only; split_ifs <;> rfl
  have k1 : OffRx (spektrum hw C1 temp T s) (spektrum hw C2 temp T s) := by
    unfold spektrum OffRx rcSync
    dsimp only
    split_ifs
    · rw [spektrumLoop_ch_num hw C1 C2 _ _ _ _ _ _ rfl rfl rfl 7 (le_refl _)]
    · rw [spektrumLoop_ch_num hw C1 C2 _ _ _ _ _ _ rfl rfl rfl 7 (le_refl _)]
    · rfl
  have c1 : ∀ (ofs : Nat) (f : Nat → Nat) (s : State),
      OffRx (crcPublish hw C1 ofs f T s) (crcPublish hw C2 ofs f T s) := by
    intro ofs f s; unfold crcPublish OffRx rcSync; dsimp only; split_ifs <;> rfl
  have m2 : ∀ s, OffRx (modebCheck hw C1 T s) (modebCheck hw C2 T s) := by
    intro s; unfold modebCheck; split_ifs
    · exact c1 _ _ _
    · rfl
  have d2 : ∀ s, OffRx (sumdCheck hw C1 T s) (sumdCheck hw C2 T s) := by
    intro s; unfold sumdCheck; split_ifs
    · exact c1 _ _ _
    · rfl
  unfold decode
  rw [← hmode]
  cases hm : C1.RxMode
  all_goals simp only [reduceCtorEq, if_false, if_true]
  · rfl
  · rfl
  · exact x4 _
  · exact b1
  · exact k1
  · exact m2 _
  · exact d2 _


/-! ### The serial handler under two channel orders -/

theorem runRx_concat (hw : Board) (Config : CONFIG) (evs : List RxEvent) (ev : RxEvent)
    (s : State) :
    runRx hw Config (evs ++ [ev]) s = USART0_RX_vect hw Config ev (runRx hw Config evs s) := by
  induction evs generalizing s with
  | nil => rfl
  | cons e evs ih => exact ih (USART0_RX_vect hw Config e s)

theorem USART_error (hw : Board) (Config : CONFIG) (ev : RxEvent) (s : State)
    (he : ¬ errorFree ev) : USART0_RX_vect hw Config ev s = jitter s := by
  unfold USART0_RX_vect
  dsimp only
  split_ifs with h1 h2
  · rfl
  · rfl
  · exact absurd ⟨not_not.mp h1, not_not.mp h2⟩ he

theorem entryState_fields (hw : Board) (ev : RxEvent) (s : State) :
    (entryState hw ev s).Interrupted = s.Interrupted ∧
    (entryState hw ev s).RxChannel = s.RxChannel := by
  have h1 := commonEntry_published hw ev.UDR0 ev.TCNT1 (jitter s)
  have h2 := jitter_published s
  exact ⟨h1.2.1.trans h2.2.1, h1.1.trans h2.1⟩

/-- The serial handler run from a state with `Interrupted` clear either accepts a packet, and
then sets `Interrupted` and stores `publishedVector`, or leaves `Interrupted` clear and the
channel vector alone. -/
theorem USART_shape (hw : Board) (Config : CONFIG) (ev : RxEvent) (s : State)
    (hI : s.Interrupted = false) :
    ((USART0_RX_vect hw Config ev s).Interrupted = true ∧
      (USART0_RX_vect hw Config ev s).RxChannel =
        publishedVector hw Config ev.UDR0 (entryState hw ev s)) ∨
    ((USART0_RX_vect hw Config ev s).Interrupted = false ∧
      (USART0_RX_vect hw Config ev s).RxChannel = s.RxChannel) := by
  by_cases he : errorFree ev
  · have hv := USART_valid_eq hw Config ev s he
    have hE := entryState_fields hw ev s
    have hs := decode_shape hw Config ev.UDR0 ev.TCNT2 (entryState hw ev s) (hE.1.trans hI)
    rw [hE.2] at hs
    rw [hv]
    exact hs
  · right
    rw [USART_error hw Config ev s he]
    have h2 := jitter_published s
    exact ⟨h2.2.1.trans hI, h2.1⟩

theorem offRx_rewrite {a b : State} (h : OffRx a b) :
    a = { b with RxChannel := a.RxChannel } := by
  unfold OffRx at h
  cases a; cases b
  simp only [State.mk.injEq, true_and, eq_self] at h ⊢
  exact h

theorem USART_offRx (hw : Board) (C1 C2 : CONFIG) (hmode : C1.RxMode = C2.RxMode)
    (ev : RxEvent) (s : State) :
    OffRx (USART0_RX_vect hw C1 ev s) (USART0_RX_vect hw C2 ev s) := by
  unfold USART0_RX_vect
  dsimp only
  split_ifs
  · rfl
  · rfl
  · unfold validData
    dsimp only
    have h := decode_offRx hw C1 C2 hmode ev.UDR0 ev.TCNT2
      (commonEntry hw ev.UDR0 ev.TCNT1 (jitter s))
    rw [offRx_rewrite h]
    rfl

/-- A run that does not assign `Interrupted = true` does not read the channel order. -/
theorem USART_quiet_same (hw : Board) (C1 C2 : CONFIG) (hmode : C1.RxMode = C2.RxMode)
    (ev : RxEvent) (s : State) (hq : setsInterrupted (USART0_RX_vect hw C1 ev) s = false) :
    USART0_RX_vect hw C1 ev s = USART0_RX_vect hw C2 ev s := by
  unfold setsInterrupted at hq
  have hr : ∀ C : CONFIG, (USART0_RX_vect hw C ev { s with Interrupted := false }).Interrupted
      = false → (USART0_RX_vect hw C ev s).RxChannel = s.RxChannel := by
    intro C hC
    have hoff := (offI_fields (USART_offI hw C ev (offI_clear s))).2.2
    rcases USART_shape hw C ev { s with Interrupted := false } rfl with h | h
    · rw [hC] at h; exact absurd h.1 (by simp)
    · rw [← hoff, h.2]
  have h2 : (USART0_RX_vect hw C2 ev { s with Interrupted := false }).Interrupted = false := by
    rw [← offRx_fields (USART_offRx hw C1 C2 hmode ev _)]; exact hq
  exact offRx_eq (USART_offRx hw C1 C2 hmode ev s) ((hr C1 hq).trans (hr C2 h2).symm)

theorem runRx_quiet_same (hw : Board) (C1 C2 : CONFIG) (hmode : C1.RxMode = C2.RxMode)
    (evs : List RxEvent) : ∀ (s : State), Quietly hw C1 evs s →
    runRx hw C1 evs s = runRx hw C2 evs s := by
  induction evs with
  | nil => intro s _; rfl
  | cons ev evs ih =>
    intro s hq
    show runRx hw C1 evs (USART0_RX_vect hw C1 ev s) = runRx hw C2 evs (USART0_RX_vect hw C2 ev s)
    rw [← USART_quiet_same hw C1 C2 hmode ev s hq.1]
    exact ih _ hq.2

theorem publishedVector_length (hw : Board) (Config : CONFIG) (temp : Nat) (E : State) :
    (publishedVector hw Config temp E).length = E.RxChannel.length := by
  unfold publishedVector
  cases hm : Config.RxMode <;> dsimp only
  · exact xtremeLoop_length _ _ _ _ _
  · rw [sbusConvertAll_length]
    unfold sbusRaw
    rw [sbusLoop_length]
    exact clearChannels_length hw _
  · exact spektrumLoop_length _ _ _ _ _ _ _ _
  · exact placeChannels_length _ _ _ _ _
  · exact placeChannels_length _ _ _ _ _

theorem USART_rx_length (hw : Board) (Config : CONFIG) (ev : RxEvent) (s : State) :
    (USART0_RX_vect hw Config ev s).RxChannel.length = s.RxChannel.length := by
  have hoff := (offI_fields (USART_offI hw Config ev (offI_clear s))).2.2
  rw [← hoff]
  rcases USART_shape hw Config ev { s with Interrupted := false } rfl with h | h
  · rw [h.2, publishedVector_length, (entryState_fields hw ev _).2]
  · rw [h.2]

theorem runRx_rx_length (hw : Board) (Config : CONFIG) (evs : List RxEvent) :
    ∀ (s : State), (runRx hw Config evs s).RxChannel.length = s.RxChannel.length := by
  induction evs with
  | nil => intro s; rfl
  | cons ev evs ih =>
    intro s
    show (runRx hw Config evs (USART0_RX_vect hw Config ev s)).RxChannel.length = _
    rw [ih, USART_rx_length]

theorem publishedPos_offI (hw : Board) (mode : RxModes) (temp i : Nat) {a b : State}
    (h : OffI a b) : PublishedPos hw mode a temp i = PublishedPos hw mode b temp i := by
  rw [offI_eq h]
  rfl

theorem publishedVector_offI (hw : Board) (Config : CONFIG) (temp : Nat) {a b : State}
    (h : OffI a b) : publishedVector hw Config temp a = publishedVector hw Config temp b := by
  rw [offI_eq h]
  rfl

/-- One accepted byte: the vector stored under the configured order, read through the order,
is the vector stored under the identity order. -/
theorem USART_lookup (hw : Board) (Config : CONFIG) (ev : RxEvent) (s : State)
    (hco : ChannelOrderOK hw Config)
    (h8 : Config.RxMode = RxModes.SBUS → 8 ≤ hw.MAX_RC_CHANNELS)
    (hrx : s.RxChannel.length = hw.MAX_RC_CHANNELS)
    (hpub : setsInterrupted (USART0_RX_vect hw Config ev) s = true) (i : Nat)
    (hpos : PublishedPos hw Config.RxMode (entryState hw ev s) ev.UDR0 i) :
    (USART0_RX_vect hw Config ev s).RxChannel.getD (Config.ChannelOrder.getD i 0) 0 =
      (USART0_RX_vect hw (identityOrder hw Config) ev s).RxChannel.getD i 0 := by
  unfold setsInterrupted at hpub
  have hE : OffI (entryState hw ev { s with Interrupted := false }) (entryState hw ev s) :=
    commonEntry_offI hw _ _ (jitter_offI (offI_clear s))
  have hEr : (entryState hw ev s).RxChannel.length = hw.MAX_RC_CHANNELS := by
    rw [(entryState_fields hw ev s).2, hrx]
  have hv : ∀ C : CONFIG, (USART0_RX_vect hw C ev { s with Interrupted := false }).Interrupted
      = true → (USART0_RX_vect hw C ev s).RxChannel =
        publishedVector hw C ev.UDR0 (entryState hw ev s) := by
    intro C hC
    have hoff := (offI_fields (USART_offI hw C ev (offI_clear s))).2.2
    rcases USART_shape hw C ev { s with Interrupted := false } rfl with h | h
    · rw [← hoff, h.2, publishedVector_offI hw C ev.UDR0 hE]
    · rw [hC] at h; exact absurd h.1 (by simp)
  have h2 : (USART0_RX_vect hw (identityOrder hw Config) ev
      { s with Interrupted := false }).Interrupted = true := by
    rw [← offRx_fields (USART_offRx hw Config (identityOrder hw Config) rfl ev _)]; exact hpub
  rw [hv Config hpub, hv (identityOrder hw Config) h2]
  exact publishedVector_lookup hw Config ev.UDR0 (entryState hw ev s) hco h8 hEr i hpos


/-- C18. Channel order is a pure lookup. Let a sequence of received bytes be handled from
state `s0` in any mode, no byte before the last one publishing, and let the last byte complete
a frame (its handler run assigns `Interrupted = true`). The bytes before the last are handled
alike under the configured channel order, a permutation `p` of the channel indices, and under
the identity order. For every stream position `i` the decoder publishes, the channel vector
decoded under `p` holds at logical index `p(i)` the value that the channel vector decoded from
the same state under the identity order holds at index `i`; under the identity order
`ChannelOrder[i] = i`, so that vector is in raw stream order. -/
theorem C18_channel_order_lookup (hw : Board) (Config : CONFIG) (s0 : State)
    (evs : List RxEvent) (ev : RxEvent) (hco : ChannelOrderOK hw Config)
    (h8 : Config.RxMode = RxModes.SBUS → 8 ≤ hw.MAX_RC_CHANNELS)
    (hrx : s0.RxChannel.length = hw.MAX_RC_CHANNELS)
    (hq : Quietly hw Config evs s0)
    (hpub : setsInterrupted (USART0_RX_vect hw Config ev) (runRx hw Config evs s0) = true) :
    runRx hw (identityOrder hw Config) evs s0 = runRx hw Config evs s0 ∧
    (∀ i, PublishedPos hw Config.RxMode (entryState hw ev (runRx hw Config evs s0)) ev.UDR0 i →
      (runRx hw Config (evs ++ [ev]) s0).RxChannel.getD (Config.ChannelOrder.getD i 0) 0 =
        (runRx hw (identityOrder hw Config) (evs ++ [ev]) s0).RxChannel.getD i 0) ∧
    (∀ i, i < hw.MAX_RC_CHANNELS → (identityOrder hw Config).ChannelOrder.getD i 0 = i) := by
  have hsame := runRx_quiet_same hw Config (identityOrder hw Config) rfl evs s0 hq
  refine ⟨hsame.symm, ?_, identityOrder_getD hw Config⟩
  intro i hpos
  rw [runRx_concat, runRx_concat, ← hsame]
  exact USART_lookup hw Config ev (runRx hw Config evs s0) hco h8
    (by rw [runRx_rx_length, hrx]) hpub i hpos

/-- Witness of C18: the example packet of the Xtreme format comment (channel words `0x05DC`
and `0x05DD` for mask bits 1 and 3) decoded under the reversed channel order: stream position
3 is stored at logical index 4, position 1 at logical index 6, with the values the identity
order stores at indices 3 and 1. -/
theorem C18_channel_order_lookup_witness :
    (runRx board8 (reversedOrder RxModes.XTREME)
      (eventsAt 3000 (xtremeExample.take 8) ++ [{ UCSR0A := 0, UDR0 := 0xF0, TCNT1 := 3800, TCNT2 := 0 }])
      (filledState board8 7)).RxChannel.getD ((reversedOrder RxModes.XTREME).ChannelOrder.getD 3 0) 0 =
      (runRx board8 (identityOrder board8 (reversedOrder RxModes.XTREME))
        (eventsAt 3000 (xtremeExample.take 8) ++ [{ UCSR0A := 0, UDR0 := 0xF0, TCNT1 := 3800, TCNT2 := 0 }])
        (filledState board8 7)).RxChannel.getD 3 0 ∧
    (runRx board8 (reversedOrder RxModes.XTREME) (eventsAt 3000 xtremeExample)
      (filledState board8 7)).RxChannel = [7, 7, 7, 7, 3752, 7, 3750, 7] ∧
    (runRx board8 (identityOrder board8 (reversedOrder RxModes.XTREME)) (eventsAt 3000 xtremeExample)
      (filledState board8 7)).RxChannel = [7, 3750, 7, 3752, 7, 7, 7, 7] :=
  ⟨(C18_channel_order_lookup board8 (reversedOrder RxModes.XTREME) (filledState board8 7)
      (eventsAt 3000 (xtremeExample.take 8))
      { UCSR0A := 0, UDR0 := 0xF0, TCNT1 := 3800, TCNT2 := 0 }
      (by decide) (fun _ => by decide) (by decide) (by decide) (by decide)).2.1 3 (by decide),
   by decide, by decide⟩

/-! ## The inter-byte gap -/

/-- C23. Inter-byte gap wrap handling equals modular subtraction: for 16-bit time stamps `now`
and `last`, the period computed by the serial handler (`now - last` when `now ≥ last`,
`65536 - last + now` otherwise, stored in a 16-bit variable) is `(now - last) mod 65536`, the
branch-free 16-bit subtraction, which is also what the CPPM code computes; it is below 65536
and it is 0 exactly when `now = last`. -/
theorem C23_gap_is_modular_subtraction (now last : Nat) (hn : now < 65536) (hl : last < 65536) :
    currentPeriod now last = gapSub now last ∧
    ((currentPeriod now last : Nat) : Int) = ((now : Int) - (last : Int)) % 65536 ∧
    currentPeriod now last = edgeInterval now last ∧
    currentPeriod now last < 65536 ∧
    (currentPeriod now last = 0 ↔ now = last) := by
  have h1 : currentPeriod now last = gapSub now last := by
    unfold currentPeriod gapSub
    split_ifs with h <;> omega
  have h2 : ((gapSub now last : Nat) : Int) = ((now : Int) - (last : Int)) % 65536 := by
    unfold gapSub
    omega
  refine ⟨h1, by rw [h1, h2], currentPeriod_eq now last hn hl, ?_, ?_⟩
  · rw [h1]; unfold gapSub; omega
  · rw [h1]; unfold gapSub; omega

/-- Witness of C23: a byte at tick 200 after a byte at tick 65436 (the timer has wrapped)
comes 300 ticks later; a byte at tick 8750 after one at tick 5000 comes 3750 ticks later. -/
theorem C23_gap_is_modular_subtraction_witness :
    currentPeriod 200 65436 = 300 ∧ currentPeriod 8750 5000 = 3750 ∧
    currentPeriod 200 65436 = gapSub 200 65436 :=
  ⟨by decide, by decide,
   (C23_gap_is_modular_subtraction 200 65436 (by decide) (by decide)).1⟩

/-! ## Nominal travel -/

theorem shiftRight_two (x : Int) : x >>> 2 = x / 4 := by
  have := int_shiftRight x 2
  simpa using this

theorem shiftRight_five (x : Int) : x >>> 5 = x / 32 := by
  have := int_shiftRight x 5
  simpa using this

theorem shiftRight_seven (x : Int) : x >>> 7 = x / 128 := by
  have := int_shiftRight x 7
  simpa using this

theorem shiftRight_eight (x : Int) : x >>> 8 = x / 256 := by
  have := int_shiftRight x 8
  simpa using this

/-- The SUMD conversion in closed form, for every 16-bit word: the subtraction wraps into the
negative half of `int16_t` from 44768 on. -/
theorem sumdConvert_eq (raw : Nat) (h : raw ≤ 65535) :
    (sumdConvert raw : Int) =
      if raw < 44768 then ((raw : Int) - 12000) / 4 + ((raw : Int) - 12000) / 16 + 3750
      else ((raw : Int) - 77536) / 4 + ((raw : Int) - 77536) / 16 + 3750 + 65536 := by
  unfold sumdConvert int16 uint16
  dsimp only
  rw [shiftRight_two, shiftRight_four]
  split_ifs with h1
  · have e1 : ((raw : Int) - 12000 + 32768) % 65536 - 32768 = (raw : Int) - 12000 := by omega
    rw [e1]
    have e2 : (((raw : Int) - 12000) / 4 + ((raw : Int) - 12000) / 16 + 32768) % 65536 - 32768
        = ((raw : Int) - 12000) / 4 + ((raw : Int) - 12000) / 16 := by omega
    rw [e2]
    have e3 : 0 ≤ (((raw : Int) - 12000) / 4 + ((raw : Int) - 12000) / 16 + 3750) % 65536 := by
      omega
    rw [Int.toNat_of_nonneg e3]
    omega
  · have e1 : ((raw : Int) - 12000 + 32768) % 65536 - 32768 = (raw : Int) - 77536 := by omega
    rw [e1]
    have e2 : (((raw : Int) - 77536) / 4 + ((raw : Int) - 77536) / 16 + 32768) % 65536 - 32768
        = ((raw : Int) - 77536) / 4 + ((raw : Int) - 77536) / 16 := by omega
    rw [e2]
    have e3 : 0 ≤ (((raw : Int) - 77536) / 4 + ((raw : Int) - 77536) / 16 + 3750) % 65536 := by
      omega
    rw [Int.toNat_of_nonneg e3]
    omega

theorem sbusConvert_mono (a b : Nat) (hab : a ≤ b) (hb : b ≤ 2047) :
    sbusConvert a ≤ sbusConvert b := by
  have ha := sbusConvert_eq a (by omega)
  have hb' := sbusConvert_eq b hb
  omega

theorem sumdConvert_mono (a b : Nat) (hab : a ≤ b) (hb : b ≤ 65535) :
    sumdConvert a ≤ sumdConvert b := by
  have ha := sumdConvert_eq a (by omega)
  have hb' := sumdConvert_eq b hb
  split_ifs at ha hb' <;> omega

/-- C21. Nominal travel for S-Bus and SUMD. The S-Bus conversion is monotone in the raw
11-bit value and maps every raw value in `[224, 1824]` into `[2500, 5000]`, with
`224 ↦ 2500`, `1024 ↦ 3750`, `1824 ↦ 5000`. The SUMD conversion `(v >> 2) + (v >> 4) + 3750`
with `v = raw - 12000` is monotone in the raw 16-bit word (as the unsigned value stored) and
maps every raw value in `[8000, 16000]` into `[2500, 5000]`, with `8000 ↦ 2500`,
`12000 ↦ 3750`, `16000 ↦ 5000`. -/
theorem C21_nominal_range_sbus_sumd :
    (∀ a b, a ≤ b → b ≤ 2047 → sbusConvert a ≤ sbusConvert b) ∧
    (∀ raw, 224 ≤ raw → raw ≤ 1824 → 2500 ≤ sbusConvert raw ∧ sbusConvert raw ≤ 5000) ∧
    sbusConvert 224 = 2500 ∧ sbusConvert 1024 = 3750 ∧ sbusConvert 1824 = 5000 ∧
    (∀ a b, a ≤ b → b ≤ 65535 → sumdConvert a ≤ sumdConvert b) ∧
    (∀ raw, raw < 44768 → (sumdConvert raw : Int) =
      ((raw : Int) - 12000) / 4 + ((raw : Int) - 12000) / 16 + 3750) ∧
    (∀ raw, 8000 ≤ raw → raw ≤ 16000 → 2500 ≤ sumdConvert raw ∧ sumdConvert raw ≤ 5000) ∧
    sumdConvert 8000 = 2500 ∧ sumdConvert 12000 = 3750 ∧ sumdConvert 16000 = 5000 := by
  have s224 : sbusConvert 224 = 2500 := by decide
  have s1824 : sbusConvert 1824 = 5000 := by decide
  have d8000 : sumdConvert 8000 = 2500 := by decide
  have d16000 : sumdConvert 16000 = 5000 := by decide
  refine ⟨sbusConvert_mono, ?_, s224, by decide, s1824, sumdConvert_mono, ?_, ?_, d8000,
    by decide, d16000⟩
  · intro raw h1 h2
    have a := sbusConvert_mono 224 raw h1 (by omega)
    have b := sbusConvert_mono raw 1824 h2 (by omega)
    omega
  · intro raw h1
    have := sumdConvert_eq raw (by omega)
    rw [if_pos h1] at this
    exact this
  · intro raw h1 h2
    have a := sumdConvert_mono 8000 raw h1 (by omega)
    have b := sumdConvert_mono raw 16000 h2 (by omega)
    omega


/-- The Mode B conversion in closed form, for the 12-bit words of the format. -/
theorem modebConvert_eq (raw : Nat) (h : raw ≤ 4095) :
    (modebConvert raw : Int) =
      ((raw : Int) - 2048) / 2 + ((raw : Int) - 2048) / 4 + ((raw : Int) - 2048) / 16 +
      ((raw : Int) - 2048) / 32 + ((raw : Int) - 2048) / 128 + ((raw : Int) - 2048) / 256 +
      3750 := by
  unfold modebConvert int16 uint16
  dsimp only
  rw [shiftRight_one, shiftRight_two, shiftRight_four, shiftRight_five, shiftRight_seven,
    shiftRight_eight]
  have e1 : ((raw : Int) - 2048 + 32768) % 65536 - 32768 = (raw : Int) - 2048 := by omega
  rw [e1]
  have b1 : -1024 ≤ ((raw : Int) - 2048) / 2 ∧ ((raw : Int) - 2048) / 2 ≤ 1023 := by omega
  have b2 : -512 ≤ ((raw : Int) - 2048) / 4 ∧ ((raw : Int) - 2048) / 4 ≤ 511 := by omega
  have b3 : -128 ≤ ((raw : Int) - 2048) / 16 ∧ ((raw : Int) - 2048) / 16 ≤ 127 := by omega
  have b4 : -64 ≤ ((raw : Int) - 2048) / 32 ∧ ((raw : Int) - 2048) / 32 ≤ 63 := by omega
  have b5 : -16 ≤ ((raw : Int) - 2048) / 128 ∧ ((raw : Int) - 2048) / 128 ≤ 15 := by omega
  have b6 : -8 ≤ ((raw : Int) - 2048) / 256 ∧ ((raw : Int) - 2048) / 256 ≤ 7 := by omega
  generalize ((raw : Int) - 2048) / 2 = q1 at b1 ⊢
  generalize ((raw : Int) - 2048) / 4 = q2 at b2 ⊢
  generalize ((raw : Int) - 2048) / 16 = q3 at b3 ⊢
  generalize ((raw : Int) - 2048) / 32 = q4 at b4 ⊢
  generalize ((raw : Int) - 2048) / 128 = q5 at b5 ⊢
  generalize ((raw : Int) - 2048) / 256 = q6 at b6 ⊢
  have e2 : (q1 + q2 + q3 + q4 + q5 + q6 + 32768) % 65536 - 32768
      = q1 + q2 + q3 + q4 + q5 + q6 := by omega
  rw [e2]
  have e3 : 0 ≤ (q1 + q2 + q3 + q4 + q5 + q6 + 3750) % 65536 := by omega
  rw [Int.toNat_of_nonneg e3]
  omega

theorem modebConvert_mono (a b : Nat) (hab : a ≤ b) (hb : b ≤ 4095) :
    modebConvert a ≤ modebConvert b := by
  have ha := modebConvert_eq a (by omega)
  have hb' := modebConvert_eq b hb
  have hv : (a : Int) - 2048 ≤ (b : Int) - 2048 := by omega
  have m1 := Int.ediv_le_ediv (by decide : (0 : Int) < 2) hv
  have m2 := Int.ediv_le_ediv (by decide : (0 : Int) < 4) hv
  have m3 := Int.ediv_le_ediv (by decide : (0 : Int) < 16) hv
  have m4 := Int.ediv_le_ediv (by decide : (0 : Int) < 32) hv
  have m5 := Int.ediv_le_ediv (by decide : (0 : Int) < 128) hv
  have m6 := Int.ediv_le_ediv (by decide : (0 : Int) < 256) hv
  have : (modebConvert a : Int) ≤ (modebConvert b : Int) := by
    rw [ha, hb']
    linarith
  exact_mod_cast this

/-- C22 (amended). Nominal travel for XBUS Mode B: the conversion is monotone in the raw
12-bit word and maps every raw word in `[585, 3511]` into `[2496, 4998]`, with `585 ↦ 2496`,
`2048 ↦ 3750`, `3511 ↦ 4998`; the published value lies within `[2500, 5000]` exactly for the
raw words from 590 on. -/
theorem C22_nominal_range_modeb (raw : Nat) (h1 : 585 ≤ raw) (h2 : raw ≤ 3511) :
    (modebConvert raw : Int) =
      ((raw : Int) - 2048) / 2 + ((raw : Int) - 2048) / 4 + ((raw : Int) - 2048) / 16 +
      ((raw : Int) - 2048) / 32 + ((raw : Int) - 2048) / 128 + ((raw : Int) - 2048) / 256 +
      3750 ∧
    2496 ≤ modebConvert raw ∧ modebConvert raw ≤ 4998 ∧
    (2500 ≤ modebConvert raw ↔ 590 ≤ raw) := by
  have e585 : modebConvert 585 = 2496 := by decide
  have e589 : modebConvert 589 = 2499 := by decide
  have e590 : modebConvert 590 = 2500 := by decide
  have e3511 : modebConvert 3511 = 4998 := by decide
  have a := modebConvert_mono 585 raw h1 (by omega)
  have b := modebConvert_mono raw 3511 h2 (by omega)
  refine ⟨modebConvert_eq raw (by omega), by omega, by omega, ?_⟩
  constructor
  · intro h
    by_contra hc
    have := modebConvert_mono raw 589 (by omega) (by omega)
    omega
  · intro h
    have := modebConvert_mono 590 raw h (by omega)
    omega

/-- Witness of C22: the centre word 2048 is published as 3750, the upper end 3511 of the
nominal span as 4998. -/
theorem C22_nominal_range_modeb_witness :
    modebConvert 2048 = 3750 ∧ modebConvert 3511 ≤ 4998 ∧ 2500 ≤ modebConvert 3511 :=
  ⟨by decide, (C22_nominal_range_modeb 3511 (by decide) (by decide)).2.2.1,
   (C22_nominal_range_modeb 3511 (by decide) (by decide)).2.2.2.2 (by decide)⟩

/-- Counterexample to C22 as stated: the lower end 585 of the nominal span (`v = -1463`) is
published as `-732 - 366 - 92 - 46 - 12 - 6 + 3750 = 2496`, below 2500; so are the raw words
up to 589. -/
theorem C22_nominal_range_modeb_counterexample :
    modebConvert 585 = 2496 ∧ modebConvert 589 = 2499 ∧ ¬ (2500 ≤ modebConvert 585) := by
  decide


/-! ## CPPM: what one edge writes -/

theorem cppm_arrays (Config : CONFIG) (t T : Nat) (s : State) :
    (cppm Config t T s).RxChannelStart = (cppmMeasure Config t (cppmSync t s)).RxChannelStart ∧
    (cppm Config t T s).RxChannel = (cppmMeasure Config t (cppmSync t s)).RxChannel := by
  have h3 : ∀ s, (cppmCount T s).RxChannelStart = s.RxChannelStart ∧
      (cppmCount T s).RxChannel = s.RxChannel := by
    intro s; unfold cppmCount rcSync; dsimp only; split_ifs <;> exact ⟨rfl, rfl⟩
  have h4 : ∀ s, (cppmLost s).RxChannelStart = s.RxChannelStart ∧
      (cppmLost s).RxChannel = s.RxChannel := by
    intro s; unfold cppmLost; split_ifs <;> exact ⟨rfl, rfl⟩
  unfold cppm
  rw [(h4 _).1, (h4 _).2, (h3 _).1, (h3 _).2]
  exact ⟨rfl, rfl⟩

theorem cppmSync_arrays (t : Nat) (s : State) :
    (cppmSync t s).RxChannelStart = s.RxChannelStart ∧
    (cppmSync t s).RxChannel = s.RxChannel := by
  unfold cppmSync; dsimp only; split_ifs <;> exact ⟨rfl, rfl⟩

theorem cppmMeasure_arrays (Config : CONFIG) (t : Nat) (q : State) :
    (cppmMeasure Config t q).RxChannelStart =
      (if q.ch_num < MAX_CPPM_CHANNELS then
        q.RxChannelStart.set (Config.ChannelOrder.getD q.ch_num 0) t
      else q.RxChannelStart) ∧
    (cppmMeasure Config t q).RxChannel =
      (if q.ch_num > 0 ∧ q.ch_num ≤ MAX_CPPM_CHANNELS then
        q.RxChannel.set (Config.ChannelOrder.getD (q.ch_num - 1) 0)
          (uint16 ((t : Int) - (((if q.ch_num < MAX_CPPM_CHANNELS then
              q.RxChannelStart.set (Config.ChannelOrder.getD q.ch_num 0) t
            else q.RxChannelStart).getD (Config.ChannelOrder.getD (q.ch_num - 1) 0) 0 : Nat) : Int)))
      else q.RxChannel) := by
  unfold cppmMeasure
  dsimp only
  by_cases h1 : q.ch_num < MAX_CPPM_CHANNELS
  · by_cases h2 : q.ch_num > 0 ∧ q.ch_num ≤ MAX_CPPM_CHANNELS
    · simp only [if_pos h1, if_pos h2, if_pos h2.1]
      exact ⟨trivial, trivial⟩
    · simp only [if_pos h1, if_neg h2]
      exact ⟨trivial, trivial⟩
  · by_cases h2 : q.ch_num > 0 ∧ q.ch_num ≤ MAX_CPPM_CHANNELS
    · simp only [if_neg h1, if_pos h2, if_pos h2.1]
      exact ⟨trivial, trivial⟩
    · simp only [if_neg h1, if_neg h2]
      exact ⟨trivial, trivial⟩

/-- The arrays after `ISR(INT2_vect)` has handled a falling edge in CPPM mode at channel index
`idx`. -/
theorem INT2_arrays (Config : CONFIG) (ev : EdgeEvent) (s : State)
    (hm : Config.RxMode = RxModes.CPPM_MODE) (hp : ev.pin = false) (idx : Nat)
    (hidx : idx = (if edgeInterval ev.TCNT1 s.PPMSyncStart > SYNCPULSEWIDTH ∨
        edgeInterval ev.TCNT1 s.PPMSyncStart < MINPULSEWIDTH then 0 else s.ch_num)) :
    (INT2_vect Config ev s).RxChannelStart =
      (if idx < 8 then s.RxChannelStart.set (Config.ChannelOrder.getD idx 0) ev.TCNT1
      else s.RxChannelStart) ∧
    (INT2_vect Config ev s).RxChannel =
      (if 0 < idx ∧ idx ≤ 8 then
        s.RxChannel.set (Config.ChannelOrder.getD (idx - 1) 0)
          (uint16 ((ev.TCNT1 : Int) - (((INT2_vect Config ev s).RxChannelStart.getD
            (Config.ChannelOrder.getD (idx - 1) 0) 0 : Nat) : Int)))
      else s.RxChannel) := by
  rw [INT2_cppm Config ev s hm hp]
  have hj := jitter_cppm_fields s
  have hja : (jitter s).RxChannelStart = s.RxChannelStart ∧ (jitter s).RxChannel = s.RxChannel := by
    rw [jitter_eq]; exact ⟨rfl, rfl⟩
  have h1 := cppm_arrays Config ev.TCNT1 ev.TCNT2 (jitter s)
  have h2 := cppmMeasure_arrays Config ev.TCNT1 (cppmSync ev.TCNT1 (jitter s))
  have h3 := cppmSync_fields ev.TCNT1 (jitter s)
  have h4 := cppmSync_arrays ev.TCNT1 (jitter s)
  rw [hj.1, hj.2.1, ← hidx] at h3
  rw [h3.1, h4.1, h4.2, hja.1, hja.2] at h2
  rw [h1.1, h1.2, h2.1, h2.2]
  exact ⟨rfl, rfl⟩

/-- C24. CPPM per-edge writes. In CPPM mode let a falling edge at tick `now` be handled at
channel index `idx` (zero after a sync pulse or a too short pulse, the channel number
otherwise), with `ChannelOrder` injective on `0..7` and its first eight entries inside the
arrays. `RxChannelStart` is written exactly when `idx < 8`, at entry `ChannelOrder[idx]` with
value `now`. `RxChannel` is written exactly when `1 ≤ idx ≤ 8`, at the single entry
`ChannelOrder[idx - 1]`, with `now - RxChannelStart[ChannelOrder[idx - 1]]` modulo 65536, the
start time being the one stored before this edge. For `idx = 0` no entry of `RxChannel`
changes, for `idx ≥ 9` neither array changes. When the next falling edge follows within the
pulse limits and `idx < 8`, it stores in `RxChannel[ChannelOrder[idx]]` the interval between
the two edges. -/
theorem C24_ppm_edge_writes (Config : CONFIG) (ev : EdgeEvent) (s : State) (idx : Nat)
    (hm : Config.RxMode = RxModes.CPPM_MODE) (hp : ev.pin = false)
    (hidx : idx = (if edgeInterval ev.TCNT1 s.PPMSyncStart > SYNCPULSEWIDTH ∨
        edgeInterval ev.TCNT1 s.PPMSyncStart < MINPULSEWIDTH then 0 else s.ch_num))
    (hinj : ∀ a, a < 8 → ∀ b, b < 8 →
      Config.ChannelOrder.getD a 0 = Config.ChannelOrder.getD b 0 → a = b)
    (hlen : ∀ k, k < 8 → Config.ChannelOrder.getD k 0 < s.RxChannelStart.length ∧
      Config.ChannelOrder.getD k 0 < s.RxChannel.length) :
    (idx < 8 →
      (INT2_vect Config ev s).RxChannelStart.getD (Config.ChannelOrder.getD idx 0) 0 = ev.TCNT1 ∧
      (∀ i, i ≠ Config.ChannelOrder.getD idx 0 →
        (INT2_vect Config ev s).RxChannelStart.getD i 0 = s.RxChannelStart.getD i 0)) ∧
    (8 ≤ idx → (INT2_vect Config ev s).RxChannelStart = s.RxChannelStart) ∧
    (1 ≤ idx → idx ≤ 8 →
      (INT2_vect Config ev s).RxChannel.getD (Config.ChannelOrder.getD (idx - 1) 0) 0 =
        uint16 ((ev.TCNT1 : Int) -
          (s.RxChannelStart.getD (Config.ChannelOrder.getD (idx - 1) 0) 0 : Int)) ∧
      (∀ i, i ≠ Config.ChannelOrder.getD (idx - 1) 0 →
        (INT2_vect Config ev s).RxChannel.getD i 0 = s.RxChannel.getD i 0)) ∧
    (idx = 0 → (INT2_vect Config ev s).RxChannel = s.RxChannel) ∧
    (9 ≤ idx → (INT2_vect Config ev s).RxChannel = s.RxChannel ∧
      (INT2_vect Config ev s).RxChannelStart = s.RxChannelStart) ∧
    (idx < 8 → ∀ ev2 : EdgeEvent, ev2.pin = false →
      MINPULSEWIDTH ≤ edgeInterval ev2.TCNT1 ev.TCNT1 →
      edgeInterval ev2.TCNT1 ev.TCNT1 ≤ SYNCPULSEWIDTH →
      (INT2_vect Config ev2 (INT2_vect Config ev s)).RxChannel.getD
        (Config.ChannelOrder.getD idx 0) 0 = edgeInterval ev2.TCNT1 ev.TCNT1) := by
  have ha := INT2_arrays Config ev s hm hp idx hidx
  have hstart : ∀ k, 1 ≤ k → k ≤ 8 → k = idx →
      (INT2_vect Config ev s).RxChannelStart.getD (Config.ChannelOrder.getD (k - 1) 0) 0 =
        s.RxChannelStart.getD (Config.ChannelOrder.getD (k - 1) 0) 0 := by
    intro k h1 h8 hk
    rw [ha.1]
    split_ifs with h
    · exact getD_set_ne _ _ _ _ _ (fun he => by
        have := hinj idx h (k - 1) (by omega) he
        omega)
    · rfl
  refine ⟨?_, ?_, ?_, ?_, ?_, ?_⟩
  · intro h
    rw [ha.1, if_pos h]
    exact ⟨getD_set_self _ _ _ _ (hlen idx h).1, fun i hi => getD_set_ne _ _ _ _ _ (Ne.symm hi)⟩
  · intro h
    rw [ha.1, if_neg (by omega)]
  · intro h1 h8
    rw [ha.2, if_pos ⟨h1, h8⟩, hstart idx h1 h8 rfl]
    exact ⟨getD_set_self _ _ _ _ (hlen (idx - 1) (by omega)).2,
      fun i hi => getD_set_ne _ _ _ _ _ (Ne.symm hi)⟩
  · intro h
    rw [ha.2, if_neg (by omega)]
  · intro h
    rw [ha.2, if_neg (by omega), ha.1, if_neg (by omega)]
    exact ⟨rfl, rfl⟩
  · intro h ev2 hp2 hw1 hw2
    have hf := INT2_cppm_fields Config ev s hm hp ((idx + 1) % 256) (by rw [hidx])
    have hidx2 : idx + 1 = (if edgeInterval ev2.TCNT1 (INT2_vect Config ev s).PPMSyncStart
          > SYNCPULSEWIDTH ∨ edgeInterval ev2.TCNT1 (INT2_vect Config ev s).PPMSyncStart
          < MINPULSEWIDTH then 0 else (INT2_vect Config ev s).ch_num) := by
      rw [hf.2.1, if_neg (by omega), hf.1]
      omega
    have hb := INT2_arrays Config ev2 (INT2_vect Config ev s) hm hp2 (idx + 1) hidx2
    have hl1 : (INT2_vect Config ev s).RxChannel.length = s.RxChannel.length := by
      rw [ha.2]; split_ifs <;> simp
    rw [hb.2, if_pos ⟨by omega, by omega⟩]
    show ((INT2_vect Config ev s).RxChannel.set (Config.ChannelOrder.getD idx 0) _).getD
      (Config.ChannelOrder.getD idx 0) 0 = _
    rw [getD_set_self _ _ _ _ (by rw [hl1]; exact (hlen idx h).2)]
    have hst : (INT2_vect Config ev2 (INT2_vect Config ev s)).RxChannelStart.getD
        (Config.ChannelOrder.getD (idx + 1 - 1) 0) 0 = ev.TCNT1 := by
      show (INT2_vect Config ev2 (INT2_vect Config ev s)).RxChannelStart.getD
        (Config.ChannelOrder.getD idx 0) 0 = ev.TCNT1
      rw [hb.1]
      have hs1 : (INT2_vect Config ev s).RxChannelStart.getD (Config.ChannelOrder.getD idx 0) 0
          = ev.TCNT1 := by
        rw [ha.1, if_pos h]
        exact getD_set_self _ _ _ _ (hlen idx h).1
      split_ifs with h7
      · rw [getD_set_ne _ _ _ _ _ (fun he => by
          have := hinj (idx + 1) h7 idx h he
          omega)]
        exact hs1
      · exact hs1
    rw [hst]
    rfl

/-- Witness of C24: in scenario S4 the edge at tick 5000 is handled at index 1: it stores its
time stamp as the start of channel 1 and the width 5000 of channel 0; the next edge, at tick
10000, stores the width 5000 of channel 1. -/
theorem C24_ppm_edge_writes_witness :
    (INT2_vect cppmConfig { pin := false, TCNT1 := 5000, TCNT2 := 0 }
      (INT2_vect cppmConfig { pin := false, TCNT1 := 0, TCNT2 := 0 }
        (filledState board8 0))).RxChannelStart.getD (cppmConfig.ChannelOrder.getD 1 0) 0 = 5000 ∧
    (INT2_vect cppmConfig { pin := false, TCNT1 := 5000, TCNT2 := 0 }
      (INT2_vect cppmConfig { pin := false, TCNT1 := 0, TCNT2 := 0 }
        (filledState board8 0))).RxChannel = [5000, 0, 0, 0, 0, 0, 0, 0] ∧
    (INT2_vect cppmConfig { pin := false, TCNT1 := 10000, TCNT2 := 0 }
      (INT2_vect cppmConfig { pin := false, TCNT1 := 5000, TCNT2 := 0 }
        (INT2_vect cppmConfig { pin := false, TCNT1 := 0, TCNT2 := 0 }
          (filledState board8 0)))).RxChannel = [5000, 5000, 0, 0, 0, 0, 0, 0] :=
  ⟨((C24_ppm_edge_writes cppmConfig { pin := false, TCNT1 := 5000, TCNT2 := 0 }
      (INT2_vect cppmConfig { pin := false, TCNT1 := 0, TCNT2 := 0 } (filledState board8 0)) 1
      (by decide) (by decide) (by decide) (by decide) (by decide)).1 (by decide)).1,
   by decide, by decide⟩


/-! ## SUMD: indices read in the packet buffer -/

theorem sumdSize_le (s : State) (h : s.packet_size ≤ 69) : (sumdSize s).packet_size ≤ 69 := by
  unfold sumdSize
  split_ifs with hb
  · show (if ((s.sBuffer.getD 2 0 <<< 1) + 5) % 256 > MAXSUMDPACKET then MAXSUMDPACKET
      else ((s.sBuffer.getD 2 0 <<< 1) + 5) % 256) ≤ 69
    unfold MAXSUMDPACKET
    split_ifs with h1
    · exact le_refl _
    · omega
  · exact h

theorem crcPublish_packet_size (hw : Board) (Config : CONFIG) (ofs : Nat) (f : Nat → Nat)
    (T : Nat) (s : State) : (crcPublish hw Config ofs f T s).packet_size = s.packet_size := by
  unfold crcPublish rcSync
  dsimp only
  split_ifs <;> rfl

theorem commonEntry_packet_size (hw : Board) (b t : Nat) (s : State) :
    (commonEntry hw b t s).packet_size = s.packet_size := by
  unfold commonEntry
  dsimp only
  split_ifs <;> rfl

theorem jitter_packet_size (s : State) : (jitter s).packet_size = s.packet_size := by
  rw [jitter_eq]

/-- In SUMD mode the handler keeps `packet_size` at most `MAXSUMDPACKET`. -/
theorem USART_packet_size_le (hw : Board) (Config : CONFIG) (ev : RxEvent) (s : State)
    (hm : Config.RxMode = RxModes.SUMD) (h : s.packet_size ≤ 69) :
    (USART0_RX_vect hw Config ev s).packet_size ≤ 69 := by
  unfold USART0_RX_vect
  dsimp only
  split_ifs
  · rw [jitter_packet_size]; exact h
  · rw [jitter_packet_size]; exact h
  · unfold validData
    show (decode hw Config ev.UDR0 ev.TCNT2 (commonEntry hw ev.UDR0 ev.TCNT1 (jitter s))).packet_size
      ≤ 69
    rw [decode_sumd hw Config _ _ _ hm]
    unfold sumd sumdCheck
    have h1 : (sumdSize (commonEntry hw ev.UDR0 ev.TCNT1 (jitter s))).packet_size ≤ 69 :=
      sumdSize_le _ (by rw [commonEntry_packet_size, jitter_packet_size]; exact h)
    split_ifs
    · rw [crcPublish_packet_size]; exact h1
    · exact h1

/-- Every index read by the checksum code lies in `-1 .. 68` when `packet_size` is at most 69
and positive and the board has at most 32 channels; a negative index is read only when
`packet_size = 1`. -/
theorem sumdCheckReads_bounds (hw : Board) (s : State) (hmax : hw.MAX_RC_CHANNELS ≤ 32)
    (h0 : 0 < s.packet_size) (h : s.packet_size ≤ 69) (i : Int) (hi : i ∈ sumdCheckReads hw s) :
    -1 ≤ i ∧ i ≤ 68 ∧ (i < 0 → s.packet_size = 1) := by
  unfold sumdCheckReads at hi
  dsimp only at hi
  rw [List.mem_append, List.mem_append] at hi
  rcases hi with (hi | hi) | hi
  · rw [List.mem_map] at hi
    obtain ⟨j, hj, rfl⟩ := hi
    rw [List.mem_range] at hj
    omega
  · rw [List.mem_cons, List.mem_singleton] at hi
    rcases hi with rfl | rfl <;> omega
  · split_ifs at hi
    · rw [List.mem_flatMap] at hi
      obtain ⟨j, hj, hi⟩ := hi
      rw [List.mem_range] at hj
      rw [List.mem_cons, List.mem_singleton, Nat.shiftLeft_eq, Nat.pow_one] at hi
      rcases hi with rfl | rfl <;> omega
    · exact absurd hi (List.not_mem_nil _)

theorem sumdReads_bounds (hw : Board) (s : State) (hmax : hw.MAX_RC_CHANNELS ≤ 32)
    (h : s.packet_size ≤ 69) (i : Int) (hi : i ∈ sumdReads hw s) :
    -1 ≤ i ∧ i ≤ 68 ∧ (i < 0 → (sumdSize s).packet_size = 1) := by
  unfold sumdReads at hi
  rw [List.mem_append] at hi
  rcases hi with hi | hi
  · split_ifs at hi
    · rw [List.mem_singleton] at hi
      subst hi
      exact ⟨by omega, by omega, fun h => absurd h (by omega)⟩
    · exact absurd hi (List.not_mem_nil _)
  · split_ifs at hi with hc
    · exact sumdCheckReads_bounds hw _ hmax hc.1 (sumdSize_le s h) i hi
    · exact absurd hi (List.not_mem_nil _)

theorem runReads_bounds (hw : Board) (Config : CONFIG) (hmax : hw.MAX_RC_CHANNELS ≤ 32)
    (evs : List RxEvent) : ∀ s : State, s.packet_size ≤ 69 →
      ∀ i ∈ runReads hw Config evs s, -1 ≤ i ∧ i ≤ 68 := by
  induction evs with
  | nil => intro s _ i hi; exact absurd hi (List.not_mem_nil _)
  | cons ev evs ih =>
    intro s hs i hi
    unfold runReads at hi
    rw [List.mem_append] at hi
    rcases hi with hi | hi
    · unfold handlerReads at hi
      split_ifs at hi
      · have := sumdReads_bounds hw _ hmax
          (by rw [commonEntry_packet_size, jitter_packet_size]; exact hs) i hi
        exact ⟨this.1, this.2.1⟩
      · exact absurd hi (List.not_mem_nil _)
    · by_cases hm : Config.RxMode = RxModes.SUMD
      · exact ih _ (USART_packet_size_le hw Config ev s hm hs) i hi
      · have hnone : ∀ (l : List RxEvent) (q : State), runReads hw Config l q = [] := by
          intro l
          induction l with
          | nil => intro q; rfl
          | cons e l ihl =>
            intro q
            unfold runReads handlerReads
            rw [if_neg (fun hc => hm hc.1), ihl]
            rfl
        rw [hnone] at hi
        exact absurd hi (List.not_mem_nil _)

/-- C25, the code at a failing input (SUMD packet-buffer reads). From `packet_size = 0` the
bytes `A8 01 7E` make the handler store `packet_size = 1` (the 8-bit truncation of
`2 * 126 + 5`); the first byte of the next packet then passes the test
`(packet_size > 0) && (bytecount == (packet_size - 1))`, and the transmitted checksum is read
at indices `packet_size - 2 = -1` and `packet_size - 1 = 0`: the indices read along the
stream are 2, -1 and 0. In general, from any state with `packet_size ≤ 69` on a board of at
most 32 channels every index read lies in `-1 .. 68`, and a single byte reads a negative
index only when the packet size in force is 1. -/
theorem C25_sumd_read_before_buffer :
    (filledState board8 0).packet_size = 0 ∧
    (runRx board8 (idOrder RxModes.SUMD 8) (eventsAt 3000 [0xA8, 0x01, 0x7E])
      (filledState board8 0)).packet_size = 1 ∧
    runReads board8 (idOrder RxModes.SUMD 8) sumdOverflowStream (filledState board8 0)
      = [2, -1, 0] ∧
    ¬ (∀ i ∈ runReads board8 (idOrder RxModes.SUMD 8) sumdOverflowStream
        (filledState board8 0), 0 ≤ i ∧ i ≤ 68) ∧
    (∀ (hw : Board) (Config : CONFIG) (evs : List RxEvent) (s : State),
      hw.MAX_RC_CHANNELS ≤ 32 → s.packet_size ≤ 69 →
      ∀ i ∈ runReads hw Config evs s, -1 ≤ i ∧ i ≤ 68) ∧
    (∀ (hw : Board) (s : State), hw.MAX_RC_CHANNELS ≤ 32 → s.packet_size ≤ 69 →
      ∀ i ∈ sumdReads hw s, i < 0 → (sumdSize s).packet_size = 1) := by
  refine ⟨rfl, by decide, by decide, by decide, ?_, ?_⟩
  · intro hw Config evs s hmax hs
    exact runReads_bounds hw Config hmax evs s hs
  · intro hw s hmax hs i hi
    exact (sumdReads_bounds hw s hmax hs i hi).2.2

/-! ## SUMD: channels beyond those the frame carries -/

/-- C26, the code at a failing input (a SUMD frame and the channels it carries). A CRC-valid
frame with channel count N = 2 (two mid-stick words, checksum 0xBA63), received on a board of
eight channels whose vector holds 7 everywhere, is published and rewrites all eight entries:
channels 0 and 1 get 3750, channel 2 gets 59966, the conversion of the checksum word 0xBA63,
and channels 3 to 7 get 0, the conversion of the zero padding of the packet buffer. The copy
and conversion loops run over all `MAX_RC_CHANNELS` positions whatever N is: with a channel
order that is a permutation, every entry `RxChannel[ChannelOrder[i]]` is replaced by the
conversion of `TempRxChannel[i]`. -/
theorem C26_sumd_short_frame_overwrites :
    (sumdTwoChannels.getD 2 0 = 2 ∧ sumdTwoChannels.length = 2 * 2 + 5 ∧
      crcLoop sumdTwoChannels 9 = checkcrcOf sumdTwoChannels 9) ∧
    (filledState board8 7).RxChannel = [7, 7, 7, 7, 7, 7, 7, 7] ∧
    (runRx board8 (idOrder RxModes.SUMD 8) (eventsAt 3000 sumdTwoChannels)
      (filledState board8 7)).RxChannel = [3750, 3750, 59966, 0, 0, 0, 0, 0] ∧
    (runRx board8 (idOrder RxModes.SUMD 8) (eventsAt 3000 sumdTwoChannels)
      (filledState board8 7)).Interrupted = true ∧
    sumdConvert 0xBA63 = 59966 ∧ sumdConvert 0 = 0 ∧
    (∀ (hw : Board) (Config : CONFIG) (convert : Nat → Nat) (t rx : List Nat),
      ChannelOrderOK hw Config → rx.length = hw.MAX_RC_CHANNELS →
      ∀ i, i < hw.MAX_RC_CHANNELS →
        (placeChannels hw Config convert t rx).getD (Config.ChannelOrder.getD i 0) 0
          = convert (t.getD i 0)) := by
  refine ⟨by decide, by decide, by decide, by decide, by decide, by decide, ?_⟩
  intro hw Config convert t rx hco hlen
  exact (placeChannels_getD hw Config convert t rx hco hlen).1

end OpenAeroVTOL
